import Mathlib

/-!
The C front end xocfe: declarations, declarator chains, typedef expansion,
enums and sizes

A shallow embedding of the declaration core of the C front end
(`src/cfe/decl.cpp`) together with theorems about it.

Conventions of the embedding

* A `Decl*` list linked by `DECL_next` / `DECL_prev` is a Lean `List`; the
  null pointer is the empty list.  Where the source reads `DECL_prev` of a
  node, the walker carries the previous node explicitly.
* The C++ class `Decl` is split by the value of `DECL_dt`: `Decl` is a
  `DCL_DECLARATION` / `DCL_TYPE_NAME`, `Declarator` a `DCL_DECLARATOR` /
  `DCL_ABS_DECLARATOR`, `DeclNode` a node of the pure declarator list.
  Every construction site of the source gives a declaration its declarator
  node and its specifier, so both are mandatory fields.
* Pointers to specifiers, aggregates and typedef declarations are embedded
  by value.
* `UINT` is a 32 bit unsigned integer: results are reduced modulo `2 ^ 32`.
* `ASSERT0` / `ASSERTN` failures, null dereferences and divisions by zero
  have no result: the embedded function returns `none` there (`PRes.crash`
  in the parser).
* Diagnostics are strings appended to the parser state.
* The recursive descent takes an iteration bound; `PRes.nofuel` tells that
  the bound was too small.
-/

namespace Xocfe

/-! ## Flags -/

/-- Modelled from the spec: the macro `HAVE_FLAG` of the xcom library is not
under src/; the flag word contains every bit of `v`. -/
def HAVE_FLAG (flag v : Nat) : Bool := (flag &&& v) == v

/-- Modelled from the spec: the macro `ONLY_HAVE_FLAG` of the xcom library is
not under src/; the flag word has no bit outside `v`. -/
def ONLY_HAVE_FLAG (flag v : Nat) : Bool := (flag &&& v) == flag

/-- Modelled from the spec: the macro `SET_FLAG` of the xcom library is not
under src/; the result of the update `flag |= v`. -/
def SET_FLAG (flag v : Nat) : Nat := flag ||| v

/-- Modelled from the spec: the macro `REMOVE_FLAG` of the xcom library is not
under src/; the result of the update `flag &= ~v`. -/
def REMOVE_FLAG (flag v : Nat) : Nat := flag ^^^ (flag &&& v)

/-! Modelled from the spec: the header that assigns the bits of `TYPE_des` is
not under src/.  The tags of section 3.1 get one bit each. -/

def T_SPEC_VOID : Nat := 0x1
def T_SPEC_CHAR : Nat := 0x2
def T_SPEC_SHORT : Nat := 0x4
def T_SPEC_INT : Nat := 0x8
def T_SPEC_LONGLONG : Nat := 0x10
def T_SPEC_LONG : Nat := 0x20
def T_SPEC_FLOAT : Nat := 0x40
def T_SPEC_DOUBLE : Nat := 0x80
def T_SPEC_SIGNED : Nat := 0x100
def T_SPEC_UNSIGNED : Nat := 0x200
def T_SPEC_STRUCT : Nat := 0x400
def T_SPEC_UNION : Nat := 0x800
def T_SPEC_ENUM : Nat := 0x1000
def T_SPEC_USER_TYPE : Nat := 0x2000
def T_SPEC_BOOL : Nat := 0x4000
def T_STOR_AUTO : Nat := 0x8000
def T_STOR_REG : Nat := 0x10000
def T_STOR_STATIC : Nat := 0x20000
def T_STOR_EXTERN : Nat := 0x40000
def T_STOR_INLINE : Nat := 0x80000
def T_STOR_TYPEDEF : Nat := 0x100000
def T_QUA_CONST : Nat := 0x200000
def T_QUA_VOLATILE : Nat := 0x400000
def T_QUA_RESTRICT : Nat := 0x800000

/-! Modelled from the spec: the target header with the byte sizes is not under
src/; the values are those of section 4.7.  The pointer size, which the spec
leaves to the target, is a parameter `ptr` of the size functions. -/

def BIT_PER_BYTE : Nat := 8
def BYTE_PER_CHAR : Nat := 1
def BYTE_PER_SHORT : Nat := 2
def BYTE_PER_INT : Nat := 4
def BYTE_PER_LONG : Nat := 4
def BYTE_PER_LONGLONG : Nat := 8
def BYTE_PER_FLOAT : Nat := 4
def BYTE_PER_DOUBLE : Nat := 8
def BYTE_PER_ENUM : Nat := 4

/-- Number of values of a `UINT`. -/
def UINT_RANGE : Nat := 2 ^ 32

/-- Conversion to `UINT`. -/
def toUINT (n : Nat) : Nat := n % UINT_RANGE

/-- Conversion `(UINT)v` of a signed value. -/
def intToUINT (v : Int) : Nat := (v % (UINT_RANGE : Int)).toNat

/-- Conversion `(INT)v` of a `LONGLONG`. -/
def toINT (v : Int) : Int := (v + 2 ^ 31) % 2 ^ 32 - 2 ^ 31

/-! ## Data model -/

/-- Values of `DECL_dt`, in the order of `g_dcl_name`. -/
inductive DCL
  | DCL_NULL | DCL_ARRAY | DCL_POINTER | DCL_FUN | DCL_ID | DCL_VARIABLE
  | DCL_TYPE_NAME | DCL_DECLARATOR | DCL_DECLARATION | DCL_ABS_DECLARATOR
  deriving DecidableEq, Repr

/-- Modelled from the spec: the expression trees belong to the expression
parser, which is not under src/.  A dimension or enumerator expression is
represented by what decl.cpp observes of it, the outcome of
`computeConstExp`: `none` when the expression is not constant. -/
structure DimExp where
  constVal : Option Int
  deriving DecidableEq, Repr

/-- One node of an `EnumValueList`. -/
structure EnumValueList where
  name : String
  val : Int
  deriving DecidableEq, Repr

/-- An `Enum`: optional name and the enumerators in order. -/
structure Enum where
  name : Option String
  vallist : List EnumValueList
  deriving DecidableEq, Repr

mutual
/-- A `TypeSpec`: the flag word and the ancillary references. -/
inductive TypeSpec where
  | mk (des : Nat) (user_type : Option Decl) (aggr_type : Option Aggr)
       (enum_type : Option Enum)
/-- An `Aggr` (struct or union). -/
inductive Aggr where
  | mk (tag : Option String) (decl_list : List Decl) (is_complete : Bool)
       (align : Nat) (field_align : Nat) (pack_align : Nat)
/-- A `Decl` whose `DECL_dt` is `DCL_DECLARATION` or `DCL_TYPE_NAME`. -/
inductive Decl where
  | mk (dt : DCL) (spec : TypeSpec) (decl_list : Declarator)
       (is_formal_para : Bool) (is_sub_field : Bool) (fieldno : Nat)
       (align : Nat)
/-- A `Decl` whose `DECL_dt` is `DCL_DECLARATOR` or `DCL_ABS_DECLARATOR`. -/
inductive Declarator where
  | mk (dt : DCL) (child : List DeclNode) (is_bit_field : Bool)
       (bit_len : Int) (is_init : Bool)
/-- A node of the pure declarator list. -/
inductive DeclNode where
  | ID (sym : String) (qua : Nat) (is_paren : Bool)
  | POINTER (qua : Nat) (is_paren : Bool)
  | ARRAY (array_dim_exp : Option DimExp) (array_dim : Int) (is_paren : Bool)
  | FUN (fun_para_list : List Param) (is_paren : Bool)
  | VARIABLE
/-- An element of a parameter list: a declaration, or the `DCL_VARIABLE`
marker that `parameter_type_list` appends for `...`. -/
inductive Param where
  | decl (d : Decl)
  | variadic
end

/-- Field `TYPE_des`. -/
def TYPE_des : TypeSpec → Nat
  | .mk des _ _ _ => des

/-- Field `TYPE_user_type`. -/
def TYPE_user_type : TypeSpec → Option Decl
  | .mk _ ut _ _ => ut

/-- Field `TYPE_aggr_type` (`TYPE_struct_type`, `TYPE_union_type`). -/
def TYPE_aggr_type : TypeSpec → Option Aggr
  | .mk _ _ a _ => a

/-- Field `TYPE_enum_type`. -/
def TYPE_enum_type : TypeSpec → Option Enum
  | .mk _ _ _ e => e

/-- The specifier with `TYPE_des` replaced. -/
def TypeSpec.setDes : TypeSpec → Nat → TypeSpec
  | .mk _ ut a e, des => .mk des ut a e

/-- Field `AGGR_decl_list`. -/
def AGGR_decl_list : Aggr → List Decl
  | .mk _ l _ _ _ _ => l

/-- Field `AGGR_is_complete`. -/
def AGGR_is_complete : Aggr → Bool
  | .mk _ _ c _ _ _ => c

/-- Field `AGGR_align`. -/
def AGGR_align : Aggr → Nat
  | .mk _ _ _ a _ _ => a

/-- Field `AGGR_field_align`. -/
def AGGR_field_align : Aggr → Nat
  | .mk _ _ _ _ f _ => f

/-- Field `AGGR_pack_align`. -/
def AGGR_pack_align : Aggr → Nat
  | .mk _ _ _ _ _ p => p

/-- Field `DECL_dt` of a declaration or type name. -/
def Decl.dt : Decl → DCL
  | .mk dt _ _ _ _ _ _ => dt

/-- Field `DECL_spec`. -/
def DECL_spec : Decl → TypeSpec
  | .mk _ s _ _ _ _ _ => s

/-- Field `DECL_decl_list`. -/
def DECL_decl_list : Decl → Declarator
  | .mk _ _ d _ _ _ _ => d

/-- Field `DECL_dt` of a declarator node. -/
def Declarator.dt : Declarator → DCL
  | .mk dt _ _ _ _ => dt

/-- Field `DECL_child`. -/
def DECL_child : Declarator → List DeclNode
  | .mk _ c _ _ _ => c

/-- Field `DECL_is_bit_field`. -/
def DECL_is_bit_field : Declarator → Bool
  | .mk _ _ b _ _ => b

/-- Field `DECL_bit_len`. -/
def DECL_bit_len : Declarator → Int
  | .mk _ _ _ l _ => l

/-- Field `DECL_is_init`. -/
def DECL_is_init : Declarator → Bool
  | .mk _ _ _ _ i => i

/-- The declarator with `DECL_child` replaced. -/
def Declarator.setChild : Declarator → List DeclNode → Declarator
  | .mk dt _ b l i, c => .mk dt c b l i

/-- Macro `PURE_DECL`: the pure declarator list of a declaration. -/
def PURE_DECL (d : Decl) : List DeclNode := DECL_child (DECL_decl_list d)

/-- The declaration with `DECL_spec` replaced. -/
def Decl.setSpec : Decl → TypeSpec → Decl
  | .mk dt _ d p s f a, spec => .mk dt spec d p s f a

/-- The declaration with `PURE_DECL` replaced. -/
def Decl.setPure : Decl → List DeclNode → Decl
  | .mk dt spec d p s f a, c => .mk dt spec (d.setChild c) p s f a

/-- Field `DECL_dt` of a node of the pure declarator list. -/
def DECL_dt : DeclNode → DCL
  | .ID _ _ _ => .DCL_ID
  | .POINTER _ _ => .DCL_POINTER
  | .ARRAY _ _ _ => .DCL_ARRAY
  | .FUN _ _ => .DCL_FUN
  | .VARIABLE => .DCL_VARIABLE

/-- Field `DECL_array_dim` of a node (0 on a node that is no array, as after
`xmalloc`). -/
def DECL_array_dim : DeclNode → Int
  | .ARRAY _ d _ => d
  | _ => 0

/-- Macro `IS_TYPE`. -/
def IS_TYPE (ty : TypeSpec) (f : Nat) : Bool := HAVE_FLAG (TYPE_des ty) f

def IS_USER_TYPE_REF (ty : TypeSpec) : Bool := HAVE_FLAG (TYPE_des ty) T_SPEC_USER_TYPE
def IS_TYPEDEF (ty : TypeSpec) : Bool := HAVE_FLAG (TYPE_des ty) T_STOR_TYPEDEF
def IS_STRUCT (ty : TypeSpec) : Bool := HAVE_FLAG (TYPE_des ty) T_SPEC_STRUCT
def IS_UNION (ty : TypeSpec) : Bool := HAVE_FLAG (TYPE_des ty) T_SPEC_UNION
def IS_EXTERN (ty : TypeSpec) : Bool := HAVE_FLAG (TYPE_des ty) T_STOR_EXTERN
def IS_CONST (des : Nat) : Bool := HAVE_FLAG des T_QUA_CONST
def IS_VOLATILE (des : Nat) : Bool := HAVE_FLAG des T_QUA_VOLATILE
def IS_RESTRICT (des : Nat) : Bool := HAVE_FLAG des T_QUA_RESTRICT

/-! ## List helpers of the xcom library -/

/-- Modelled from the spec: `xcom::add_next` is not under src/; it appends the
list `t` at the tail of the list `head`. -/
def add_next {α : Type} (head t : List α) : List α := head ++ t

/-- Modelled from the spec: `xcom::insertbefore_one` is not under src/; every
call of decl.cpp passes the list head as marker, so the node `t` becomes the
new head (source comment: the id should be the last one in the
declarator list). -/
def insertbefore_one {α : Type} (head : List α) (t : α) : List α := t :: head

/-- Modelled from the spec: `xcom::insertbefore` is not under src/; every call
of decl.cpp passes the list head as marker, so the list `l` is put in front
of `head` (source comment: ptr is `*`, dclr is `[]->ID`, return
`*->[]->ID`). -/
def insertbefore {α : Type} (head l : List α) : List α := l ++ head

/-- Modelled from the spec: `xcom::reverse_list` is not under src/; it swaps
the links of every node and returns the old tail as head. -/
def reverse_list {α : Type} (l : List α) : List α := l.reverse

/-- Modelled from the spec: `xcom::cnt_list` is not under src/. -/
def cnt_list {α : Type} (l : List α) : Nat := l.length

/-! ## Picking the pure declarator list -/

/-- Function `get_pure_declarator` applied to a node of a pure declarator
list: the node itself; `ASSERTN(0)` on a `DCL_VARIABLE` node.  (Applied to a
declaration it is `PURE_DECL`.) -/
def get_pure_declarator_node (chain : List DeclNode) : Option (List DeclNode) :=
  match chain with
  | .VARIABLE :: _ => none
  | _ => some chain

/-! ## Type predicates

The loops of the predicates walk the list from its head; `prev` is
`DECL_prev` of the node under the cursor. -/

/-- Loop of `is_pointer`. -/
def is_pointer_walk (prev : Option DeclNode) : List DeclNode → Bool
  | [] => false
  | d :: rest =>
    match d with
    | .FUN _ _ =>
      match prev with
      | some p => DECL_dt p == .DCL_POINTER
      | none => false
    | .POINTER _ _ => true
    | .ID _ _ _ => is_pointer_walk (some d) rest
    | .VARIABLE => is_pointer_walk (some d) rest
    | .ARRAY _ _ _ => false

/-- Function `is_pointer` on a declaration or type name. -/
def is_pointer (dcl : Decl) : Bool := is_pointer_walk none (PURE_DECL dcl)

/-- Loop of `is_array`. -/
def is_array_walk : List DeclNode → Bool
  | [] => false
  | d :: rest =>
    match d with
    | .ARRAY _ _ _ => true
    | .ID _ _ _ => is_array_walk rest
    | .VARIABLE => is_array_walk rest
    | .POINTER _ _ => false
    | .FUN _ _ => false

/-- Function `is_array` on a declaration or type name. -/
def is_array (dcl : Decl) : Bool := is_array_walk (PURE_DECL dcl)

/-- Loop of `is_fun_decl`. -/
def is_fun_decl_walk (prev : Option DeclNode) : List DeclNode → Bool
  | [] => false
  | d :: rest =>
    match d with
    | .FUN _ _ =>
      match prev with
      | none => true
      | some p => DECL_dt p == .DCL_ID
    | .ID _ _ _ => is_fun_decl_walk (some d) rest
    | .VARIABLE => is_fun_decl_walk (some d) rest
    | .POINTER _ _ => false
    | .ARRAY _ _ _ => false

/-- Function `is_fun_decl` on a declaration or type name. -/
def is_fun_decl (dcl : Decl) : Bool := is_fun_decl_walk none (PURE_DECL dcl)

/-- Loop of `is_fun_pointer`: the switch has the cases `DCL_FUN`, `DCL_ID`,
`DCL_VARIABLE` and a default that returns false. -/
def is_fun_pointer_walk (prev : Option DeclNode) : List DeclNode → Bool
  | [] => false
  | d :: rest =>
    match d with
    | .FUN _ _ =>
      match prev with
      | some p => DECL_dt p == .DCL_POINTER
      | none => false
    | .ID _ _ _ => is_fun_pointer_walk (some d) rest
    | .VARIABLE => is_fun_pointer_walk (some d) rest
    | .POINTER _ _ => false
    | .ARRAY _ _ _ => false

/-- Function `is_fun_pointer` on a declaration or type name. -/
def is_fun_pointer (dcl : Decl) : Bool := is_fun_pointer_walk none (PURE_DECL dcl)

/-- Function `is_scalar`: the pure declarator list is null. -/
def is_scalar (dcl : Decl) : Bool := (PURE_DECL dcl).isEmpty

/-- Function `is_any`. -/
def is_any (dcl : Decl) : Bool := HAVE_FLAG (TYPE_des (DECL_spec dcl)) T_SPEC_VOID

/-- Function `is_user_type_ref`. -/
def is_user_type_ref (dcl : Decl) : Bool := IS_USER_TYPE_REF (DECL_spec dcl)

/-- Function `is_user_type_decl`; `ASSERT0` that the argument is a
`DCL_DECLARATION`. -/
def is_user_type_decl (dcl : Decl) : Option Bool :=
  if dcl.dt = .DCL_DECLARATION then some (IS_TYPEDEF (DECL_spec dcl)) else none

/-- Function `is_bitfield`. -/
def is_bitfield (decl : Decl) : Bool := DECL_is_bit_field (DECL_decl_list decl)

/-- Function `is_initialized` on a declaration. -/
def is_initialized (dcl : Decl) : Bool := DECL_is_init (DECL_decl_list dcl)

/-! ## Copying -/

/-- Function `cp_spec`: a new specifier with every field copied. -/
def cp_spec (ty : TypeSpec) : TypeSpec :=
  match ty with
  | .mk des ut a e => .mk des ut a e

/-- Function `cp_decl` on a node of a pure declarator list: `memcpy` of the
node, then the links `prev`, `next` (and the unused `spec`, `decl_list`,
`child`) are cleared. -/
def cp_decl_node (src : DeclNode) : DeclNode :=
  match src with
  | .ID sym qua ip => .ID sym qua ip
  | .POINTER qua ip => .POINTER qua ip
  | .ARRAY e d p => .ARRAY e d p
  | .FUN ps p => .FUN ps p
  | .VARIABLE => .VARIABLE

/-- Function `cp_decl` on a declarator node: the copy has no child. -/
def cp_decl_declarator (src : Declarator) : Declarator :=
  match src with
  | .mk dt _ b l i => .mk dt [] b l i

/-- Loop of `cp_decl_begin_at`: each node is copied and added at the tail of
the new list. -/
def cp_decl_begin_at_loop (newl : List DeclNode) : List DeclNode → List DeclNode
  | [] => newl
  | header :: rest => cp_decl_begin_at_loop (add_next newl [cp_decl_node header]) rest

/-- Function `cp_decl_begin_at`. -/
def cp_decl_begin_at (header : List DeclNode) : List DeclNode :=
  cp_decl_begin_at_loop [] header

/-- Function `cp_decl_fully` on a declaration or type name: `cp_decl` of the
declaration, `cp_spec` of its specifier, `cp_decl` of its declarator node and
`cp_decl_begin_at` of the pure declarator list. -/
def cp_decl_fully (src : Decl) : Decl :=
  match src with
  | .mk dt spec dl p s f a =>
    .mk dt (cp_spec spec)
      ((cp_decl_declarator dl).setChild (cp_decl_begin_at (DECL_child dl))) p s f a

/-- Function `new_declaration`: a fresh `DCL_DECLARATION` with a fresh
`DCL_DECLARATOR`; every other field is zero as after `xmalloc`. -/
def new_declaration (spec : TypeSpec) (declor : List DeclNode) (is_init : Bool) : Decl :=
  .mk .DCL_DECLARATION spec (.mk .DCL_DECLARATOR declor false 0 is_init) false false 0 0

/-! ## Sizes

The diagnostics that the size functions emit through `err` are not recorded;
the functions are embedded by their results. -/

/-- Function `pad_align`; `ASSERT0(align > 0)`. -/
def pad_align (size align : Nat) : Option Nat :=
  if align = 0 then none
  else if size % align ≠ 0 then some (toUINT ((size / align + 1) * align))
  else some size

/-- Function `compute_field_ofst_consider_pad` (the overload that takes the
field size); `ASSERTN(elemnum >= 1)`.  The aggregate argument is unused. -/
def compute_field_ofst_consider_pad (ofst field_size elemnum field_align : Nat) :
    Option Nat :=
  (if field_align ≠ 0 then pad_align ofst field_align
   else pad_align ofst field_size).bind fun ofst1 =>
  if elemnum < 1 then none
  else some (toUINT (ofst1 + field_size * elemnum))

/-- Loop of `computeArrayByteSize` over the run of `DCL_ARRAY` nodes: `num` is
the running product; a dimension 0 counts as 1 under `extern` and otherwise
ends the function with 0. -/
def computeArrayByteSize_loop (spec : TypeSpec) : List DeclNode → Nat → Nat
  | [], num => num
  | decl :: rest, num =>
    match decl with
    | .ARRAY _ dim _ =>
      let dimsz := intToUINT dim
      if dimsz = 0 then
        if IS_EXTERN spec then
          computeArrayByteSize_loop spec rest (if num = 0 then 1 else toUINT (num * 1))
        else 0
      else
        computeArrayByteSize_loop spec rest (if num = 0 then dimsz else toUINT (num * dimsz))
    | _ => num

/-- Function `computeArrayByteSize` applied to the head of a pure declarator
list: a leading `DCL_ID` is skipped.  The final `ASSERTN` bounds `num` by the
bit size of an int, which holds of every `UINT`. -/
def computeArrayByteSize (spec : TypeSpec) (decl : List DeclNode) : Nat :=
  let decl1 := match decl with
    | .ID _ _ _ :: rest => rest
    | _ => decl
  match decl1 with
  | [] => 0
  | _ => computeArrayByteSize_loop spec decl1 0

/-- Function `getDeclaratorSize` applied to the head of a pure declarator
list. -/
def getDeclaratorSize (ptr : Nat) (spec : TypeSpec) (d : List DeclNode) : Option Nat :=
  match d with
  | [] => some 0
  | _ =>
    (get_pure_declarator_node d).bind fun d1 =>
    if is_pointer_walk none d1 then some ptr
    else if is_array_walk d1 then some (computeArrayByteSize spec d)
    else some 0

/-- Inner loop of `get_array_base_declarator`: skip the run of `DCL_ARRAY`. -/
def skip_array_run : List DeclNode → List DeclNode
  | [] => []
  | d :: rest =>
    match d with
    | .ARRAY _ _ _ => skip_array_run rest
    | _ => d :: rest

/-- Loop of `get_array_base_declarator`: the node that follows the first run
of arrays (null when there is none, or when a pointer or a function comes
first). -/
def get_array_base_declarator_walk : List DeclNode → List DeclNode
  | [] => []
  | d :: rest =>
    match d with
    | .ARRAY _ _ _ => skip_array_run (d :: rest)
    | .ID _ _ _ => get_array_base_declarator_walk rest
    | .VARIABLE => get_array_base_declarator_walk rest
    | .POINTER _ _ => []
    | .FUN _ _ => []

/-- Function `is_complex_type` on a declarator node. -/
def is_complex_type (dcl : Declarator) : Option Bool :=
  match DECL_child dcl with
  | [] => some false
  | d =>
    (get_pure_declarator_node d).bind fun d1 =>
    some (is_pointer_walk none d1 || is_array_walk d1)

/-- Function `getComplexTypeSize`; `spec_size` is the result of
`getSpecTypeSize(spec)`, consulted only on the path of the source that calls
it.  `ASSERTN(d != nullptr)`, `ASSERT0(base_dcl == nullptr)`,
`ASSERT0(is_pointer(d))`.  The product is formed in `ULONG`, which holds
the product of two `UINT` values or is reduced by `get_decl_size`. -/
def getComplexTypeSize (ptr : Nat) (spec_size : Option Nat) (decl : Decl) : Option Nat :=
  let spec := DECL_spec decl
  let d := PURE_DECL decl
  match d with
  | [] => none
  | _ =>
    (getDeclaratorSize ptr spec d).bind fun declor_size =>
    (get_pure_declarator_node d).bind fun d1 =>
    if is_array_walk d1 then
      match get_array_base_declarator_walk d1 with
      | .POINTER _ _ :: _ => some (declor_size * ptr)
      | [] => spec_size.bind fun s => some (declor_size * s)
      | _ => none
    else if is_pointer_walk none d1 then some declor_size
    else none

/-- Body of `get_decl_size` with the result of `getSpecTypeSize(spec)`
supplied. -/
def get_decl_size_with (ptr : Nat) (spec_size : Option Nat) (decl : Decl) : Option Nat :=
  (is_complex_type (DECL_decl_list decl)).bind fun c =>
  if c then (getComplexTypeSize ptr spec_size decl).map toUINT
  else spec_size

/-- Function `is_integer` on a specifier. -/
def is_integer_spec (ty : TypeSpec) : Bool :=
  IS_TYPE ty T_SPEC_CHAR || IS_TYPE ty T_SPEC_SHORT || IS_TYPE ty T_SPEC_INT ||
  IS_TYPE ty T_SPEC_LONG || IS_TYPE ty T_SPEC_LONGLONG || IS_TYPE ty T_SPEC_SIGNED ||
  IS_TYPE ty T_SPEC_UNSIGNED || IS_TYPE ty T_SPEC_ENUM

/-- Function `is_integer` on a declaration or type name. -/
def is_integer (dcl : Decl) : Bool := is_integer_spec (DECL_spec dcl)

/-- Function `computeScalarTypeBitSize`; `UNREACHABLE` in the default case. -/
def computeScalarTypeBitSize (des : Nat) : Option Nat :=
  if des = T_SPEC_CHAR ||| T_SPEC_UNSIGNED ∨ des = T_SPEC_CHAR ||| T_SPEC_SIGNED ∨
     des = T_SPEC_CHAR then some (BYTE_PER_CHAR * BIT_PER_BYTE)
  else if des = T_SPEC_SHORT ||| T_SPEC_UNSIGNED ∨ des = T_SPEC_SHORT ||| T_SPEC_SIGNED ∨
     des = T_SPEC_SHORT then some (BYTE_PER_SHORT * BIT_PER_BYTE)
  else if des = T_SPEC_ENUM ∨ des = T_SPEC_INT ||| T_SPEC_UNSIGNED ∨
     des = T_SPEC_INT ||| T_SPEC_SIGNED ∨ des = T_SPEC_INT ∨ des = T_SPEC_SIGNED ∨
     des = T_SPEC_UNSIGNED then some (BYTE_PER_INT * BIT_PER_BYTE)
  else if des = T_SPEC_LONG ||| T_SPEC_UNSIGNED ∨ des = T_SPEC_LONG ||| T_SPEC_SIGNED ∨
     des = T_SPEC_LONG then some (BYTE_PER_LONG * BIT_PER_BYTE)
  else if des = T_SPEC_LONGLONG ||| T_SPEC_UNSIGNED ∨
     des = T_SPEC_LONGLONG ||| T_SPEC_SIGNED ∨
     des = T_SPEC_LONGLONG then some (BYTE_PER_LONGLONG * BIT_PER_BYTE)
  else if des = T_SPEC_DOUBLE ∨ des = T_SPEC_DOUBLE ||| T_SPEC_LONG ∨
     des = T_SPEC_DOUBLE ||| T_SPEC_LONGLONG then some (BYTE_PER_DOUBLE * BIT_PER_BYTE)
  else if des = T_SPEC_FLOAT ∨ des = T_SPEC_FLOAT ||| T_SPEC_LONG ∨
     des = T_SPEC_FLOAT ||| T_SPEC_LONGLONG then some (BYTE_PER_FLOAT * BIT_PER_BYTE)
  else none

/-- Loop of `computeBitFieldByteSize`: returns `total_bitsize` and the cursor
`*dcl` at exit; `ASSERT0(DECL_bit_len(declarator) > 0)`. -/
def computeBitFieldByteSize_loop (int_ty int_bitsize : Nat) :
    List Decl → Nat → Nat → Option (Nat × List Decl)
  | [], _, total_bitsize => some (total_bitsize, [])
  | dcl :: rest, bitsize, total_bitsize =>
    let declarator := DECL_decl_list dcl
    if !DECL_is_bit_field declarator then some (total_bitsize, dcl :: rest)
    else if DECL_bit_len declarator ≤ 0 then none
    else if TYPE_des (DECL_spec dcl) ≠ int_ty then some (total_bitsize, dcl :: rest)
    else
      let len := intToUINT (DECL_bit_len declarator)
      if toUINT (bitsize + len) > int_bitsize then
        computeBitFieldByteSize_loop int_ty int_bitsize rest (toUINT (0 + len))
          (toUINT (total_bitsize + int_bitsize))
      else
        computeBitFieldByteSize_loop int_ty int_bitsize rest (toUINT (bitsize + len))
          total_bitsize

/-- Function `computeBitFieldByteSize`: the byte size of the group of bit
fields at the cursor, and the cursor after the group.
`ASSERTN(is_integer(*dcl))`, `ASSERT0(total_bitsize != 0)`. -/
def computeBitFieldByteSize (dcl : List Decl) : Option (Nat × List Decl) :=
  match dcl with
  | [] => none
  | d :: _ =>
    if !is_integer d then none
    else
      let int_ty := TYPE_des (DECL_spec d)
      (computeScalarTypeBitSize int_ty).bind fun int_bitsize =>
      (computeBitFieldByteSize_loop int_ty int_bitsize dcl 0 int_bitsize).bind fun r =>
      if r.1 = 0 then none else some (r.1 / BIT_PER_BYTE, r.2)

/-- Function `computeAggrAlignedSize`. -/
def computeAggrAlignedSize (aggr : Aggr) (aggr_size max_field_size : Nat) : Option Nat :=
  (if AGGR_align aggr < max_field_size then pad_align max_field_size (AGGR_align aggr)
   else some max_field_size).bind fun max_field_size1 =>
  if AGGR_pack_align aggr ≠ 0 then pad_align aggr_size (AGGR_align aggr)
  else pad_align aggr_size max_field_size1

/-- Function `get_pure_type_spec`: follow the typedef references; null
dereference when `TYPE_user_type` is null. -/
def get_pure_type_spec : TypeSpec → Option TypeSpec
  | .mk des ut a e =>
    if HAVE_FLAG des T_SPEC_USER_TYPE then
      match ut with
      | none => none
      | some (.mk _ spec _ _ _ _ _) => get_pure_type_spec spec
    else some (.mk des ut a e)

/-- Function `is_struct_complete`; `ASSERT0(IS_STRUCT(type))` on the pure
specifier. -/
def is_struct_complete (type : TypeSpec) : Option Bool :=
  (get_pure_type_spec type).bind fun t =>
  if !IS_STRUCT t then none
  else match TYPE_aggr_type t with
    | none => some false
    | some s => some (AGGR_is_complete s)

/-- Function `is_union_complete`; `ASSERT0(IS_UNION(type))` on the pure
specifier. -/
def is_union_complete (type : TypeSpec) : Option Bool :=
  (get_pure_type_spec type).bind fun t =>
  if !IS_UNION t then none
  else match TYPE_aggr_type t with
    | none => some false
    | some s => some (AGGR_is_complete s)

/-- Function `get_first_array_decl`, as the position of the node: the nodes
in front of the first array and the list from it on; null when a pointer or
a function comes first.  `ASSERTN(is_array(decl))`. -/
def get_first_array_decl_walk (pre : List DeclNode) :
    List DeclNode → Option (List DeclNode × List DeclNode)
  | [] => none
  | x :: rest =>
    match x with
    | .FUN _ _ => none
    | .POINTER _ _ => none
    | .ARRAY _ _ _ => some (pre, x :: rest)
    | .ID _ _ _ => get_first_array_decl_walk (pre ++ [x]) rest
    | .VARIABLE => get_first_array_decl_walk (pre ++ [x]) rest

/-- Loop of `get_array_base_decl`: `pre` are the nodes in front of the cursor
`dclor`, which heads `cur`.  While the cursor is an array it is removed and
the cursor moves to `DECL_prev`. -/
def get_array_base_decl_loop : Nat → List DeclNode → List DeclNode → List DeclNode
  | 0, pre, cur => pre ++ cur
  | fuel + 1, pre, cur =>
    match cur with
    | .ARRAY _ _ _ :: post =>
      match pre.getLast? with
      | none => post
      | some prev => get_array_base_decl_loop fuel pre.dropLast (prev :: post)
    | _ => pre ++ cur

/-- Function `get_array_base_decl`; `ASSERT0(is_array(decl))`. -/
def get_array_base_decl (decl : Decl) : Option Decl :=
  if !is_array decl then none
  else
    let newdecl := cp_decl_fully decl
    match get_first_array_decl_walk [] (PURE_DECL newdecl) with
    | none => some newdecl
    | some (pre, cur) =>
      some (newdecl.setPure (get_array_base_decl_loop (PURE_DECL newdecl).length pre cur))

/-- Function `get_array_dim`: the length of the first run of arrays;
`ASSERT0(is_array(arr))`. -/
def get_array_dim (arr : Decl) : Option Nat :=
  if !is_array arr then none
  else
    let dclr := (PURE_DECL arr).dropWhile fun d => DECL_dt d != .DCL_ARRAY
    some (dclr.takeWhile fun d => DECL_dt d == .DCL_ARRAY).length

/-- Function `get_array_elemnum_to_dim`; `ASSERT0(dcl)` on the first array
node. -/
def get_array_elemnum_to_dim (arr : Decl) (dim : Nat) : Option Nat :=
  if !is_array arr then none
  else
    match get_first_array_decl_walk [] (PURE_DECL arr) with
    | none => none
    | some (_, dcl) =>
      let run := dcl.takeWhile fun d => DECL_dt d == .DCL_ARRAY
      match run.get? dim with
      | some d => some (intToUINT (DECL_array_dim d))
      | none => some 0

/-- Loop of `get_array_elemnum`: `en *= get_array_elemnum_to_dim(arr, i)` for
`i` from `i` below `dn`; `n` is the number of iterations left. -/
def get_array_elemnum_loop (arr : Decl) : Nat → Nat → Nat → Option Nat
  | 0, _, en => some en
  | n + 1, i, en =>
    (get_array_elemnum_to_dim arr i).bind fun v =>
    get_array_elemnum_loop arr n (i + 1) (toUINT (en * v))

/-- Function `get_array_elemnum`. -/
def get_array_elemnum (arr : Decl) : Option Nat :=
  (get_array_dim arr).bind fun dn => get_array_elemnum_loop arr dn 0 1

/-- Function `compute_field_ofst`: the new offset and `*elem_bytesize`;
`spec_size` is `getSpecTypeSize` of the specifier of `dcl`. -/
def compute_field_ofst (ptr : Nat) (spec_size : Option Nat) (s : Aggr) (ofst : Nat)
    (dcl : Decl) : Option (Nat × Nat) :=
  if is_array dcl then
    (get_array_base_decl dcl).bind fun elem_dcl =>
    (get_decl_size_with ptr spec_size elem_dcl).bind fun elem_bytesize =>
    (get_array_elemnum dcl).bind fun elem_num =>
    (compute_field_ofst_consider_pad ofst elem_bytesize elem_num (AGGR_field_align s)).bind
      fun ofst1 => some (ofst1, elem_bytesize)
  else
    (get_decl_size_with ptr spec_size dcl).bind fun elem_bytesize =>
    (compute_field_ofst_consider_pad ofst elem_bytesize 1 (AGGR_field_align s)).bind
      fun ofst1 => some (ofst1, elem_bytesize)

mutual
/-- Function `getSpecTypeSize`. -/
def getSpecTypeSize (ptr : Nat) : TypeSpec → Option Nat
  | .mk des ut aggr e =>
    if HAVE_FLAG des T_SPEC_LONGLONG then some BYTE_PER_LONGLONG
    else if HAVE_FLAG des T_SPEC_VOID then some BYTE_PER_CHAR
    else if HAVE_FLAG des T_SPEC_CHAR then some BYTE_PER_CHAR
    else if HAVE_FLAG des T_SPEC_BOOL then some BYTE_PER_CHAR
    else if HAVE_FLAG des T_SPEC_SHORT then some BYTE_PER_SHORT
    else if HAVE_FLAG des T_SPEC_INT then some BYTE_PER_INT
    else if HAVE_FLAG des T_SPEC_LONG then some BYTE_PER_LONG
    else if HAVE_FLAG des T_SPEC_FLOAT then some BYTE_PER_FLOAT
    else if HAVE_FLAG des T_SPEC_DOUBLE then some BYTE_PER_DOUBLE
    else if HAVE_FLAG des T_SPEC_STRUCT then
      if is_struct_complete (.mk des ut aggr e) = some true then
        match aggr with
        | none => none
        | some s => computeStructTypeSize ptr s
      else none
    else if HAVE_FLAG des T_SPEC_UNION then
      if is_union_complete (.mk des ut aggr e) = some true then
        match aggr with
        | none => none
        | some s => computeUnionTypeSize ptr s
      else none
    else if HAVE_FLAG des T_SPEC_ENUM then some BYTE_PER_ENUM
    else if HAVE_FLAG des T_SPEC_SIGNED then some BYTE_PER_INT
    else if HAVE_FLAG des T_SPEC_UNSIGNED then some BYTE_PER_INT
    else some 0
/-- Function `computeStructTypeSize`, after its two assertions, on the
aggregate `TYPE_struct_type(ty)`. -/
def computeStructTypeSize (ptr : Nat) : Aggr → Option Nat
  | .mk tag decl_list c al fal pal =>
    (computeStructTypeSize_loop ptr (.mk tag decl_list c al fal pal) decl_list 0 0 0).bind
      fun r => computeAggrAlignedSize (.mk tag decl_list c al fal pal) r.1 r.2
/-- Loop of `computeStructTypeSize` over the field list: `skip` counts the
fields after the cursor that the last `computeBitFieldByteSize` consumed;
`s` is the aggregate. -/
def computeStructTypeSize_loop (ptr : Nat) (s : Aggr) :
    List Decl → Nat → Nat → Nat → Option (Nat × Nat)
  | [], _, ofst, max_field_sz => some (ofst, max_field_sz)
  | _ :: rest, skip + 1, ofst, max_field_sz =>
    computeStructTypeSize_loop ptr s rest skip ofst max_field_sz
  | (.mk dt spec dl p sf fno a) :: rest, 0, ofst, max_field_sz =>
    if is_bitfield (.mk dt spec dl p sf fno a) then
      (computeBitFieldByteSize ((.mk dt spec dl p sf fno a) :: rest)).bind fun r =>
      (compute_field_ofst_consider_pad ofst r.1 1 (AGGR_field_align s)).bind fun ofst1 =>
      computeStructTypeSize_loop ptr s rest (rest.length - r.2.length) ofst1
        (max max_field_sz r.1)
    else
      (compute_field_ofst ptr (getSpecTypeSize ptr spec) s ofst
        (.mk dt spec dl p sf fno a)).bind fun r =>
      computeStructTypeSize_loop ptr s rest 0 r.1 (max max_field_sz r.2)
/-- Function `computeUnionTypeSize`, after its two assertions, on the
aggregate `TYPE_union_type(ty)`. -/
def computeUnionTypeSize (ptr : Nat) : Aggr → Option Nat
  | .mk tag decl_list c al fal pal =>
    (computeUnionTypeSize_loop ptr decl_list 0).bind fun size =>
    computeAggrAlignedSize (.mk tag decl_list c al fal pal) size size
/-- Loop of `computeUnionTypeSize`. -/
def computeUnionTypeSize_loop (ptr : Nat) : List Decl → Nat → Option Nat
  | [], size => some size
  | (.mk dt spec dl p sf fno a) :: rest, size =>
    (get_decl_size_with ptr (getSpecTypeSize ptr spec) (.mk dt spec dl p sf fno a)).bind
      fun sz => computeUnionTypeSize_loop ptr rest (max size sz)
end

/-- Function `get_decl_size` on a declaration or type name. -/
def get_decl_size (ptr : Nat) (decl : Decl) : Option Nat :=
  get_decl_size_with ptr (getSpecTypeSize ptr (DECL_spec decl)) decl

/-! ## Typedef expansion -/

/-- Function `factor_user_type_rec`: the declarator list collected along the
chain of typedef references and the specifier `*new_spec`.
`ASSERT0` on `DECL_dt(decl)`; null dereference when `TYPE_user_type` or the
pure declarator list is null. -/
def factor_user_type_rec : Decl → Option (List DeclNode × TypeSpec)
  | .mk dt (.mk des ut a e) dl _ _ _ _ =>
    if dt ≠ .DCL_DECLARATION ∧ dt ≠ .DCL_TYPE_NAME then none
    else
      let r : Option (List DeclNode × TypeSpec) :=
        if HAVE_FLAG des T_SPEC_USER_TYPE then
          match ut with
          | none => none
          | some u => factor_user_type_rec u
        else
          some ([], (cp_spec (.mk des ut a e)).setDes (REMOVE_FLAG des T_STOR_TYPEDEF))
      r.bind fun r1 =>
        match DECL_child dl with
        | [] => none
        | .ID _ _ _ :: rest =>
          some (insertbefore r1.1 (cp_decl_begin_at rest), r1.2)
        | cur_declor => some (insertbefore r1.1 (cp_decl_begin_at cur_declor), r1.2)

/-- Function `factor_user_type`.  The initialising tree of the new
declaration is represented by `DECL_is_init`. -/
def factor_user_type (decl : Decl) : Option Decl :=
  if decl.dt ≠ .DCL_DECLARATION ∧ decl.dt ≠ .DCL_TYPE_NAME then none
  else
    let spec := DECL_spec decl
    if !IS_USER_TYPE_REF spec then none
    else
      let is_typedef := IS_TYPEDEF spec
      match TYPE_user_type spec with
      | none => none
      | some ut =>
        (factor_user_type_rec ut).bind fun r =>
        let new_declor := r.1
        let des0 := TYPE_des r.2
        let des1 := if is_typedef then SET_FLAG des0 T_STOR_TYPEDEF else des0
        let des2 := SET_FLAG des1 (TYPE_des spec &&& T_STOR_REG)
        let des3 := SET_FLAG des2 (TYPE_des spec &&& T_STOR_EXTERN)
        let des4 := SET_FLAG des3 (TYPE_des spec &&& T_STOR_INLINE)
        let des5 := SET_FLAG des4 (TYPE_des spec &&& T_STOR_STATIC)
        let des6 := SET_FLAG des5 (TYPE_des spec &&& T_STOR_AUTO)
        let new_spec := r.2.setDes des6
        let inittree := decide (decl.dt = .DCL_DECLARATION) && is_initialized decl
        match PURE_DECL decl with
        | [] =>
          if is_typedef then none
          else some (new_declaration new_spec new_declor inittree)
        | cur_declor :: rest =>
          if DECL_dt cur_declor ≠ .DCL_ID ∧
              (DECL_decl_list decl).dt ≠ .DCL_ABS_DECLARATOR then none
          else
            let new_declor1 := insertbefore new_declor (cp_decl_begin_at rest)
            let new_declor2 := insertbefore_one new_declor1 cur_declor
            some (new_declaration new_spec new_declor2 inittree)

/-- Function `expand_user_type`.  `ASSERT0(is_user_type_ref(ut) ||
is_user_type_decl(ut))`, `ASSERT0` on `DECL_dt(ut)`; null dereference when
`TYPE_user_type` or the pure declarator list of the typedef is null. -/
def expand_user_type : Decl → Option Decl
  | .mk dt (.mk des ut a e) dl p s f al =>
    let self : Decl := .mk dt (.mk des ut a e) dl p s f al
    if !(is_user_type_ref self) ∧ is_user_type_decl self ≠ some true then none
    else if dt ≠ .DCL_TYPE_NAME ∧ dt ≠ .DCL_DECLARATION then none
    else if is_user_type_ref self then
      match ut with
      | none => none
      | some u =>
        (expand_user_type u).bind fun tmp =>
        let spec1 := (DECL_spec tmp).setDes (REMOVE_FLAG (TYPE_des (DECL_spec tmp)) T_STOR_TYPEDEF)
        match PURE_DECL tmp with
        | [] => none
        | .ID _ _ _ :: rest => some ((self.setSpec spec1).setPure (add_next (DECL_child dl) rest))
        | tmp1 => some ((self.setSpec spec1).setPure (add_next (DECL_child dl) tmp1))
    else
      let tmp := cp_decl_fully self
      some (tmp.setSpec ((DECL_spec tmp).setDes (REMOVE_FLAG (TYPE_des (DECL_spec tmp)) T_STOR_TYPEDEF)))

/-- The expansion step of the type-transform pass (`TypeTranID`, `sizeof`,
cast): `expand_user_type` is applied when `is_user_type_ref` holds and the
declaration is kept otherwise. -/
def expand_if_user_type_ref (d : Decl) : Option Decl :=
  if is_user_type_ref d then expand_user_type d else some d

/-! ## Enumerators -/

/-- Loop of `inferEnumValue`: `i` is the running counter; `continue` runs the
increment of the `for` statement. -/
def inferEnumValue_loop : List EnumValueList → Int → List EnumValueList
  | [], _ => []
  | evals :: rest, i =>
    if evals.val ≠ 0 then evals :: inferEnumValue_loop rest (toINT (evals.val + 1))
    else { evals with val := i } :: inferEnumValue_loop rest (toINT (i + 1))

/-- Function `inferEnumValue`. -/
def inferEnumValue (evals : List EnumValueList) : List EnumValueList :=
  inferEnumValue_loop evals 0

/-! ## Tokens and the state of the parser

The tokenizer, the expression parser and the diagnostic sink are external
collaborators (section 6 of the spec).  The state of the parser holds the
tokens that are still to be read, the diagnostics reported so far and the
enum list of the current scope.  Pushing and popping scopes and the entries
in the symbol table are not recorded. -/

/-- Token kinds that decl.cpp and typetran.cpp test. -/
inductive TOKEN
  | T_NUL | T_END | T_ID | T_IMM | T_LPAREN | T_RPAREN | T_LSPAREN | T_RSPAREN
  | T_LLPAREN | T_RLPAREN | T_ASTERISK | T_COMMA | T_SEMI | T_ASSIGN | T_COLON
  | T_DOTDOTDOT | T_CONST | T_VOLATILE | T_RESTRICT | T_VOID | T_CHAR | T_SHORT
  | T_INT | T_LONG | T_LONGLONG | T_BOOL | T_FLOAT | T_DOUBLE | T_SIGNED
  | T_UNSIGNED | T_STRUCT | T_UNION | T_ENUM | T_AUTO | T_REGISTER | T_STATIC
  | T_EXTERN | T_INLINE | T_TYPEDEF | T_ADD | T_SUB | T_DIV | T_MOD
  deriving DecidableEq, Repr

/-- A token with its spelling `g_real_token_string` and, for a numeric
literal, its value. -/
structure Lexeme where
  tok : TOKEN
  str : String
  num : Int
  deriving DecidableEq, Repr

/-- State of the parser. -/
structure PState where
  toks : List Lexeme
  errs : List String
  scope_enum_list : List Enum
  deriving DecidableEq, Repr

/-- The state with other tokens to read. -/
def PState.setToks (st : PState) (toks : List Lexeme) : PState :=
  { st with toks := toks }

/-- Global `g_real_token`: the kind of the current token, `T_END` at the end
of the input. -/
def g_real_token (st : PState) : TOKEN :=
  match st.toks with
  | [] => .T_END
  | l :: _ => l.tok

/-- Global `g_real_token_string`. -/
def g_real_token_string (st : PState) : String :=
  match st.toks with
  | [] => ""
  | l :: _ => l.str

/-- Values `ST_SUCC` and `ST_ERR`. -/
inductive STATUS
  | ST_SUCC | ST_ERR
  deriving DecidableEq, Repr

/-- Modelled from the spec: the tokenizer is not under src/; `match(kind)`
reads the next token when the current one has the kind, and fails without
reading otherwise. -/
def match_tok (st : PState) (tok : TOKEN) : STATUS × PState :=
  if g_real_token st = tok then (.ST_SUCC, st.setToks st.toks.tail)
  else (.ST_ERR, st)

/-- Modelled from the spec: the diagnostic sink is not under src/; `err`
appends to the error list. -/
def err (st : PState) (msg : String) : PState :=
  { st with errs := st.errs ++ [msg] }

/-- The collaborators of the declarator engine that are taken as parameters:
the expression parser (`conditional_exp`, with `initializer` reduced to
whether it returns a tree and `is_in_first_set_of_exp_list`), the query
`is_too_many_err` of the diagnostic sink, the missing constant
`MAX_ARRAY_INDX` and the global `g_alignment`; the specifier parser
`declaration_spec` of decl.cpp, which depends on the scope and tag
registries, is a parameter as well.  A tree of the expression parser is
embedded by the outcome of `computeConstExp` on it (`DimExp`). -/
structure Collab where
  conditional_exp : PState → Option DimExp × PState
  initializer : PState → Bool × PState
  is_in_first_set_of_exp_list : TOKEN → Bool
  declaration_spec : PState → Option TypeSpec × PState
  is_too_many_err : PState → Bool
  MAX_ARRAY_INDX : Int
  g_alignment : Nat

/-- Outcome of a parsing function: its result and the new state, or a null
dereference, or the iteration bound `fuel` of the embedding was too small
for the input. -/
inductive PRes (α : Type) where
  | ok (a : α) (st : PState)
  | crash
  | nofuel

/-! ## Specifier helpers and array dimensions -/

/-- Function `complement_qua`. -/
def complement_qua (ty : TypeSpec) : TypeSpec :=
  let des := TYPE_des ty
  if des = T_SPEC_UNSIGNED ∨ des = T_SPEC_SIGNED ∨ des = T_STOR_STATIC ∨
      des = T_STOR_EXTERN ∨ des = T_STOR_REG ∨ des = T_STOR_AUTO then
    ty.setDes (SET_FLAG des T_SPEC_INT)
  else ty

/-- One step of `extract_qualifier` for the qualifier bit `f`. -/
def extract_qualifier_bit (f : Nat) (r : Nat × Nat) : Nat × Nat :=
  if HAVE_FLAG r.1 f then (REMOVE_FLAG r.1 f, SET_FLAG r.2 f) else r

/-- Function `extract_qualifier`: the new flag words of `ty` and of `qua`. -/
def extract_qualifier (ty : TypeSpec) (qua : Nat) : TypeSpec × Nat :=
  let r := extract_qualifier_bit T_QUA_RESTRICT
    (extract_qualifier_bit T_QUA_VOLATILE
      (extract_qualifier_bit T_QUA_CONST (TYPE_des ty, qua)))
  (ty.setDes r.1, r.2)

/-- Function `quan_spec` on the flag word of a qualifier.  The branch of
`ALLOW_CONST_VOLATILE == 1` is embedded: by section 3.1 of the spec CONST and
VOLATILE may coexist. -/
def quan_spec (ty : Nat) (st : PState) : Nat × PState :=
  match g_real_token st with
  | .T_CONST =>
    let st1 := (match_tok st .T_CONST).2
    if IS_CONST ty then (ty, err st1 "same type qualifier used more than once")
    else (SET_FLAG ty T_QUA_CONST, st1)
  | .T_VOLATILE =>
    let st1 := (match_tok st .T_VOLATILE).2
    if IS_VOLATILE ty then (ty, err st1 "same type qualifier used more than once")
    else (SET_FLAG ty T_QUA_VOLATILE, st1)
  | .T_RESTRICT =>
    let st1 := (match_tok st .T_RESTRICT).2
    (SET_FLAG ty T_QUA_RESTRICT, st1)
  | _ => (ty, st)

/-- Loop of `compute_array_dim` over the pure declarator list: `dim` is the
`BYTE` counter of the current run of arrays.  A node whose dimension is
rejected keeps its `DECL_array_dim`. -/
def compute_array_dim_loop (E : Collab) (allow_dim0_is_empty : Bool) :
    List DeclNode → Nat → PState → STATUS → List DeclNode × PState × STATUS
  | [], _, st, status => ([], st, status)
  | dclr :: rest, dim, st, status =>
    match dclr with
    | .ARRAY t d p =>
      let dim1 := (dim + 1) % 256
      if dim1 ≥ 1 then
        match t with
        | none =>
          if dim1 > 1 then
            let r := compute_array_dim_loop E allow_dim0_is_empty rest dim1
              (err st "size of dimension can not be zero, may be miss subscript") .ST_ERR
            (dclr :: r.1, r.2)
          else
            let idx : Int := if !allow_dim0_is_empty then 1 else 0
            let r := compute_array_dim_loop E allow_dim0_is_empty rest dim1 st status
            (.ARRAY t idx p :: r.1, r.2)
        | some e =>
          match e.constVal with
          | none =>
            let r := compute_array_dim_loop E allow_dim0_is_empty rest dim1
              (err st "expected constant expression") .ST_ERR
            (dclr :: r.1, r.2)
          | some idx =>
            if idx < 0 ∨ idx > E.MAX_ARRAY_INDX then
              let r := compute_array_dim_loop E allow_dim0_is_empty rest dim1
                (err st "negative subscript or subscript is too large") .ST_ERR
              (dclr :: r.1, r.2)
            else if idx = 0 then
              let r := compute_array_dim_loop E allow_dim0_is_empty rest dim1
                (err st "cannot allocate an array of constant size 0") .ST_ERR
              (dclr :: r.1, r.2)
            else
              let r := compute_array_dim_loop E allow_dim0_is_empty rest dim1 st status
              (.ARRAY t idx p :: r.1, r.2)
      else
        let r := compute_array_dim_loop E allow_dim0_is_empty rest dim1 st status
        (.ARRAY t d p :: r.1, r.2)
    | _ =>
      let r := compute_array_dim_loop E allow_dim0_is_empty rest 0 st status
      (dclr :: r.1, r.2)

/-- Function `compute_array_dim` on a pure declarator list. -/
def compute_array_dim (E : Collab) (dclr : List DeclNode) (allow_dim0_is_empty : Bool)
    (st : PState) : List DeclNode × PState × STATUS :=
  compute_array_dim_loop E allow_dim0_is_empty dclr 0 st .ST_SUCC

/-! ## The declarator engine

The functions of the recursive descent take an iteration bound `fuel`: every
call and every loop iteration uses one unit, and `PRes.nofuel` tells that the
bound was too small.  A qualifier is embedded by value as its flag word, so
the update of `RESTRICT` in `pointer` reaches the pointer node only. -/

/-- Field update `DECL_align(declaration) = v`. -/
def Decl.setAlign : Decl → Nat → Decl
  | .mk dt spec dl fp sf fno _, v => .mk dt spec dl fp sf fno v

/-- Field update `DECL_is_paren(dcl) = 1`. -/
def set_is_paren : DeclNode → DeclNode
  | .ID sym qua _ => .ID sym qua true
  | .POINTER qua _ => .POINTER qua true
  | .ARRAY e d _ => .ARRAY e d true
  | .FUN ps _ => .FUN ps true
  | .VARIABLE => .VARIABLE

/-- Loop of `pointer`: `new_qua` is the qualifier for the next node and `ndcl`
the pointers read so far. -/
def pointer_loop : Nat → Nat → List DeclNode → PState → PRes (List DeclNode × Nat)
  | 0, _, _, _ => .nofuel
  | fuel + 1, new_qua, ndcl, st =>
    if g_real_token st = .T_ASTERISK then
      let st1 := (match_tok st .T_ASTERISK).2
      let q := quan_spec 0 st1
      if IS_RESTRICT q.1 then
        pointer_loop fuel (REMOVE_FLAG q.1 T_QUA_RESTRICT)
          (add_next ndcl [.POINTER (SET_FLAG new_qua T_QUA_RESTRICT) false]) q.2
      else
        pointer_loop fuel q.1 (add_next ndcl [.POINTER new_qua false]) q.2
    else
      let q := quan_spec new_qua st
      .ok (ndcl, q.1) q.2

/-- Function `pointer`: the list of pointers and the qualifier left for the
node that follows. -/
def pointer (fuel : Nat) (qua : Nat) (st : PState) : PRes (List DeclNode × Nat) :=
  pointer_loop fuel qua [] st

/-- Loop `while (g_real_token == T_LSPAREN)` of `direct_declarator` and of
`direct_abstract_declarator`; the latter leaves `DECL_is_paren` of the new
node at 0. -/
def array_loop (E : Collab) : Nat → Bool → List DeclNode → PState → PRes (List DeclNode)
  | 0, _, _, _ => .nofuel
  | fuel + 1, is_paren, dcl, st =>
    if g_real_token st = .T_LSPAREN then
      let st1 := (match_tok st .T_LSPAREN).2
      let t := E.conditional_exp st1
      let m := match_tok t.2 .T_RSPAREN
      if m.1 ≠ .ST_SUCC then .ok dcl (err m.2 "miss ']'")
      else array_loop E fuel is_paren (insertbefore_one dcl (.ARRAY t.1 0 is_paren)) m.2
    else .ok dcl st

/-- The test for `foo(void)` in `direct_declarator`: the parameter list that
the `DCL_FUN` node keeps. -/
def fun_para_list_of (param_decl : List Param) : List Param :=
  match param_decl with
  | [.decl d] => if is_any d && is_scalar d then [] else param_decl
  | _ => param_decl

mutual
/-- Function `declarator`. -/
def declarator (E : Collab) : Nat → Nat → PState → PRes (List DeclNode)
  | 0, _, _ => .nofuel
  | fuel + 1, qua, st =>
    match pointer fuel qua st with
    | .ok pq st1 =>
      match direct_declarator E fuel pq.2 st1 with
      | .ok dclr st2 =>
        if dclr.isEmpty then .ok [] st2
        else .ok (insertbefore dclr pq.1) st2
      | .crash => .crash
      | .nofuel => .nofuel
    | .crash => .crash
    | .nofuel => .nofuel

/-- Function `direct_declarator`, first `switch`. -/
def direct_declarator (E : Collab) : Nat → Nat → PState → PRes (List DeclNode)
  | 0, _, _ => .nofuel
  | fuel + 1, qua, st =>
    match g_real_token st with
    | .T_LPAREN =>
      let st1 := (match_tok st .T_LPAREN).2
      match declarator E fuel qua st1 with
      | .ok dcl st2 =>
        let m := match_tok st2 .T_RPAREN
        if m.1 ≠ .ST_SUCC then .ok dcl (err m.2 "miss ')'")
        else if dcl.isEmpty then .ok dcl (err m.2 "must have identifier declared")
        else declarator_suffix E fuel true dcl m.2
      | .crash => .crash
      | .nofuel => .nofuel
    | .T_ID =>
      declarator_suffix E fuel false [.ID (g_real_token_string st) qua false]
        (match_tok st .T_ID).2
    | _ => .ok [] st

/-- Second `switch` of `direct_declarator` and of `direct_abstract_declarator`,
which differ in the value `is_paren` stored in the new node only (always 0 in
the abstract case). -/
def declarator_suffix (E : Collab) : Nat → Bool → List DeclNode → PState →
    PRes (List DeclNode)
  | 0, _, _, _ => .nofuel
  | fuel + 1, is_paren, dcl, st =>
    match g_real_token st with
    | .T_LSPAREN => array_loop E fuel is_paren dcl st
    | .T_LPAREN =>
      let st1 := (match_tok st .T_LPAREN).2
      match parameter_type_list E fuel [] st1 with
      | .ok param_decl st2 =>
        let dcl1 := insertbefore_one dcl (.FUN (fun_para_list_of param_decl) is_paren)
        let m := match_tok st2 .T_RPAREN
        if m.1 ≠ .ST_SUCC then .ok dcl1 (err m.2 "miss ')'")
        else .ok dcl1 m.2
      | .crash => .crash
      | .nofuel => .nofuel
    | _ => .ok dcl st

/-- Function `abstract_declarator`. -/
def abstract_declarator (E : Collab) : Nat → Nat → PState → PRes (List DeclNode)
  | 0, _, _ => .nofuel
  | fuel + 1, qua, st =>
    match pointer fuel qua st with
    | .ok pq st1 =>
      match direct_abstract_declarator E fuel pq.2 st1 with
      | .ok dcl st2 =>
        if dcl.isEmpty then .ok pq.1 st2
        else .ok (insertbefore dcl pq.1) st2
      | .crash => .crash
      | .nofuel => .nofuel
    | .crash => .crash
    | .nofuel => .nofuel

/-- Function `direct_abstract_declarator`, first `switch`;
`DECL_is_paren(dcl) = 1` dereferences `dcl`, which the source comment says
can be null. -/
def direct_abstract_declarator (E : Collab) : Nat → Nat → PState → PRes (List DeclNode)
  | 0, _, _ => .nofuel
  | fuel + 1, qua, st =>
    match g_real_token st with
    | .T_LPAREN =>
      let st1 := (match_tok st .T_LPAREN).2
      match abstract_declarator E fuel qua st1 with
      | .ok dcl st2 =>
        let m := match_tok st2 .T_RPAREN
        if m.1 ≠ .ST_SUCC then .ok dcl (err m.2 "miss ')'")
        else
          match dcl with
          | [] => .crash
          | d :: rest => declarator_suffix E fuel false (set_is_paren d :: rest) m.2
      | .crash => .crash
      | .nofuel => .nofuel
    | .T_ID =>
      declarator_suffix E fuel false [.ID (g_real_token_string st) qua false]
        (match_tok st .T_ID).2
    | _ => declarator_suffix E fuel false [] st

/-- Function `parameter_declaration`; null when there is no specifier. -/
def parameter_declaration (E : Collab) : Nat → PState → PRes (Option Decl)
  | 0, _ => .nofuel
  | fuel + 1, st =>
    let ts := E.declaration_spec st
    match ts.1 with
    | none => .ok none ts.2
    | some type_spec =>
      let tq := extract_qualifier (complement_qua type_spec) 0
      match abstract_declarator E fuel tq.2 ts.2 with
      | .ok chain st1 =>
        let dcl_list := reverse_list chain
        let dt : DCL :=
          match dcl_list with
          | [] => .DCL_DECLARATOR
          | n :: _ => if DECL_dt n = .DCL_ID then .DCL_DECLARATOR else .DCL_ABS_DECLARATOR
        let cad := compute_array_dim E dcl_list false st1
        let declaration : Decl :=
          .mk .DCL_DECLARATION tq.1 (.mk dt cad.1 false 0 false) false false 0 0
        if IS_USER_TYPE_REF tq.1 then
          match factor_user_type declaration with
          | none => .crash
          | some d => .ok (some (d.setAlign E.g_alignment)) cad.2.1
        else .ok (some declaration) cad.2.1
      | .crash => .crash
      | .nofuel => .nofuel

/-- Function `parameter_type_list`: one iteration of its `for (;;)` with the
list `declaration` built so far. -/
def parameter_type_list (E : Collab) : Nat → List Param → PState → PRes (List Param)
  | 0, _, _ => .nofuel
  | fuel + 1, declaration, st =>
    match parameter_declaration E fuel st with
    | .ok none st1 => .ok declaration st1
    | .ok (some t) st1 =>
      let declaration1 := add_next declaration [Param.decl t]
      if g_real_token st1 = .T_COMMA then
        let st2 := (match_tok st1 .T_COMMA).2
        if g_real_token st2 = .T_DOTDOTDOT then
          .ok (add_next declaration1 [Param.variadic]) (match_tok st2 .T_DOTDOTDOT).2
        else parameter_type_list E fuel declaration1 st2
      else if g_real_token st1 = .T_RPAREN ∨ g_real_token st1 = .T_END ∨
          g_real_token st1 = .T_NUL ∨ E.is_too_many_err st1 = true then
        .ok declaration1 st1
      else if g_real_token st1 = .T_DOTDOTDOT then
        .ok (add_next declaration1 [Param.variadic]) (match_tok st1 .T_DOTDOTDOT).2
      else parameter_type_list E fuel declaration1 st1
    | .crash => .crash
    | .nofuel => .nofuel
end

/-- Function `init_declarator`; null when `declarator` returns null.  The
warning for an empty initial value is not recorded. -/
def init_declarator (E : Collab) (fuel : Nat) (qua : Nat) (st : PState) :
    PRes (Option Declarator) :=
  match declarator E fuel qua st with
  | .ok dclr st1 =>
    if dclr.isEmpty then .ok none st1
    else
      let cad := compute_array_dim E (reverse_list dclr) true st1
      if g_real_token cad.2.1 = .T_ASSIGN then
        let st2 := (match_tok cad.2.1 .T_ASSIGN).2
        let i := E.initializer st2
        .ok (some (.mk .DCL_DECLARATOR cad.1 false 0 true)) i.2
      else .ok (some (.mk .DCL_DECLARATOR cad.1 false 0 false)) cad.2.1
  | .crash => .crash
  | .nofuel => .nofuel

/-! ## Parsing enumerators -/

/-- Loop of `is_enum_const_name_exist`: the position `*idx` of the name. -/
def is_enum_const_name_exist_loop : List EnumValueList → String → Int → Option Int
  | [], _, _ => none
  | evl :: rest, ev_name, i =>
    if evl.name = ev_name then some i
    else is_enum_const_name_exist_loop rest ev_name (i + 1)

/-- Function `is_enum_const_name_exist`: `some idx` when it returns true. -/
def is_enum_const_name_exist (e : Enum) (ev_name : String) : Option Int :=
  is_enum_const_name_exist_loop e.vallist ev_name 0

/-- Function `is_enum_exist`: `some (e, idx)` when it returns true. -/
def is_enum_exist : List Enum → String → Option (Enum × Int)
  | [], _ => none
  | el :: rest, e_name =>
    match is_enum_const_name_exist el e_name with
    | some idx => some (el, idx)
    | none => is_enum_exist rest e_name

/-- Function `enumrator`; the fresh `EnumValueList` has the value 0 of
`xmalloc`. -/
def enumrator (E : Collab) (st : PState) : Option EnumValueList × PState :=
  if g_real_token st ≠ .T_ID then (none, st)
  else
    let evl : EnumValueList := ⟨g_real_token_string st, 0⟩
    if (is_enum_exist st.scope_enum_list (g_real_token_string st)).isSome then
      (some evl, err st "redefinition , different basic type")
    else
      let st1 := (match_tok st .T_ID).2
      if g_real_token st1 ≠ .T_ASSIGN then (some evl, st1)
      else
        let st2 := (match_tok st1 .T_ASSIGN).2
        if E.is_in_first_set_of_exp_list (g_real_token st2) then
          let t := E.conditional_exp st2
          match t.1 with
          | none => (some evl, err t.2 "empty constant expression")
          | some tree =>
            match tree.constVal with
            | none => (some evl, err t.2 "expected constant expression")
            | some idx => (some { evl with val := toINT idx }, t.2)
        else (some evl, err st2 "syntax error : constant expression cannot used")

/-- Loop of `enumerator_list`. -/
def enumerator_list_loop (E : Collab) : Nat → List EnumValueList → PState →
    PRes (List EnumValueList)
  | 0, _, _ => .nofuel
  | fuel + 1, evl, st =>
    if g_real_token st = .T_COMMA then
      let st1 := (match_tok st .T_COMMA).2
      let n := enumrator E st1
      match n.1 with
      | none => .ok evl n.2
      | some nevl => enumerator_list_loop E fuel (add_next evl [nevl]) n.2
    else .ok evl st

/-- Function `enumerator_list`. -/
def enumerator_list (E : Collab) (fuel : Nat) (st : PState) : PRes (List EnumValueList) :=
  let r := enumrator E st
  match r.1 with
  | none => .ok [] r.2
  | some evl => enumerator_list_loop E fuel [evl] r.2

/-- The enum processing of a brace-enclosed enumerator list: `enumerator_list`
in `enum_spec`, then `inferEnumValue` in `process_enum`. -/
def enum_values (E : Collab) (fuel : Nat) (st : PState) : PRes (List EnumValueList) :=
  match enumerator_list E fuel st with
  | .ok evals st1 => .ok (inferEnumValue evals) st1
  | .crash => .crash
  | .nofuel => .nofuel

/-! ## Field offsets -/

/-- Function `get_decl_id` on a declaration: the first `DCL_ID` node of the
pure declarator list. -/
def get_decl_id (dcl : Decl) : Option DeclNode :=
  (PURE_DECL dcl).find? fun d => DECL_dt d == .DCL_ID

/-- Function `get_decl_sym`: the name of the identifier, null when there is
none. -/
def get_decl_sym (dcl : Decl) : Option String :=
  match get_decl_id dcl with
  | some (.ID sym _ _) => some sym
  | _ => none

/-- Loop of `get_aggr_field` by name: the offset and `*fld_decl`.
`SYM_name(sym)` dereferences a null `sym`; `ASSERTN(0)` when no field has
the name. -/
def get_aggr_field_loop (ptr : Nat) (s : Aggr) (name : String) :
    List Decl → Nat → Option (Nat × Decl)
  | [], _ => none
  | dcl :: rest, ofst =>
    match get_decl_sym dcl with
    | none => none
    | some sym =>
      if name = sym then some (ofst, dcl)
      else
        (compute_field_ofst ptr (getSpecTypeSize ptr (DECL_spec dcl)) s ofst dcl).bind
          fun r => get_aggr_field_loop ptr s name rest r.1

/-- Function `get_aggr_field` (the overload that takes the field name). -/
def get_aggr_field (ptr : Nat) (s : Aggr) (name : String) : Option (Nat × Decl) :=
  get_aggr_field_loop ptr s name (AGGR_decl_list s) 0

/-! ## Matching initializers (typetran.cpp)

The functions write `DECL_array_dim` in place; the embedding returns the
updated declaration, declarator list or specifier together with the status,
the cursor `*init` and the diagnostics.  They take an iteration bound
`fuel`, one unit for every call and every loop iteration. -/

/-- Modelled from the spec: the class `Tree` is not under src/.  An
initializer tree is a scalar expression or an `INITVAL_SCOPE`, the node that
wraps the sibling-linked list of the initializers between braces
(`TREE_initval_scope`).  A list linked by `TREE_nsib` is a Lean list, and a
cursor `Tree **` is the list from the current node on. -/
inductive Tree
  | TR_EXP
  | TR_INITVAL_SCOPE (initval_scope : List Tree)

/-- Modelled from the spec: field `TREE_initval_scope`, null on a node that
is no `TR_INITVAL_SCOPE`. -/
def TREE_initval_scope : Tree → List Tree
  | .TR_EXP => []
  | .TR_INITVAL_SCOPE t => t

/-- Test `TREE_type(t) == TR_INITVAL_SCOPE`. -/
def is_initval_scope : Tree → Bool
  | .TR_EXP => false
  | .TR_INITVAL_SCOPE _ => true

/-- Conversion of a signed value to `ULONGLONG`. -/
def toULONGLONG (v : Int) : Nat := (v % (2 ^ 64 : Int)).toNat

/-- Field `AGGR_tag`. -/
def AGGR_tag : Aggr → Option String
  | .mk t _ _ _ _ _ => t

/-- The aggregate with `AGGR_decl_list` replaced. -/
def Aggr.setDeclList : Aggr → List Decl → Aggr
  | .mk t _ c a f p, l => .mk t l c a f p

/-- The specifier with `TYPE_aggr_type` replaced. -/
def TypeSpec.setAggr : TypeSpec → Aggr → TypeSpec
  | .mk des ut _ e, a => .mk des ut (some a) e

/-- The specifier `ty` after a write through `get_pure_type_spec(ty)`: the
pure specifier at the end of the typedef references is replaced. -/
def set_pure_type_spec : TypeSpec → TypeSpec → TypeSpec
  | .mk des ut a e, pty =>
    if HAVE_FLAG des T_SPEC_USER_TYPE then
      match ut with
      | none => .mk des ut a e
      | some (.mk dt spec dl p sf fno al) =>
        .mk des (some (.mk dt (set_pure_type_spec spec pty) dl p sf fno al)) a e
    else pty

/-- Function `is_struct` on a specifier; null dereference inside
`get_pure_type_spec` gives no result. -/
def is_struct_spec (type : TypeSpec) : Option Bool :=
  (get_pure_type_spec type).map IS_STRUCT

/-- Function `is_union` on a specifier. -/
def is_union_spec (type : TypeSpec) : Option Bool :=
  (get_pure_type_spec type).map IS_UNION

/-- Outcome of an initializer function: the status, the updated object, the
cursor `*init` and the diagnostics; or a failed assertion or null
dereference; or the iteration bound was too small. -/
inductive IRes (α : Type) where
  | ok (st : STATUS) (val : α) (init : List Tree) (errs : List String)
  | crash
  | nofuel

/-- Function `process_base_init`; the specifier argument is not used.  The
first statement reads `TREE_initval_scope(*init)`, so a null `*init` is a
null dereference; the status of the recursive call is dropped. -/
def process_base_init : Nat → List Tree → List String → IRes Unit
  | 0, _, _ => .nofuel
  | _ + 1, [], _ => .crash
  | fuel + 1, t :: nsib, errs =>
    if is_initval_scope t then
      match process_base_init fuel (TREE_initval_scope t) errs with
      | .ok _ _ _ _ => .ok .ST_SUCC () nsib errs
      | .crash => .crash
      | .nofuel => .nofuel
    else .ok .ST_SUCC () nsib errs

/-- Function `process_pointer_init`; the declarator and specifier arguments
are not used. -/
def process_pointer_init : Nat → List Tree → List String → IRes Unit
  | 0, _, _ => .nofuel
  | _ + 1, [], _ => .crash
  | fuel + 1, t :: nsib, errs =>
    if is_initval_scope t then
      match process_pointer_init fuel (TREE_initval_scope t) errs with
      | .ok _ _ _ _ => .ok .ST_SUCC () nsib errs
      | .crash => .crash
      | .nofuel => .nofuel
    else .ok .ST_SUCC () nsib errs

mutual
/-- Function `process_array_init_recur` on the declarator list from `dcl` on:
the updated list and specifier.  `dim` is `DECL_array_dim` of the first
array `head`; `DECL_next(head)` is an array exactly when `head != tail`. -/
def process_array_init_recur : Nat → List DeclNode → TypeSpec → List Tree → List String →
    IRes (List DeclNode × TypeSpec)
  | 0, _, _, _, _ => .nofuel
  | fuel + 1, dcl, ty, init, errs =>
    let pre : List DeclNode :=
      match dcl with
      | .ID s q p :: _ => [.ID s q p]
      | _ => []
    let dcl1 : List DeclNode :=
      match dcl with
      | .ID _ _ _ :: rest => rest
      | _ => dcl
    match dcl1 with
    | .ARRAY e d p :: next =>
      let dim := toULONGLONG d
      match next with
      | .ARRAY _ _ _ :: _ =>
        match process_array_init_multi fuel dim next ty init errs 0 with
        | .ok st r init1 errs1 =>
          .ok st (pre ++ .ARRAY e (if dim = 0 then (r.2.2 : Int) else d) p :: r.1, r.2.1)
            init1 errs1
        | .crash => .crash
        | .nofuel => .nofuel
      | _ =>
        match init with
        | [] => .crash
        | t :: nsib =>
          match get_pure_type_spec ty with
          | none => .crash
          | some pty =>
            if is_initval_scope t then
              match process_array_init_elems fuel dim dcl1 pty (TREE_initval_scope t) errs 0
                with
              | .ok st r _ errs1 =>
                .ok st (pre ++ .ARRAY e (if dim = 0 then (r.2 : Int) else d) p :: next,
                  set_pure_type_spec ty r.1) nsib errs1
              | .crash => .crash
              | .nofuel => .nofuel
            else
              match process_array_init_elems fuel dim dcl1 pty init errs 0 with
              | .ok st r init1 errs1 =>
                .ok st (pre ++ .ARRAY e (if dim = 0 then (r.2 : Int) else d) p :: next,
                  set_pure_type_spec ty r.1) init1 errs1
              | .crash => .crash
              | .nofuel => .nofuel
    | _ => .crash

/-- Loop of `process_array_init_recur` for an array of several dimensions:
`next` is `DECL_next(head)`; the result carries `count`. -/
def process_array_init_multi : Nat → Nat → List DeclNode → TypeSpec → List Tree →
    List String → Nat → IRes (List DeclNode × TypeSpec × Nat)
  | 0, _, _, _, _, _, _ => .nofuel
  | fuel + 1, dim, next, ty, init, errs, count =>
    match init with
    | [] => .ok .ST_SUCC (next, ty, count) [] errs
    | _ :: _ =>
      match process_array_init_recur fuel next ty init errs with
      | .ok st r init1 errs1 =>
        if dim > 0 ∧ count + 1 ≥ dim then .ok st (r.1, r.2, count + 1) init1 errs1
        else if st = .ST_SUCC then
          process_array_init_multi fuel dim r.1 r.2 init1 errs1 (count + 1)
        else .ok st (r.1, r.2, count + 1) init1 errs1
      | .crash => .crash
      | .nofuel => .nofuel

/-- Loop of `process_array_init_recur` over the elements of an array of one
dimension: `dcl` is the array node, `ty` the pure specifier and `t` the
cursor; the result carries `count`. -/
def process_array_init_elems : Nat → Nat → List DeclNode → TypeSpec → List Tree →
    List String → Nat → IRes (TypeSpec × Nat)
  | 0, _, _, _, _, _, _ => .nofuel
  | fuel + 1, dim, dcl, ty, t, errs, count =>
    match t with
    | [] => .ok .ST_SUCC (ty, count) [] errs
    | _ :: _ =>
      let r : IRes TypeSpec :=
        match is_struct_spec ty, is_union_spec ty with
        | some true, _ => process_struct_init fuel ty t errs
        | some false, some true => process_union_init fuel ty t errs
        | some false, some false =>
          if is_pointer_walk none dcl then
            match process_pointer_init fuel t errs with
            | .ok st _ t1 errs1 => .ok st ty t1 errs1
            | .crash => .crash
            | .nofuel => .nofuel
          else
            match process_base_init fuel t errs with
            | .ok st _ t1 errs1 => .ok st ty t1 errs1
            | .crash => .crash
            | .nofuel => .nofuel
        | _, _ => .crash
      match r with
      | .ok st ty1 t1 errs1 =>
        if dim > 0 ∧ count + 1 ≥ dim then .ok st (ty1, count + 1) t1 errs1
        else if st = .ST_SUCC then
          process_array_init_elems fuel dim dcl ty1 t1 errs1 (count + 1)
        else .ok st (ty1, count + 1) t1 errs1
      | .crash => .crash
      | .nofuel => .nofuel

/-- Function `process_array_init`; `ASSERT0(is_array(decl))`. -/
def process_array_init : Nat → Decl → List Tree → List String → IRes Decl
  | 0, _, _, _ => .nofuel
  | fuel + 1, decl, init, errs =>
    if !is_array decl then .crash
    else
      match process_array_init_recur fuel (PURE_DECL decl) (DECL_spec decl) init errs with
      | .ok st r init1 errs1 => .ok st ((decl.setPure r.1).setSpec r.2) init1 errs1
      | .crash => .crash
      | .nofuel => .nofuel

/-- Function `process_struct_init`: the updated specifier.
`ASSERTN(IS_STRUCT(ty))`; the tag is dereferenced for the diagnostics.  When
a field fails, the function returns before `*init` moves on. -/
def process_struct_init : Nat → TypeSpec → List Tree → List String → IRes TypeSpec
  | 0, _, _, _ => .nofuel
  | fuel + 1, ty, init, errs =>
    if !IS_STRUCT ty then .crash
    else
      match TYPE_aggr_type ty with
      | none => .crash
      | some s =>
        if !AGGR_is_complete s then
          match AGGR_tag s with
          | none => .crash
          | some _ => .ok .ST_ERR ty init (errs ++ ["uses incomplete struct"])
        else
          match init with
          | [] => .ok .ST_SUCC ty [] errs
          | t :: nsib =>
            if !is_initval_scope t ∧ AGGR_tag s = none then .crash
            else
              let errs1 :=
                if !is_initval_scope t then
                  errs ++ ["unmatch initial value type to struct"]
                else errs
              match process_struct_init_fields fuel (AGGR_decl_list s)
                (TREE_initval_scope t) errs1 with
              | .ok st flds _ errs2 =>
                if st ≠ .ST_SUCC then .ok st (ty.setAggr (s.setDeclList flds)) init errs2
                else .ok .ST_SUCC (ty.setAggr (s.setDeclList flds)) nsib errs2
              | .crash => .crash
              | .nofuel => .nofuel

/-- Loop of `process_struct_init` over the fields from `flddcl` on, with the
cursor `fldval`: the updated fields and the status of the field that
failed, if any. -/
def process_struct_init_fields : Nat → List Decl → List Tree → List String →
    IRes (List Decl)
  | 0, _, _, _ => .nofuel
  | fuel + 1, flds, fldval, errs =>
    match flds, fldval with
    | [], _ => .ok .ST_SUCC [] fldval errs
    | _ :: _, [] => .ok .ST_SUCC flds [] errs
    | flddcl :: rest, _ :: _ =>
      match process_init_by_extra_val fuel flddcl fldval errs with
      | .ok st f1 fldval1 errs1 =>
        if st ≠ .ST_SUCC then .ok st (f1 :: rest) fldval1 errs1
        else
          match process_struct_init_fields fuel rest fldval1 errs1 with
          | .ok st2 rest1 fldval2 errs2 => .ok st2 (f1 :: rest1) fldval2 errs2
          | .crash => .crash
          | .nofuel => .nofuel
      | .crash => .crash
      | .nofuel => .nofuel

/-- Function `process_union_init`: the updated specifier.
`ASSERTN(IS_UNION(ty))`. -/
def process_union_init : Nat → TypeSpec → List Tree → List String → IRes TypeSpec
  | 0, _, _, _ => .nofuel
  | fuel + 1, ty, init, errs =>
    if !IS_UNION ty then .crash
    else
      match TYPE_aggr_type ty with
      | none => .crash
      | some s =>
        if !AGGR_is_complete s then
          match AGGR_tag s with
          | none => .crash
          | some _ => .ok .ST_ERR ty init (errs ++ ["uses incomplete union"])
        else
          match init with
          | [] => .ok .ST_SUCC ty [] errs
          | t :: nsib =>
            if !is_initval_scope t ∧ AGGR_tag s = none then .crash
            else
              let errs1 :=
                if !is_initval_scope t then
                  errs ++ ["unmatch initial value type to union"]
                else errs
              match process_union_init_fields fuel (AGGR_decl_list s)
                (TREE_initval_scope t) errs1 with
              | .ok st flds _ errs2 =>
                if st ≠ .ST_SUCC then .ok st (ty.setAggr (s.setDeclList flds)) init errs2
                else .ok .ST_SUCC (ty.setAggr (s.setDeclList flds)) nsib errs2
              | .crash => .crash
              | .nofuel => .nofuel

/-- Loop of `process_union_init` over the fields, the same loop as the one
of `process_struct_init`. -/
def process_union_init_fields : Nat → List Decl → List Tree → List String →
    IRes (List Decl)
  | 0, _, _, _ => .nofuel
  | fuel + 1, flds, fldval, errs =>
    match flds, fldval with
    | [], _ => .ok .ST_SUCC [] fldval errs
    | _ :: _, [] => .ok .ST_SUCC flds [] errs
    | flddcl :: rest, _ :: _ =>
      match process_init_by_extra_val fuel flddcl fldval errs with
      | .ok st f1 fldval1 errs1 =>
        if st ≠ .ST_SUCC then .ok st (f1 :: rest) fldval1 errs1
        else
          match process_union_init_fields fuel rest fldval1 errs1 with
          | .ok st2 rest1 fldval2 errs2 => .ok st2 (f1 :: rest1) fldval2 errs2
          | .crash => .crash
          | .nofuel => .nofuel
      | .crash => .crash
      | .nofuel => .nofuel

/-- Function `process_init_by_extra_val`: the updated declaration.
`ASSERTN` that `decl` is a `DCL_DECLARATION` and that `*init` is not null. -/
def process_init_by_extra_val : Nat → Decl → List Tree → List String → IRes Decl
  | 0, _, _, _ => .nofuel
  | fuel + 1, decl, init, errs =>
    if decl.dt ≠ .DCL_DECLARATION then .crash
    else if init.isEmpty then .crash
    else if is_array decl then process_array_init fuel decl init errs
    else
      match is_struct_spec (DECL_spec decl), is_union_spec (DECL_spec decl) with
      | some true, _ =>
        match process_struct_init fuel (DECL_spec decl) init errs with
        | .ok st ty1 init1 errs1 => .ok st (decl.setSpec ty1) init1 errs1
        | .crash => .crash
        | .nofuel => .nofuel
      | some false, some true =>
        match process_union_init fuel (DECL_spec decl) init errs with
        | .ok st ty1 init1 errs1 => .ok st (decl.setSpec ty1) init1 errs1
        | .crash => .crash
        | .nofuel => .nofuel
      | some false, some false =>
        if is_pointer decl then
          match process_pointer_init fuel init errs with
          | .ok st _ init1 errs1 => .ok st decl init1 errs1
          | .crash => .crash
          | .nofuel => .nofuel
        else
          match process_base_init fuel init errs with
          | .ok st _ init1 errs1 => .ok st decl init1 errs1
          | .crash => .crash
          | .nofuel => .nofuel
      | _, _ => .crash
end

/-- Function `process_init`: the updated declaration, with the trees left in
`initval`.  `init_tree` is `DECL_init_tree` of the declarator, with its
siblings; after the assertions it is not null, so the test
`initval == nullptr` that follows them never holds. -/
def process_init (fuel : Nat) (decl : Decl) (init_tree : List Tree) (errs : List String) :
    IRes Decl :=
  if decl.dt ≠ .DCL_DECLARATION then .crash
  else if !is_initialized decl then .ok .ST_SUCC decl [] errs
  else if (DECL_decl_list decl).dt ≠ .DCL_DECLARATOR then .crash
  else if init_tree.isEmpty then .crash
  else
    let r : IRes Decl :=
      if is_pointer decl then
        match process_pointer_init fuel init_tree errs with
        | .ok st _ init1 errs1 => .ok st decl init1 errs1
        | .crash => .crash
        | .nofuel => .nofuel
      else if is_array decl then process_array_init fuel decl init_tree errs
      else
        match is_struct_spec (DECL_spec decl), is_union_spec (DECL_spec decl) with
        | some true, _ =>
          match process_struct_init fuel (DECL_spec decl) init_tree errs with
          | .ok st ty1 init1 errs1 => .ok st (decl.setSpec ty1) init1 errs1
          | .crash => .crash
          | .nofuel => .nofuel
        | some false, some true =>
          match process_union_init fuel (DECL_spec decl) init_tree errs with
          | .ok st ty1 init1 errs1 => .ok st (decl.setSpec ty1) init1 errs1
          | .crash => .crash
          | .nofuel => .nofuel
        | some false, some false =>
          match process_base_init fuel init_tree errs with
          | .ok st _ init1 errs1 => .ok st decl init1 errs1
          | .crash => .crash
          | .nofuel => .nofuel
        | _, _ => .crash
    match r with
    | .ok st decl1 initval errs1 =>
      if initval.isEmpty then .ok st decl1 initval errs1
      else
        match get_decl_sym decl with
        | none => .crash
        | some _ =>
          .ok .ST_ERR decl1 initval
            (errs1 ++ ["there are too many initializers than var declared"])
    | .crash => .crash
    | .nofuel => .nofuel

/-! ## Legality of a specifier and storage classes (decl.cpp) -/

/-- Function `is_simple_base_type` on a specifier: each test `des & f` holds
when the two words share a bit. -/
def is_simple_base_type_spec (ty : TypeSpec) : Bool :=
  TYPE_des ty &&& T_SPEC_VOID != 0 || TYPE_des ty &&& T_SPEC_CHAR != 0 ||
  TYPE_des ty &&& T_SPEC_SHORT != 0 || TYPE_des ty &&& T_SPEC_INT != 0 ||
  TYPE_des ty &&& T_SPEC_LONGLONG != 0 || TYPE_des ty &&& T_SPEC_LONG != 0 ||
  TYPE_des ty &&& T_SPEC_FLOAT != 0 || TYPE_des ty &&& T_SPEC_DOUBLE != 0 ||
  TYPE_des ty &&& T_SPEC_SIGNED != 0 || TYPE_des ty &&& T_SPEC_UNSIGNED != 0

/-- Function `is_simple_base_type` on a flag word. -/
def is_simple_base_type (des : Nat) : Bool :=
  des &&& T_SPEC_VOID != 0 || des &&& T_SPEC_ENUM != 0 || des &&& T_SPEC_CHAR != 0 ||
  des &&& T_SPEC_SHORT != 0 || des &&& T_SPEC_INT != 0 || des &&& T_SPEC_LONGLONG != 0 ||
  des &&& T_SPEC_LONG != 0 || des &&& T_SPEC_FLOAT != 0 || des &&& T_SPEC_DOUBLE != 0 ||
  des &&& T_SPEC_SIGNED != 0 || des &&& T_SPEC_UNSIGNED != 0

/-- The flag words that `ck_type_spec_legally` tests with `ONLY_HAVE_FLAG`
before it compares the classes, in the order of the source. -/
def ck_type_spec_legally_words : List Nat :=
  [T_SPEC_SHORT, T_SPEC_SHORT ||| T_SPEC_INT, T_SPEC_SIGNED ||| T_SPEC_SHORT,
    T_SPEC_SIGNED ||| T_SPEC_SHORT ||| T_SPEC_INT, T_SPEC_INT,
    T_SPEC_SIGNED ||| T_SPEC_INT, T_SPEC_SIGNED ||| T_SPEC_LONGLONG, T_SPEC_SIGNED,
    T_SPEC_LONG, T_SPEC_LONG ||| T_SPEC_INT, T_SPEC_SIGNED ||| T_SPEC_LONG,
    T_SPEC_SIGNED ||| T_SPEC_LONG ||| T_SPEC_INT, T_SPEC_LONGLONG,
    T_SPEC_LONGLONG ||| T_SPEC_INT, T_SPEC_SIGNED ||| T_SPEC_LONGLONG,
    T_SPEC_SIGNED ||| T_SPEC_LONGLONG ||| T_SPEC_INT,
    T_SPEC_UNSIGNED ||| T_SPEC_SHORT, T_SPEC_UNSIGNED ||| T_SPEC_SHORT ||| T_SPEC_INT,
    T_SPEC_UNSIGNED, T_SPEC_UNSIGNED ||| T_SPEC_INT, T_SPEC_UNSIGNED ||| T_SPEC_LONGLONG,
    T_SPEC_UNSIGNED ||| T_SPEC_LONG, T_SPEC_UNSIGNED ||| T_SPEC_LONG ||| T_SPEC_INT]

/-- Function `ck_type_spec_legally`: the status and the state with the
diagnostic.  The first part returns `ST_SUCC` as soon as one of the tests
`ONLY_HAVE_FLAG(des, w)` holds; the diagnostics are recorded without the
formatted specifier. -/
def ck_type_spec_legally (ty : TypeSpec) (st : PState) : STATUS × PState :=
  let des := TYPE_des ty
  let c1 := HAVE_FLAG des T_SPEC_STRUCT || HAVE_FLAG des T_SPEC_UNION
  let c2 := HAVE_FLAG des T_SPEC_ENUM
  let c3 := is_simple_base_type_spec ty
  let c4 := HAVE_FLAG des T_SPEC_USER_TYPE
  if ck_type_spec_legally_words.any (fun w => ONLY_HAVE_FLAG des w) then (.ST_SUCC, st)
  else if c1 && c2 then
    (.ST_ERR, err st "struct or union cannot compatilable with enum-type")
  else if c1 && c3 then (.ST_ERR, err st "struct or union cannot compatilable with")
  else if c1 && c4 then (.ST_ERR, err st "struct or union cannot compatilable with")
  else if c2 && c3 then (.ST_ERR, err st "enum-type cannot compatilable with")
  else if c2 && c4 then (.ST_ERR, err st "enum-type cannot compatilable with")
  else if c3 && c4 then (.ST_ERR, err st "type cannot compatilable with")
  else (.ST_SUCC, st)

/-- Function `new_type()`: a specifier with every field zero. -/
def new_type : TypeSpec := .mk 0 none none none

/-- Function `stor_spec`: the specifier returned, null after a diagnostic,
and the new state. -/
def stor_spec (ty : Option TypeSpec) (st : PState) : Option TypeSpec × PState :=
  let ty1 := ty.getD new_type
  let des := TYPE_des ty1
  let tok := g_real_token st
  if (HAVE_FLAG des T_STOR_AUTO ∧ tok ≠ .T_AUTO) ∨
      (ONLY_HAVE_FLAG des T_STOR_AUTO = false ∧ tok = .T_AUTO) then
    (none, err st "auto can not specified with other type-specifier")
  else if (HAVE_FLAG des T_STOR_STATIC ∧ tok = .T_EXTERN) ∨
      (HAVE_FLAG des T_STOR_EXTERN ∧ tok = .T_STATIC) then
    (none, err st "static and extern can not be specified meanwhile")
  else
    match tok with
    | .T_AUTO => (some (ty1.setDes (SET_FLAG des T_STOR_AUTO)), (match_tok st .T_AUTO).2)
    | .T_REGISTER =>
      (some (ty1.setDes (SET_FLAG des T_STOR_REG)), (match_tok st .T_REGISTER).2)
    | .T_STATIC =>
      (some (ty1.setDes (SET_FLAG des T_STOR_STATIC)), (match_tok st .T_STATIC).2)
    | .T_EXTERN =>
      (some (ty1.setDes (SET_FLAG des T_STOR_EXTERN)), (match_tok st .T_EXTERN).2)
    | .T_INLINE =>
      (some (ty1.setDes (SET_FLAG des T_STOR_INLINE)), (match_tok st .T_INLINE).2)
    | .T_TYPEDEF =>
      (some (ty1.setDes (SET_FLAG des T_STOR_TYPEDEF)), (match_tok st .T_TYPEDEF).2)
    | _ => (some ty1, st)

/-- Function `type_spec` for the tokens of the base kinds; `struct` and
`union` go to `type_spec_struct` and `type_spec_union`, which are passed as
`aggr_spec`. -/
def type_spec (aggr_spec : Option TypeSpec → PState → Option TypeSpec × PState)
    (ty : Option TypeSpec) (st : PState) : Option TypeSpec × PState :=
  let ty1 := ty.getD new_type
  let des := TYPE_des ty1
  let set (tok : TOKEN) (f : Nat) : Option TypeSpec × PState :=
    (some (ty1.setDes (des ||| f)), (match_tok st tok).2)
  match g_real_token st with
  | .T_VOID => set .T_VOID T_SPEC_VOID
  | .T_CHAR => set .T_CHAR T_SPEC_CHAR
  | .T_SHORT => set .T_SHORT T_SPEC_SHORT
  | .T_INT => set .T_INT T_SPEC_INT
  | .T_LONG =>
    let st1 := (match_tok st .T_LONG).2
    if IS_TYPE ty1 T_SPEC_LONG then
      (some (ty1.setDes (REMOVE_FLAG des T_SPEC_LONG ||| T_SPEC_LONGLONG)), st1)
    else if IS_TYPE ty1 T_SPEC_LONGLONG then
      (some ty1, err st1 "type specifier is illegal")
    else (some (ty1.setDes (des ||| T_SPEC_LONG)), st1)
  | .T_LONGLONG => set .T_LONGLONG T_SPEC_LONGLONG
  | .T_BOOL => set .T_BOOL T_SPEC_BOOL
  | .T_FLOAT => set .T_FLOAT T_SPEC_FLOAT
  | .T_DOUBLE => set .T_DOUBLE T_SPEC_DOUBLE
  | .T_SIGNED => set .T_SIGNED T_SPEC_SIGNED
  | .T_UNSIGNED => set .T_UNSIGNED T_SPEC_UNSIGNED
  | .T_STRUCT => aggr_spec ty st
  | .T_UNION => aggr_spec ty st
  | _ => (some ty1, st)

/-- Function `quan_spec` on a specifier that may be null. -/
def quan_spec_ty (ty : Option TypeSpec) (st : PState) : Option TypeSpec × PState :=
  let ty1 := ty.getD new_type
  let r := quan_spec (TYPE_des ty1) st
  (some (ty1.setDes r.1), r.2)

/-- The specifier parsers that depend on the scope and tag registries and
are taken as parameters of `declaration_spec`: `type_spec_struct` and
`type_spec_union` (as `aggr_spec`), `enum_spec`, and `SpecifierOrId` with
its flag `is_return_ty`. -/
structure SpecCollab where
  aggr_spec : Option TypeSpec → PState → Option TypeSpec × PState
  enum_spec : Option TypeSpec → PState → Option TypeSpec × PState
  SpecifierOrId : Option TypeSpec → PState → (Option TypeSpec × Bool) × PState

/-- Loop of `declaration_spec`, one unit of the iteration bound for every
token tested. -/
def declaration_spec_loop (S : SpecCollab) :
    Nat → Option TypeSpec → PState → PRes (Option TypeSpec)
  | 0, _, _ => .nofuel
  | fuel + 1, ty, st =>
    match g_real_token st with
    | .T_AUTO | .T_REGISTER | .T_STATIC | .T_EXTERN | .T_INLINE | .T_TYPEDEF =>
      let r := stor_spec ty st
      declaration_spec_loop S fuel r.1 r.2
    | .T_VOID | .T_CHAR | .T_SHORT | .T_INT | .T_LONGLONG | .T_BOOL | .T_LONG | .T_FLOAT
    | .T_DOUBLE | .T_SIGNED | .T_UNSIGNED | .T_STRUCT | .T_UNION =>
      let r := type_spec S.aggr_spec ty st
      declaration_spec_loop S fuel r.1 r.2
    | .T_ENUM =>
      let r := S.enum_spec ty st
      declaration_spec_loop S fuel r.1 r.2
    | .T_CONST | .T_VOLATILE | .T_RESTRICT =>
      let r := quan_spec_ty ty st
      declaration_spec_loop S fuel r.1 r.2
    | .T_ID =>
      let r := S.SpecifierOrId ty st
      if r.1.2 then .ok r.1.1 r.2 else declaration_spec_loop S fuel r.1.1 r.2
    | _ => .ok ty st

/-- Function `declaration_spec`. -/
def declaration_spec (S : SpecCollab) (fuel : Nat) (st : PState) : PRes (Option TypeSpec) :=
  declaration_spec_loop S fuel none st

/-! ## The type pass (typetran.cpp)

The class `Tree` is not under src/.  The pass writes `TREE_result_type` in
place; the embedding returns the updated nodes together with the status and
the diagnostics, which are recorded without the formatted operands.  A
handler takes the recursive call `TypeTran(..., cont)` as its first
argument `TT`.

The context `cont`: `TypeTranDMem` and `TypeTranInDMem` set `is_field` and
`base_tree_node` for the call on `TREE_field(t)` and clear them after it,
and no other function writes them.  Every call of `TypeTran` but the one
that is the result of `TypeTranSizeof` and the one of
`TypeTranInitValScope`, which has a null context, is tested with
`ST_SUCC !=`, so a failure ends the pass of the context in which it occurs.
The field of a member access is one identifier node, so the call on it
reaches `TypeTranID` at once, and every other call has a context whose
`is_field` is false: that of `TYCtx ct`, taken as cleared, or the one passed
on.  `TypeTran` of the embedding is the call with such a context, and
`TypeTranID` alone takes the context as an argument.

An object that the pass changes through a pointer shared with a
declaration, the specifier in which `findAndRefillStructUnionField` writes
the aggregate found, is changed in the result type or the declaration at
hand only. -/

/-- Modelled from the spec: the node kinds `TREE_type` that the `switch` of
`TypeTran` names. -/
inductive TREE_TYPE
  | TR_NUL | TR_ASSIGN | TR_ID | TR_IMM | TR_IMMU | TR_IMML | TR_IMMUL | TR_FP | TR_FPF
  | TR_FPLD | TR_ENUM_CONST | TR_STRING | TR_LOGIC_OR | TR_LOGIC_AND | TR_INCLUSIVE_OR
  | TR_XOR | TR_INCLUSIVE_AND | TR_SHIFT | TR_EQUALITY | TR_RELATION | TR_ADDITIVE
  | TR_MULTI | TR_INITVAL_SCOPE | TR_IF | TR_DO | TR_WHILE | TR_SWITCH | TR_BREAK
  | TR_CONTINUE | TR_GOTO | TR_LABEL | TR_DEFAULT | TR_CASE | TR_RETURN | TR_CVT
  | TR_TYPE_NAME | TR_LDA | TR_DEREF | TR_PLUS | TR_MINUS | TR_REV | TR_NOT | TR_INC
  | TR_POST_INC | TR_DEC | TR_POST_DEC | TR_CALL | TR_ARRAY | TR_PRAGMA | TR_PREP
  | TR_SCOPE | TR_FOR | TR_COND | TR_SIZEOF | TR_DMEM | TR_INDMEM
  deriving DecidableEq, Repr

/-- Modelled from the spec: a node of class `Tree` as the type pass reads
it: its kind, its token, the value of an immediate, the spelling of a string
literal, the declaration bound to an identifier, the type name of a
`TR_TYPE_NAME` node, the result type, and four child slots, each a list
linked by `TREE_nsib`.  The slots hold, by kind: `TREE_lchild` and
`TREE_rchild`; the operand of `++` and `--`; `TREE_fun_exp` and
`TREE_para_list`; `TREE_array_base`
and `TREE_array_indx`; `TREE_cvt_type` and `TREE_cast_exp`;
`TREE_initval_scope`; the condition and the bodies of a statement;
`TREE_ret_exp`; `TREE_det`, `TREE_true_part` and `TREE_false_part`;
`TREE_sizeof_exp`; `TREE_base_region`; `SCOPE_stmt_list` of `TREE_scope`;
`TREE_for_init`, `TREE_for_det`, `TREE_for_step` and `TREE_for_body`.
Further: the name `TREE_id` of an identifier; `TREE_field`, the identifier
node of a member access; for `TREE_scope` and `TREE_for_scope` the init
trees of the declarations of `SCOPE_decl_list` that are initialized, in
their order, an empty list for a null tree; and for a member access the
aggregates that `is_aggr_exist_in_outer_scope` finds, if any, from
`AGGR_scope` of the aggregate of the base and of the aggregate of the
field: the registries of the scopes are not part of the embedding of the
pass. -/
inductive ExpTree where
  | mk (type : TREE_TYPE) (token : TOKEN) (imm_val : Int) (string_val : Option String)
       (id_decl : Option Decl) (type_name : Option Decl) (result_type : Option Decl)
       (kid0 kid1 kid2 : List ExpTree)
       (id : Option String) (kid3 : List ExpTree) (field : Option ExpTree)
       (scope_inits : List (List ExpTree)) (outer_base outer_field : Option Aggr)

/-- A node without the fields of the member accesses, of the scopes and of
`for`. -/
def ExpTree.node (type : TREE_TYPE) (token : TOKEN) (imm_val : Int)
    (string_val : Option String) (id_decl : Option Decl) (type_name : Option Decl)
    (result_type : Option Decl) (kid0 kid1 kid2 : List ExpTree) : ExpTree :=
  .mk type token imm_val string_val id_decl type_name result_type kid0 kid1 kid2
    none [] none [] none none

/-- Field `TREE_type`. -/
def TREE_type : ExpTree → TREE_TYPE
  | .mk ty _ _ _ _ _ _ _ _ _ _ _ _ _ _ _ => ty

/-- Field `TREE_token`. -/
def TREE_token : ExpTree → TOKEN
  | .mk _ tok _ _ _ _ _ _ _ _ _ _ _ _ _ _ => tok

/-- Field `TREE_imm_val`. -/
def TREE_imm_val : ExpTree → Int
  | .mk _ _ v _ _ _ _ _ _ _ _ _ _ _ _ _ => v

/-- Field `TREE_string_val`. -/
def TREE_string_val : ExpTree → Option String
  | .mk _ _ _ s _ _ _ _ _ _ _ _ _ _ _ _ => s

/-- Field `TREE_id_decl`. -/
def TREE_id_decl : ExpTree → Option Decl
  | .mk _ _ _ _ d _ _ _ _ _ _ _ _ _ _ _ => d

/-- Field `TREE_type_name`. -/
def TREE_type_name : ExpTree → Option Decl
  | .mk _ _ _ _ _ tn _ _ _ _ _ _ _ _ _ _ => tn

/-- Field `TREE_result_type`. -/
def TREE_result_type : ExpTree → Option Decl
  | .mk _ _ _ _ _ _ r _ _ _ _ _ _ _ _ _ => r

/-- First child slot: `TREE_lchild`, `TREE_inc_exp`, `TREE_dec_exp`,
`TREE_fun_exp`, `TREE_array_base`, `TREE_cvt_type`,
`TREE_initval_scope`, the condition of a statement, `TREE_ret_exp`,
`TREE_det`, `TREE_sizeof_exp`, `TREE_base_region`, `SCOPE_stmt_list` of
`TREE_scope`, `TREE_for_init`. -/
def TREE_lchild : ExpTree → List ExpTree
  | .mk _ _ _ _ _ _ _ k _ _ _ _ _ _ _ _ => k

/-- Second child slot: `TREE_rchild`, `TREE_para_list`,
`TREE_array_indx`, `TREE_cast_exp`, the first body of a statement,
`TREE_true_part`, `TREE_for_det`. -/
def TREE_rchild : ExpTree → List ExpTree
  | .mk _ _ _ _ _ _ _ _ k _ _ _ _ _ _ _ => k

/-- Third child slot: `TREE_if_false_stmt`, `TREE_false_part`,
`TREE_for_step`. -/
def TREE_if_false_stmt : ExpTree → List ExpTree
  | .mk _ _ _ _ _ _ _ _ _ k _ _ _ _ _ _ => k

/-- Field `TREE_id`. -/
def TREE_id : ExpTree → Option String
  | .mk _ _ _ _ _ _ _ _ _ _ i _ _ _ _ _ => i

/-- Fourth child slot: `TREE_for_body`. -/
def TREE_for_body : ExpTree → List ExpTree
  | .mk _ _ _ _ _ _ _ _ _ _ _ k _ _ _ _ => k

/-- Field `TREE_field`. -/
def TREE_field : ExpTree → Option ExpTree
  | .mk _ _ _ _ _ _ _ _ _ _ _ _ f _ _ _ => f

/-- The init trees of the initialized declarations of `SCOPE_decl_list` of
`TREE_scope` or `TREE_for_scope`. -/
def TREE_scope_inits : ExpTree → List (List ExpTree)
  | .mk _ _ _ _ _ _ _ _ _ _ _ _ _ s _ _ => s

/-- What `is_aggr_exist_in_outer_scope` finds for the aggregate of the base
of a member access. -/
def TREE_outer_base : ExpTree → Option Aggr
  | .mk _ _ _ _ _ _ _ _ _ _ _ _ _ _ a _ => a

/-- What `is_aggr_exist_in_outer_scope` finds for the aggregate of the field
of a member access. -/
def TREE_outer_field : ExpTree → Option Aggr
  | .mk _ _ _ _ _ _ _ _ _ _ _ _ _ _ _ a => a

/-- The node with `TREE_result_type` written. -/
def ExpTree.setResult : ExpTree → Option Decl → ExpTree
  | .mk ty tok v s d tn _ k0 k1 k2 i k3 f sc ob oe, r =>
    .mk ty tok v s d tn r k0 k1 k2 i k3 f sc ob oe

/-- The node with the first child slot replaced. -/
def ExpTree.setLchild : ExpTree → List ExpTree → ExpTree
  | .mk ty tok v s d tn r _ k1 k2 i k3 f sc ob oe, k =>
    .mk ty tok v s d tn r k k1 k2 i k3 f sc ob oe

/-- The node with the second child slot replaced. -/
def ExpTree.setRchild : ExpTree → List ExpTree → ExpTree
  | .mk ty tok v s d tn r k0 _ k2 i k3 f sc ob oe, k =>
    .mk ty tok v s d tn r k0 k k2 i k3 f sc ob oe

/-- The node with the third child slot replaced. -/
def ExpTree.setIfFalseStmt : ExpTree → List ExpTree → ExpTree
  | .mk ty tok v s d tn r k0 k1 _ i k3 f sc ob oe, k =>
    .mk ty tok v s d tn r k0 k1 k i k3 f sc ob oe

/-- The node with the fourth child slot replaced. -/
def ExpTree.setForBody : ExpTree → List ExpTree → ExpTree
  | .mk ty tok v s d tn r k0 k1 k2 i _ f sc ob oe, k =>
    .mk ty tok v s d tn r k0 k1 k2 i k f sc ob oe

/-- The node with `TREE_field` replaced. -/
def ExpTree.setField : ExpTree → Option ExpTree → ExpTree
  | .mk ty tok v s d tn r k0 k1 k2 i k3 _ sc ob oe, f =>
    .mk ty tok v s d tn r k0 k1 k2 i k3 f sc ob oe

/-- The node with the init trees of its scope replaced. -/
def ExpTree.setScopeInits : ExpTree → List (List ExpTree) → ExpTree
  | .mk ty tok v s d tn r k0 k1 k2 i k3 f _ ob oe, sc =>
    .mk ty tok v s d tn r k0 k1 k2 i k3 f sc ob oe

/-- The node with `TREE_id_decl` written. -/
def ExpTree.setIdDecl : ExpTree → Option Decl → ExpTree
  | .mk ty tok v s _ tn r k0 k1 k2 i k3 f sc ob oe, d =>
    .mk ty tok v s d tn r k0 k1 k2 i k3 f sc ob oe

/-- The node with `TREE_type_name` written. -/
def ExpTree.setTypeName : ExpTree → Option Decl → ExpTree
  | .mk ty tok v s d _ r k0 k1 k2 i k3 f sc ob oe, tn =>
    .mk ty tok v s d tn r k0 k1 k2 i k3 f sc ob oe

/-- The node with `TREE_type` and `TREE_imm_val` written. -/
def ExpTree.setImm : ExpTree → TREE_TYPE → Int → ExpTree
  | .mk _ tok _ s d tn r k0 k1 k2 i k3 f sc ob oe, ty, v =>
    .mk ty tok v s d tn r k0 k1 k2 i k3 f sc ob oe

/-- The head of a sibling list with `TREE_result_type` written. -/
def set_head_result : List ExpTree → Option Decl → List ExpTree
  | [], _ => []
  | t :: nsib, r => t.setResult r :: nsib

/-- Expression `TREE_result_type(c)` for a child `c`: no value when the child
or its result type is null. -/
def result_of (c : List ExpTree) : Option Decl := c.head?.bind TREE_result_type

/-- Outcome of a function of the pass: the status, the updated node or list
and the diagnostics; or a failed assertion or null dereference; or the
iteration bound was too small. -/
inductive TRes (α : Type) where
  | ok (st : STATUS) (val : α) (errs : List String)
  | crash
  | nofuel

/-- The type of the recursive call `TypeTran(t, cont)`: the parent of the
nodes of the list, the list, and the diagnostics so far. -/
abbrev TypeTranFn : Type :=
  Option ExpTree → List ExpTree → List String → TRes (List ExpTree)

/-- Function `is_fp` on a specifier. -/
def is_fp_spec (ty : TypeSpec) : Bool := IS_TYPE ty T_SPEC_FLOAT || IS_TYPE ty T_SPEC_DOUBLE

/-- Function `is_arith`. -/
def is_arith (dcl : Decl) : Bool :=
  is_scalar dcl && (is_integer_spec (DECL_spec dcl) || is_fp_spec (DECL_spec dcl))

/-- Function `is_struct` on a declaration or type name. -/
def is_struct (decl : Decl) : Option Bool :=
  if is_pointer decl || is_array decl then some false else is_struct_spec (DECL_spec decl)

/-- Function `is_union` on a declaration or type name. -/
def is_union (decl : Decl) : Option Bool :=
  if is_pointer decl || is_array decl then some false else is_union_spec (DECL_spec decl)

/-- Function `is_float`. -/
def is_float (dcl : Decl) : Bool := IS_TYPE (DECL_spec dcl) T_SPEC_FLOAT

/-- Function `is_double`. -/
def is_double (dcl : Decl) : Bool := IS_TYPE (DECL_spec dcl) T_SPEC_DOUBLE

/-- Function `cp_type_name`; `ASSERTN(DECL_dt(src) == DCL_TYPE_NAME)`. -/
def cp_type_name (src : Decl) : Option Decl :=
  if src.dt = .DCL_TYPE_NAME then
    some (.mk .DCL_TYPE_NAME (DECL_spec src)
      ((cp_decl_declarator (DECL_decl_list src)).setChild
        ((PURE_DECL src).foldl (fun l p => add_next l [cp_decl_node p]) []))
      false false 0 0)
  else none

/-- Function `get_parameter_list`: the parameter list of the first function
node of the pure declarator list; null dereference when there is none. -/
def get_parameter_list (dcl : Decl) : Option (List Param) :=
  match (PURE_DECL dcl).dropWhile (fun d => DECL_dt d != .DCL_FUN) with
  | .FUN ps _ :: _ => some ps
  | _ => none

/-- Function `new_type(INT cate)`: a specifier with the flag word `cate`. -/
def new_type_of (cate : Nat) : TypeSpec := .mk cate none none none

/-- Function `buildTypeName`. -/
def buildTypeName (ty : TypeSpec) : Decl :=
  .mk .DCL_TYPE_NAME ty (.mk .DCL_ABS_DECLARATOR [] false 0 false) false false 0 0

/-- The specifiers that `initTypeTran` creates. -/
def g_schar_type : TypeSpec := new_type_of (T_SPEC_SIGNED ||| T_SPEC_CHAR)
def g_sshort_type : TypeSpec := new_type_of (T_SPEC_SIGNED ||| T_SPEC_SHORT)
def g_sint_type : TypeSpec := new_type_of (T_SPEC_SIGNED ||| T_SPEC_INT)
def g_slong_type : TypeSpec := new_type_of (T_SPEC_SIGNED ||| T_SPEC_LONG)
def g_slonglong_type : TypeSpec := new_type_of (T_SPEC_SIGNED ||| T_SPEC_LONGLONG)
def g_uchar_type : TypeSpec := new_type_of (T_SPEC_UNSIGNED ||| T_SPEC_CHAR)
def g_ushort_type : TypeSpec := new_type_of (T_SPEC_UNSIGNED ||| T_SPEC_SHORT)
def g_uint_type : TypeSpec := new_type_of (T_SPEC_UNSIGNED ||| T_SPEC_INT)
def g_ulong_type : TypeSpec := new_type_of (T_SPEC_UNSIGNED ||| T_SPEC_LONG)
def g_ulonglong_type : TypeSpec := new_type_of (T_SPEC_UNSIGNED ||| T_SPEC_LONGLONG)
def g_float_type : TypeSpec := new_type_of T_SPEC_FLOAT
def g_double_type : TypeSpec := new_type_of T_SPEC_DOUBLE
def g_void_type : TypeSpec := new_type_of T_SPEC_VOID
def g_enum_type : TypeSpec := new_type_of T_SPEC_ENUM

/-- Function `buildBaseTypeSpec`; the macro `IS_TYPED(des, f)` is
`HAVE_FLAG(des, f)`.  `ASSERTN(0)` when `des` has no simple base kind or
none of the branches returns. -/
def buildBaseTypeSpec (des : Nat) : Option TypeSpec :=
  if !is_simple_base_type des then none
  else if HAVE_FLAG des T_SPEC_SIGNED then
    if HAVE_FLAG des T_SPEC_CHAR then some g_schar_type
    else if HAVE_FLAG des T_SPEC_SHORT then some g_sshort_type
    else if HAVE_FLAG des T_SPEC_INT then some g_sint_type
    else if HAVE_FLAG des T_SPEC_LONG then some g_slong_type
    else if HAVE_FLAG des T_SPEC_LONGLONG then some g_slonglong_type
    else if HAVE_FLAG des T_SPEC_FLOAT then some g_float_type
    else if HAVE_FLAG des T_SPEC_DOUBLE then some g_double_type
    else if HAVE_FLAG des T_SPEC_VOID then some g_sint_type
    else none
  else if HAVE_FLAG des T_SPEC_UNSIGNED then
    if HAVE_FLAG des T_SPEC_CHAR then some g_uchar_type
    else if HAVE_FLAG des T_SPEC_SHORT then some g_ushort_type
    else if HAVE_FLAG des T_SPEC_INT then some g_uint_type
    else if HAVE_FLAG des T_SPEC_LONG then some g_ulong_type
    else if HAVE_FLAG des T_SPEC_LONGLONG then some g_ulonglong_type
    else if HAVE_FLAG des T_SPEC_FLOAT then some g_float_type
    else if HAVE_FLAG des T_SPEC_DOUBLE then some g_double_type
    else if HAVE_FLAG des T_SPEC_VOID then some g_uint_type
    else none
  else
    if HAVE_FLAG des T_SPEC_CHAR then some g_schar_type
    else if HAVE_FLAG des T_SPEC_SHORT then some g_sshort_type
    else if HAVE_FLAG des T_SPEC_INT then some g_sint_type
    else if HAVE_FLAG des T_SPEC_LONG then some g_slong_type
    else if HAVE_FLAG des T_SPEC_LONGLONG then some g_slonglong_type
    else if HAVE_FLAG des T_SPEC_FLOAT then some g_float_type
    else if HAVE_FLAG des T_SPEC_DOUBLE then some g_double_type
    else if HAVE_FLAG des T_SPEC_VOID then some g_void_type
    else if HAVE_FLAG des T_SPEC_ENUM then some g_enum_type
    else none

/-- Macro `BUILD_TYNAME(T)`: `buildTypeName(buildBaseTypeSpec(T))`;
`ASSERT0(ty)` in `buildTypeName`. -/
def BUILD_TYNAME (des : Nat) : Option Decl := (buildBaseTypeSpec des).map buildTypeName

/-- Function `getCvtRank`; `UNREACHABLE()` when no branch returns. -/
def getCvtRank (des : Nat) : Option Nat :=
  if HAVE_FLAG des T_SPEC_LONGLONG || HAVE_FLAG des T_SPEC_DOUBLE then
    if HAVE_FLAG des T_SPEC_DOUBLE then some 90 else some 89
  else if HAVE_FLAG des T_SPEC_LONG || HAVE_FLAG des T_SPEC_DOUBLE ||
      HAVE_FLAG des T_SPEC_FLOAT then
    if HAVE_FLAG des T_SPEC_DOUBLE || HAVE_FLAG des T_SPEC_FLOAT then some 88 else some 87
  else if HAVE_FLAG des T_SPEC_SHORT then some 84
  else if HAVE_FLAG des T_SPEC_INT || HAVE_FLAG des T_SPEC_ENUM ||
      ONLY_HAVE_FLAG des T_SPEC_SIGNED || ONLY_HAVE_FLAG des T_SPEC_UNSIGNED then some 85
  else if HAVE_FLAG des T_SPEC_CHAR || HAVE_FLAG des T_SPEC_BOOL then some 83
  else none

/-- Function `buildBinaryOpType`. -/
def buildBinaryOpType (tok : TREE_TYPE) (l r : Decl) : Option Decl :=
  (getCvtRank (TYPE_des (DECL_spec l))).bind fun bankl =>
  (getCvtRank (TYPE_des (DECL_spec r))).bind fun bankr =>
  if bankl > bankr ∨ tok = .TR_SHIFT then some l
  else if bankl = bankr ∧ IS_TYPE (DECL_spec l) T_SPEC_UNSIGNED = true then some l
  else some r

/-- Function `buildPointerType`. -/
def buildPointerType (ty : TypeSpec) : Decl :=
  (buildTypeName ty).setPure [.POINTER 0 false]

/-- The declaration with `DECL_decl_list` replaced. -/
def Decl.setDeclList : Decl → Declarator → Decl
  | .mk dt spec _ p s f a, d => .mk dt spec d p s f a

/-- Function `checkAssign`: whether the assignment is accepted, and the
diagnostics.  The type of the right operand is not read. -/
def checkAssign (ld : Decl) (errs : List String) : Bool × List String :=
  if is_array ld then (false, errs ++ ["illegal, left operand must be l-value"])
  else if IS_CONST (TYPE_des (DECL_spec ld)) then
    (false, errs ++ ["illegal, l-value specifies const object"])
  else (true, errs)

/-- Modelled from the spec: `gen_cvt` of the tree builder is not under src/;
it wraps the expression in a new `TR_CVT` node whose `TREE_cvt_type` is a
`TR_TYPE_NAME` node with the type and whose `TREE_cast_exp` is the
expression. -/
def gen_cvt (tgt_type : Decl) (src : ExpTree) : ExpTree :=
  ExpTree.node .TR_CVT .T_NUL 0 none none none none
    [ExpTree.node .TR_TYPE_NAME .T_NUL 0 none none (some tgt_type) none [] [] []] [src] []

/-- Loop of `insertCvtForParams`: `removehead` takes the next argument, the
loop ends when the arguments or the formal parameters are exhausted, and the
new list replaces `TREE_para_list`.  `ASSERT0(realp_decl)`. -/
def insertCvtForParams_loop : List ExpTree → List Param → List ExpTree →
    Option (List ExpTree)
  | [], _, newparamlist => some newparamlist
  | _ :: _, [], newparamlist => some newparamlist
  | realp :: rest, .variadic :: formals, newparamlist =>
    insertCvtForParams_loop rest (.variadic :: formals) (add_next newparamlist [realp])
  | realp :: rest, .decl formalp_decl :: formals, newparamlist =>
    match TREE_result_type realp with
    | none => none
    | some realp_decl =>
      let realp1 :=
        if is_double realp_decl && is_float formalp_decl then gen_cvt formalp_decl realp
        else realp
      insertCvtForParams_loop rest formals (add_next newparamlist [realp1])

/-- Function `insertCvtForParams`: the call node with the new argument list.
`ASSERT0(t && TREE_type(t) == TR_CALL)`, the assertions on the result type
of the function expression, and the null dereference of
`get_parameter_list` give no result. -/
def insertCvtForParams (t : ExpTree) : Option ExpTree :=
  if TREE_type t ≠ .TR_CALL then none
  else
    (result_of (TREE_lchild t)).bind fun funcdecl =>
    if funcdecl.dt ≠ .DCL_TYPE_NAME then none
    else if (DECL_decl_list funcdecl).dt ≠ .DCL_ABS_DECLARATOR then none
    else
      (get_parameter_list funcdecl).bind fun formalp_decl =>
      (insertCvtForParams_loop (TREE_rchild t) formalp_decl []).map fun l => t.setRchild l

/-- The two calls `TypeTran(TREE_lchild(t), cont)` and
`TypeTran(TREE_rchild(t), cont)` with which the handlers of the binary
operators begin: the node with the updated children and, when both calls
return `ST_SUCC`, the result types of the two children. -/
def TypeTran_operands (TT : TypeTranFn) (t : ExpTree) (errs : List String) :
    TRes (ExpTree × Option (Decl × Decl)) :=
  match TT (some t) (TREE_lchild t) errs with
  | .ok .ST_SUCC l errs1 =>
    let t1 := t.setLchild l
    match TT (some t1) (TREE_rchild t1) errs1 with
    | .ok .ST_SUCC r errs2 =>
      match result_of l, result_of r with
      | some ld, some rd => .ok .ST_SUCC (t1.setRchild r, some (ld, rd)) errs2
      | _, _ => .crash
    | .ok .ST_ERR r errs2 => .ok .ST_ERR (t1.setRchild r, none) errs2
    | .crash => .crash
    | .nofuel => .nofuel
  | .ok .ST_ERR l errs1 => .ok .ST_ERR (t.setLchild l, none) errs1
  | .crash => .crash
  | .nofuel => .nofuel

/-- Function `TypeTranAssign`.  `checkAssign` asserts the type of the left
operand only. -/
def TypeTranAssign (TT : TypeTranFn) (t : ExpTree) (errs : List String) : TRes ExpTree :=
  match TT (some t) (TREE_lchild t) errs with
  | .ok .ST_SUCC l errs1 =>
    let t1 := t.setLchild l
    match TT (some t1) (TREE_rchild t1) errs1 with
    | .ok .ST_SUCC r errs2 =>
      let t2 := t1.setRchild r
      match result_of l, r with
      | some ld, _ :: _ =>
        let c := checkAssign ld errs2
        if c.1 then .ok .ST_SUCC (t2.setResult (some ld)) c.2
        else .ok .ST_ERR t2 c.2
      | _, _ => .crash
    | .ok .ST_ERR r errs2 => .ok .ST_ERR (t1.setRchild r) errs2
    | .crash => .crash
    | .nofuel => .nofuel
  | .ok .ST_ERR l errs1 => .ok .ST_ERR (t.setLchild l) errs1
  | .crash => .crash
  | .nofuel => .nofuel

/-- The walk of `TypeTranID` over the copied declarator list `dcl_list` that
reduces the pointers before a function to one: the new pure declarator list
of the result type.  `prev` is `DECL_prev(tmp)`. -/
def TypeTranID_walk (dcl_list : List DeclNode) : Option DeclNode → List DeclNode →
    List DeclNode
  | _, [] => dcl_list
  | _, .POINTER q ip :: next => TypeTranID_walk dcl_list (some (.POINTER q ip)) next
  | some (.POINTER q ip), .FUN ps ipf :: next => .POINTER q ip :: .FUN ps ipf :: next
  | _, .FUN ps ipf :: next => .FUN ps ipf :: next
  | _, _ :: _ => dcl_list

/-- Function `TypeTranID` from `ASSERT0(id_decl)` on, `id_decl` being
`TREE_id_decl(t)`: the assertion of `expand_user_type`, and
`ASSERTN(DECL_dt(dcl_list) == DCL_ID)`. -/
def TypeTranID_decl (ptr : Nat) (t : ExpTree) (errs : List String) : TRes ExpTree :=
  match TREE_id_decl t with
  | none => .crash
  | some id_decl0 =>
    match (if is_user_type_ref id_decl0 then expand_user_type id_decl0 else some id_decl0) with
    | none => .crash
    | some id_decl =>
      let res_ty := buildTypeName (DECL_spec id_decl)
      let declarator := DECL_decl_list id_decl
      let bit : TRes Decl :=
        if DECL_is_bit_field declarator then
          let res1 := res_ty.setDeclList
            (.mk .DCL_ABS_DECLARATOR [] true (DECL_bit_len declarator) false)
          if is_pointer id_decl then
            .ok .ST_ERR res1 (errs ++ ["pointer cannot assign bit length"])
          else if is_array id_decl then
            .ok .ST_ERR res1 (errs ++ ["array type cannot assign bit length"])
          else if !is_integer id_decl then
            .ok .ST_ERR res1 (errs ++ ["bit field must have integer type"])
          else
            match get_decl_size ptr id_decl with
            | none => .crash
            | some sz =>
              if toINT (toUINT (sz * BIT_PER_BYTE)) < DECL_bit_len declarator then
                .ok .ST_ERR res1
                  (errs ++ ["type of bit field too small for number of bits"])
              else .ok .ST_SUCC res1 errs
        else .ok .ST_SUCC res_ty errs
      match bit with
      | .ok .ST_SUCC res1 errs1 =>
        match PURE_DECL id_decl with
        | .ID _ _ _ :: next =>
          let dcl_list := cp_decl_begin_at next
          .ok .ST_SUCC
            (t.setResult (some (res1.setPure (TypeTranID_walk dcl_list none dcl_list)))) errs1
        | _ => .crash
      | .ok .ST_ERR res1 errs1 => .ok .ST_ERR (t.setResult (some res1)) errs1
      | .crash => .crash
      | .nofuel => .nofuel

/-- Modelled from the spec: the context record `TYCtx` of the pass, whose
class is not under src/: `is_field` and `base_tree_node`. -/
structure TYCtx where
  is_field : Bool
  base_tree_node : Option ExpTree

/-- The outcome with the value mapped. -/
def TRes.mapVal {α β : Type} (f : α → β) : TRes α → TRes β
  | .ok st v errs => .ok st (f v) errs
  | .crash => .crash
  | .nofuel => .nofuel

/-- Modelled from the spec: the macro `IS_AGGR` is not under src/; the
specifier has the flag of a struct or of a union. -/
def IS_AGGR (ty : TypeSpec) : Bool := IS_STRUCT ty || IS_UNION ty

/-- Function `is_aggr` on a declaration: `is_struct(decl) || is_union(decl)`. -/
def is_aggr (decl : Decl) : Option Bool :=
  match is_struct decl with
  | none => none
  | some true => some true
  | some false => is_union decl

/-- Function `is_aggr_complete`; `ASSERT0(IS_AGGR(type))` on the pure
specifier. -/
def is_aggr_complete (type : TypeSpec) : Option Bool :=
  (get_pure_type_spec type).bind fun t =>
  if !IS_AGGR t then none
  else match TYPE_aggr_type t with
    | none => some false
    | some s => some (AGGR_is_complete s)

/-- Function `is_aggr_exist_in_outer_scope` for the specifier `spec`, where
`outer` is what `is_struct_exist_in_outer_scope` or
`is_union_exist_in_outer_scope` finds from the scope given, the registries
of the scopes being no part of the embedding of the pass: the aggregate
found, if any.  `ASSERT0(is_union(spec))` for a specifier that is no
struct. -/
def is_aggr_exist_in_outer_scope (outer : Option Aggr) (spec : TypeSpec) :
    Option (Option Aggr) :=
  match is_struct_spec spec with
  | none => none
  | some true => some outer
  | some false =>
    match is_union_spec spec with
    | some true => some outer
    | _ => none

/-- The first part of `findAndRefillStructUnionField`, up to the test of an
empty field list: the declaration `base` with the aggregate found written
into its specifier, and the list of the fields.  `outer_base` is what
`is_aggr_exist_in_outer_scope` finds.  No result for a null
`TYPE_aggr_type`, for `ASSERT0(findone && AGGR_is_complete(findone))` and
for the assertion of the function called. -/
def findAndRefill_base (base : Decl) (outer_base : Option Aggr) :
    Option (Decl × List Decl) :=
  match TYPE_aggr_type (DECL_spec base) with
  | none => none
  | some s =>
    if (AGGR_decl_list s).isEmpty then
      if !AGGR_is_complete s && (AGGR_tag s).isSome then
        match is_aggr_exist_in_outer_scope outer_base (DECL_spec base) with
        | none => none
        | some none => some (base, [])
        | some (some findone) =>
          if !AGGR_is_complete findone then none
          else some (base.setSpec ((DECL_spec base).setAggr findone), AGGR_decl_list findone)
      else some (base, [])
    else some (base, AGGR_decl_list s)

/-- The last part of `findAndRefillStructUnionField`, for the field found:
the field with the aggregate found for it written into its specifier.
`outer_field` is what `is_aggr_exist_in_outer_scope` finds.  No result for
a null `TYPE_aggr_type` and for the assertions of the functions called. -/
def findAndRefill_field (fd : Decl) (outer_field : Option Aggr) : Option Decl :=
  match is_aggr fd with
  | none => none
  | some false => some fd
  | some true =>
    match is_aggr_complete (DECL_spec fd) with
    | none => none
    | some true => some fd
    | some false =>
      match TYPE_aggr_type (DECL_spec fd) with
      | none => none
      | some s2 =>
        if (AGGR_tag s2).isSome then
          match is_aggr_exist_in_outer_scope outer_field (DECL_spec fd) with
          | none => none
          | some none => some fd
          | some (some findone2) => some (fd.setSpec ((DECL_spec fd).setAggr findone2))
        else some fd

/-- Function `findAndRefillStructUnionField`: the declaration `base` after
the first part, `*field_decl` when the function returns true, and the
diagnostics.  `SYM_name` dereferences the name of the field. -/
def findAndRefillStructUnionField (base : Decl) (field_name : Option String)
    (outer_base outer_field : Option Aggr) (errs : List String) :
    Option (Decl × Option Decl × List String) :=
  match findAndRefill_base base outer_base with
  | none => none
  | some (base1, []) =>
    if field_name.isNone then none
    else some (base1, none, errs ++ ["is an empty struct or union"])
  | some (base1, f :: field_list) =>
    match (f :: field_list).find? (fun x => decide (get_decl_sym x = field_name)) with
    | none => some (base1, none, errs)
    | some fd => (findAndRefill_field fd outer_field).map fun fd1 => (base1, some fd1, errs)

/-- Function `TypeTranIDField` for the field `t` of the member access `p`:
the node with `TREE_id_decl` written, and the context, whose base node has
the result type that `findAndRefillStructUnionField` returns.
`ASSERTN(base)`; `SYM_name` dereferences the name. -/
def TypeTranIDField (cont : TYCtx) (p t : ExpTree) (errs : List String) :
    TRes (ExpTree × TYCtx) :=
  match cont.base_tree_node with
  | none => .crash
  | some bn =>
    match TREE_result_type bn with
    | none => .crash
    | some base =>
      match findAndRefillStructUnionField base (TREE_id t) (TREE_outer_base p)
          (TREE_outer_field p) errs with
      | none => .crash
      | some (base1, none, errs1) =>
        if (TREE_id t).isNone then .crash
        else
          .ok .ST_ERR (t, ⟨cont.is_field, some (bn.setResult (some base1))⟩)
            (errs1 ++ ["is not a member of type"])
      | some (base1, some field_decl, errs1) =>
        .ok .ST_SUCC (t.setIdDecl (some field_decl),
          ⟨cont.is_field, some (bn.setResult (some base1))⟩) errs1

/-- Function `TypeTranID`: the identifier is a field when its parent is a
member access and `cont->is_field` is set. -/
def TypeTranID (ptr : Nat) (cont : TYCtx) (parent : Option ExpTree) (t : ExpTree)
    (errs : List String) : TRes (ExpTree × TYCtx) :=
  match parent with
  | none => (TypeTranID_decl ptr t errs).mapVal fun t1 => (t1, cont)
  | some p =>
    if cont.is_field && (TREE_type p = .TR_DMEM || TREE_type p = .TR_INDMEM) then
      match TypeTranIDField cont p t errs with
      | .ok .ST_SUCC (t1, cont1) errs1 =>
        (TypeTranID_decl ptr t1 errs1).mapVal fun t2 => (t2, cont1)
      | .ok .ST_ERR r errs1 => .ok .ST_ERR r errs1
      | .crash => .crash
      | .nofuel => .nofuel
    else (TypeTranID_decl ptr t errs).mapVal fun t1 => (t1, cont)

/-- Function `TypeTranDeref`; `ASSERTN(ld)` on the copied list. -/
def TypeTranDeref (TT : TypeTranFn) (t : ExpTree) (errs : List String) : TRes ExpTree :=
  match TT (some t) (TREE_lchild t) errs with
  | .ok .ST_SUCC l errs1 =>
    let t1 := t.setLchild l
    match result_of l with
    | none => .crash
    | some ld =>
      if !is_pointer ld && !is_array ld then
        .ok .ST_ERR t1 (errs1 ++ ["Illegal dereferencing operation"])
      else
        match cp_type_name ld with
        | none => .crash
        | some td =>
          match PURE_DECL td with
          | [] => .crash
          | .POINTER _ _ :: next => .ok .ST_SUCC (t1.setResult (some (td.setPure next))) errs1
          | .ARRAY _ _ _ :: next => .ok .ST_SUCC (t1.setResult (some (td.setPure next))) errs1
          | .FUN _ _ :: _ => .ok .ST_SUCC (t1.setResult (some td)) errs1
          | _ :: _ => .ok .ST_ERR t1 (errs1 ++ ["illegal indirection"])
  | .ok .ST_ERR l errs1 => .ok .ST_ERR (t.setLchild l) errs1
  | .crash => .crash
  | .nofuel => .nofuel

/-- Function `TypeTranMulti`. -/
def TypeTranMulti (TT : TypeTranFn) (t : ExpTree) (errs : List String) : TRes ExpTree :=
  match TypeTran_operands TT t errs with
  | .ok .ST_SUCC (t2, some (ld, rd)) errs2 =>
    if TREE_token t = .T_ASTERISK ∨ TREE_token t = .T_DIV then
      if is_arith ld && is_arith rd then
        match buildBinaryOpType (TREE_type t) ld rd with
        | none => .crash
        | some ty => .ok .ST_SUCC (t2.setResult (some ty)) errs2
      else .ok .ST_ERR t2 (errs2 ++ ["illegal operation for"])
    else
      if is_integer ld && is_integer rd then
        match buildBinaryOpType (TREE_type t) ld rd with
        | none => .crash
        | some ty => .ok .ST_SUCC (t2.setResult (some ty)) errs2
      else .ok .ST_ERR t2 (errs2 ++ ["illegal operation for '%'"])
  | .ok _ (t2, _) errs2 => .ok .ST_ERR t2 errs2
  | .crash => .crash
  | .nofuel => .nofuel

/-- Function `TypeTranPreAndPostInc` and `TypeTranPreAndPostDec`, which differ
in the diagnostic only: it is reported, and the status is `ST_SUCC`. -/
def TypeTranPreAndPostInc (TT : TypeTranFn) (t : ExpTree) (errs : List String) :
    TRes ExpTree :=
  match TT (some t) (TREE_lchild t) errs with
  | .ok .ST_SUCC l errs1 =>
    match result_of l with
    | none => .crash
    | some d =>
      let errs2 :=
        if !is_arith d && !is_pointer d then errs1 ++ ["illegal prefixed or postfix operator"]
        else errs1
      .ok .ST_SUCC ((t.setLchild l).setResult (some d)) errs2
  | .ok .ST_ERR l errs1 => .ok .ST_ERR (t.setLchild l) errs1
  | .crash => .crash
  | .nofuel => .nofuel

/-- Function `TypeTranArray`: the diagnostic for a base without declarator
does not change the status. -/
def TypeTranArray (TT : TypeTranFn) (t : ExpTree) (errs : List String) : TRes ExpTree :=
  match TT (some t) (TREE_lchild t) errs with
  | .ok .ST_SUCC l errs1 =>
    let t1 := t.setLchild l
    match TT (some t1) (TREE_rchild t1) errs1 with
    | .ok .ST_SUCC r errs2 =>
      let t2 := t1.setRchild r
      match (result_of l).bind cp_type_name with
      | none => .crash
      | some td =>
        match PURE_DECL td with
        | [] =>
          .ok .ST_SUCC (t2.setResult (some td))
            (errs2 ++ ["The referrence of array is not match with its declaration."])
        | .ARRAY _ _ _ :: next => .ok .ST_SUCC (t2.setResult (some (td.setPure next))) errs2
        | .POINTER _ _ :: next => .ok .ST_SUCC (t2.setResult (some (td.setPure next))) errs2
        | _ :: _ => .ok .ST_SUCC (t2.setResult (some td)) errs2
    | .ok .ST_ERR r errs2 => .ok .ST_ERR (t1.setRchild r) errs2
    | .crash => .crash
    | .nofuel => .nofuel
  | .ok .ST_ERR l errs1 => .ok .ST_ERR (t.setLchild l) errs1
  | .crash => .crash
  | .nofuel => .nofuel

/-- Function `TypeTranCall`: the arguments are typed before the function
expression.  `DECL_dt(pure)` dereferences the pure declarator list;
`ASSERTN(pure == nullptr || DECL_dt(pure) != DCL_FUN)`. -/
def TypeTranCall (TT : TypeTranFn) (t : ExpTree) (errs : List String) : TRes ExpTree :=
  match TT (some t) (TREE_rchild t) errs with
  | .ok .ST_SUCC ps errs1 =>
    let t1 := t.setRchild ps
    match TT (some t1) (TREE_lchild t1) errs1 with
    | .ok .ST_SUCC f errs2 =>
      match insertCvtForParams (t1.setLchild f) with
      | none => .crash
      | some t3 =>
        match result_of (TREE_lchild t3) with
        | none => .crash
        | some ld =>
          let pure : Option (List DeclNode) :=
            match PURE_DECL ld with
            | [] => none
            | .FUN _ _ :: next => some next
            | .POINTER _ _ :: .FUN _ _ :: next => some next
            | p :: next => some (p :: next)
          match pure with
          | none => .crash
          | some (.FUN _ _ :: _) => .crash
          | some pure1 =>
            .ok .ST_SUCC (t3.setResult (some ((buildTypeName (DECL_spec ld)).setPure pure1)))
              errs2
    | .ok .ST_ERR f errs2 => .ok .ST_ERR (t1.setLchild f) errs2
    | .crash => .crash
    | .nofuel => .nofuel
  | .ok .ST_ERR ps errs1 => .ok .ST_ERR (t.setRchild ps) errs1
  | .crash => .crash
  | .nofuel => .nofuel

/-- The part of `TypeTranAdditive` for `+` on the result types of the
operands: the status, the result types of the left operand, the right
operand and the node, and the diagnostics; `ASSERTN(0)` for operands that
fit no rule. -/
def TypeTranAdditive_add (type : TREE_TYPE) (ld rd : Decl) (errs : List String) :
    TRes (Decl × Decl × Option Decl) :=
  if is_pointer ld && is_pointer rd then
    .ok .ST_ERR (ld, rd, none) (errs ++ ["can not add two pointers"])
  else if is_array ld && is_array rd then
    .ok .ST_ERR (ld, rd, none) (errs ++ ["can not add two arrays"])
  else
    let aggr : Option Bool :=
      if !is_pointer ld then
        match is_struct ld with
        | none => none
        | some true => some true
        | some false => is_union rd
      else some false
    match aggr with
    | none => .crash
    | some true => .ok .ST_ERR (ld, rd, none) (errs ++ ["illegal '+' for struct/union"])
    | some false =>
      let ld1 := if is_pointer rd then rd else ld
      let rd1 := if is_pointer rd then ld else rd
      if is_array ld1 && is_integer rd1 then
        .ok .ST_SUCC (ld1, rd1, some (buildPointerType (DECL_spec ld1))) errs
      else if is_pointer ld1 && is_integer rd1 then .ok .ST_SUCC (ld1, rd1, some ld1) errs
      else if is_arith ld1 && is_arith rd1 then
        match buildBinaryOpType type ld1 rd1 with
        | none => .crash
        | some ty => .ok .ST_SUCC (ld1, rd1, some ty) errs
      else .crash

/-- The part of `TypeTranAdditive` for `-`. -/
def TypeTranAdditive_sub (type : TREE_TYPE) (ld rd : Decl) (errs : List String) :
    TRes (Option Decl) :=
  if !is_pointer ld && is_pointer rd then
    .ok .ST_ERR none (errs ++ ["pointer can only be subtracted from another pointer"])
  else
    let aggr (d : Decl) : Option Bool :=
      if !is_pointer d then
        match is_struct_spec (DECL_spec d) with
        | none => none
        | some true => some true
        | some false => is_union_spec (DECL_spec d)
      else some false
    match aggr ld with
    | none => .crash
    | some true => .ok .ST_ERR none (errs ++ ["illegal '-' for struct/union"])
    | some false =>
      match aggr rd with
      | none => .crash
      | some true => .ok .ST_ERR none (errs ++ ["illegal '-' for struct/union"])
      | some false =>
        if is_pointer ld && is_pointer rd then
          match BUILD_TYNAME (T_SPEC_UNSIGNED ||| T_SPEC_LONG) with
          | none => .crash
          | some ty => .ok .ST_SUCC (some ty) errs
        else if is_pointer ld && is_integer rd then .ok .ST_SUCC (some ld) errs
        else if is_arith ld && is_arith rd then
          match buildBinaryOpType type ld rd with
          | none => .crash
          | some ty => .ok .ST_SUCC (some ty) errs
        else .crash

/-- Function `TypeTranAdditive`; `ASSERTN(0)` for a token that is neither `+`
nor `-`.  For `+` with a pointer on the right the result types of the two
children are swapped in place. -/
def TypeTranAdditive (TT : TypeTranFn) (t : ExpTree) (errs : List String) : TRes ExpTree :=
  match TypeTran_operands TT t errs with
  | .ok .ST_SUCC (t2, some (ld, rd)) errs2 =>
    if TREE_token t = .T_ADD then
      match TypeTranAdditive_add (TREE_type t) ld rd errs2 with
      | .ok st (ld1, rd1, res) errs3 =>
        let t3 := (t2.setLchild (set_head_result (TREE_lchild t2) (some ld1))).setRchild
          (set_head_result (TREE_rchild t2) (some rd1))
        match res with
        | some ty => .ok st (t3.setResult (some ty)) errs3
        | none => .ok st t3 errs3
      | .crash => .crash
      | .nofuel => .nofuel
    else if TREE_token t = .T_SUB then
      match TypeTranAdditive_sub (TREE_type t) ld rd errs2 with
      | .ok st (some ty) errs3 => .ok st (t2.setResult (some ty)) errs3
      | .ok st none errs3 => .ok st t2 errs3
      | .crash => .crash
      | .nofuel => .nofuel
    else .crash
  | .ok _ (t2, _) errs2 => .ok .ST_ERR t2 errs2
  | .crash => .crash
  | .nofuel => .nofuel

/-- Function `TypeTranBinaryLogical`. -/
def TypeTranBinaryLogical (TT : TypeTranFn) (t : ExpTree) (errs : List String) :
    TRes ExpTree :=
  match TypeTran_operands TT t errs with
  | .ok .ST_SUCC (t2, some (ld, rd)) errs2 =>
    if is_pointer ld || is_array ld then
      .ok .ST_ERR t2 (errs2 ++ ["illegal left operand"])
    else if is_pointer rd || is_array rd then
      .ok .ST_ERR t2 (errs2 ++ ["illegal right operand"])
    else
      match is_struct_spec (DECL_spec ld), is_struct_spec (DECL_spec rd),
        is_union_spec (DECL_spec ld), is_union_spec (DECL_spec rd) with
      | some false, some false, some false, some false =>
        match buildBinaryOpType (TREE_type t) ld rd with
        | none => .crash
        | some ty => .ok .ST_SUCC (t2.setResult (some ty)) errs2
      | some true, _, _, _ => .ok .ST_ERR t2 (errs2 ++ ["illegal for struct/union"])
      | some false, some true, _, _ => .ok .ST_ERR t2 (errs2 ++ ["illegal for struct/union"])
      | some false, some false, some true, _ =>
        .ok .ST_ERR t2 (errs2 ++ ["illegal for struct/union"])
      | some false, some false, some false, some true =>
        .ok .ST_ERR t2 (errs2 ++ ["illegal for struct/union"])
      | _, _, _, _ => .crash
  | .ok _ (t2, _) errs2 => .ok .ST_ERR t2 errs2
  | .crash => .crash
  | .nofuel => .nofuel

/-- Function `TypeTranBinaryRelation`. -/
def TypeTranBinaryRelation (TT : TypeTranFn) (t : ExpTree) (errs : List String) :
    TRes ExpTree :=
  match TypeTran_operands TT t errs with
  | .ok .ST_SUCC (t2, some (ld, rd)) errs2 =>
    let aggr (d : Decl) : Option Bool :=
      match is_struct_spec (DECL_spec d) with
      | none => none
      | some true => some (!is_pointer d)
      | some false =>
        match is_union_spec (DECL_spec d) with
        | none => none
        | some u => some (u && !is_pointer d)
    match aggr ld with
    | none => .crash
    | some true =>
      .ok .ST_ERR t2 (errs2 ++ ["can not do operation for struct/union."])
    | some false =>
      match aggr rd with
      | none => .crash
      | some true =>
        .ok .ST_ERR t2 (errs2 ++ ["can not do operation for struct/union."])
      | some false =>
        match BUILD_TYNAME (T_SPEC_UNSIGNED ||| T_SPEC_CHAR) with
        | none => .crash
        | some ty => .ok .ST_SUCC (t2.setResult (some ty)) errs2
  | .ok _ (t2, _) errs2 => .ok .ST_ERR t2 errs2
  | .crash => .crash
  | .nofuel => .nofuel

/-- Function `TypeTranInitValScope`: the status of the call on the elements
is not tested.  The assertions read the parent, an assignment with an
identifier on the left. -/
def TypeTranInitValScope (TT : TypeTranFn) (parent : Option ExpTree) (t : ExpTree)
    (errs : List String) : TRes ExpTree :=
  match parent with
  | none => .crash
  | some p =>
    if TREE_type p ≠ .TR_ASSIGN then .crash
    else
      match TREE_lchild p with
      | [] => .crash
      | lc :: _ =>
        if TREE_type lc ≠ .TR_ID then .crash
        else
          match TREE_id_decl lc with
          | none => .crash
          | some decl =>
            let aggr : Option Bool :=
              if is_array decl then some true
              else
                match is_struct decl with
                | none => none
                | some true => some true
                | some false => is_union decl
            match aggr with
            | some true =>
              match TT (some t) (TREE_lchild t) errs with
              | .ok _ l errs1 => .ok .ST_SUCC ((t.setLchild l).setResult (some decl)) errs1
              | .crash => .crash
              | .nofuel => .nofuel
            | _ => .crash

/-- Modelled from the spec: the macro `GET_HIGH_32BIT` is not under src/; the
upper half of the 64-bit value. -/
def GET_HIGH_32BIT (v : Int) : Nat := toULONGLONG v / 2 ^ 32

/-- Modelled from the spec: the list helper `insertafter` of the xcom library
is not under src/.  Its only call, in the rule for `&e`, is
`insertafter(&PURE_DECL(td), new_decl(DCL_POINTER))`; by section 4.9 of the
spec the rule puts the new POINTER in front of the copied chain, and the
helper is modelled so. -/
def insertafter {α : Type} (marker : List α) (t : α) : List α := t :: marker

/-- The rule of `TypeTran` for a node with one operand whose type is kept:
`TR_PLUS`, `TR_MINUS`, `TR_REV`, `TR_NOT`.  `bad` is the test that reports
the diagnostic; the status stays `ST_SUCC`. -/
def TypeTran_unary (TT : TypeTranFn) (bad : Decl → Bool) (msg : String) (t : ExpTree)
    (errs : List String) : TRes ExpTree :=
  match TT (some t) (TREE_lchild t) errs with
  | .ok .ST_SUCC l errs1 =>
    match result_of l with
    | none => .crash
    | some ld =>
      .ok .ST_SUCC ((t.setLchild l).setResult (some ld))
        (if bad ld then errs1 ++ [msg] else errs1)
  | .ok .ST_ERR l errs1 => .ok .ST_ERR (t.setLchild l) errs1
  | .crash => .crash
  | .nofuel => .nofuel

/-- The rule of `TypeTran` for a node whose children are visited in the order
of the slots and that gets the result type `res`, if any: `TR_LOGIC_OR`,
`TR_LOGIC_AND` and the statements. -/
def TypeTran_children (TT : TypeTranFn) (slots : Nat) (res : Option Decl) (t : ExpTree)
    (errs : List String) : TRes ExpTree :=
  match TT (some t) (TREE_lchild t) errs with
  | .ok .ST_SUCC l errs1 =>
    let t1 := t.setLchild l
    if slots ≤ 1 then .ok .ST_SUCC (if res.isSome then t1.setResult res else t1) errs1
    else
      match TT (some t1) (TREE_rchild t1) errs1 with
      | .ok .ST_SUCC r errs2 =>
        let t2 := t1.setRchild r
        if slots ≤ 2 then .ok .ST_SUCC (if res.isSome then t2.setResult res else t2) errs2
        else
          match TT (some t2) (TREE_if_false_stmt t2) errs2 with
          | .ok st f errs3 =>
            let t3 := t2.setIfFalseStmt f
            .ok st (if st = .ST_SUCC ∧ res.isSome then t3.setResult res else t3) errs3
          | .crash => .crash
          | .nofuel => .nofuel
      | .ok .ST_ERR r errs2 => .ok .ST_ERR (t1.setRchild r) errs2
      | .crash => .crash
      | .nofuel => .nofuel
  | .ok .ST_ERR l errs1 => .ok .ST_ERR (t.setLchild l) errs1
  | .crash => .crash
  | .nofuel => .nofuel

/-- Modelled from the spec: `is_imm_int` of the tree module is not under
src/; the node is an integer constant. -/
def is_imm_int (t : ExpTree) : Bool :=
  TREE_type t = .TR_IMM || TREE_type t = .TR_IMMU || TREE_type t = .TR_IMML ||
    TREE_type t = .TR_IMMUL

/-- Function `is_valid_type_name`. -/
def is_valid_type_name (dcl : Decl) : Bool :=
  if dcl.dt = .DCL_TYPE_NAME ∧ (DECL_decl_list dcl).dt = .DCL_ABS_DECLARATOR then
    match PURE_DECL dcl with
    | [] => true
    | .ARRAY _ _ _ :: _ => true
    | .POINTER _ _ :: _ => true
    | .FUN _ _ :: _ => true
    | _ :: _ => false
  else false

/-- The tests of `TypeTranCond` on the result types `td` and `fd` of the two
parts, `tp` and `fp` being the nodes of the parts: the diagnostic, if one is
reported; no result for a failed assertion of `is_struct` or `is_union`. -/
def TypeTranCond_check (td fd : Decl) (tp fp : ExpTree) : Option (Option String) :=
  if is_pointer td && !is_pointer fd then
    if !is_imm_int fp || TREE_imm_val fp ≠ 0 then
      some (some "no conversion from pointer to non-pointer")
    else some none
  else if !is_pointer td && is_pointer fd then
    if !is_imm_int tp || TREE_imm_val tp ≠ 0 then
      some (some "no conversion from pointer to non-pointer")
    else some none
  else if is_array td && !is_array fd then some (some "no conversion from array to non-array")
  else if !is_array td && is_array fd then some (some "no conversion from non-array to array")
  else
    let both (f : Decl → Option Bool) : Option Bool :=
      match f td with
      | none => none
      | some false => some false
      | some true => (f fd).map fun b => !b
    match both is_struct with
    | none => none
    | some true => some (some "can not select between struct and non-struct")
    | some false =>
      match both is_union with
      | none => none
      | some true => some (some "can not select between union and non-union")
      | some false => some none

/-- Function `TypeTranCond`; `ASSERT0(td && fd)`. -/
def TypeTranCond (TT : TypeTranFn) (t : ExpTree) (errs : List String) : TRes ExpTree :=
  match TypeTran_children TT 3 none t errs with
  | .ok .ST_SUCC t3 errs3 =>
    match TREE_rchild t3, TREE_if_false_stmt t3 with
    | tp :: _, fp :: _ =>
      match TREE_result_type tp, TREE_result_type fp with
      | some td, some fd =>
        match TypeTranCond_check td fd tp fp with
        | none => .crash
        | some (some msg) => .ok .ST_ERR t3 (errs3 ++ [msg])
        | some none => .ok .ST_SUCC (t3.setResult (some td)) errs3
      | _, _ => .crash
    | _, _ => .crash
  | .ok .ST_ERR t3 errs3 => .ok .ST_ERR t3 errs3
  | .crash => .crash
  | .nofuel => .nofuel

/-- Function `TypeTranSizeof` up to its last statement, `return TypeTran(t,
cont)`, which the loop of `TypeTran` makes: the node with `TREE_type` and
`TREE_imm_val` written, `INT size` being the size as an `INT`.
`ASSERTN(is_valid_type_name(type_name))`, `ASSERT0(TREE_type_name(kid))`,
`ASSERT0(TREE_result_type(kid))`, `ASSERT0(size != 0)` and the assertions
of `get_decl_size`. -/
def TypeTranSizeof (ptr : Nat) (TT : TypeTranFn) (t : ExpTree) (errs : List String) :
    TRes ExpTree :=
  let fin (t1 : ExpTree) (size : Option Nat) (errs1 : List String) : TRes ExpTree :=
    match size with
    | none => .crash
    | some sz =>
      if toINT sz = 0 then .crash else .ok .ST_SUCC (t1.setImm .TR_IMMU (toINT sz)) errs1
  match TREE_lchild t with
  | [] => .ok .ST_ERR t (errs ++ ["miss expression after sizeof"])
  | kid :: ksib =>
    if TREE_type kid = .TR_TYPE_NAME then
      match TREE_type_name kid with
      | none => .crash
      | some type_name0 =>
        if IS_USER_TYPE_REF (DECL_spec type_name0) then
          match expand_user_type type_name0 with
          | none => .crash
          | some type_name =>
            if !is_valid_type_name type_name then .crash
            else
              fin (t.setLchild (kid.setTypeName (some type_name) :: ksib))
                (get_decl_size ptr type_name) errs
        else fin t (get_decl_size ptr type_name0) errs
    else
      match TT (some t) (kid :: ksib) errs with
      | .ok .ST_SUCC ks errs1 =>
        match result_of ks with
        | none => .crash
        | some rt => fin (t.setLchild ks) (get_decl_size ptr rt) errs1
      | .ok .ST_ERR ks errs1 => .ok .ST_ERR (t.setLchild ks) errs1
      | .crash => .crash
      | .nofuel => .nofuel

/-- Functions `TypeTranDMem`, for `arrow` false, and `TypeTranInDMem`, which
differ in the test of `is_pointer(ld)` and in the diagnostics.  The call
`TypeTran(TREE_field(t), cont)` with `is_field` set is the call of
`TypeTranID` on the field.  `ASSERTN(TREE_type(TREE_field(t)) == TR_ID)`;
`SYM_name` dereferences the name of the field. -/
def TypeTran_member (ptr : Nat) (TT : TypeTranFn) (arrow : Bool) (t : ExpTree)
    (errs : List String) : TRes ExpTree :=
  match TT (some t) (TREE_lchild t) errs with
  | .ok .ST_SUCC b errs1 =>
    let t1 := t.setLchild b
    match result_of b, TREE_field t1 with
    | some ld, some f =>
      if TREE_type f ≠ .TR_ID then .crash
      else if !IS_STRUCT (DECL_spec ld) && !IS_UNION (DECL_spec ld) then
        .ok .ST_ERR t1
          (errs1 ++ [if arrow then "left of '->' must have struct/union type"
            else "left of field access operation '.' must be struct/union type"])
      else
        match TypeTranID ptr ⟨true, b.head?⟩ (some t1) f errs1 with
        | .ok st (f1, cont1) errs2 =>
          let b1 :=
            match cont1.base_tree_node, b with
            | some bn, _ :: rest => bn :: rest
            | _, _ => b
          let t2 := (t1.setLchild b1).setField (some f1)
          if st = .ST_ERR then .ok .ST_ERR t2 errs2
          else if is_pointer ld ≠ arrow then
            match (TREE_id_decl f1).bind get_decl_sym with
            | none => .crash
            | some _ =>
              .ok .ST_ERR t2
                (errs2 ++ [if arrow then "left operand has 'struct' type, use '.'"
                  else "left operand points to 'struct' type, should use '->'"])
          else
            match TREE_result_type f1 with
            | none => .crash
            | some rd =>
              .ok .ST_SUCC
                (t2.setResult (some ((buildTypeName (DECL_spec rd)).setPure
                  (cp_decl_begin_at (PURE_DECL rd))))) errs2
        | .crash => .crash
        | .nofuel => .nofuel
    | _, _ => .crash
  | .ok .ST_ERR b errs1 => .ok .ST_ERR (t.setLchild b) errs1
  | .crash => .crash
  | .nofuel => .nofuel

/-- Function `TypeTranDMem`. -/
def TypeTranDMem (ptr : Nat) (TT : TypeTranFn) (t : ExpTree) (errs : List String) :
    TRes ExpTree := TypeTran_member ptr TT false t errs

/-- Function `TypeTranInDMem`. -/
def TypeTranInDMem (ptr : Nat) (TT : TypeTranFn) (t : ExpTree) (errs : List String) :
    TRes ExpTree := TypeTran_member ptr TT true t errs

/-- Function `TypeTranDeclInit` on the init trees of the declarations that
are initialized; `ASSERT0(inittree)`.  The root of an init tree has no
parent. -/
def TypeTranDeclInit (TT : TypeTranFn) : List (List ExpTree) → List String →
    TRes (List (List ExpTree))
  | [], errs => .ok .ST_SUCC [] errs
  | [] :: _, _ => .crash
  | (t :: ts) :: rest, errs =>
    match TT none (t :: ts) errs with
    | .ok .ST_SUCC out errs1 =>
      match TypeTranDeclInit TT rest errs1 with
      | .ok st outs errs2 => .ok st (out :: outs) errs2
      | .crash => .crash
      | .nofuel => .nofuel
    | .ok .ST_ERR out errs1 => .ok .ST_ERR (out :: rest) errs1
    | .crash => .crash
    | .nofuel => .nofuel

/-- The rule of `TypeTran` for `TR_SCOPE`: the initializers of the
declarations of the scope, then its statements. -/
def TypeTran_scope (TT : TypeTranFn) (t : ExpTree) (errs : List String) : TRes ExpTree :=
  match TypeTranDeclInit TT (TREE_scope_inits t) errs with
  | .ok .ST_SUCC inits errs1 =>
    TypeTran_children TT 1 none (t.setScopeInits inits) errs1
  | .ok .ST_ERR inits errs1 => .ok .ST_ERR (t.setScopeInits inits) errs1
  | .crash => .crash
  | .nofuel => .nofuel

/-- The rule of `TypeTran` for `TR_FOR`: the initializers of the
declarations of `TREE_for_scope`, then `TREE_for_init`, `TREE_for_det`,
`TREE_for_step` and `TREE_for_body`. -/
def TypeTran_for (TT : TypeTranFn) (t : ExpTree) (errs : List String) : TRes ExpTree :=
  match TypeTranDeclInit TT (TREE_scope_inits t) errs with
  | .ok .ST_SUCC inits errs1 =>
    match TypeTran_children TT 3 none (t.setScopeInits inits) errs1 with
    | .ok .ST_SUCC t3 errs3 =>
      match TT (some t3) (TREE_for_body t3) errs3 with
      | .ok st b errs4 => .ok st (t3.setForBody b) errs4
      | .crash => .crash
      | .nofuel => .nofuel
    | .ok .ST_ERR t3 errs3 => .ok .ST_ERR t3 errs3
    | .crash => .crash
    | .nofuel => .nofuel
  | .ok .ST_ERR inits errs1 => .ok .ST_ERR (t.setScopeInits inits) errs1
  | .crash => .crash
  | .nofuel => .nofuel

/-- The body of the loop of `TypeTran` for one node: the `switch` on
`TREE_type(t)`, for a context whose `is_field` is false.  `ASSERTN(0)` for
`TR_TYPE_NAME` and for an unknown kind. -/
def TypeTran_node (ptr : Nat) (TT : TypeTranFn) (parent : Option ExpTree) (t : ExpTree)
    (errs : List String) : TRes ExpTree :=
  let imm (des : Nat) : TRes ExpTree :=
    match BUILD_TYNAME des with
    | none => .crash
    | some ty => .ok .ST_SUCC (t.setResult (some ty)) errs
  match TREE_type t with
  | .TR_ASSIGN => TypeTranAssign TT t errs
  | .TR_ID => (TypeTranID ptr ⟨false, none⟩ parent t errs).mapVal Prod.fst
  | .TR_IMM =>
    if GET_HIGH_32BIT (TREE_imm_val t) ≠ 0 then imm (T_SPEC_LONGLONG ||| T_QUA_CONST)
    else imm (T_SPEC_INT ||| T_QUA_CONST)
  | .TR_IMMU =>
    if GET_HIGH_32BIT (TREE_imm_val t) ≠ 0 then
      imm (T_SPEC_UNSIGNED ||| T_SPEC_LONGLONG ||| T_QUA_CONST)
    else imm (T_SPEC_UNSIGNED ||| T_SPEC_INT ||| T_QUA_CONST)
  | .TR_IMML => imm (T_SPEC_LONGLONG ||| T_QUA_CONST)
  | .TR_IMMUL => imm (T_SPEC_UNSIGNED ||| T_SPEC_LONGLONG ||| T_QUA_CONST)
  | .TR_FP => imm (T_SPEC_DOUBLE ||| T_QUA_CONST)
  | .TR_FPLD => imm (T_SPEC_DOUBLE ||| T_QUA_CONST)
  | .TR_FPF => imm (T_SPEC_FLOAT ||| T_QUA_CONST)
  | .TR_ENUM_CONST => imm (T_SPEC_ENUM ||| T_QUA_CONST)
  | .TR_STRING =>
    match BUILD_TYNAME (T_SPEC_CHAR ||| T_QUA_CONST), TREE_string_val t with
    | some tn, some s =>
      .ok .ST_SUCC
        (t.setResult (some (tn.setPure
          (add_next (PURE_DECL tn) [.ARRAY none ((s.utf8ByteSize : Int) + 1) false])))) errs
    | _, _ => .crash
  | .TR_LOGIC_OR | .TR_LOGIC_AND =>
    match BUILD_TYNAME (T_SPEC_UNSIGNED ||| T_SPEC_CHAR) with
    | none => .crash
    | some ty => TypeTran_children TT 2 (some ty) t errs
  | .TR_INCLUSIVE_OR | .TR_XOR | .TR_INCLUSIVE_AND | .TR_SHIFT =>
    TypeTranBinaryLogical TT t errs
  | .TR_EQUALITY | .TR_RELATION => TypeTranBinaryRelation TT t errs
  | .TR_ADDITIVE => TypeTranAdditive TT t errs
  | .TR_MULTI => TypeTranMulti TT t errs
  | .TR_INITVAL_SCOPE => TypeTranInitValScope TT parent t errs
  | .TR_IF => TypeTran_children TT 3 none t errs
  | .TR_DO | .TR_WHILE | .TR_SWITCH => TypeTran_children TT 2 none t errs
  | .TR_BREAK | .TR_CONTINUE | .TR_GOTO | .TR_LABEL | .TR_DEFAULT | .TR_CASE =>
    .ok .ST_SUCC t errs
  | .TR_RETURN => TypeTran_children TT 1 none t errs
  | .TR_CVT =>
    match TT (some t) (TREE_rchild t) errs with
    | .ok .ST_SUCC c errs1 =>
      let t1 := t.setRchild c
      match (TREE_lchild t1).head?.bind TREE_type_name with
      | none => .crash
      | some type_name =>
        if IS_USER_TYPE_REF (DECL_spec type_name) then
          match expand_user_type type_name with
          | none => .crash
          | some tn =>
            if !is_valid_type_name tn then .crash
            else .ok .ST_SUCC (t1.setResult (some tn)) errs1
        else .ok .ST_SUCC (t1.setResult (some type_name)) errs1
    | .ok .ST_ERR c errs1 => .ok .ST_ERR (t.setRchild c) errs1
    | .crash => .crash
    | .nofuel => .nofuel
  | .TR_LDA =>
    match TT (some t) (TREE_lchild t) errs with
    | .ok .ST_SUCC l errs1 =>
      match (result_of l).bind cp_type_name with
      | none => .crash
      | some td =>
        .ok .ST_SUCC
          ((t.setLchild l).setResult
            (some (td.setPure (insertafter (PURE_DECL td) (.POINTER 0 false))))) errs1
    | .ok .ST_ERR l errs1 => .ok .ST_ERR (t.setLchild l) errs1
    | .crash => .crash
    | .nofuel => .nofuel
  | .TR_DEREF => TypeTranDeref TT t errs
  | .TR_PLUS | .TR_MINUS =>
    TypeTran_unary TT (fun ld => !is_arith ld || is_array ld || is_pointer ld)
      "illegal positive or minus" t errs
  | .TR_REV =>
    TypeTran_unary TT (fun ld => !is_integer ld || is_array ld || is_pointer ld)
      "illegal bit reverse operation" t errs
  | .TR_NOT =>
    TypeTran_unary TT (fun ld => !is_arith ld && !is_pointer ld)
      "illegal logical not operation" t errs
  | .TR_INC | .TR_POST_INC | .TR_DEC | .TR_POST_DEC => TypeTranPreAndPostInc TT t errs
  | .TR_CALL => TypeTranCall TT t errs
  | .TR_ARRAY => TypeTranArray TT t errs
  | .TR_PRAGMA | .TR_PREP => .ok .ST_SUCC t errs
  | .TR_SCOPE => TypeTran_scope TT t errs
  | .TR_FOR => TypeTran_for TT t errs
  | .TR_COND => TypeTranCond TT t errs
  | .TR_SIZEOF => TypeTranSizeof ptr TT t errs
  | .TR_DMEM => TypeTranDMem ptr TT t errs
  | .TR_INDMEM => TypeTranInDMem ptr TT t errs
  | .TR_TYPE_NAME | .TR_NUL => .crash

/-- Function `TypeTran` on the sibling list from `t` on, with the parent of
its nodes, for a context whose `is_field` is false: the loop ends with
`ST_ERR` at the first node that fails.  For a `sizeof` the call
`TypeTran(t, cont)` with which `TypeTranSizeof` returns goes over the node,
now a constant, and over its siblings; the loop then goes on with the
siblings once more.  One unit of the iteration bound for every node and
every level. -/
def TypeTran (ptr : Nat) : Nat → TypeTranFn
  | 0, _, _, _ => .nofuel
  | _ + 1, _, [], errs => .ok .ST_SUCC [] errs
  | fuel + 1, parent, t :: nsib, errs =>
    match TypeTran_node ptr (TypeTran ptr fuel) parent t errs with
    | .ok .ST_SUCC t1 errs1 =>
      if TREE_type t = .TR_SIZEOF then
        match TypeTran ptr fuel parent (t1 :: nsib) errs1 with
        | .ok .ST_SUCC [] _ => .crash
        | .ok .ST_SUCC (t2 :: nsib1) errs2 =>
          match TypeTran ptr fuel parent nsib1 errs2 with
          | .ok st ts errs3 => .ok st (t2 :: ts) errs3
          | .crash => .crash
          | .nofuel => .nofuel
        | .ok .ST_ERR out errs2 => .ok .ST_ERR out errs2
        | .crash => .crash
        | .nofuel => .nofuel
      else
        match TypeTran ptr fuel parent nsib errs1 with
        | .ok st ts errs2 => .ok st (t1 :: ts) errs2
        | .crash => .crash
        | .nofuel => .nofuel
    | .ok .ST_ERR t1 errs1 => .ok .ST_ERR (t1 :: nsib) errs1
    | .crash => .crash
    | .nofuel => .nofuel

/-- The first statements of the loop of `post_init_declarator_list` for the
declarator `dcl`: the new `DCL_DECLARATION` with `DECL_spec`,
`DECL_decl_list` and `DECL_align` set. -/
def post_init_declarator_list_new (type_spec : TypeSpec) (dcl : Declarator)
    (g_alignment : Nat) : Decl :=
  .mk .DCL_DECLARATION type_spec dcl false false 0 g_alignment

/-- The first statements of `declaration` for a declaration with one
declarator whose specifier is no enum: `declaration_spec`,
`extract_qualifier` into a new qualifier, `complement_qua`,
`init_declarator` with the qualifier, and the new declaration of
`post_init_declarator_list`.  What follows in the source, the registries of
the scope, the expansion of a typedef reference, function definitions, the
checks of the new declaration and the final `;`, is not embedded. -/
def declaration_head (S : SpecCollab) (E : Collab) (fuel : Nat) (st : PState) :
    PRes (Option Decl) :=
  match declaration_spec S fuel st with
  | .ok none st1 => .ok none st1
  | .ok (some type_spec) st1 =>
    let r := extract_qualifier type_spec (TYPE_des new_type)
    match init_declarator E fuel r.2 st1 with
    | .ok none st2 => .ok none st2
    | .ok (some dcl) st2 =>
      .ok (some (post_init_declarator_list_new (complement_qua r.1) dcl E.g_alignment)) st2
    | .crash => .crash
    | .nofuel => .nofuel
  | .crash => .crash
  | .nofuel => .nofuel

/-! ## Printing declarations (decl.cpp)

The `StrBuf` is a string and `strcat` appends to it.  The functions return
the buffer and the diagnostics; the status that they return in the source is
not read by any caller.  The functions that call each other through the
members of an aggregate, the parameters of a function or a typedef take an
iteration bound `fuel`, one unit for every call. -/

/-- Outcome of a printing function: the buffer and the diagnostics, or a
failed assertion or null dereference, or the iteration bound `fuel` of the
embedding was too small for the input. -/
inductive FRes where
  | ok (buf : String) (errs : List String)
  | crash
  | nofuel

/-- Function `format_stor_spec`. -/
def format_stor_spec (buf : String) (ty : TypeSpec) : String :=
  let buf := if HAVE_FLAG (TYPE_des ty) T_STOR_REG then buf ++ "register " else buf
  let buf := if HAVE_FLAG (TYPE_des ty) T_STOR_STATIC then buf ++ "static " else buf
  let buf := if IS_EXTERN ty then buf ++ "extern " else buf
  if IS_TYPEDEF ty then buf ++ "typedef " else buf

/-- Function `format_quan_spec`. -/
def format_quan_spec (buf : String) (ty : TypeSpec) : String :=
  let buf := if IS_CONST (TYPE_des ty) then buf ++ "const " else buf
  if IS_VOLATILE (TYPE_des ty) then buf ++ "volatile " else buf

/-- Function `format_base_type_spec`; nothing is printed when the specifier
is no simple base type. -/
def format_base_type_spec (buf : String) (ty : TypeSpec) : String :=
  if !is_simple_base_type_spec ty then buf
  else
    let buf := if HAVE_FLAG (TYPE_des ty) T_SPEC_SIGNED then buf ++ "signed " else buf
    let buf := if HAVE_FLAG (TYPE_des ty) T_SPEC_UNSIGNED then buf ++ "unsigned " else buf
    let buf := if HAVE_FLAG (TYPE_des ty) T_SPEC_CHAR then buf ++ "char " else buf
    let buf := if HAVE_FLAG (TYPE_des ty) T_SPEC_SHORT then buf ++ "short " else buf
    let buf := if HAVE_FLAG (TYPE_des ty) T_SPEC_LONG then buf ++ "long " else buf
    let buf := if HAVE_FLAG (TYPE_des ty) T_SPEC_INT then buf ++ "int " else buf
    let buf := if HAVE_FLAG (TYPE_des ty) T_SPEC_LONGLONG then buf ++ "longlong " else buf
    let buf := if HAVE_FLAG (TYPE_des ty) T_SPEC_FLOAT then buf ++ "float " else buf
    let buf := if HAVE_FLAG (TYPE_des ty) T_SPEC_DOUBLE then buf ++ "double " else buf
    if HAVE_FLAG (TYPE_des ty) T_SPEC_VOID then buf ++ "void " else buf

/-- Function `format_enum_complete` on an `Enum`. -/
def format_enum_complete_enum (buf : String) (e : Option Enum) : String :=
  match e with
  | none => buf
  | some e =>
    let buf := match e.name with
      | some n => buf ++ n ++ " "
      | none => buf
    match e.vallist with
    | [] => buf
    | evs => (evs.foldl (fun b ev => b ++ ev.name ++ " ") (buf ++ "\x7b")) ++ "\x7d "

/-- Function `format_enum_complete` on a specifier. -/
def format_enum_complete (buf : String) (ty : TypeSpec) : String :=
  format_enum_complete_enum (buf ++ "enum ") (TYPE_enum_type ty)

/-- Function `format_struct_union`: the keyword and the tag;
`ASSERT0(s)` on the aggregate. -/
def format_struct_union (buf : String) (errs : List String) (ty : TypeSpec) : FRes :=
  if IS_STRUCT ty ∨ IS_UNION ty then
    let buf1 := if IS_STRUCT ty then buf ++ "struct " else buf ++ "union "
    match TYPE_aggr_type ty with
    | none => .crash
    | some s =>
      match AGGR_tag s with
      | some tag => .ok (buf1 ++ tag ++ " ") errs
      | none => .ok buf1 errs
  else .ok buf (errs ++ ["expected a struct or union"])

/-- The text of `buf.strcat("[%lld]", v)`. -/
def format_array_dim (v : Int) : String := "[" ++ toString v ++ "]"

/-- The qualifiers that `format_dcrl_reverse` prints in front of a `*`, and
the blank when there is none. -/
def format_pointer_qua (buf : String) (quan : Nat) : String :=
  let b1 := if IS_CONST quan then buf ++ "const " else buf
  let b2 := if IS_VOLATILE quan then b1 ++ "volatile " else b1
  let b3 := if IS_RESTRICT quan then b2 ++ "restrict " else b2
  if IS_CONST quan || IS_VOLATILE quan || IS_RESTRICT quan then b3 else b3 ++ " "

/-- The qualifiers that `format_dcrl_reverse` prints in front of an
identifier, and the blank when there is none. -/
def format_id_qua (buf : String) (quan : Nat) : String :=
  let b1 := if IS_VOLATILE quan then buf ++ "volatile " else buf
  let b2 := if IS_CONST quan then b1 ++ "const " else b1
  if IS_VOLATILE quan || IS_CONST quan then b2 else b2 ++ " "

mutual
/-- Function `format_declaration` on a declaration or type name. -/
def format_declaration : Nat → String → List String → Decl → FRes
  | 0, _, _, _ => .nofuel
  | fuel + 1, buf, errs, decl =>
    if decl.dt = .DCL_DECLARATION ∨ decl.dt = .DCL_TYPE_NAME then
      match format_decl_spec fuel buf errs (DECL_spec decl) (is_pointer decl) with
      | .ok buf1 errs1 =>
        format_declarator fuel buf1 errs1 (DECL_spec decl) (DECL_decl_list decl)
      | .crash => .crash
      | .nofuel => .nofuel
    else .crash
/-- Function `format_decl_spec`. -/
def format_decl_spec : Nat → String → List String → TypeSpec → Bool → FRes
  | 0, _, _, _, _ => .nofuel
  | fuel + 1, buf, errs, ty, is_ptr =>
    let buf1 := format_quan_spec (format_stor_spec buf ty) ty
    if IS_STRUCT ty || IS_UNION ty then
      if is_ptr then format_struct_union buf1 errs ty
      else format_struct_union_complete fuel buf1 errs ty
    else if HAVE_FLAG (TYPE_des ty) T_SPEC_ENUM then .ok (format_enum_complete buf1 ty) errs
    else if is_simple_base_type_spec ty then .ok (format_base_type_spec buf1 ty) errs
    else if IS_USER_TYPE_REF ty then format_user_type_spec fuel buf1 errs ty
    else .ok buf1 errs
/-- Function `format_struct_union_complete`: the status of
`format_struct_union` is not read. -/
def format_struct_union_complete : Nat → String → List String → TypeSpec → FRes
  | 0, _, _, _ => .nofuel
  | fuel + 1, buf, errs, ty =>
    match format_struct_union buf errs ty with
    | .ok buf1 errs1 =>
      match TYPE_aggr_type ty with
      | none => .ok buf1 errs1
      | some s =>
        match format_members fuel (buf1 ++ "\x7b") errs1 (AGGR_decl_list s) with
        | .ok buf2 errs2 => .ok (buf2 ++ "\x7d") errs2
        | .crash => .crash
        | .nofuel => .nofuel
    | .crash => .crash
    | .nofuel => .nofuel
/-- Loop over the members in `format_struct_union_complete`. -/
def format_members : Nat → String → List String → List Decl → FRes
  | 0, _, _, _ => .nofuel
  | _ + 1, buf, errs, [] => .ok buf errs
  | fuel + 1, buf, errs, member :: rest =>
    match format_declaration fuel buf errs member with
    | .ok buf1 errs1 => format_members fuel (buf1 ++ "; ") errs1 rest
    | .crash => .crash
    | .nofuel => .nofuel
/-- Function `format_user_type_spec` on a specifier;
`ASSERT0(HAVE_FLAG(TYPE_des(ty), T_SPEC_USER_TYPE))` and `ASSERT0(ut)`. -/
def format_user_type_spec : Nat → String → List String → TypeSpec → FRes
  | 0, _, _, _ => .nofuel
  | fuel + 1, buf, errs, ty =>
    if !IS_USER_TYPE_REF ty then .crash
    else
      match TYPE_user_type ty with
      | none => .crash
      | some ut => format_declaration fuel buf errs ut
/-- Function `format_declarator` on the declarator of a declaration: the
walk to the last node of the chain is the reversal of the list. -/
def format_declarator : Nat → String → List String → TypeSpec → Declarator → FRes
  | 0, _, _, _, _ => .nofuel
  | fuel + 1, buf, errs, ty, decl =>
    let b : String := if DECL_bit_len decl ≠ 0 then ":" ++ toString (DECL_bit_len decl) else ""
    match DECL_child decl with
    | [] => .ok buf errs
    | n :: rest =>
      match format_dcrl_reverse fuel buf errs ty (n :: rest).reverse with
      | .ok buf1 errs1 => .ok (buf1 ++ b) errs1
      | .crash => .crash
      | .nofuel => .nofuel
/-- Function `format_dcrl_reverse` on a node and the nodes in front of it,
nearest first: the head of the list is `decl`, its tail is the walk along
`DECL_prev`.  `ASSERT0(!IS_RESTRICT(quan))` for an identifier,
`UNREACHABLE()` for an extern array of dimension 0 and `ASSERTN(0)` for a
`DCL_VARIABLE` node. -/
def format_dcrl_reverse : Nat → String → List String → TypeSpec → List DeclNode → FRes
  | 0, _, _, _, _ => .nofuel
  | _ + 1, buf, errs, _, [] => .ok buf errs
  | fuel + 1, buf, errs, ty, .POINTER quan is_paren :: prev =>
    let buf1 := format_pointer_qua buf quan ++ "* "
    if is_paren then
      match format_dcrl_reverse fuel (buf1 ++ "(") errs ty prev with
      | .ok buf2 errs2 => .ok (buf2 ++ ")") errs2
      | .crash => .crash
      | .nofuel => .nofuel
    else format_dcrl_reverse fuel buf1 errs ty prev
  | fuel + 1, buf, errs, ty, .ID sym quan is_paren :: prev =>
    if IS_RESTRICT quan then .crash
    else
      let buf1 := format_id_qua buf quan ++ sym ++ " "
      if is_paren then
        match format_dcrl_reverse fuel (buf1 ++ "(") errs ty prev with
        | .ok buf2 errs2 => .ok (buf2 ++ ")") errs2
        | .crash => .crash
        | .nofuel => .nofuel
      else format_dcrl_reverse fuel buf1 errs ty prev
  | fuel + 1, buf, errs, ty, .FUN ps _ :: prev =>
    let is_fun_pointer : Bool :=
      match prev with
      | .POINTER _ _ :: _ => true
      | _ => false
    let r :=
      if is_fun_pointer then
        match format_dcrl_reverse fuel (buf ++ "(") errs ty prev with
        | .ok buf2 errs2 => FRes.ok (buf2 ++ ")") errs2
        | .crash => .crash
        | .nofuel => .nofuel
      else format_dcrl_reverse fuel buf errs ty prev
    match r with
    | .ok buf3 errs3 =>
      match format_parameter_list fuel (buf3 ++ "(") errs3 ps with
      | .ok buf4 errs4 => .ok (buf4 ++ ")") errs4
      | .crash => .crash
      | .nofuel => .nofuel
    | .crash => .crash
    | .nofuel => .nofuel
  | fuel + 1, buf, errs, ty, .ARRAY _ v is_paren :: prev =>
    let r :=
      if is_paren then
        match format_dcrl_reverse fuel (buf ++ "(") errs ty prev with
        | .ok buf2 errs2 => FRes.ok (buf2 ++ ")") errs2
        | .crash => .crash
        | .nofuel => .nofuel
      else format_dcrl_reverse fuel buf errs ty prev
    match r with
    | .ok buf3 errs3 =>
      if IS_EXTERN ty && v == 0 then .crash
      else .ok (buf3 ++ format_array_dim v) errs3
    | .crash => .crash
    | .nofuel => .nofuel
  | _ + 1, _, _, _, .VARIABLE :: _ => .crash
/-- Function `format_parameter_list`; for the `DCL_VARIABLE` marker
`format_declaration` prints `...`. -/
def format_parameter_list : Nat → String → List String → List Param → FRes
  | 0, _, _, _ => .nofuel
  | _ + 1, buf, errs, [] => .ok buf errs
  | fuel + 1, buf, errs, .decl d :: rest =>
    match format_declaration fuel buf errs d with
    | .ok buf1 errs1 => format_parameter_list fuel (buf1 ++ ",") errs1 rest
    | .crash => .crash
    | .nofuel => .nofuel
  | fuel + 1, buf, errs, .variadic :: rest =>
    format_parameter_list fuel (buf ++ "...,") errs rest
end

/-! ## Checks of a declaration (decl.cpp) -/

/-- Function `check_struct_union_complete`: `SYM_name(sym)` dereferences
`sym`, which is null for a declaration without identifier; in the branch for
a union the flag `e` is set to `false`.  `et` is the pair of `e` and `t`
after the two tests.  The buffer of the message is local and starts
empty. -/
def check_struct_union_complete (fuel : Nat) (decl : Decl) (st : PState) : PRes Bool :=
  let type_spec := DECL_spec decl
  let is_su : Option Bool :=
    match is_struct_spec type_spec with
    | none => none
    | some true => some true
    | some false => is_union_spec type_spec
  match is_su with
  | none => .crash
  | some false => .ok true st
  | some true =>
    match get_decl_sym decl with
    | none => .crash
    | some name =>
      if is_pointer decl then .ok true st
      else
        let union_branch : Option (Bool × String) :=
          match is_union_spec type_spec with
          | none => none
          | some true =>
            match is_union_complete type_spec with
            | none => none
            | some false => some (false, "union")
            | some true => some (false, "")
          | some false => some (false, "")
        let et : Option (Bool × String) :=
          match is_struct_spec type_spec with
          | none => none
          | some true =>
            match is_struct_complete type_spec with
            | none => none
            | some false => some (true, "struct")
            | some true => union_branch
          | some false => union_branch
        match et with
        | none => .crash
        | some (false, _) => .ok true st
        | some (true, t) =>
          match get_pure_type_spec type_spec with
          | none => .crash
          | some pty =>
            match format_struct_union_complete fuel "" st.errs pty with
            | .ok buf errs1 =>
              .ok false (err { st with errs := errs1 }
                ("'" ++ name ++ "' uses incomplete defined " ++ t ++ " : " ++ buf))
            | .crash => .crash
            | .nofuel => .nofuel

/-! ## Looking up an enum by its name (decl.cpp) -/

/-- Outcome of a loop of the source whose end is in question: the value it
returns, or the iteration bound `fuel` of the embedding was used up. -/
inductive LoopRes (α : Type) where
  | done (a : α)
  | nofuel

/-- Function `is_enum_id_exist` for a name that is not null: `*e` when it
returns true.  One unit of `fuel` for every iteration of the `while`; for an
enum without a name the iteration ends with `continue`, before
`el = ENUM_LIST_next(el)`. -/
def is_enum_id_exist : Nat → List Enum → String → LoopRes (Option Enum)
  | 0, _, _ => .nofuel
  | _ + 1, [], _ => .done none
  | fuel + 1, tmp :: rest, e_id_name =>
    match tmp.name with
    | none => is_enum_id_exist fuel (tmp :: rest) e_id_name
    | some n =>
      if n = e_id_name then .done (some tmp)
      else is_enum_id_exist fuel rest e_id_name

/-- Function `is_enum_id_exist_in_outer_scope` on the enum lists of the
current scope and of its parents, innermost first. -/
def is_enum_id_exist_in_outer_scope (fuel : Nat) : List (List Enum) → String →
    LoopRes (Option Enum)
  | [], _ => .done none
  | sc :: parents, cl =>
    match is_enum_id_exist fuel sc cl with
    | .done (some e) => .done (some e)
    | .done none => is_enum_id_exist_in_outer_scope fuel parents cl
    | .nofuel => .nofuel

/-! ## Array parameters (decl.cpp) -/

/-- Field `DECL_is_formal_para`. -/
def DECL_is_formal_para : Decl → Bool
  | .mk _ _ _ p _ _ _ => p

/-- Loop of `trans_to_pointer` over the pure declarator list, with the flags
`is_append` and `isdo`, the counter `count` and the list `new_pure` built so
far.  `new_decl(DCL_POINTER)` is a pointer node with every field zero. -/
def trans_to_pointer_loop : List DeclNode → Bool → Bool → Nat → List DeclNode →
    List DeclNode
  | [], _, _, _, new_pure => new_pure
  | .ARRAY e d p :: rest, is_append, isdo, count, new_pure =>
    let new_pure1 := if is_append then add_next new_pure [.POINTER 0 false] else new_pure
    let isdo1 := if is_append then false else isdo
    if !isdo1 then
      trans_to_pointer_loop rest false isdo1 count
        (add_next new_pure1 [set_is_paren (cp_decl_node (.ARRAY e d p))])
    else
      trans_to_pointer_loop rest false isdo1 (count + 1)
        (add_next new_pure1 [.POINTER 0 false])
  | n :: rest, is_append, isdo, count, new_pure =>
    trans_to_pointer_loop rest is_append (if count > 0 then false else isdo) count
      (add_next new_pure [cp_decl_node n])

/-- Function `trans_to_pointer`; `ASSERTN(DECL_dt(decl) == DCL_DECLARATION)`,
`ASSERTN(!is_pointer(decl))`, the assertion of `get_pure_declarator` on the
declarator and `ASSERTN(is_pointer(decl))` at the end. -/
def trans_to_pointer (decl : Decl) (is_append : Bool) : Option Decl :=
  if decl.dt ≠ .DCL_DECLARATION then none
  else if is_pointer decl then none
  else if (DECL_decl_list decl).dt ≠ .DCL_DECLARATOR ∧
      (DECL_decl_list decl).dt ≠ .DCL_ABS_DECLARATOR then none
  else
    let d := decl.setPure (trans_to_pointer_loop (PURE_DECL decl) is_append true 0 [])
    if is_pointer d then some d else none

/-- Function `get_pointer_base_decl`: the nodes up to the `*` and the list
behind it, which is what the function returns.  `ASSERTN(is_pointer(decl))`,
the assertion on the node behind the identifier, and `ASSERTN(0)`. -/
def get_pointer_base_decl (decl : Decl) : Option (List DeclNode × List DeclNode) :=
  if decl.dt ≠ .DCL_TYPE_NAME ∧ decl.dt ≠ .DCL_DECLARATION then none
  else if !is_pointer decl then none
  else
    match PURE_DECL decl with
    | .ID s q p :: .POINTER pq pp :: rest => some ([.ID s q p, .POINTER pq pp], rest)
    | .ID s q p :: .FUN ps fp :: rest => some ([.ID s q p, .FUN ps fp], rest)
    | .POINTER pq pp :: rest => some ([.POINTER pq pp], rest)
    | .FUN ps fp :: rest => some ([.FUN ps fp], rest)
    | _ => none

/-- Function `fix_para_array_index`: the declaration with the dimension of
the array behind the `*` set to 1 when it was 0, and the diagnostics.
`ASSERT0(DECL_dt(decl) == DCL_DECLARATION)`,
`ASSERT0(DECL_is_formal_para(decl))` and `ASSERT0(is_pointer(decl))`. -/
def fix_para_array_index (ptr : Nat) (decl : Decl) (errs : List String) :
    Option (Decl × List String) :=
  if decl.dt ≠ .DCL_DECLARATION then none
  else if !DECL_is_formal_para decl then none
  else
    match get_pointer_base_decl decl with
    | none => none
    | some (_, []) => some (decl, errs)
    | some (_, .POINTER _ _ :: _) => some (decl, errs)
    | some (pre, d :: rest) =>
      let d1 : DeclNode :=
        match d with
        | .ARRAY e dim p => if dim = 0 then .ARRAY e 1 p else d
        | _ => d
      match getDeclaratorSize ptr (DECL_spec decl) (d1 :: rest) with
      | none => none
      | some sz =>
        some (decl.setPure (pre ++ d1 :: rest),
          if sz = 0 then
            errs ++ ["Only the first dimension size can be 0, " ++
              "the lower dimension size can not be 0"]
          else errs)

/-! ## The memory pool (com/smempool.cpp)

A pool is the chain of its blocks along `next`, the handler first; a list
stands for the chain.  The field `prev` is not recorded: `append_head_smp`
leaves it null in the blocks of `full_head` behind the first, and the
assertion of `remove_smp` reads it only after `remove_smp` of the block in
front, which stays full and is removed whenever the search passes it, has
set it again.  The header with `WORD_ALIGN`, `MIN_MARGIN`, the struct and
the integer types is not under src/: `WORD_ALIGN`, `MIN_MARGIN`,
`sizeof(SMEM_POOL)` and the widths of `ULONG` and `size_t` are parameters,
`UINT` and `INT` have 32 bits, and the fields of a block that hold a size
have the type `ULONG` of the values that `new_mem_pool` stores in them.  The
arithmetic on `ULONG`, `UINT`, `INT` and `size_t` wraps around; an address is
a number.  No result stands for a failed `IS_TRUE`, a division by zero and
a `memset` outside the memory that `malloc` has returned. -/

/-- The constants of the header of the pool and the widths of the integer
types: `WORD_ALIGN`, `MIN_MARGIN`, the number of bits of `ULONG` and of
`size_t`, and `sizeof(SMEM_POOL)`. -/
structure PoolCfg where
  WORD_ALIGN : Nat
  MIN_MARGIN : Nat
  ULONG_BITS : Nat
  SIZE_T_BITS : Nat
  SIZEOF_SMEM_POOL : Nat
  deriving DecidableEq, Repr

/-- Macro `END_BOUND_BYTE`. -/
def END_BOUND_BYTE : Nat := 4

/-- Conversion to `ULONG`. -/
def toULONG (cfg : PoolCfg) (x : Nat) : Nat := x % 2 ^ cfg.ULONG_BITS

/-- Conversion of a signed value to `size_t`. -/
def toSIZE_T (cfg : PoolCfg) (v : Int) : Nat := (v % 2 ^ cfg.SIZE_T_BITS).toNat

/-- The values of `MEMPOOLTYPE` that smempool.cpp names. -/
inductive MEMPOOLTYPE
  | MEM_NONE | MEM_COMM | MEM_VOLATILE
  deriving DecidableEq, Repr

/-- The fields of a block `SMEM_POOL` that `new_mem_pool` sets and
`smpool_malloc_h` reads: the address `ppool` of its memory, `mem_pool_size`,
`start_pos`, `grow_size` and `mem_pool_total_size`. -/
structure SMEM_POOL where
  ppool : Nat
  mem_pool_size : Nat
  start_pos : Nat
  grow_size : Nat
  mem_pool_total_size : Int
  deriving DecidableEq, Repr

/-- The variable `size_mp` of `new_mem_pool`: `INT size_mp =
sizeof(SMEM_POOL)`, rounded up to `WORD_ALIGN` in the arithmetic of
`size_t`. -/
def new_mem_pool_size_mp (cfg : PoolCfg) : Int :=
  let size_mp := toINT cfg.SIZEOF_SMEM_POOL
  if size_mp.tmod cfg.WORD_ALIGN ≠ 0 then
    toINT (((cfg.SIZEOF_SMEM_POOL / cfg.WORD_ALIGN + 1) * cfg.WORD_ALIGN %
      2 ^ cfg.SIZE_T_BITS : Nat) : Int)
  else size_mp

/-- Function `new_mem_pool`: `malloc n` is the address of `n` bytes or null.
`INT total_size = size_mp + size + END_BOUND_BYTE` is a sum of `ULONG`
converted to `INT`, and `malloc` receives it converted to `size_t`.  No
result for `WORD_ALIGN == 0`, for `IS_TRUE(mp)` when `malloc` returns null,
and when one of the two `memset` writes outside the bytes that `malloc` has
returned. -/
def new_mem_pool (cfg : PoolCfg) (malloc : Nat → Option Nat) (size : Nat) :
    Option SMEM_POOL :=
  let size := toULONG cfg size
  if cfg.WORD_ALIGN = 0 then none
  else
    let size_mp := new_mem_pool_size_mp cfg
    let total_size : Int :=
      toINT ((size_mp + (size : Int) + (END_BOUND_BYTE : Int)) % 2 ^ cfg.ULONG_BITS)
    match malloc (toSIZE_T cfg total_size) with
    | none => none
    | some mp =>
      if size_mp < 0 ∨ toSIZE_T cfg total_size < size_mp.toNat + size + END_BOUND_BYTE then none
      else some ⟨mp + size_mp.toNat, size, 0, size, total_size⟩

/-- Function `smpool_create_handle`: the chain of the new pool, empty for the
null handle. -/
def smpool_create_handle (cfg : PoolCfg) (malloc : Nat → Option Nat) (size : Nat)
    (mpt : MEMPOOLTYPE) : Option (List SMEM_POOL) :=
  if toULONG cfg size = 0 ∨ mpt = .MEM_NONE then some []
  else (new_mem_pool cfg malloc size).map fun mp => [mp]

/-- Where the search loop of `smpool_malloc_h` ends: at the block `cur`
(`goto FIN`), with the blocks `kept` in front of it, the list `full_head` and
the blocks behind it; or behind the last block. -/
inductive WalkRes where
  | found (kept : List SMEM_POOL) (cur : SMEM_POOL) (full_head rest : List SMEM_POOL)
  | not_found (kept full_head : List SMEM_POOL)

/-- The search loop of `smpool_malloc_h` from the block `tmp_rest` on:
`is_handler` tells whether the block is `handler`, `kept` are the blocks that
stay in the chain, in their order, the last of them being `last`, and
`full_head` is the list of the blocks taken out by `remove_smp` and
`append_head_smp`.  The two `IS_TRUE` give no result when they fail. -/
def smpool_walk (MIN_MARGIN size : Nat) :
    Bool → List SMEM_POOL → List SMEM_POOL → List SMEM_POOL → Option WalkRes
  | _, [], kept, full_head => some (.not_found kept full_head)
  | is_handler, cur :: rest, kept, full_head =>
    if cur.mem_pool_size < cur.start_pos then none
    else if cur.mem_pool_size = 0 then none
    else
      let s := cur.mem_pool_size - cur.start_pos
      if size ≤ s then some (.found kept cur full_head rest)
      else if s ≤ MIN_MARGIN ∧ is_handler = false then
        smpool_walk MIN_MARGIN size false rest kept (cur :: full_head)
      else smpool_walk MIN_MARGIN size false rest (kept ++ [cur]) full_head

/-- The block with `MEMPOOL_start_pos(tmp_rest) += size`. -/
def SMEM_POOL.advance (cfg : PoolCfg) (b : SMEM_POOL) (size : Nat) : SMEM_POOL :=
  { b with start_pos := toULONG cfg (b.start_pos + size) }

/-- The chain with `MEMPOOL_grow_size(handler) = grow_size`. -/
def set_handler_grow_size : List SMEM_POOL → Nat → List SMEM_POOL
  | [], _ => []
  | h :: rest, g => { h with grow_size := g } :: rest

/-- Function `smpool_malloc_h` on the chain of `handler`: the address
returned, null for `size == 0` or a null handler, and the chain afterwards.
`malloc` is the one that `new_mem_pool` calls.  `append_after_smp` puts the
list `full_head` behind the block chosen.  The sizes are `ULONG` and
`grow_size` is `UINT`: the rounding of `size`, `MEMPOOL_grow_size(handler) *
2` assigned to `grow_size` and `(size / grow_size + 1) * grow_size` wrap
around.  No result for `WORD_ALIGN == 0`, for a failed `IS_TRUE`, for
`IS_TRUE0(last && MEMPOOL_next(last) == NULL)` without a block kept, for
`IS_TRUE0(MEMPOOL_grow_size(handler))`, for the division by a `grow_size`
that is zero, and when `new_mem_pool` has none. -/
def smpool_malloc_h (cfg : PoolCfg) (malloc : Nat → Option Nat) (size : Nat)
    (handler : List SMEM_POOL) (grow_size : Nat) : Option (Option Nat × List SMEM_POOL) :=
  let size := toULONG cfg size
  let grow_size := toUINT grow_size
  match handler with
  | [] => some (none, [])
  | h :: _ =>
    if size = 0 then some (none, handler)
    else if cfg.WORD_ALIGN = 0 then none
    else
      let size1 :=
        if size % cfg.WORD_ALIGN ≠ 0 then
          toULONG cfg ((size / cfg.WORD_ALIGN + 1) * cfg.WORD_ALIGN)
        else size
      match smpool_walk cfg.MIN_MARGIN size1 true handler [] [] with
      | none => none
      | some (.found kept cur full_head rest) =>
        if (cur.advance cfg size1).mem_pool_size < (cur.advance cfg size1).start_pos then none
        else
          some (some (cur.ppool + cur.start_pos),
            kept ++ cur.advance cfg size1 :: (full_head ++ rest))
      | some (.not_found kept full_head) =>
        if kept.isEmpty then none
        else if grow_size = 0 ∧ h.grow_size = 0 then none
        else
          let grow_size1 :=
            if grow_size = 0 then toUINT (toULONG cfg (h.grow_size * 2)) else grow_size
          let kept1 := if grow_size = 0 then set_handler_grow_size kept grow_size1 else kept
          if size1 > grow_size1 ∧ grow_size1 = 0 then none
          else
            let n :=
              if size1 > grow_size1 then toULONG cfg ((size1 / grow_size1 + 1) * grow_size1)
              else grow_size1
            match new_mem_pool cfg malloc n with
            | none => none
            | some blk =>
              if (blk.advance cfg size1).mem_pool_size < (blk.advance cfg size1).start_pos
              then none
              else
                some (some (blk.ppool + blk.start_pos),
                  kept1 ++ blk.advance cfg size1 :: full_head)

/-! ## The tag registry of structs (decl.cpp, scope.h)

`TYPE_struct_type` and `SCOPE_struct_list` hold pointers to `Struct` objects,
and a body that comes later is written into the object that an earlier
reference has registered.  A pointer is embedded as an index of the list of
the aggregates allocated so far, `xmalloc` appends to the list, and the
scopes are the path from `g_cur_scope` along `SCOPE_parent` to the root.
`AGGR_scope`, `DECL_base_type_spec` of a field and the other registries of a
scope are not recorded.  The parser of the fields,
`struct_declaration_list`, is a parameter: it works on the registry and on
the state of the parser and returns `SCOPE_decl_list(g_cur_scope)`. -/

/-- A `Scope` of scope.h, reduced to `SCOPE_struct_list`. -/
structure Scope where
  struct_list : List Nat
  deriving DecidableEq, Repr

/-- The registry: `scopes` is `g_cur_scope` followed by its parents, `heap`
the aggregates allocated. -/
structure TagReg where
  scopes : List Scope
  heap : List Aggr

/-- The aggregate with `AGGR_is_complete` replaced. -/
def Aggr.setComplete : Aggr → Bool → Aggr
  | .mk t l _ a f p, c => .mk t l c a f p

/-- The aggregate with `AGGR_align` replaced. -/
def Aggr.setAlign : Aggr → Nat → Aggr
  | .mk t l c _ f p, a => .mk t l c a f p

/-- The field with `DECL_fieldno(field) = i` and
`DECL_is_sub_field(field) = true`. -/
def Decl.setFieldno : Decl → Nat → Decl
  | .mk dt spec dl p _ _ a, i => .mk dt spec dl p true i a

/-- Function `new_var_decl`: a declaration of `name` with the specifier
`void`. -/
def new_var_decl (name : String) : Decl :=
  .mk .DCL_DECLARATION (.mk (TYPE_des new_type ||| T_SPEC_VOID) none none none)
    (.mk .DCL_DECLARATOR [.ID name 0 false] false 0 false) false false 0 0

/-- Function `is_struct_type_exist`: the pointer of the first struct of the
list whose tag is `tag`; no result for a pointer that is not allocated. -/
def is_struct_type_exist (heap : List Aggr) : List Nat → Option String → Option (Option Nat)
  | _, none => some none
  | [], some _ => some none
  | p :: rest, some tag =>
    match heap[p]? with
    | none => none
    | some st =>
      match AGGR_tag st with
      | none => is_struct_type_exist heap rest (some tag)
      | some sym =>
        if sym = tag then some (some p) else is_struct_type_exist heap rest (some tag)

/-- The loop of `is_struct_exist_in_outer_scope` from the scope `sc` on. -/
def is_struct_exist_in_outer_scope_loop (heap : List Aggr) :
    List Scope → Option String → Option (Option Nat)
  | [], _ => some none
  | sc :: parents, tag =>
    match is_struct_type_exist heap sc.struct_list tag with
    | none => none
    | some (some s) => some (some s)
    | some none => is_struct_exist_in_outer_scope_loop heap parents tag

/-- Function `is_struct_exist_in_outer_scope`; `ASSERT0(scope)` gives no
result. -/
def is_struct_exist_in_outer_scope (heap : List Aggr) (scope : List Scope)
    (tag : Option String) : Option (Option Nat) :=
  match scope with
  | [] => none
  | _ :: _ => is_struct_exist_in_outer_scope_loop heap scope tag

/-- Modelled from the spec: scope.cpp is not under src/; `push_scope` makes
a new scope with empty registries the current scope, and the scope that was
current its parent. -/
def push_scope (R : TagReg) : TagReg := { R with scopes := ⟨[]⟩ :: R.scopes }

/-- Modelled from the spec: `pop_scope` makes the parent of the current
scope the current scope. -/
def pop_scope (R : TagReg) : TagReg := { R with scopes := R.scopes.tail }

/-- The loop of `type_spec_struct_field` that numbers the fields. -/
def number_fields : Nat → List Decl → List Decl
  | _, [] => []
  | i, field :: rest => field.setFieldno i :: number_fields (i + 1) rest

/-- The parser of the fields, a parameter. -/
abbrev FieldParser : Type := TagReg → PState → List Decl × TagReg × PState

/-- Function `type_spec_struct_field` for the struct at the pointer `s`: the
registry and the state afterwards, no result for a pointer that is not
allocated. -/
def type_spec_struct_field (struct_declaration_list : FieldParser) (s : Nat) (R : TagReg)
    (st : PState) : Option (TagReg × PState) :=
  let st1 := (match_tok st .T_LLPAREN).2
  let r := struct_declaration_list (push_scope R) st1
  let decl_list := if r.1.isEmpty then [new_var_decl "#placeholder"] else r.1
  let R1 := pop_scope r.2.1
  match R1.heap[s]? with
  | none => none
  | some a =>
    let a1 := a.setDeclList (number_fields 0 decl_list)
    let m := match_tok r.2.2 .T_RLPAREN
    if m.1 ≠ .ST_SUCC then
      some ({ R1 with heap := R1.heap.set s a1 },
        err m.2 "expected '\x7d' after struct definition")
    else some ({ R1 with heap := R1.heap.set s (a1.setComplete true) }, m.2)

/-- Outcome of `type_spec_struct`: `TYPE_des(ty)` and `TYPE_struct_type(ty)`
afterwards, the registry and the state of the parser; or a failed `ASSERT0`
or a pointer that is not allocated. -/
inductive SRes where
  | ok (des : Nat) (struct_type : Option Nat) (R : TagReg) (st : PState)
  | crash

/-- The statements of `type_spec_struct` for the tag: the struct found or
created, null without a tag. -/
def type_spec_struct_tag (R : TagReg) (st : PState) : Option (Option Nat × TagReg × PState) :=
  if g_real_token st = .T_ID then
    match is_struct_exist_in_outer_scope R.heap R.scopes (some (g_real_token_string st)) with
    | none => none
    | some (some s) => some (some s, R, (match_tok st .T_ID).2)
    | some none =>
      match R.scopes with
      | [] => none
      | cur :: parents =>
        some (some R.heap.length,
          ⟨{ cur with struct_list := cur.struct_list ++ [R.heap.length] } :: parents,
            R.heap ++ [.mk (some (g_real_token_string st)) [] false 0 0 0]⟩,
          (match_tok st .T_ID).2)
  else some (none, R, st)

/-- The last statements of `type_spec_struct`: `AGGR_align(s) = alignment`
and `TYPE_struct_type(ty) = s`. -/
def type_spec_struct_fin (alignment des : Nat) (s : Nat) (R : TagReg) (st : PState) : SRes :=
  match R.heap[s]? with
  | none => .crash
  | some a => .ok des (some s) { R with heap := R.heap.set s (a.setAlign alignment) } st

/-- Function `type_spec_struct` on a specifier with the flag word `des` and
the struct pointer `struct_type`; `g_alignment` is the global when the
function is entered. -/
def type_spec_struct (struct_declaration_list : FieldParser) (g_alignment : Nat)
    (des : Nat) (struct_type : Option Nat) (R : TagReg) (st : PState) : SRes :=
  let des1 := des ||| T_SPEC_STRUCT
  let st1 := (match_tok st .T_STRUCT).2
  let ck := ck_type_spec_legally (.mk des1 none none none) st1
  if ck.1 ≠ .ST_SUCC then .ok des1 struct_type R (err ck.2 "type specifier is illegal")
  else
    match type_spec_struct_tag R ck.2 with
    | none => .crash
    | some (s, R1, st2) =>
      if g_real_token st2 = .T_LLPAREN then
        let s1 := s.getD R1.heap.length
        let R2 : TagReg :=
          if s.isSome then R1 else { R1 with heap := R1.heap ++ [.mk none [] false 0 0 0] }
        match R2.heap[s1]? with
        | none => .crash
        | some a =>
          if AGGR_is_complete a then
            match AGGR_tag a with
            | none => .crash
            | some tag => .ok des1 struct_type R2 (err st2 ("struct '" ++ tag ++ "' redefined"))
          else
            match type_spec_struct_field struct_declaration_list s1 R2 st2 with
            | none => .crash
            | some (R3, st3) => type_spec_struct_fin g_alignment des1 s1 R3 st3
      else
        match s with
        | none =>
          .ok des1 struct_type R1 (err st2 ("illegal use '" ++ g_real_token_string st2 ++ "'"))
        | some s1 => type_spec_struct_fin g_alignment des1 s1 R1 st2

/-! ## Vocabulary of the statements -/

/-- Nodes that the loops of the type predicates step over. -/
def isIdOrVariable (x : DeclNode) : Prop :=
  DECL_dt x = .DCL_ID ∨ DECL_dt x = .DCL_VARIABLE

/-- The specifier `int`. -/
def spec_int : TypeSpec := .mk T_SPEC_INT none none none

/-- The declaration `int (*f)(void)`: `ID(f) -> POINTER -> FUN`, the
parameter list being empty after the `foo(void)` rewrite. -/
def decl_fun_pointer : Decl :=
  .mk .DCL_DECLARATION spec_int
    (.mk .DCL_DECLARATOR [.ID "f" 0 false, .POINTER 0 false, .FUN [] true] false 0 false)
    false false 0 0

/-- The scalar base kinds with the byte sizes of section 4.7. -/
def base_kind_sizes : List (Nat × Nat) :=
  [(T_SPEC_VOID, 1), (T_SPEC_BOOL, 1), (T_SPEC_CHAR, 1), (T_SPEC_SHORT, 2),
   (T_SPEC_INT, 4), (T_SPEC_LONG, 4), (T_SPEC_FLOAT, 4), (T_SPEC_ENUM, 4),
   (T_SPEC_LONGLONG, 8), (T_SPEC_DOUBLE, 8)]

/-- The base kinds of section 3.1 that `getSpecTypeSize` tests. -/
def base_kinds : List Nat :=
  [T_SPEC_VOID, T_SPEC_BOOL, T_SPEC_CHAR, T_SPEC_SHORT, T_SPEC_INT, T_SPEC_LONG,
   T_SPEC_LONGLONG, T_SPEC_FLOAT, T_SPEC_DOUBLE, T_SPEC_ENUM, T_SPEC_STRUCT, T_SPEC_UNION]

/-- The dimensions `DECL_array_dim` of a run of array nodes. -/
def arrayDims (arrs : List DeclNode) : List Nat :=
  arrs.map fun x => (DECL_array_dim x).toNat

/-- A declaration `int <list>` with a `DCL_DECLARATOR`. -/
def decl_int (chain : List DeclNode) : Decl :=
  .mk .DCL_DECLARATION spec_int (.mk .DCL_DECLARATOR chain false 0 false) false false 0 0

/-- The declaration `int a[10][20]`. -/
def decl_int_10_20 : Decl :=
  decl_int [.ID "a" 0 false, .ARRAY none 10 false, .ARRAY none 20 false]

/-- The declaration `int *a[10]`. -/
def decl_intp_10 : Decl := decl_int [.ID "a" 0 false, .ARRAY none 10 false, .POINTER 0 false]

/-- The declaration `int *p`. -/
def decl_intp : Decl := decl_int [.ID "p" 0 false, .POINTER 0 false]

/-- The declaration `int a[32768][32768]`. -/
def decl_int_huge : Decl :=
  decl_int [.ID "a" 0 false, .ARRAY none 32768 false, .ARRAY none 32768 false]

/-- The flag word that `factor_user_type` gives the new specifier of a
declaration that is no typedef: the word `desT` of the typedef without
TYPEDEF, with the storage-class bits of the word `desD` of the declaration. -/
def expanded_des (desT desD : Nat) : Nat :=
  SET_FLAG (SET_FLAG (SET_FLAG (SET_FLAG (SET_FLAG (REMOVE_FLAG desT T_STOR_TYPEDEF)
    (desD &&& T_STOR_REG)) (desD &&& T_STOR_EXTERN)) (desD &&& T_STOR_INLINE))
    (desD &&& T_STOR_STATIC)) (desD &&& T_STOR_AUTO)

/-- The declaration `typedef int *INTP;` as the parser registers it. -/
def typedef_INTP : Decl :=
  .mk .DCL_DECLARATION (.mk (T_SPEC_INT ||| T_STOR_TYPEDEF) none none none)
    (.mk .DCL_DECLARATOR [.ID "INTP" 0 false, .POINTER 0 false] false 0 false) false false 0 0

/-- The declaration `INTP <list>`, before the typedef is factored. -/
def decl_INTP (chain : List DeclNode) : Decl :=
  .mk .DCL_DECLARATION (.mk T_SPEC_USER_TYPE (some typedef_INTP) none none)
    (.mk .DCL_DECLARATOR chain false 0 false) false false 0 0

/-- The declaration `INTP x;`. -/
def decl_INTP_x : Decl := decl_INTP [.ID "x" 0 false]

/-- The declaration `INTP a[10];`. -/
def decl_INTP_a10 : Decl := decl_INTP [.ID "a" 0 false, .ARRAY none 10 false]

/-- The declaration `INTP x;` after `expand_user_type`: `int` with the list
`ID(x) -> POINTER`. -/
def decl_INTP_x_expanded : Decl :=
  .mk .DCL_DECLARATION (.mk T_SPEC_INT none none none)
    (.mk .DCL_DECLARATOR [.ID "x" 0 false, .POINTER 0 false] false 0 false) false false 0 0

/-- A punctuation or keyword token. -/
def tk (t : TOKEN) : Lexeme := ⟨t, "", 0⟩

/-- An identifier token. -/
def tk_id (name : String) : Lexeme := ⟨.T_ID, name, 0⟩

/-- A numeric literal token. -/
def tk_imm (n : Int) : Lexeme := ⟨.T_IMM, "", n⟩

/-- The state at the start of the tokens `toks`, with no diagnostic and an
empty scope. -/
def st_of (toks : List Lexeme) : PState := ⟨toks, [], []⟩

/-- Collaborators for the closed examples: an expression is one numeric
literal, a specifier is one of the keywords `int`, `double` and `void`, the
error count is never too large. -/
def literal_collab : Collab where
  conditional_exp st :=
    match st.toks with
    | ⟨.T_IMM, _, n⟩ :: rest => (some ⟨some n⟩, st.setToks rest)
    | _ => (none, st)
  initializer st :=
    match st.toks with
    | ⟨.T_IMM, _, _⟩ :: rest => (true, st.setToks rest)
    | _ => (false, st)
  is_in_first_set_of_exp_list t := decide (t = .T_IMM)
  declaration_spec st :=
    match st.toks with
    | ⟨.T_INT, _, _⟩ :: rest => (some (.mk T_SPEC_INT none none none), st.setToks rest)
    | ⟨.T_DOUBLE, _, _⟩ :: rest => (some (.mk T_SPEC_DOUBLE none none none), st.setToks rest)
    | ⟨.T_VOID, _, _⟩ :: rest => (some (.mk T_SPEC_VOID none none none), st.setToks rest)
    | _ => (none, st)
  is_too_many_err _ := false
  MAX_ARRAY_INDX := 2147483647
  g_alignment := 4

/-- Tokens of `A = 5, B = 0 }`, the body of `enum E { A = 5, B = 0 };`. -/
def toks_enum_A5_B0 : List Lexeme :=
  [tk_id "A", tk .T_ASSIGN, tk_imm 5, tk .T_COMMA, tk_id "B", tk .T_ASSIGN, tk_imm 0,
    tk .T_RLPAREN]

/-- Tokens of `A, B = 5, C }`, the body of `enum E { A, B=5, C };`. -/
def toks_enum_A_B5_C : List Lexeme :=
  [tk_id "A", tk .T_COMMA, tk_id "B", tk .T_ASSIGN, tk_imm 5, tk .T_COMMA, tk_id "C",
    tk .T_RLPAREN]

/-- No node of the list but the last one is a `DCL_ID`. -/
def IdLast (l : List DeclNode) : Prop := ∀ x ∈ l.dropLast, DECL_dt x ≠ .DCL_ID

/-- No node of the list but the first one is a `DCL_ID`. -/
def IdFirst (l : List DeclNode) : Prop := ∀ x ∈ l.tail, DECL_dt x ≠ .DCL_ID

/-- Number of `DCL_ID` nodes of a list. -/
def count_id (l : List DeclNode) : Nat := (l.filter (fun x => DECL_dt x = .DCL_ID)).length

/-- Tokens of `*(*p)[30]`, the declarator of `int *(*p)[30]`. -/
def toks_p : List Lexeme :=
  [tk .T_ASTERISK, tk .T_LPAREN, tk .T_ASTERISK, tk_id "p", tk .T_RPAREN, tk .T_LSPAREN,
    tk_imm 30, tk .T_RSPAREN]

/-! ### Syntax of declarators

The grammar in the comments of decl.cpp, as a tree: a declarator is a run of
`*`, then an identifier or a parenthesised declarator, then a suffix. -/

/-- A type qualifier after a `*`. -/
inductive Qual
  | q_const | q_volatile | q_restrict
  deriving DecidableEq, Repr

/-- Token of a qualifier. -/
def Qual.tok : Qual → TOKEN
  | .q_const => .T_CONST
  | .q_volatile => .T_VOLATILE
  | .q_restrict => .T_RESTRICT

/-- One `[ ... ]`: the tokens between the brackets and the tree that the
expression parser returns for them. -/
structure DimSyn where
  toks : List Lexeme
  exp : Option DimExp

/-- The suffix of a direct declarator: nothing, a run of `[ ... ]`, or one
`( ... )` with the tokens between the parentheses and the parameter list
that `parameter_type_list` returns for them. -/
inductive SufSyn
  | plain
  | arrays (dims : List DimSyn)
  | func (toks : List Lexeme) (params : List Param)

/-- A declarator: each `*` comes with at most one qualifier. -/
inductive DSyn
  | ident (stars : List (Option Qual)) (name : String) (suf : SufSyn)
  | paren (stars : List (Option Qual)) (inner : DSyn) (suf : SufSyn)

/-- Tokens of one `*` and its qualifier. -/
def renderStar : Option Qual → List Lexeme
  | none => [tk .T_ASTERISK]
  | some q => [tk .T_ASTERISK, tk q.tok]

/-- Tokens of a run of `*`. -/
def renderStars : List (Option Qual) → List Lexeme
  | [] => []
  | s :: rest => renderStar s ++ renderStars rest

/-- Tokens of a run of `[ ... ]`. -/
def renderDims : List DimSyn → List Lexeme
  | [] => []
  | ds :: rest => tk .T_LSPAREN :: (ds.toks ++ tk .T_RSPAREN :: renderDims rest)

/-- Tokens of a suffix. -/
def renderSuf : SufSyn → List Lexeme
  | .plain => []
  | .arrays dims => renderDims dims
  | .func toks _ => tk .T_LPAREN :: (toks ++ [tk .T_RPAREN])

/-- Tokens of a declarator. -/
def DSyn.render : DSyn → List Lexeme
  | .ident stars name suf => renderStars stars ++ tk_id name :: renderSuf suf
  | .paren stars inner suf =>
    renderStars stars ++ tk .T_LPAREN :: (inner.render ++ tk .T_RPAREN :: renderSuf suf)

/-- What is compared in a node of a chain: its kind, with the name of an
identifier, the dimension expression of an array and the parameter list of
a function.  Qualifiers and parenthesis marks are left out. -/
inductive Op
  | ID (name : String)
  | POINTER
  | ARRAY (exp : Option DimExp)
  | FUN (params : List Param)
  | VARIABLE

/-- The `Op` of a node. -/
def opOf : DeclNode → Op
  | .ID sym _ _ => .ID sym
  | .POINTER _ _ => .POINTER
  | .ARRAY e _ _ => .ARRAY e
  | .FUN ps _ => .FUN ps
  | .VARIABLE => .VARIABLE

/-- Operators of a suffix, in the order they apply: the arrays from left to
right, or the function. -/
def sufOps : SufSyn → List Op
  | .plain => []
  | .arrays dims => dims.map (fun ds => Op.ARRAY ds.exp)
  | .func _ params => [Op.FUN (fun_para_list_of params)]

/-- The identifier of a declarator and then its operators in the order they
apply to the identifier, innermost first, by the rule of C: the operators of
a parenthesised declarator come first, a suffix binds tighter than a `*`. -/
def DSyn.applyOrder : DSyn → List Op
  | .ident stars name suf => Op.ID name :: (sufOps suf ++ List.replicate stars.length Op.POINTER)
  | .paren stars inner suf =>
    inner.applyOrder ++ (sufOps suf ++ List.replicate stars.length Op.POINTER)

/-- Kind of the first token of a list, `T_END` when it is empty. -/
def first_tok : List Lexeme → TOKEN
  | [] => .T_END
  | l :: _ => l.tok

/-- The expression parser reads the tokens of the dimension up to the `]` and
returns its tree. -/
def DimSyn.Accepted (E : Collab) (ds : DimSyn) : Prop :=
  ∀ (st : PState) (rest : List Lexeme),
    E.conditional_exp (st.setToks (ds.toks ++ tk .T_RSPAREN :: rest)) =
      (ds.exp, st.setToks (tk .T_RSPAREN :: rest))

/-- The collaborators accept the suffix: every dimension is accepted, and
`parameter_type_list` reads the tokens of the parameters up to the `)` and
returns the parameter list, whenever the iteration bound is large enough. -/
def SufSyn.Accepted (E : Collab) : SufSyn → Prop
  | .plain => True
  | .arrays dims => ∀ ds ∈ dims, ds.Accepted E
  | .func toks params => ∃ N, ∀ n, N ≤ n → ∀ (st : PState) (rest : List Lexeme),
      parameter_type_list E n [] (st.setToks (toks ++ tk .T_RPAREN :: rest)) =
        .ok params (st.setToks (tk .T_RPAREN :: rest))

/-- The collaborators accept every suffix of the declarator. -/
def DSyn.Accepted (E : Collab) : DSyn → Prop
  | .ident _ _ suf => suf.Accepted E
  | .paren _ inner suf => inner.Accepted E ∧ suf.Accepted E

/-- The token does not continue a run of `*` with qualifiers. -/
def ends_pointer (t : TOKEN) : Prop :=
  t ≠ .T_ASTERISK ∧ t ≠ .T_CONST ∧ t ≠ .T_VOLATILE ∧ t ≠ .T_RESTRICT

/-- The token does not start a suffix of a direct declarator. -/
def ends_declarator (t : TOKEN) : Prop :=
  t ≠ .T_LSPAREN ∧ t ≠ .T_LPAREN

/-- The dimension `[n]` with a numeric literal. -/
def dim_lit (n : Int) : DimSyn := ⟨[tk_imm n], some ⟨some n⟩⟩

/-- Declarator of `int *a`. -/
def dsyn_a : DSyn := .ident [none] "a" .plain

/-- Declarator of `int (*q)[30]`. -/
def dsyn_q : DSyn := .paren [] (.ident [none] "q" .plain) (.arrays [dim_lit 30])

/-- Declarator of `double (*arr[10][40])[20][30]`. -/
def dsyn_arr : DSyn :=
  .paren [] (.ident [none] "arr" (.arrays [dim_lit 10, dim_lit 40]))
    (.arrays [dim_lit 20, dim_lit 30])

/-- Declarator of `int *(*p)[30]`. -/
def dsyn_p : DSyn := .paren [none] (.ident [none] "p" .plain) (.arrays [dim_lit 30])

/-- An array node as `init_declarator` leaves it for the dimension `[n]` with
a numeric literal. -/
def array_lit (n : Int) (is_paren : Bool) : DeclNode := .ARRAY (some ⟨some n⟩) n is_paren

/-- The collaborators only read tokens: the expression parser and the
specifier parser never lengthen the list of tokens, and `declaration_spec`
reads at least one token when it returns a specifier. -/
structure Collab.Reads (E : Collab) : Prop where
  conditional_exp_le : ∀ st, (E.conditional_exp st).2.toks.length ≤ st.toks.length
  declaration_spec_le : ∀ st, (E.declaration_spec st).2.toks.length ≤ st.toks.length
  declaration_spec_lt : ∀ st ty, (E.declaration_spec st).1 = some ty →
    (E.declaration_spec st).2.toks.length < st.toks.length

/-- The least multiple of `a` that is at least `x`, for `a > 0`. -/
def round_up (x a : Nat) : Nat := (x + a - 1) / a * a

/-- An aggregate with no field, for the statements on
`computeAggrAlignedSize`, which reads the alignment fields only. -/
def aggr_aligns (align pack_align : Nat) : Aggr := .mk none [] true align 0 pack_align

/-- The largest of the sizes, 0 for no size. -/
def max_size (sizes : List Nat) : Nat := sizes.foldl max 0

/-- A field declaration `char name[n]`. -/
def decl_char_array (name : String) (n : Int) : Decl :=
  .mk .DCL_DECLARATION (.mk T_SPEC_CHAR none none none)
    (.mk .DCL_DECLARATOR [.ID name 0 false, .ARRAY none n false] false 0 false)
    false true 0 0

/-- A field declaration `int name`. -/
def decl_int_field (name : String) : Decl :=
  .mk .DCL_DECLARATION (.mk T_SPEC_INT none none none)
    (.mk .DCL_DECLARATOR [.ID name 0 false] false 0 false) false true 0 0

/-- The union `union U { char c[5]; int i; }` with declared align 4. -/
def union_c5_i : Aggr :=
  .mk (some "U") [decl_char_array "c" 5, decl_int_field "i"] true 4 0 0

/-- The union `union V { char c[5]; }` with declared align 4. -/
def union_c5 : Aggr := .mk (some "V") [decl_char_array "c" 5] true 4 0 0

/-- The padded sum of field sizes from the offset `ofst`: for each size in
turn the offset is rounded up to a multiple of the size and then advanced by
the size. -/
def padded_sum : List Nat → Nat → Nat
  | [], ofst => ofst
  | s :: rest, ofst => padded_sum rest (round_up ofst s + s)

/-- The manually computed size of a struct with fields of the given sizes:
the padded sum from offset 0, rounded up to a multiple of the largest
size. -/
def manual_struct_size (sizes : List Nat) : Nat :=
  round_up (padded_sum sizes 0) (max_size sizes)

/-- A field declaration `char name`. -/
def decl_char_field (name : String) : Decl :=
  .mk .DCL_DECLARATION (.mk T_SPEC_CHAR none none none)
    (.mk .DCL_DECLARATOR [.ID name 0 false] false 0 false) false true 0 0

/-- A field declaration `short name`. -/
def decl_short_field (name : String) : Decl :=
  .mk .DCL_DECLARATION (.mk T_SPEC_SHORT none none none)
    (.mk .DCL_DECLARATOR [.ID name 0 false] false 0 false) false true 0 0

/-- The struct `struct S { char a; int b; short c; }` with declared align 4. -/
def struct_char_int_short : Aggr :=
  .mk (some "S") [decl_char_field "a", decl_int_field "b", decl_short_field "c"] true 4 0 0

/-- Greedy packing of bit-field widths into storage units of `W` bits: `bits`
is the running bit count of the current unit and `u` the number of units
used so far; a new unit is started exactly when adding the next width would
make the running bit count exceed `W`. -/
def greedy_units (W : Nat) : List Nat → Nat → Nat → Nat
  | [], _, u => u
  | w :: ws, bits, u =>
    if bits + w > W then greedy_units W ws w (u + 1)
    else greedy_units W ws (bits + w) u

/-- The field after a run of bit fields ends the run: there is none, or it is
no bit field, or it is a bit field of positive width with another
specifier. -/
def ends_bit_run (int_ty : Nat) : List Decl → Prop
  | [] => True
  | g :: _ => DECL_is_bit_field (DECL_decl_list g) = false ∨
      (0 < DECL_bit_len (DECL_decl_list g) ∧ TYPE_des (DECL_spec g) ≠ int_ty)

/-- A bit-field declaration `name : width` with the specifier word `des`. -/
def decl_bit_field (des : Nat) (name : String) (width : Int) : Decl :=
  .mk .DCL_DECLARATION (.mk des none none none)
    (.mk .DCL_DECLARATOR [.ID name 0 false] true width false) false true 0 0

/-- The fields of `struct S { int a:3; int b:5; int c; }`. -/
def fields_a3_b5_c : List Decl :=
  [decl_bit_field T_SPEC_INT "a" 3, decl_bit_field T_SPEC_INT "b" 5, decl_int_field "c"]

/-- The struct `struct S { int a:3; int b:5; int c; }` with declared
align 4. -/
def struct_a3_b5_c : Aggr := .mk (some "S") fields_a3_b5_c true 4 0 0

/-- The fields of `struct T { short int a:3; short int b:5; }`: the specifier
word of `short int` has the bits SHORT and INT. -/
def fields_short_int_bits : List Decl :=
  [decl_bit_field (T_SPEC_SHORT ||| T_SPEC_INT) "a" 3,
    decl_bit_field (T_SPEC_SHORT ||| T_SPEC_INT) "b" 5]

/-- The struct `struct P { char a; int b; }` with declared align 4. -/
def struct_char_int : Aggr :=
  .mk (some "P") [decl_char_field "a", decl_int_field "b"] true 4 0 0

/-- The status of an outcome. -/
def IRes.status {α : Type} : IRes α → Option STATUS
  | .ok st _ _ _ => some st
  | _ => none

/-- The diagnostics of an outcome. -/
def IRes.errors {α : Type} : IRes α → Option (List String)
  | .ok _ _ _ errs => some errs
  | _ => none

/-- The number of trees left at the cursor of an outcome. -/
def IRes.left {α : Type} : IRes α → Option Nat
  | .ok _ _ init _ => some init.length
  | _ => none

/-- The array dimensions `DECL_array_dim` of the declaration of an outcome,
node by node. -/
def IRes.dims : IRes Decl → Option (List Int)
  | .ok _ d _ _ => some ((PURE_DECL d).map DECL_array_dim)
  | _ => none

/-- The brace initializer `{e1, ..., en}` of `n` scalar expressions. -/
def braces (n : Nat) : Tree := .TR_INITVAL_SCOPE (List.replicate n .TR_EXP)

/-- An initialized declaration of an `int` object with the given declarator
list. -/
def decl_int_init (chain : List DeclNode) : Decl :=
  .mk .DCL_DECLARATION spec_int (.mk .DCL_DECLARATOR chain false 0 true) false false 0 0

/-- The declaration `int a[] = ...`: the dimension is 0 after
`compute_array_dim`. -/
def decl_a_open : Decl := decl_int_init [.ID "a" 0 false, .ARRAY none 0 false]

/-- The declaration `int a[][2] = ...`. -/
def decl_a_open_2 : Decl :=
  decl_int_init [.ID "a" 0 false, .ARRAY none 0 false, .ARRAY (some ⟨some 2⟩) 2 false]

/-- The initializer `{{1,2},{3,4}}`. -/
def init_rows_2x2 : List Tree := [.TR_INITVAL_SCOPE [braces 2, braces 2]]

/-- The declaration `int a[2] = ...`. -/
def decl_a_2 : Decl := decl_int_init [.ID "a" 0 false, .ARRAY (some ⟨some 2⟩) 2 false]

/-- The struct `struct S { int a; }` with declared align 4. -/
def struct_one_int : Aggr := .mk (some "S") [decl_int_field "a"] true 4 0 0

/-- The declaration `struct S { int a; } s = ...`. -/
def decl_struct_s : Decl :=
  .mk .DCL_DECLARATION (.mk T_SPEC_STRUCT none (some struct_one_int) none)
    (.mk .DCL_DECLARATOR [.ID "s" 0 false] false 0 true) false false 0 0

/-- A field declaration `int name[]`. -/
def decl_int_open_field (name : String) : Decl :=
  .mk .DCL_DECLARATION (.mk T_SPEC_INT none none none)
    (.mk .DCL_DECLARATOR [.ID name 0 false, .ARRAY none 0 false] false 0 false)
    false true 0 0

/-- The union `union U { int a; int b[]; }` with declared align 4. -/
def union_a_b_open : Aggr :=
  .mk (some "U") [decl_int_field "a", decl_int_open_field "b"] true 4 0 0

/-- The declaration `union U { int a; int b[]; } u = ...`. -/
def decl_union_u : Decl :=
  .mk .DCL_DECLARATION (.mk T_SPEC_UNION none (some union_a_b_open) none)
    (.mk .DCL_DECLARATOR [.ID "u" 0 false] false 0 true) false false 0 0

/-- The array dimensions of the fields of the aggregate of a declaration. -/
def field_dims (d : Decl) : Option (List (List Int)) :=
  (TYPE_aggr_type (DECL_spec d)).map fun s =>
    (AGGR_decl_list s).map fun f => (PURE_DECL f).map DECL_array_dim

/-- An initialized declaration `ty name[dim] = ...` of an array of one
dimension; `dim` is 0 when the dimension is not given. -/
def array_decl_init (ty : TypeSpec) (name : String) (qua : Nat) (ip : Bool)
    (e : Option DimExp) (ipa : Bool) (dim : Int) : Decl :=
  .mk .DCL_DECLARATION ty
    (.mk .DCL_DECLARATOR [.ID name qua ip, .ARRAY e dim ipa] false 0 true) false false 0 0

/-- The struct `struct T { char a; int b; short c; } t = ...` as an
initialized declaration. -/
def decl_struct_t : Decl :=
  .mk .DCL_DECLARATION (.mk T_SPEC_STRUCT none (some struct_char_int_short) none)
    (.mk .DCL_DECLARATOR [.ID "t" 0 false] false 0 true) false false 0 0

/-- The initializer `{1, {2,3,4}}`. -/
def init_1_braces_3 : List Tree := [.TR_INITVAL_SCOPE [.TR_EXP, braces 3]]

/-- The specifier of `union U { int a; int b[]; }`. -/
def spec_union_u : TypeSpec := .mk T_SPEC_UNION none (some union_a_b_open) none

/-- The number of the classes struct/union, enum, simple base kind and user
type that a specifier belongs to, with the tests of `ck_type_spec_legally`. -/
def spec_class_count (ty : TypeSpec) : Nat :=
  (HAVE_FLAG (TYPE_des ty) T_SPEC_STRUCT || HAVE_FLAG (TYPE_des ty) T_SPEC_UNION).toNat +
    (HAVE_FLAG (TYPE_des ty) T_SPEC_ENUM).toNat + (is_simple_base_type_spec ty).toNat +
    (HAVE_FLAG (TYPE_des ty) T_SPEC_USER_TYPE).toNat

/-- A specifier with the flag word `des` and no reference. -/
def spec_of (des : Nat) : TypeSpec := .mk des none none none

/-- The storage-class tokens. -/
def is_stor_token (t : TOKEN) : Bool :=
  t = .T_AUTO || t = .T_REGISTER || t = .T_STATIC || t = .T_EXTERN || t = .T_INLINE ||
    t = .T_TYPEDEF

/-- The token ends `declaration_spec`: it is none of the tokens of the
switch. -/
def ends_declaration_spec (t : TOKEN) : Bool :=
  match t with
  | .T_AUTO | .T_REGISTER | .T_STATIC | .T_EXTERN | .T_INLINE | .T_TYPEDEF
  | .T_VOID | .T_CHAR | .T_SHORT | .T_INT | .T_LONGLONG | .T_BOOL | .T_LONG | .T_FLOAT
  | .T_DOUBLE | .T_SIGNED | .T_UNSIGNED | .T_STRUCT | .T_UNION | .T_ENUM
  | .T_CONST | .T_VOLATILE | .T_RESTRICT | .T_ID => false
  | _ => true

/-- The storage classes of a flag word pass the two tests of `stor_spec`:
AUTO comes with no other flag, and STATIC and EXTERN are not both set. -/
def stor_legal (des : Nat) : Prop :=
  (HAVE_FLAG des T_STOR_AUTO = true → des = T_STOR_AUTO) ∧
    ¬(HAVE_FLAG des T_STOR_STATIC = true ∧ HAVE_FLAG des T_STOR_EXTERN = true)

/-- The number of the flags AUTO, REG, STATIC and EXTERN of a flag word. -/
def stor_class_count (des : Nat) : Nat :=
  (HAVE_FLAG des T_STOR_AUTO).toNat + (HAVE_FLAG des T_STOR_REG).toNat +
    (HAVE_FLAG des T_STOR_STATIC).toNat + (HAVE_FLAG des T_STOR_EXTERN).toNat

/-- Sample collaborators for closed examples: no struct, union, enum or
typedef name is known, so an identifier ends the specifier. -/
def sample_spec_collab : SpecCollab where
  aggr_spec := fun ty st => (ty, st)
  enum_spec := fun ty st => (ty, st)
  SpecifierOrId := fun ty st => ((ty, true), st)

/-- The tokens of `register static int x;`. -/
def toks_register_static : List Lexeme :=
  [tk .T_REGISTER, tk .T_STATIC, tk .T_INT, tk_id "x", tk .T_SEMI]

/-- The tokens of `static unsigned x;`. -/
def toks_static_unsigned_x : List Lexeme :=
  [tk .T_STATIC, tk .T_UNSIGNED, tk_id "x", tk .T_SEMI]

/-- The tokens of `unsigned x;`. -/
def toks_unsigned_x : List Lexeme := [tk .T_UNSIGNED, tk_id "x", tk .T_SEMI]

/-- The flag word has a conversion rank: it has one of the flags LONGLONG,
DOUBLE, LONG, FLOAT, SHORT, INT, ENUM, CHAR, BOOL, or no flag other than
SIGNED, or no flag other than UNSIGNED. -/
def has_rank (des : Nat) : Bool :=
  HAVE_FLAG des T_SPEC_LONGLONG || HAVE_FLAG des T_SPEC_DOUBLE || HAVE_FLAG des T_SPEC_LONG ||
    HAVE_FLAG des T_SPEC_FLOAT || HAVE_FLAG des T_SPEC_SHORT || HAVE_FLAG des T_SPEC_INT ||
    HAVE_FLAG des T_SPEC_ENUM || HAVE_FLAG des T_SPEC_CHAR || HAVE_FLAG des T_SPEC_BOOL ||
    ONLY_HAVE_FLAG des T_SPEC_SIGNED || ONLY_HAVE_FLAG des T_SPEC_UNSIGNED

/-- The type name of a scalar with the flag word `des`. -/
def type_of_des (des : Nat) : Decl := buildTypeName (spec_of des)

/-- The status of an outcome of the type pass. -/
def TRes.status {α : Type} : TRes α → Option STATUS
  | .ok st _ _ => some st
  | _ => none

/-- The diagnostics of an outcome of the type pass. -/
def TRes.errors {α : Type} : TRes α → Option (List String)
  | .ok _ _ errs => some errs
  | _ => none

/-- The nodes of an outcome of `TypeTran`. -/
def TRes.nodes : TRes (List ExpTree) → List ExpTree
  | .ok _ ts _ => ts
  | _ => []

/-- The result type of the first node of an outcome of `TypeTran`. -/
def TRes.result (r : TRes (List ExpTree)) : Option Decl := result_of r.nodes

/-- A node without children: an immediate of the kind `type` with the value
`v`. -/
def tree_imm (type : TREE_TYPE) (v : Int) : ExpTree :=
  ExpTree.node type .T_IMM v none none none none [] [] []

/-- An identifier node bound to the declaration `d`. -/
def tree_id (d : Decl) : ExpTree := ExpTree.node .TR_ID .T_ID 0 none (some d) none none [] [] []

/-- A node of the kind `type` with the token `tok` and two operands. -/
def tree_bin (type : TREE_TYPE) (tok : TOKEN) (l r : ExpTree) : ExpTree :=
  ExpTree.node type tok 0 none none none none [l] [r] []

/-- A node of the kind `type` with one operand. -/
def tree_un (type : TREE_TYPE) (l : ExpTree) : ExpTree :=
  ExpTree.node type .T_NUL 0 none none none none [l] [] []

/-- A brace scope node with the given elements. -/
def tree_scope (elems : List ExpTree) : ExpTree :=
  ExpTree.node .TR_INITVAL_SCOPE .T_LLPAREN 0 none none none none elems [] []

/-- A call node: the function expression and the arguments. -/
def tree_call (f : ExpTree) (args : List ExpTree) : ExpTree :=
  ExpTree.node .TR_CALL .T_LPAREN 0 none none none none [f] args []

/-- The flag word, the kind and the pure declarator list of a declaration or
type name, `none` when there is no declaration. -/
def type_view (d : Option Decl) : Option (DCL × Nat × List Op) :=
  d.map fun x => (x.dt, TYPE_des (DECL_spec x), (PURE_DECL x).map opOf)

/-- The specifier that the rule for an immediate of the kind `type` with the
value `v` selects: `int`, or `long long` when the upper 32 bits of the value
are not zero, for `TR_IMM`; the unsigned ones for `TR_IMMU`; `long long` for
`TR_IMML` and `TR_IMMUL`; `double` for `TR_FP` and `TR_FPLD`; `float` for
`TR_FPF`. -/
def imm_spec (type : TREE_TYPE) (v : Int) : TypeSpec :=
  match type with
  | .TR_IMM => if GET_HIGH_32BIT v ≠ 0 then g_slonglong_type else g_sint_type
  | .TR_IMMU => if GET_HIGH_32BIT v ≠ 0 then g_ulonglong_type else g_uint_type
  | .TR_IMML => g_slonglong_type
  | .TR_IMMUL => g_ulonglong_type
  | .TR_FPF => g_float_type
  | _ => g_double_type

/-- The kinds of the immediate constants. -/
def imm_kinds : List TREE_TYPE :=
  [.TR_IMM, .TR_IMMU, .TR_IMML, .TR_IMMUL, .TR_FP, .TR_FPLD, .TR_FPF]

/-- A declaration without initializer of a variable with the flag word
`des`, the name `name`, the qualifier `qua` on its identifier and the
operators `ops`. -/
def decl_var (des : Nat) (name : String) (qua : Nat) (ops : List DeclNode) : Decl :=
  .mk .DCL_DECLARATION (spec_of des) (.mk .DCL_DECLARATOR (.ID name qua false :: ops) false 0 false)
    false false 0 4

/-- The declaration `union U { char c[5]; int i; } u;`. -/
def decl_u : Decl :=
  .mk .DCL_DECLARATION (.mk T_SPEC_UNION none (some union_c5_i) none)
    (.mk .DCL_DECLARATOR [.ID "u" 0 false] false 0 false) false false 0 4

/-- The declaration `struct S { int a; } s;`. -/
def decl_s : Decl :=
  .mk .DCL_DECLARATION (.mk T_SPEC_STRUCT none (some struct_one_int) none)
    (.mk .DCL_DECLARATOR [.ID "s" 0 false] false 0 false) false false 0 4

/-- The literal `1`. -/
def tree_1 : ExpTree := tree_imm .TR_IMM 1

/-- The literal `2`. -/
def tree_2 : ExpTree := tree_imm .TR_IMM 2

/-- A floating literal of type `double`. -/
def tree_fp : ExpTree := tree_imm .TR_FP 0

/-- The expression `l + r`. -/
def tree_add (l r : ExpTree) : ExpTree := tree_bin .TR_ADDITIVE .T_ADD l r

/-- The expression `l - r`. -/
def tree_sub (l r : ExpTree) : ExpTree := tree_bin .TR_ADDITIVE .T_SUB l r

/-- The expression `l = r`. -/
def tree_assign (l r : ExpTree) : ExpTree := tree_bin .TR_ASSIGN .T_ASSIGN l r

/-- The tokens of `const int x;`. -/
def toks_const_int_x : List Lexeme := [tk .T_CONST, tk .T_INT, tk_id "x", tk .T_SEMI]

/-- The declaration `int name(params)` of a function. -/
def decl_fun (name : String) (params : List Param) : Decl :=
  decl_var T_SPEC_INT name 0 [.FUN params false]

/-- A parameter `float x`. -/
def param_float : Param := .decl (decl_var T_SPEC_FLOAT "x" 0 [])

/-- The kinds of the nodes of the argument list of the first node of an
outcome. -/
def TRes.arg_kinds (r : TRes (List ExpTree)) : List TREE_TYPE :=
  match r.nodes with
  | t :: _ => (TREE_rchild t).map TREE_type
  | [] => []

/-- The declaration `int a[10];`. -/
def decl_a10 : Decl := decl_var T_SPEC_INT "a" 0 [.ARRAY none 10 false]

/-- The type name `int [10]`, the result type of the identifier `a` of
`int a[10];`. -/
def type_int_10 : Decl := (buildTypeName (spec_of T_SPEC_INT)).setPure [.ARRAY none 10 false]

/-- The expression `&a` for `int a[10];`. -/
def tree_addr_a : ExpTree := tree_un .TR_LDA (tree_id decl_a10)

/-- The kinds of the statements and directives, which get no result type. -/
def is_stmt_kind : TREE_TYPE → Bool
  | .TR_IF | .TR_DO | .TR_WHILE | .TR_SWITCH | .TR_BREAK | .TR_CONTINUE | .TR_GOTO
  | .TR_LABEL | .TR_DEFAULT | .TR_CASE | .TR_RETURN | .TR_PRAGMA | .TR_PREP
  | .TR_SCOPE | .TR_FOR => true
  | _ => false

/-- The operand of `sizeof` when it is an expression: nothing when the
first node of the slot is a `TR_TYPE_NAME` node. -/
def sizeof_operand (t : ExpTree) : List ExpTree :=
  match TREE_lchild t with
  | [] => []
  | kid :: ksib => if TREE_type kid = .TR_TYPE_NAME then [] else kid :: ksib

/-- The operands of a node by its kind, the lists on which the rule of the
node calls `TypeTran` with a status that it tests: none for a leaf and for
a brace scope, the first slot for a node with one operand, for `return`,
for the function expression of a call and for the base of a member access,
the expression of `sizeof`, the cast expression of a conversion, three
slots for `if` and `?:`, the init trees and the statements of a scope, the
init trees and the four slots of `for`, two slots otherwise. -/
def TREE_operands (t : ExpTree) : List ExpTree :=
  match TREE_type t with
  | .TR_NUL | .TR_ID | .TR_IMM | .TR_IMMU | .TR_IMML | .TR_IMMUL | .TR_FP | .TR_FPF | .TR_FPLD
  | .TR_ENUM_CONST | .TR_STRING | .TR_BREAK | .TR_CONTINUE | .TR_GOTO | .TR_LABEL
  | .TR_DEFAULT | .TR_CASE | .TR_TYPE_NAME | .TR_PRAGMA | .TR_PREP | .TR_INITVAL_SCOPE => []
  | .TR_LDA | .TR_DEREF | .TR_PLUS | .TR_MINUS | .TR_REV | .TR_NOT | .TR_INC | .TR_POST_INC
  | .TR_DEC | .TR_POST_DEC | .TR_RETURN | .TR_CALL | .TR_DMEM | .TR_INDMEM => TREE_lchild t
  | .TR_SIZEOF => sizeof_operand t
  | .TR_CVT => TREE_rchild t
  | .TR_IF | .TR_COND => TREE_lchild t ++ TREE_rchild t ++ TREE_if_false_stmt t
  | .TR_SCOPE => (TREE_scope_inits t).flatten ++ TREE_lchild t
  | .TR_FOR =>
    (TREE_scope_inits t).flatten ++
      (TREE_lchild t ++ TREE_rchild t ++ TREE_if_false_stmt t ++ TREE_for_body t)
  | _ => TREE_lchild t ++ TREE_rchild t

/-- The arguments of a call. -/
def TREE_args (t : ExpTree) : List ExpTree :=
  if TREE_type t = .TR_CALL then TREE_rchild t else []

/-- The expression below an unsigned constant: the operand of the `sizeof`
that the pass has replaced by the constant. -/
def TREE_done (t : ExpTree) : List ExpTree :=
  if TREE_type t = .TR_IMMU then sizeof_operand t else []

/-- The field node of a member access. -/
def TREE_fields (t : ExpTree) : List ExpTree :=
  if TREE_type t = .TR_DMEM ∨ TREE_type t = .TR_INDMEM then (TREE_field t).toList else []

/-- The fields of an aggregate, and of the aggregates of their types in
turn, are declared as the pass needs them: after the expansion of a typedef
reference the chain of a field has no `DCL_ID` behind its first node. -/
inductive FieldsGood : Aggr → Prop
  | mk (s : Aggr) :
      (∀ fd ∈ AGGR_decl_list s, ∀ d, expand_if_user_type_ref fd = some d →
        ∀ n ∈ (PURE_DECL d).tail, DECL_dt n ≠ .DCL_ID) →
      (∀ fd ∈ AGGR_decl_list s, ∀ d, expand_if_user_type_ref fd = some d →
        ∀ s2, TYPE_aggr_type (DECL_spec d) = some s2 → FieldsGood s2) →
      FieldsGood s

/-- The aggregate of a specifier, if it has one, has well-declared fields. -/
def SpecGood (ty : TypeSpec) : Prop := ∀ s, TYPE_aggr_type ty = some s → FieldsGood s

/-- A declaration as the pass needs it: after the expansion of a typedef
reference its chain has no `DCL_ID` behind the first node, and the
aggregate of its specifier has well-declared fields. -/
def DeclGood (d0 : Decl) : Prop :=
  ∀ d, expand_if_user_type_ref d0 = some d →
    (∀ n ∈ (PURE_DECL d).tail, DECL_dt n ≠ .DCL_ID) ∧ SpecGood (DECL_spec d)

/-- A well-formed result type: a type name whose chain has no `DCL_ID`, and
whose aggregate, if it has one, has well-declared fields. -/
def GoodType (d : Decl) : Prop :=
  d.dt = .DCL_TYPE_NAME ∧ (∀ n ∈ PURE_DECL d, DECL_dt n ≠ .DCL_ID) ∧ SpecGood (DECL_spec d)

/-- The declaration bound to an identifier node is as the pass needs it. -/
def IdGood (t : ExpTree) : Prop :=
  TREE_type t = .TR_ID → ∀ d0, TREE_id_decl t = some d0 → DeclGood d0

/-- The type name of a conversion node, after the expansion of a typedef
reference, is a well-formed type. -/
def CvtGood (t : ExpTree) : Prop :=
  TREE_type t = .TR_CVT → ∀ tn d, (TREE_lchild t).head?.bind TREE_type_name = some tn →
    (if IS_USER_TYPE_REF (DECL_spec tn) then expand_user_type tn else some tn) = some d →
    GoodType d

/-- The aggregates that the lookup in the outer scopes finds for a member
access have well-declared fields. -/
def MemGood (t : ExpTree) : Prop :=
  (TREE_type t = .TR_DMEM ∨ TREE_type t = .TR_INDMEM) →
    (∀ s, TREE_outer_base t = some s → FieldsGood s) ∧
      (∀ s, TREE_outer_field t = some s → FieldsGood s)

/-- What the pass needs of the declarations at a node. -/
def Static (t : ExpTree) : Prop := IdGood t ∧ CvtGood t ∧ MemGood t

/-- A tree after the type pass, at an operand position (`false`) or at an
argument position of a call (`true`): a statement has no result type and
typed operands; a
brace scope has a result type, and nothing is said about its elements;
every other node has a well-formed result type and typed children; at an
argument position the node may be wrapped in conversions that the rule for
calls has put around it. -/
inductive TypedAt : Bool → ExpTree → Prop
  | stmt (t : ExpTree) : is_stmt_kind (TREE_type t) = true → TREE_result_type t = none →
      (∀ c ∈ TREE_operands t, TypedAt false c) → TypedAt false t
  | scope (t : ExpTree) (d : Decl) : TREE_type t = .TR_INITVAL_SCOPE →
      TREE_result_type t = some d → TypedAt false t
  | exp (t : ExpTree) (d : Decl) : is_stmt_kind (TREE_type t) = false →
      TREE_type t ≠ .TR_INITVAL_SCOPE → TREE_result_type t = some d → GoodType d →
      Static t → (∀ c ∈ TREE_operands t, TypedAt false c) →
      (∀ c ∈ TREE_args t, TypedAt true c) → (∀ c ∈ TREE_done t, TypedAt false c) →
      (∀ c ∈ TREE_fields t, TypedAt false c) → TypedAt false t
  | arg (t : ExpTree) : TypedAt false t → TypedAt true t
  | cvt (f : Decl) (s : ExpTree) (r : Option Decl) : TypedAt true s →
      TypedAt true ((gen_cvt f s).setResult r)

/-- A tree after the type pass, at an operand position. -/
abbrev Typed (t : ExpTree) : Prop := TypedAt false t

/-- A tree that the type pass accepts, as the parser builds it or as an
earlier visit of the pass has left it, at an operand position (`false`) or
at an argument position of a call (`true`): the declarations at the nodes
are as the pass needs them, a statement has no result type, and the
expression below an unsigned constant is typed. -/
inductive WfAt : Bool → ExpTree → Prop
  | mk (t : ExpTree) : Static t →
      (is_stmt_kind (TREE_type t) = true → TREE_result_type t = none) →
      (∀ c ∈ TREE_operands t, WfAt false c) →
      (∀ c ∈ TREE_args t, WfAt true c) → (∀ c ∈ TREE_done t, TypedAt false c) →
      WfAt false t
  | arg (t : ExpTree) : WfAt false t → WfAt true t
  | cvt (f : Decl) (s : ExpTree) (r : Option Decl) : WfAt true s →
      WfAt true ((gen_cvt f s).setResult r)

/-- A tree that the type pass accepts, at an operand position. -/
abbrev Wf (t : ExpTree) : Prop := WfAt false t

/-- The parent of a brace scope that the pass accepts: an assignment with an
identifier on the left. -/
def ScopeParent (parent : Option ExpTree) : Prop :=
  ∃ p lc rest, parent = some p ∧ TREE_type p = .TR_ASSIGN ∧ TREE_lchild p = lc :: rest ∧
    TREE_type lc = .TR_ID

/-- The kind of a node after the pass: a `sizeof` has become an unsigned
constant. -/
def kind_after (k : TREE_TYPE) : TREE_TYPE := if k = .TR_SIZEOF then .TR_IMMU else k

/-- What the invariant needs of a recursive call: on accepted nodes and with
status `ST_SUCC` it returns typed nodes of the kinds that the pass leaves,
and a brace scope among them has the parent that its rule asserts. -/
def TTGood (TT : TypeTranFn) : Prop :=
  ∀ b parent ts errs out errs1, (∀ t ∈ ts, WfAt b t) →
    TT parent ts errs = .ok .ST_SUCC out errs1 →
    (∀ t ∈ out, TypedAt b t) ∧ out.map TREE_type = ts.map (fun t => kind_after (TREE_type t)) ∧
      (∀ t ∈ out, TREE_type t = .TR_INITVAL_SCOPE → ScopeParent parent)

/-- The right operand of the first node of an outcome. -/
def TRes.right_operand (r : TRes (List ExpTree)) : Option ExpTree :=
  r.nodes.head?.bind fun t => (TREE_rchild t).head?

/-- The declaration `int x;`. -/
def decl_x : Decl := decl_var T_SPEC_INT "x" 0 []

/-- An aggregate with the tag `tag` that has been referenced only: no
fields, not complete. -/
def aggr_incomplete (tag : String) : Aggr := .mk (some tag) [] false 4 0 0

/-- The declaration `union U u;` for a union `U` that is not complete. -/
def decl_u_incomplete : Decl :=
  .mk .DCL_DECLARATION (.mk T_SPEC_UNION none (some (aggr_incomplete "U")) none)
    (.mk .DCL_DECLARATOR [.ID "u" 0 false] false 0 false) false false 0 4

/-- The declaration `struct S s;` for a struct `S` that is not complete. -/
def decl_s_incomplete : Decl :=
  .mk .DCL_DECLARATION (.mk T_SPEC_STRUCT none (some (aggr_incomplete "S")) none)
    (.mk .DCL_DECLARATOR [.ID "s" 0 false] false 0 false) false false 0 4

/-- The declaration `struct S *p;` for a struct `S` that is not complete. -/
def decl_sp_incomplete : Decl :=
  .mk .DCL_DECLARATION (.mk T_SPEC_STRUCT none (some (aggr_incomplete "S")) none)
    (.mk .DCL_DECLARATOR [.ID "p" 0 false, .POINTER 0 false] false 0 false) false false 0 4

/-- The value that a function of the parser returns, if it returns. -/
def PRes.value {α : Type} : PRes α → Option α
  | .ok a _ => some a
  | _ => none

/-- The diagnostics after a function of the parser, if it returns. -/
def PRes.errors {α : Type} : PRes α → Option (List String)
  | .ok _ st => some st.errs
  | _ => none

/-- The table of `computeScalarTypeBitSize`: the flag words of its `case`
labels with the bit size of each. -/
def scalar_bit_sizes : List (Nat × Nat) :=
  [(T_SPEC_CHAR ||| T_SPEC_UNSIGNED, 8), (T_SPEC_CHAR ||| T_SPEC_SIGNED, 8), (T_SPEC_CHAR, 8),
   (T_SPEC_SHORT ||| T_SPEC_UNSIGNED, 16), (T_SPEC_SHORT ||| T_SPEC_SIGNED, 16),
   (T_SPEC_SHORT, 16),
   (T_SPEC_ENUM, 32), (T_SPEC_INT ||| T_SPEC_UNSIGNED, 32), (T_SPEC_INT ||| T_SPEC_SIGNED, 32),
   (T_SPEC_INT, 32), (T_SPEC_SIGNED, 32), (T_SPEC_UNSIGNED, 32),
   (T_SPEC_LONG ||| T_SPEC_UNSIGNED, 32), (T_SPEC_LONG ||| T_SPEC_SIGNED, 32),
   (T_SPEC_LONG, 32),
   (T_SPEC_LONGLONG ||| T_SPEC_UNSIGNED, 64), (T_SPEC_LONGLONG ||| T_SPEC_SIGNED, 64),
   (T_SPEC_LONGLONG, 64),
   (T_SPEC_DOUBLE, 64), (T_SPEC_DOUBLE ||| T_SPEC_LONG, 64),
   (T_SPEC_DOUBLE ||| T_SPEC_LONGLONG, 64),
   (T_SPEC_FLOAT, 32), (T_SPEC_FLOAT ||| T_SPEC_LONG, 32),
   (T_SPEC_FLOAT ||| T_SPEC_LONGLONG, 32)]

/-- The bit size of a specifier by `getSpecTypeSize`. -/
def spec_bit_size (ptr : Nat) (ty : TypeSpec) : Option Nat :=
  (getSpecTypeSize ptr ty).map fun n => n * BIT_PER_BYTE

/-- The enum of `enum { X };`, which has no name. -/
def enum_unnamed : Enum := ⟨none, [⟨"X", 0⟩]⟩

/-- The enum of `enum E { A };`. -/
def enum_E : Enum := ⟨some "E", [⟨"A", 0⟩]⟩

/-- The specifier parser of decl.cpp as the collaborator of the declarator
engine, for specifiers without aggregate, enum and typedef name. -/
def spec_collab : Collab :=
  { literal_collab with
    declaration_spec := fun st =>
      match declaration_spec sample_spec_collab 10 st with
      | .ok ty st1 => (ty, st1)
      | _ => (none, st) }

/-- The tokens of the parameter `char p[][20]`, followed by `)`. -/
def toks_char_p_20 : List Lexeme :=
  [tk .T_CHAR, tk_id "p", tk .T_LSPAREN, tk .T_RSPAREN, tk .T_LSPAREN, tk_imm 20,
    tk .T_RSPAREN, tk .T_RPAREN]

/-- The declaration that `parameter_declaration` returns for `char p[][20]`,
marked as a formal parameter. -/
def decl_char_p_20 : Decl :=
  .mk .DCL_DECLARATION (spec_of T_SPEC_CHAR)
    (.mk .DCL_DECLARATOR
      [.ID "p" 0 false, .ARRAY none 1 false, .ARRAY (some ⟨some 20⟩) 20 false] false 0 false)
    true false 0 0

/-- What the statements about the pool read of a chain: for every block its
address, its size and its `start_pos`. -/
def pool_view (chain : List SMEM_POOL) : List (Nat × Nat × Nat) :=
  chain.map fun b => (b.ppool, b.mem_pool_size, b.start_pos)

/-- The blocks of the chain obey the two assertions of the search loop, and
the size of each is a value of `ULONG`. -/
def PoolOk (cfg : PoolCfg) (chain : List SMEM_POOL) : Prop :=
  ∀ b ∈ chain, b.start_pos ≤ b.mem_pool_size ∧ 0 < b.mem_pool_size ∧
    b.mem_pool_size < 2 ^ cfg.ULONG_BITS

/-- No block of the chain has `size` bytes left. -/
def NoRoom (size : Nat) (chain : List SMEM_POOL) : Prop :=
  ∀ b ∈ chain, b.mem_pool_size - b.start_pos < size

/-- The value of `grow_size` when `smpool_malloc_h` asks for a new block: the
argument as a `UINT`, or, when that is zero, twice the `grow_size` of the
handler as a `UINT`. -/
def pool_growth (cfg : PoolCfg) (h : SMEM_POOL) (grow_size : Nat) : Nat :=
  if toUINT grow_size = 0 then toUINT (toULONG cfg (h.grow_size * 2)) else toUINT grow_size

/-- The size of a new block for a request of `size` bytes with the growth
`g`, without wrap-around: `g`, or the multiple `(size / g + 1) * g` when
`size > g`. -/
def pool_new_size (size g : Nat) : Nat := if size > g then (size / g + 1) * g else g

/-- Two regions of memory, each an address and a length, do not overlap. -/
def regions_disjoint (a b : Nat × Nat) : Prop := a.1 + a.2 ≤ b.1 ∨ b.1 + b.2 ≤ a.1

/-- The memory of the blocks of the chain is pairwise disjoint. -/
def BlocksDisjoint (chain : List SMEM_POOL) : Prop :=
  (pool_view chain).Pairwise fun a b => regions_disjoint (a.1, a.2.1) (b.1, b.2.1)

/-- The bytes that `malloc` returns do not overlap the memory of a block of
the chain. -/
def MallocFresh (malloc : List SMEM_POOL → Nat → Option Nat) : Prop :=
  ∀ (chain : List SMEM_POOL) (n a : Nat), malloc chain n = some a → ∀ b ∈ chain,
    regions_disjoint (a, n) (b.ppool, b.mem_pool_size)

/-- Successive calls of `smpool_malloc_h` on the same pool, each with its
`size` and `grow_size`: the regions returned, each the address and the size
rounded up, and the chain afterwards.  No result when a call has none or
returns null. -/
def smpool_run (cfg : PoolCfg) (malloc : List SMEM_POOL → Nat → Option Nat) :
    List (Nat × Nat) → List SMEM_POOL → Option (List (Nat × Nat) × List SMEM_POOL)
  | [], chain => some ([], chain)
  | (size, grow_size) :: reqs, chain =>
    match smpool_malloc_h cfg (malloc chain) size chain grow_size with
    | some (some addr, chain1) =>
      (smpool_run cfg malloc reqs chain1).map fun r =>
        ((addr, round_up size cfg.WORD_ALIGN) :: r.1, r.2)
    | _ => none

/-- A pool configuration with `WORD_ALIGN` 4, `MIN_MARGIN` 28, `ULONG` and
`size_t` of 32 bits and a block header of 32 bytes. -/
def pool_cfg32 : PoolCfg := ⟨4, 28, 32, 32, 32⟩

/-- A `malloc` that puts the bytes behind the blocks of the chain, from the
address 1000 on. -/
def malloc_behind (chain : List SMEM_POOL) (_ : Nat) : Option Nat :=
  some (chain.foldl (fun a b => max a (b.ppool + b.mem_pool_size + END_BOUND_BYTE)) 1000)

/-- A `malloc` that has memory for the first block only. -/
def malloc_once (chain : List SMEM_POOL) (n : Nat) : Option Nat :=
  if chain.isEmpty then malloc_behind chain n else none


/-- The flag word stays legal for `ck_type_spec_legally` when `T_SPEC_STRUCT`
is added to it. -/
def struct_spec_legal (des : Nat) : Prop :=
  ∀ st : PState,
    ck_type_spec_legally (.mk (des ||| T_SPEC_STRUCT) none none none) st = (.ST_SUCC, st)

/-- Every struct that is complete in `h` is allocated and complete in
`h1`. -/
def HeapMono (h h1 : List Aggr) : Prop :=
  ∀ (p : Nat) (a : Aggr), h[p]? = some a → AGGR_is_complete a = true →
    ∃ a1, h1[p]? = some a1 ∧ AGGR_is_complete a1 = true

/-- A sample parser of fields that reads fields of the form `int name;`. -/
def int_fields : List Lexeme → List Decl × List Lexeme
  | ⟨.T_INT, _, _⟩ :: ⟨.T_ID, name, _⟩ :: ⟨.T_SEMI, _, _⟩ :: rest =>
    ((decl_int_field name :: (int_fields rest).1), (int_fields rest).2)
  | toks => ([], toks)

/-- The sample parser of fields as a `FieldParser`: it leaves the registry
as it is. -/
def sample_field_reader : FieldParser := fun R st =>
  ((int_fields st.toks).1, R, st.setToks (int_fields st.toks).2)

/-- A complete `struct T { int a; }`. -/
def struct_T_complete : Aggr := .mk (some "T") [decl_int_field "a"] true 4 0 0

/-- A registry with the struct `T`, complete, in the outer of two scopes. -/
def reg_T_outer : TagReg := ⟨[⟨[]⟩, ⟨[0]⟩], [struct_T_complete]⟩

/-- The tokens of `struct T { int b; } x;`. -/
def toks_struct_T_body : List Lexeme :=
  [tk .T_STRUCT, tk_id "T", tk .T_LLPAREN, tk .T_INT, tk_id "b", tk .T_SEMI, tk .T_RLPAREN,
    tk_id "x", tk .T_SEMI]


/-- A registry with one scope and no struct. -/
def reg_empty : TagReg := ⟨[⟨[]⟩], []⟩

/-- The registry after `struct L *p;` in `reg_empty`, with `g_alignment` 4. -/
def reg_L : TagReg := ⟨[⟨[0]⟩], [.mk (some "L") [] false 4 0 0]⟩

/-- The tokens of `struct L *p;`. -/
def toks_L_ref : List Lexeme :=
  [tk .T_STRUCT, tk_id "L", tk .T_ASTERISK, tk_id "p", tk .T_SEMI]

/-- The tokens of `struct L { int v; };`. -/
def toks_L_body : List Lexeme :=
  [tk .T_STRUCT, tk_id "L", tk .T_LLPAREN, tk .T_INT, tk_id "v", tk .T_SEMI, tk .T_RLPAREN,
    tk .T_SEMI]


/-- The spelling of a token in a C text. -/
def spell (l : Lexeme) : String :=
  match l.tok with
  | .T_ID => l.str
  | .T_IMM => toString l.num
  | .T_LPAREN => "("
  | .T_RPAREN => ")"
  | .T_LSPAREN => "["
  | .T_RSPAREN => "]"
  | .T_LLPAREN => "\x7b"
  | .T_RLPAREN => "\x7d"
  | .T_ASTERISK => "*"
  | .T_COMMA => ","
  | .T_SEMI => ";"
  | .T_ASSIGN => "="
  | .T_COLON => ":"
  | .T_DOTDOTDOT => "..."
  | .T_CONST => "const"
  | .T_VOLATILE => "volatile"
  | .T_RESTRICT => "restrict"
  | .T_VOID => "void"
  | .T_CHAR => "char"
  | .T_SHORT => "short"
  | .T_INT => "int"
  | .T_LONG => "long"
  | .T_LONGLONG => "longlong"
  | .T_BOOL => "bool"
  | .T_FLOAT => "float"
  | .T_DOUBLE => "double"
  | .T_SIGNED => "signed"
  | .T_UNSIGNED => "unsigned"
  | .T_STRUCT => "struct"
  | .T_UNION => "union"
  | .T_ENUM => "enum"
  | .T_AUTO => "auto"
  | .T_REGISTER => "register"
  | .T_STATIC => "static"
  | .T_EXTERN => "extern"
  | .T_INLINE => "inline"
  | .T_TYPEDEF => "typedef"
  | .T_ADD => "+"
  | .T_SUB => "-"
  | .T_DIV => "/"
  | .T_MOD => "%"
  | .T_NUL => ""
  | .T_END => ""

/-- The character is one of the punctuators that a printed declaration can
hold; each is a token of its own. -/
def is_punct (c : Char) : Bool := "*()[],;:".data.contains c

/-- The character belongs to a word: it is no blank and no punctuator. -/
def is_word_char (c : Char) : Bool := !(c == Char.ofNat 32) && !is_punct c

/-- The tokens read so far, with the word that is being read closed. -/
def tok_flush (s : List String × List Char) : List String :=
  if s.2 = [] then s.1 else s.1 ++ [String.mk s.2]

/-- One character of a text: a blank closes the word, a punctuator closes the
word and is a token, any other character continues the word. -/
def tok_step (s : List String × List Char) (c : Char) : List String × List Char :=
  if c = Char.ofNat 32 then (tok_flush s, [])
  else if is_punct c then (tok_flush s ++ [String.mk [c]], [])
  else (s.1, s.2 ++ [c])

/-- The state of the reader after the text. -/
def tok_run (s : List String × List Char) (text : String) : List String × List Char :=
  text.data.foldl tok_step s

/-- The tokens of a text: what is compared when two texts are equal up to
white space. -/
def c_tokens (text : String) : List String := tok_flush (tok_run ([], []) text)

/-- The text that `format_declaration` prints for the declaration that
`declaration_head` returns for the tokens, with the sample collaborators. -/
def printed_text (fuel : Nat) (toks : List Lexeme) : Option String :=
  match declaration_head sample_spec_collab spec_collab fuel (st_of toks) with
  | .ok (some d) _ =>
    match format_declaration fuel "" [] d with
    | .ok text [] => some text
    | _ => none
  | _ => none

/-- The tokens of `int *a[10];`. -/
def toks_int_pa_10 : List Lexeme :=
  [tk .T_INT, tk .T_ASTERISK, tk_id "a", tk .T_LSPAREN, tk_imm 10, tk .T_RSPAREN, tk .T_SEMI]

/-- The tokens of `int (*q)[30];`. -/
def toks_int_q_30 : List Lexeme :=
  [tk .T_INT, tk .T_LPAREN, tk .T_ASTERISK, tk_id "q", tk .T_RPAREN, tk .T_LSPAREN,
    tk_imm 30, tk .T_RSPAREN, tk .T_SEMI]

/-- The tokens of `long long x;`. -/
def toks_long_long_x : List Lexeme := [tk .T_LONG, tk .T_LONG, tk_id "x", tk .T_SEMI]

/-- The tokens of `auto int x;`. -/
def toks_auto_int_x : List Lexeme := [tk .T_AUTO, tk .T_INT, tk_id "x", tk .T_SEMI]


/-- The keywords of the base kinds, without `longlong`, in the order in
which `format_base_type_spec` prints them. -/
def base_keywords : List TOKEN :=
  [.T_SIGNED, .T_UNSIGNED, .T_CHAR, .T_SHORT, .T_LONG, .T_INT, .T_FLOAT, .T_DOUBLE, .T_VOID]

/-- The flag that `type_spec` sets for a keyword of a base kind. -/
def kw_flag : TOKEN → Nat
  | .T_SIGNED => T_SPEC_SIGNED
  | .T_UNSIGNED => T_SPEC_UNSIGNED
  | .T_CHAR => T_SPEC_CHAR
  | .T_SHORT => T_SPEC_SHORT
  | .T_LONG => T_SPEC_LONG
  | .T_INT => T_SPEC_INT
  | .T_FLOAT => T_SPEC_FLOAT
  | .T_DOUBLE => T_SPEC_DOUBLE
  | .T_VOID => T_SPEC_VOID
  | _ => 0

/-- The flag word of a list of keywords, on top of `des`. -/
def kws_des (des : Nat) (kws : List TOKEN) : Nat := kws.foldl (fun d k => d ||| kw_flag k) des

/-- The tokens of a run of dimensions `[n]`. -/
def dims_toks : List Nat → List Lexeme
  | [] => []
  | n :: rest => tk .T_LSPAREN :: tk_imm n :: tk .T_RSPAREN :: dims_toks rest

/-- The tokens of a declaration `T *...* name[n1]...[nk]`, without the `;`. -/
def simple_decl_toks (kws : List TOKEN) (k : Nat) (name : String) (dims : List Nat) :
    List Lexeme :=
  kws.map tk ++ (List.replicate k (tk .T_ASTERISK) ++ (tk_id name :: dims_toks dims))

/-- The name is a word: it is not empty and holds no blank and no
punctuator. -/
def is_identifier (name : String) : Prop :=
  name ≠ "" ∧ ∀ c ∈ name.data, is_word_char c = true


/-- The array node that `direct_declarator` makes for the dimension `[n]`,
with `DECL_array_dim` equal to `v`. -/
def array_node (v : Int) (n : Nat) : DeclNode := .ARRAY (some ⟨some (n : Int)⟩) v false

/-- The spellings of the tokens of a run of dimensions `[n]`. -/
def dims_spelled : List Nat → List String
  | [] => []
  | n :: rest => "[" :: toString ((n : Nat) : Int) :: "]" :: dims_spelled rest

/-- The pure declarator list of `*...* name[n1]...[nk]` with `k` pointers. -/
def simple_chain (k : Nat) (name : String) (dims : List Nat) : List DeclNode :=
  .ID name 0 false :: (dims.map (fun (n : Nat) => array_node (n : Int) n) ++
    List.replicate k (.POINTER 0 false))


/-- The flag word `des` has the flags of the base keywords that `p` selects
and no other flag. -/
def KwBits (p : TOKEN → Bool) (des : Nat) : Prop :=
  des.testBit 8 = p .T_SIGNED ∧ des.testBit 9 = p .T_UNSIGNED ∧ des.testBit 1 = p .T_CHAR ∧
    des.testBit 2 = p .T_SHORT ∧ des.testBit 5 = p .T_LONG ∧ des.testBit 3 = p .T_INT ∧
    des.testBit 6 = p .T_FLOAT ∧ des.testBit 7 = p .T_DOUBLE ∧ des.testBit 0 = p .T_VOID ∧
    ∀ i, 9 < i ∨ i = 4 → des.testBit i = false

/-- The text that `format_base_type_spec` adds for the base keywords that
`p` selects. -/
def keywords_text (p : TOKEN → Bool) : String :=
  (if p .T_SIGNED then "signed " else "") ++ ((if p .T_UNSIGNED then "unsigned " else "") ++
    ((if p .T_CHAR then "char " else "") ++ ((if p .T_SHORT then "short " else "") ++
    ((if p .T_LONG then "long " else "") ++ ((if p .T_INT then "int " else "") ++
    ((if p .T_FLOAT then "float " else "") ++ ((if p .T_DOUBLE then "double " else "") ++
    (if p .T_VOID then "void " else ""))))))))


/-- The text `x` with `s` added when `b` holds: one `if (...) buf.strcat(...)`
of a printing function. -/
def opt_append (b : Bool) (s x : String) : String := if b then x ++ s else x

/-- The expression `sizeof e`. -/
def tree_sizeof (e : ExpTree) : ExpTree :=
  ExpTree.node .TR_SIZEOF .T_NUL 0 none none none none [e] [] []

/-- The identifier node of the field `name` of a member access, as it is
before the pass. -/
def tree_field (name : String) : ExpTree :=
  .mk .TR_ID .T_ID 0 none none none none [] [] [] (some name) [] none [] none none

/-- The expression `base.name`, where the lookup in the outer scopes finds
nothing. -/
def tree_dmem (base : ExpTree) (name : String) : ExpTree :=
  .mk .TR_DMEM .T_NUL 0 none none none none [base] [] [] none [] (some (tree_field name)) []
    none none

/-- The status, the kinds and the result types of the nodes of an outcome of
`TypeTran`. -/
def TRes.summary (r : TRes (List ExpTree)) :
    Option (STATUS × List (TREE_TYPE × Option (DCL × Nat × List Op))) :=
  match r with
  | .ok st ts _ => some (st, ts.map fun t => (TREE_type t, type_view (TREE_result_type t)))
  | _ => none

theorem is_pointer_walk_iff (prev : Option DeclNode) (chain : List DeclNode) :
    is_pointer_walk prev chain = true ↔
      ∃ pre n post, chain = pre ++ n :: post ∧ (∀ x ∈ pre, isIdOrVariable x) ∧
        (DECL_dt n = .DCL_POINTER ∨
          (DECL_dt n = .DCL_FUN ∧
            ((prev.toList ++ pre).getLast?).map DECL_dt = some .DCL_POINTER)) := by
  induction chain generalizing prev with
  | nil => simp [is_pointer_walk]
  | cons d rest ih =>
    have step : ∀ (hd : isIdOrVariable d),
        (is_pointer_walk (some d) rest = true ↔
          ∃ pre n post, d :: rest = pre ++ n :: post ∧ (∀ x ∈ pre, isIdOrVariable x) ∧
            (DECL_dt n = .DCL_POINTER ∨
              (DECL_dt n = .DCL_FUN ∧
                ((prev.toList ++ pre).getLast?).map DECL_dt = some .DCL_POINTER))) := by
      intro hd
      rw [ih (some d)]
      constructor
      · rintro ⟨pre, n, post, h1, h2, h3⟩
        refine ⟨d :: pre, n, post, by simp [h1], ?_, ?_⟩
        · intro x hx
          rcases List.mem_cons.1 hx with h | h
          · exact h ▸ hd
          · exact h2 x h
        · rcases h3 with h3 | ⟨h3, h4⟩
          · exact Or.inl h3
          · refine Or.inr ⟨h3, ?_⟩
            have : (prev.toList ++ d :: pre).getLast? = ([d] ++ pre).getLast? := by
              rw [List.getLast?_append_cons]
              simp
            simpa [this] using h4
      · rintro ⟨pre, n, post, h1, h2, h3⟩
        cases pre with
        | nil =>
          simp at h1
          obtain ⟨rfl, rfl⟩ := h1
          rcases hd with hd | hd <;> rcases h3 with h3 | ⟨h3, _⟩ <;> simp_all
        | cons x pre' =>
          simp at h1
          obtain ⟨rfl, rfl⟩ := h1
          refine ⟨pre', n, post, rfl, fun y hy => h2 y (List.mem_cons_of_mem _ hy), ?_⟩
          rcases h3 with h3 | ⟨h3, h4⟩
          · exact Or.inl h3
          · refine Or.inr ⟨h3, ?_⟩
            have : (prev.toList ++ d :: pre').getLast? = ([d] ++ pre').getLast? := by
              rw [List.getLast?_append_cons]
              simp
            simpa [this] using h4
    cases d with
    | ID sym qua ip => simpa [is_pointer_walk] using step (Or.inl rfl)
    | VARIABLE => simpa [is_pointer_walk] using step (Or.inr rfl)
    | POINTER qua ip =>
      simp only [is_pointer_walk, true_iff]
      exact ⟨[], .POINTER qua ip, rest, rfl, by simp, Or.inl rfl⟩
    | ARRAY e dm p =>
      simp only [is_pointer_walk, Bool.false_eq_true, false_iff]
      rintro ⟨pre, n, post, h1, h2, h3⟩
      cases pre with
      | nil =>
        simp at h1
        obtain ⟨rfl, rfl⟩ := h1
        rcases h3 with h3 | ⟨h3, _⟩ <;> simp [DECL_dt] at h3
      | cons x pre' =>
        simp at h1
        obtain ⟨rfl, rfl⟩ := h1
        have := h2 _ (List.mem_cons_self _ _)
        simp [isIdOrVariable, DECL_dt] at this
    | FUN ps p =>
      constructor
      · intro h
        refine ⟨[], .FUN ps p, rest, rfl, by simp, Or.inr ⟨rfl, ?_⟩⟩
        cases prev with
        | none => simp [is_pointer_walk] at h
        | some q => simpa [is_pointer_walk] using h
      · rintro ⟨pre, n, post, h1, h2, h3⟩
        cases pre with
        | nil =>
          simp at h1
          obtain ⟨rfl, rfl⟩ := h1
          rcases h3 with h3 | ⟨_, h4⟩
          · simp [DECL_dt] at h3
          · cases prev with
            | none => simp at h4
            | some q => simpa [is_pointer_walk] using h4
        | cons x pre' =>
          simp at h1
          obtain ⟨rfl, rfl⟩ := h1
          have := h2 _ (List.mem_cons_self _ _)
          simp [isIdOrVariable, DECL_dt] at this

/-- C3. `is_pointer` holds exactly when the first node that is neither
`DCL_ID` nor `DCL_VARIABLE` is a `DCL_POINTER`, or is a `DCL_FUN` whose
immediately preceding node is a `DCL_POINTER`; on the empty list it is
false.  It is stated for a declaration, and for the loop started at any node
of a list, where `prev` is `DECL_prev` of that node. -/
theorem is_pointer_iff_first_operator :
    (∀ dcl : Decl, is_pointer dcl = true ↔
      ∃ pre n post, PURE_DECL dcl = pre ++ n :: post ∧ (∀ x ∈ pre, isIdOrVariable x) ∧
        (DECL_dt n = .DCL_POINTER ∨
          (DECL_dt n = .DCL_FUN ∧ (pre.getLast?).map DECL_dt = some .DCL_POINTER))) ∧
    (∀ (prev : Option DeclNode) (chain : List DeclNode),
      is_pointer_walk prev chain = true ↔
      ∃ pre n post, chain = pre ++ n :: post ∧ (∀ x ∈ pre, isIdOrVariable x) ∧
        (DECL_dt n = .DCL_POINTER ∨
          (DECL_dt n = .DCL_FUN ∧
            ((prev.toList ++ pre).getLast?).map DECL_dt = some .DCL_POINTER))) ∧
    (∀ prev : Option DeclNode, is_pointer_walk prev [] = false) := by
  refine ⟨fun dcl => ?_, is_pointer_walk_iff, fun _ => rfl⟩
  have h := is_pointer_walk_iff none (PURE_DECL dcl)
  simpa [is_pointer] using h

theorem is_fun_pointer_walk_false (prev : Option DeclNode) (chain : List DeclNode)
    (h : ∀ p, prev = some p → DECL_dt p ≠ .DCL_POINTER) :
    is_fun_pointer_walk prev chain = false := by
  induction chain generalizing prev with
  | nil => rfl
  | cons d rest ih =>
    cases d with
    | ID sym qua ip =>
      simp only [is_fun_pointer_walk]
      exact ih _ (fun p hp => by cases hp; simp [DECL_dt])
    | VARIABLE =>
      simp only [is_fun_pointer_walk]
      exact ih _ (fun p hp => by cases hp; simp [DECL_dt])
    | POINTER qua ip => rfl
    | ARRAY e dm p => rfl
    | FUN ps p =>
      cases prev with
      | none => rfl
      | some q => simpa [is_fun_pointer_walk] using h q rfl

/-- C4. On the declaration `int (*f)(void)`, whose list is
`ID(f) -> POINTER -> FUN`, `is_fun_pointer` returns false although
`is_pointer` holds; indeed `is_fun_pointer` returns false on every
declaration, because its loop leaves at the `DCL_POINTER` node through the
default case. -/
theorem is_fun_pointer_misses_pointer_to_function :
    (PURE_DECL decl_fun_pointer).map DECL_dt = [.DCL_ID, .DCL_POINTER, .DCL_FUN] ∧
    is_fun_pointer decl_fun_pointer = false ∧
    is_pointer decl_fun_pointer = true ∧
    (∀ dcl : Decl, is_fun_pointer dcl = false) :=
  ⟨rfl, rfl, rfl, fun dcl => is_fun_pointer_walk_false none _ (fun _ hp => by cases hp)⟩

theorem cp_decl_node_eq (n : DeclNode) : cp_decl_node n = n := by
  cases n <;> rfl

theorem cp_decl_begin_at_loop_eq (newl header : List DeclNode) :
    cp_decl_begin_at_loop newl header = newl ++ header := by
  induction header generalizing newl with
  | nil => simp [cp_decl_begin_at_loop]
  | cons h t ih => simp [cp_decl_begin_at_loop, ih, add_next, cp_decl_node_eq]

theorem cp_decl_begin_at_eq (header : List DeclNode) : cp_decl_begin_at header = header := by
  simp [cp_decl_begin_at, cp_decl_begin_at_loop_eq]

theorem cp_decl_fully_eq (src : Decl) : cp_decl_fully src = src := by
  obtain ⟨dt, ⟨des, ut, a, e⟩, ⟨ddt, child, b, l, i⟩, p, s, f, al⟩ := src
  simp [cp_decl_fully, cp_spec, cp_decl_declarator, Declarator.setChild, DECL_child,
    cp_decl_begin_at_eq]

/-- C5. The copy made by `cp_decl_fully` of a declaration or type name has the
same kind, the same node kinds in the same order and the same array
dimensions, and each of `is_pointer`, `is_array`, `is_fun_decl` and
`is_fun_pointer` has the same value on the copy as on the original. -/
theorem cp_decl_fully_structural (d : Decl) :
    (cp_decl_fully d).dt = d.dt ∧
    (PURE_DECL (cp_decl_fully d)).map DECL_dt = (PURE_DECL d).map DECL_dt ∧
    (PURE_DECL (cp_decl_fully d)).map DECL_array_dim = (PURE_DECL d).map DECL_array_dim ∧
    is_pointer (cp_decl_fully d) = is_pointer d ∧
    is_array (cp_decl_fully d) = is_array d ∧
    is_fun_decl (cp_decl_fully d) = is_fun_decl d ∧
    is_fun_pointer (cp_decl_fully d) = is_fun_pointer d := by
  rw [cp_decl_fully_eq]
  exact ⟨rfl, rfl, rfl, rfl, rfl, rfl, rfl⟩

theorem getSpecTypeSize_base_kind (ptr des : Nat) (ut : Option Decl) (a : Option Aggr)
    (e : Option Enum) (k sz : Nat) (hk : (k, sz) ∈ base_kind_sizes)
    (h1 : HAVE_FLAG des k = true)
    (h2 : ∀ k' ∈ base_kinds, k' ≠ k → HAVE_FLAG des k' = false) :
    getSpecTypeSize ptr (.mk des ut a e) = some sz := by
  have hVOID := h2 T_SPEC_VOID (by simp [base_kinds])
  have hBOOL := h2 T_SPEC_BOOL (by simp [base_kinds])
  have hCHAR := h2 T_SPEC_CHAR (by simp [base_kinds])
  have hSHORT := h2 T_SPEC_SHORT (by simp [base_kinds])
  have hINT := h2 T_SPEC_INT (by simp [base_kinds])
  have hLONG := h2 T_SPEC_LONG (by simp [base_kinds])
  have hLL := h2 T_SPEC_LONGLONG (by simp [base_kinds])
  have hFLOAT := h2 T_SPEC_FLOAT (by simp [base_kinds])
  have hDOUBLE := h2 T_SPEC_DOUBLE (by simp [base_kinds])
  have hENUM := h2 T_SPEC_ENUM (by simp [base_kinds])
  have hSTRUCT := h2 T_SPEC_STRUCT (by simp [base_kinds])
  have hUNION := h2 T_SPEC_UNION (by simp [base_kinds])
  simp only [base_kind_sizes, List.mem_cons, Prod.mk.injEq, List.mem_singleton,
    List.not_mem_nil, or_false] at hk
  rcases hk with c0 | c1 | c2 | c3 | c4 | c5 | c6 | c7 | c8 | c9
  · obtain ⟨rfl, rfl⟩ := c0
    cases a <;> simp [getSpecTypeSize, h1, hLL (by decide), BYTE_PER_CHAR]
  · obtain ⟨rfl, rfl⟩ := c1
    cases a <;> simp [getSpecTypeSize, h1, hLL (by decide), hVOID (by decide), hCHAR (by decide),
      BYTE_PER_CHAR]
  · obtain ⟨rfl, rfl⟩ := c2
    cases a <;> simp [getSpecTypeSize, h1, hLL (by decide), hVOID (by decide), BYTE_PER_CHAR]
  · obtain ⟨rfl, rfl⟩ := c3
    cases a <;> simp [getSpecTypeSize, h1, hLL (by decide), hVOID (by decide), hCHAR (by decide),
      hBOOL (by decide), BYTE_PER_SHORT]
  · obtain ⟨rfl, rfl⟩ := c4
    cases a <;> simp [getSpecTypeSize, h1, hLL (by decide), hVOID (by decide), hCHAR (by decide),
      hBOOL (by decide), hSHORT (by decide), BYTE_PER_INT]
  · obtain ⟨rfl, rfl⟩ := c5
    cases a <;> simp [getSpecTypeSize, h1, hLL (by decide), hVOID (by decide), hCHAR (by decide),
      hBOOL (by decide), hSHORT (by decide), hINT (by decide), BYTE_PER_LONG]
  · obtain ⟨rfl, rfl⟩ := c6
    cases a <;> simp [getSpecTypeSize, h1, hLL (by decide), hVOID (by decide), hCHAR (by decide),
      hBOOL (by decide), hSHORT (by decide), hINT (by decide), hLONG (by decide),
      BYTE_PER_FLOAT]
  · obtain ⟨rfl, rfl⟩ := c7
    cases a <;> simp [getSpecTypeSize, h1, hLL (by decide), hVOID (by decide), hCHAR (by decide),
      hBOOL (by decide), hSHORT (by decide), hINT (by decide), hLONG (by decide),
      hFLOAT (by decide), hDOUBLE (by decide), hSTRUCT (by decide), hUNION (by decide),
      BYTE_PER_ENUM]
  · obtain ⟨rfl, rfl⟩ := c8
    cases a <;> simp [getSpecTypeSize, h1, BYTE_PER_LONGLONG]
  · obtain ⟨rfl, rfl⟩ := c9
    cases a <;> simp [getSpecTypeSize, h1, hLL (by decide), hVOID (by decide), hCHAR (by decide),
      hBOOL (by decide), hSHORT (by decide), hINT (by decide), hLONG (by decide),
      hFLOAT (by decide), BYTE_PER_DOUBLE]

theorem getSpecTypeSize_bare_sign (ptr des : Nat) (ut : Option Decl) (a : Option Aggr)
    (e : Option Enum) (h2 : ∀ k' ∈ base_kinds, HAVE_FLAG des k' = false)
    (h1 : HAVE_FLAG des T_SPEC_SIGNED = true ∨ HAVE_FLAG des T_SPEC_UNSIGNED = true) :
    getSpecTypeSize ptr (.mk des ut a e) = some BYTE_PER_INT := by
  have hVOID := h2 T_SPEC_VOID (by simp [base_kinds])
  have hBOOL := h2 T_SPEC_BOOL (by simp [base_kinds])
  have hCHAR := h2 T_SPEC_CHAR (by simp [base_kinds])
  have hSHORT := h2 T_SPEC_SHORT (by simp [base_kinds])
  have hINT := h2 T_SPEC_INT (by simp [base_kinds])
  have hLONG := h2 T_SPEC_LONG (by simp [base_kinds])
  have hLL := h2 T_SPEC_LONGLONG (by simp [base_kinds])
  have hFLOAT := h2 T_SPEC_FLOAT (by simp [base_kinds])
  have hDOUBLE := h2 T_SPEC_DOUBLE (by simp [base_kinds])
  have hENUM := h2 T_SPEC_ENUM (by simp [base_kinds])
  have hSTRUCT := h2 T_SPEC_STRUCT (by simp [base_kinds])
  have hUNION := h2 T_SPEC_UNION (by simp [base_kinds])
  rcases h1 with h1 | h1
  · cases a <;> simp [getSpecTypeSize, h1, hLL, hVOID, hCHAR, hBOOL, hSHORT, hINT, hLONG, hFLOAT,
      hDOUBLE, hSTRUCT, hUNION, hENUM]
  · by_cases hs : HAVE_FLAG des T_SPEC_SIGNED = true
    · cases a <;> simp [getSpecTypeSize, hs, hLL, hVOID, hCHAR, hBOOL, hSHORT, hINT, hLONG, hFLOAT,
        hDOUBLE, hSTRUCT, hUNION, hENUM]
    · cases a <;> simp [getSpecTypeSize, h1, hs, hLL, hVOID, hCHAR, hBOOL, hSHORT, hINT, hLONG, hFLOAT,
        hDOUBLE, hSTRUCT, hUNION, hENUM]

/-- C9. For a specifier whose flag word has exactly one of the base kinds
VOID, BOOL, CHAR, SHORT, INT, LONG, LONGLONG, FLOAT, DOUBLE, ENUM (no other of
them and neither STRUCT nor UNION; sign, storage class and qualifier bits are
free), `getSpecTypeSize` returns the table size of that kind: 1 for VOID, BOOL
and CHAR, 2 for SHORT, 4 for INT, LONG, FLOAT and ENUM, 8 for LONGLONG and
DOUBLE; with no base kind and SIGNED or UNSIGNED it returns the size of
INT. -/
theorem getSpecTypeSize_scalar_table (ptr des : Nat) (ut : Option Decl) (a : Option Aggr)
    (e : Option Enum) :
    (∀ k sz, (k, sz) ∈ base_kind_sizes → HAVE_FLAG des k = true →
      (∀ k' ∈ base_kinds, k' ≠ k → HAVE_FLAG des k' = false) →
      getSpecTypeSize ptr (.mk des ut a e) = some sz) ∧
    ((∀ k' ∈ base_kinds, HAVE_FLAG des k' = false) →
      (HAVE_FLAG des T_SPEC_SIGNED = true ∨ HAVE_FLAG des T_SPEC_UNSIGNED = true) →
      getSpecTypeSize ptr (.mk des ut a e) = some BYTE_PER_INT ∧ BYTE_PER_INT = 4) :=
  ⟨fun k sz hk h1 h2 => getSpecTypeSize_base_kind ptr des ut a e k sz hk h1 h2,
   fun h2 h1 => ⟨getSpecTypeSize_bare_sign ptr des ut a e h2 h1, rfl⟩⟩

/-- Witness of C9: `unsigned int` together with `static` and `const` has size
4, `long long` size 8, `void` size 1 and a bare `unsigned` size 4. -/
theorem getSpecTypeSize_scalar_table_witness :
    getSpecTypeSize 4 (.mk (T_SPEC_INT ||| T_SPEC_UNSIGNED ||| T_STOR_STATIC ||| T_QUA_CONST)
      none none none) = some 4 ∧
    getSpecTypeSize 4 (.mk T_SPEC_LONGLONG none none none) = some 8 ∧
    getSpecTypeSize 4 (.mk T_SPEC_VOID none none none) = some 1 ∧
    getSpecTypeSize 4 (.mk T_SPEC_UNSIGNED none none none) = some 4 :=
  ⟨(getSpecTypeSize_scalar_table 4 _ none none none).1 T_SPEC_INT 4
      (by simp [base_kind_sizes]) (by decide) (by decide),
   (getSpecTypeSize_scalar_table 4 _ none none none).1 T_SPEC_LONGLONG 8
      (by simp [base_kind_sizes]) (by decide) (by decide),
   (getSpecTypeSize_scalar_table 4 _ none none none).1 T_SPEC_VOID 1
      (by simp [base_kind_sizes]) (by decide) (by decide),
   ((getSpecTypeSize_scalar_table 4 _ none none none).2 (by decide) (by decide)).1⟩

theorem is_pointer_walk_not_array (prev : Option DeclNode) (chain : List DeclNode)
    (h : is_pointer_walk prev chain = true) : is_array_walk chain = false := by
  induction chain generalizing prev with
  | nil => rfl
  | cons d rest ih =>
    cases d with
    | ID sym qua ip => exact ih _ (by simpa [is_pointer_walk] using h)
    | VARIABLE => exact ih _ (by simpa [is_pointer_walk] using h)
    | POINTER qua ip => rfl
    | ARRAY e dm p => simp [is_pointer_walk] at h
    | FUN ps p => rfl

theorem intToUINT_of_pos (v : Int) (h0 : 0 < v) (h1 : v.toNat < 2 ^ 32) :
    intToUINT v = v.toNat := by
  unfold intToUINT UINT_RANGE
  have : v % ((2 ^ 32 : Nat) : Int) = v := by
    apply Int.emod_eq_of_lt (le_of_lt h0)
    have : (v.toNat : Int) = v := Int.toNat_of_nonneg (le_of_lt h0)
    omega
  rw [this]

theorem arrayDims_prod_pos (arrs : List DeclNode)
    (harr : ∀ x ∈ arrs, DECL_dt x = .DCL_ARRAY ∧ 0 < DECL_array_dim x) :
    0 < (arrayDims arrs).prod := by
  induction arrs with
  | nil => simp [arrayDims]
  | cons x xs ih =>
    have hx := (harr x (List.mem_cons_self _ _)).2
    have hxs := ih (fun y hy => harr y (List.mem_cons_of_mem _ hy))
    simp only [arrayDims, List.map_cons, List.prod_cons] at *
    have : 0 < (DECL_array_dim x).toNat := by omega
    positivity

theorem computeArrayByteSize_loop_run (spec : TypeSpec) (arrs tail : List DeclNode)
    (num : Nat) (harr : ∀ x ∈ arrs, DECL_dt x = .DCL_ARRAY ∧ 0 < DECL_array_dim x)
    (htail : ∀ x, tail.head? = some x → DECL_dt x ≠ .DCL_ARRAY)
    (hnum : 0 < num) (hb : num * (arrayDims arrs).prod < 2 ^ 32) :
    computeArrayByteSize_loop spec (arrs ++ tail) num = num * (arrayDims arrs).prod := by
  induction arrs generalizing num with
  | nil =>
    cases tail with
    | nil => simp [computeArrayByteSize_loop, arrayDims]
    | cons t ts =>
      have ht := htail t rfl
      cases t <;> simp_all [computeArrayByteSize_loop, arrayDims, DECL_dt]
  | cons x xs ih =>
    have hx := harr x (List.mem_cons_self _ _)
    have hxs : ∀ y ∈ xs, DECL_dt y = .DCL_ARRAY ∧ 0 < DECL_array_dim y :=
      fun y hy => harr y (List.mem_cons_of_mem _ hy)
    have hpos := arrayDims_prod_pos xs hxs
    cases x with
    | ARRAY e dm p =>
      simp only [DECL_array_dim] at hx
      have hdm : 0 < dm.toNat := by omega
      have e1 : arrayDims (.ARRAY e dm p :: xs) = dm.toNat :: arrayDims xs := rfl
      rw [e1, List.prod_cons] at hb ⊢
      generalize (arrayDims xs).prod = P at hb hpos ih ⊢
      have hb1 : num * dm.toNat ≤ num * (dm.toNat * P) :=
        Nat.mul_le_mul_left _ (Nat.le_mul_of_pos_right _ hpos)
      have hb2 : dm.toNat ≤ num * dm.toNat := Nat.le_mul_of_pos_left _ hnum
      have hdm2 : dm.toNat < 2 ^ 32 := by omega
      have hcast := intToUINT_of_pos dm hx.2 hdm2
      have hstep : toUINT (num * dm.toNat) = num * dm.toNat := by
        unfold toUINT UINT_RANGE
        exact Nat.mod_eq_of_lt (by omega)
      simp only [List.cons_append, computeArrayByteSize_loop, hcast]
      rw [if_neg (by omega), if_neg (by omega), hstep]
      have hih := ih (num * dm.toNat) hxs (Nat.mul_pos hnum hdm)
        (by rw [Nat.mul_assoc]; exact hb)
      rw [Nat.mul_assoc] at hih
      exact hih
    | ID _ _ _ => simp [DECL_dt] at hx
    | POINTER _ _ => simp [DECL_dt] at hx
    | FUN _ _ => simp [DECL_dt] at hx
    | VARIABLE => simp [DECL_dt] at hx

theorem skip_array_run_append (arrs tail : List DeclNode)
    (harr : ∀ x ∈ arrs, DECL_dt x = .DCL_ARRAY)
    (htail : ∀ x, tail.head? = some x → DECL_dt x ≠ .DCL_ARRAY) :
    skip_array_run (arrs ++ tail) = tail := by
  induction arrs with
  | nil =>
    cases tail with
    | nil => rfl
    | cons t ts =>
      have ht := htail t rfl
      cases t <;> simp_all [skip_array_run, DECL_dt]
  | cons x xs ih =>
    have hx := harr x (List.mem_cons_self _ _)
    cases x <;> simp [DECL_dt] at hx
    simpa [skip_array_run] using ih (fun y hy => harr y (List.mem_cons_of_mem _ hy))

theorem get_decl_size_array_run (ptr : Nat) (d : Decl) (sym : String) (qua : Nat)
    (ip : Bool)
    (arrs tail : List DeclNode)
    (hchain : PURE_DECL d = .ID sym qua ip :: (arrs ++ tail)) (hne : arrs ≠ [])
    (harr : ∀ x ∈ arrs, DECL_dt x = .DCL_ARRAY ∧ 0 < DECL_array_dim x)
    (hprod : (arrayDims arrs).prod < 2 ^ 32)
    (htail : ∀ x, tail.head? = some x → DECL_dt x = .DCL_POINTER) :
    get_decl_size ptr d =
      match tail with
      | [] => (getSpecTypeSize ptr (DECL_spec d)).map
          fun s => toUINT ((arrayDims arrs).prod * s)
      | _ :: _ => some (toUINT ((arrayDims arrs).prod * ptr)) := by
  have htail' : ∀ x, tail.head? = some x → DECL_dt x ≠ .DCL_ARRAY := by
    intro x hx h
    have := htail x hx
    rw [h] at this
    cases this
  cases arrs with
  | nil => exact absurd rfl hne
  | cons x xs =>
    have hx := harr x (List.mem_cons_self _ _)
    have hxs : ∀ y ∈ xs, DECL_dt y = .DCL_ARRAY ∧ 0 < DECL_array_dim y :=
      fun y hy => harr y (List.mem_cons_of_mem _ hy)
    cases x with
    | ARRAY e dm p =>
      simp only [DECL_array_dim] at hx
      have e1 : arrayDims (.ARRAY e dm p :: xs) = dm.toNat :: arrayDims xs := rfl
      have hpos := arrayDims_prod_pos xs hxs
      have hdm : 0 < dm.toNat := by omega
      have hloop := computeArrayByteSize_loop_run (DECL_spec d) xs tail dm.toNat hxs htail' hdm
        (by rw [e1, List.prod_cons] at hprod; exact hprod)
      have hdm2 : dm.toNat < 2 ^ 32 := by
        rw [e1, List.prod_cons] at hprod
        have : dm.toNat ≤ dm.toNat * (arrayDims xs).prod := Nat.le_mul_of_pos_right _ hpos
        omega
      have hcast := intToUINT_of_pos dm hx.2 hdm2
      have hsize : computeArrayByteSize (DECL_spec d)
          (.ID sym qua ip :: (.ARRAY e dm p :: xs ++ tail)) = (arrayDims (.ARRAY e dm p :: xs)).prod := by
        simp only [computeArrayByteSize, List.cons_append, computeArrayByteSize_loop, hcast]
        rw [if_neg (by omega)]
        simp only [if_true]
        rw [e1, List.prod_cons]
        exact hloop
      have hbase : get_array_base_declarator_walk
          (.ID sym qua ip :: (.ARRAY e dm p :: xs ++ tail)) = tail := by
        simp only [get_array_base_declarator_walk, List.cons_append, skip_array_run]
        exact skip_array_run_append xs tail (fun y hy => (hxs y hy).1) htail'
      have hchild : DECL_child (DECL_decl_list d) =
          .ID sym qua ip :: (.ARRAY e dm p :: xs ++ tail) := hchain
      have hpure : PURE_DECL d = .ID sym qua ip :: (.ARRAY e dm p :: xs ++ tail) := hchain
      generalize hP : (arrayDims (.ARRAY e dm p :: xs)).prod = P at hsize ⊢
      simp only [get_decl_size, get_decl_size_with, is_complex_type, hchild,
        get_pure_declarator_node, getComplexTypeSize, hpure, getDeclaratorSize,
        Option.bind, is_pointer_walk, is_array_walk, Bool.or_true, Bool.false_or,
        if_true, hsize, hbase]
      simp only [List.cons_append, is_pointer_walk, is_array_walk, Bool.false_eq_true,
        if_false, if_true, Bool.or_true]
      cases tail with
      | nil => cases getSpecTypeSize ptr (DECL_spec d) <;> simp
      | cons t ts =>
        have ht := htail t rfl
        cases t <;> simp [DECL_dt] at ht
        simp
    | ID _ _ _ => simp [DECL_dt] at hx
    | POINTER _ _ => simp [DECL_dt] at hx
    | FUN _ _ => simp [DECL_dt] at hx
    | VARIABLE => simp [DECL_dt] at hx

theorem get_decl_size_of_is_pointer (ptr : Nat) (d : Decl) (hp : is_pointer d = true)
    (hv : ∀ rest, PURE_DECL d ≠ .VARIABLE :: rest) :
    get_decl_size ptr d = some (toUINT ptr) := by
  unfold is_pointer at hp
  have harr := is_pointer_walk_not_array none _ hp
  have hchild : DECL_child (DECL_decl_list d) = PURE_DECL d := rfl
  generalize hc : PURE_DECL d = chain at hp harr hv hchild
  cases chain with
  | nil => simp [is_pointer_walk] at hp
  | cons c cs =>
    have hnode : get_pure_declarator_node (c :: cs) = some (c :: cs) := by
      cases c with
      | VARIABLE => exact absurd rfl (hv cs)
      | ID _ _ _ => rfl
      | POINTER _ _ => rfl
      | ARRAY _ _ _ => rfl
      | FUN _ _ => rfl
    simp [get_decl_size, get_decl_size_with, is_complex_type, hchild, hnode,
      getComplexTypeSize, hc, getDeclaratorSize, hp, harr]

theorem toUINT_of_lt (n : Nat) (h : n < 2 ^ 32) : toUINT n = n := by
  unfold toUINT UINT_RANGE
  exact Nat.mod_eq_of_lt h

/-- C10, amended. For a declaration whose list is `ID -> ARRAY(d1) -> ... ->
ARRAY(dn)` with `n >= 1`, all `di > 0` and product below `2 ^ 32`, optionally
followed by a `POINTER`, `get_decl_size` returns `d1 * ... * dn` times the
element size reduced modulo `2 ^ 32` (its result is a `UINT`), hence that
product itself when it is below `2 ^ 32`; the element size is the pointer
size when the run is followed by a `POINTER` and `getSpecTypeSize` of the
specifier otherwise.  For a declaration on which `is_pointer` holds, and
whose list does not start with a `DCL_VARIABLE` node (on which
`get_pure_declarator` asserts), `get_decl_size` returns the pointer size. -/
theorem get_decl_size_array_or_pointer (ptr : Nat) (d : Decl) :
    (∀ sym qua ip arrs tail, PURE_DECL d = .ID sym qua ip :: (arrs ++ tail) → arrs ≠ [] →
      (∀ x ∈ arrs, DECL_dt x = .DCL_ARRAY ∧ 0 < DECL_array_dim x) →
      (arrayDims arrs).prod < 2 ^ 32 →
      (∀ x, tail.head? = some x → DECL_dt x = .DCL_POINTER) →
      get_decl_size ptr d =
        match tail with
        | [] => (getSpecTypeSize ptr (DECL_spec d)).map
            fun s => toUINT ((arrayDims arrs).prod * s)
        | _ :: _ => some (toUINT ((arrayDims arrs).prod * ptr))) ∧
    (is_pointer d = true → (∀ rest, PURE_DECL d ≠ .VARIABLE :: rest) →
      get_decl_size ptr d = some (toUINT ptr)) ∧
    (∀ n, n < 2 ^ 32 → toUINT n = n) :=
  ⟨fun sym qua ip arrs tail h1 h2 h3 h4 h5 =>
      get_decl_size_array_run ptr d sym qua ip arrs tail h1 h2 h3 h4 h5,
   get_decl_size_of_is_pointer ptr d, toUINT_of_lt⟩

/-- Witness of C10: `int a[10][20]` has size 800, `int *a[10]` size 40 with a
pointer of 4 bytes, and `int *p` the size of a pointer. -/
theorem get_decl_size_array_or_pointer_witness :
    get_decl_size 4 decl_int_10_20 = some 800 ∧
    get_decl_size 4 decl_intp_10 = some 40 ∧
    get_decl_size 4 decl_intp = some 4 :=
  ⟨by
    have h := (get_decl_size_array_or_pointer 4 decl_int_10_20).1 "a" 0 false
      [.ARRAY none 10 false, .ARRAY none 20 false] [] rfl (by simp) (by simp [DECL_dt, DECL_array_dim])
      (by decide) (by simp)
    simpa using h.trans (by decide),
   by
    have h := (get_decl_size_array_or_pointer 4 decl_intp_10).1 "a" 0 false
      [.ARRAY none 10 false] [.POINTER 0 false] rfl (by simp) (by simp [DECL_dt, DECL_array_dim])
      (by decide) (by simp [DECL_dt])
    simpa using h.trans (by decide),
   ((get_decl_size_array_or_pointer 4 decl_intp).2.1 rfl (by intro rest h; cases h)).trans
     (by decide)⟩

/-- Counterexample to C10 as stated: `int a[32768][32768]` has two positive
dimensions of product `2 ^ 30`, below `2 ^ 32`, and element size 4, and
`get_decl_size` returns 0, not `2 ^ 30 * 4`. -/
theorem get_decl_size_array_wraps :
    PURE_DECL decl_int_huge =
      [.ID "a" 0 false, .ARRAY none 32768 false, .ARRAY none 32768 false] ∧
    (0 : Int) < 32768 ∧
    (arrayDims [.ARRAY none 32768 false, .ARRAY none 32768 false]).prod = 2 ^ 30 ∧
    (arrayDims [.ARRAY none 32768 false, .ARRAY none 32768 false]).prod < 2 ^ 32 ∧
    getSpecTypeSize 4 (DECL_spec decl_int_huge) = some 4 ∧
    get_decl_size 4 decl_int_huge = some 0 ∧
    get_decl_size 4 decl_int_huge ≠
      some ((arrayDims [.ARRAY none 32768 false, .ARRAY none 32768 false]).prod * 4) := by
  refine ⟨rfl, by decide, by decide, by decide, by decide, by decide, by decide⟩

theorem HAVE_FLAG_two_pow (x i : Nat) : HAVE_FLAG x (2 ^ i) = x.testBit i := by
  unfold HAVE_FLAG
  rw [Nat.and_two_pow]
  cases h : x.testBit i
  · have : (0 : Nat) ≠ 2 ^ i := (Nat.two_pow_pos i).ne
    simp [this]
  · simp

theorem HAVE_FLAG_REMOVE_FLAG_ne (x i j : Nat) (h : j ≠ i) :
    HAVE_FLAG (REMOVE_FLAG x (2 ^ j)) (2 ^ i) = HAVE_FLAG x (2 ^ i) := by
  rw [HAVE_FLAG_two_pow, HAVE_FLAG_two_pow]
  simp [REMOVE_FLAG, Nat.testBit_two_pow_of_ne h]

theorem HAVE_FLAG_REMOVE_FLAG_self (x j : Nat) :
    HAVE_FLAG (REMOVE_FLAG x (2 ^ j)) (2 ^ j) = false := by
  rw [HAVE_FLAG_two_pow]
  simp [REMOVE_FLAG, Nat.testBit_two_pow_self]

theorem HAVE_FLAG_SET_FLAG_and_ne (x d i j : Nat) (h : j ≠ i) :
    HAVE_FLAG (SET_FLAG x (d &&& 2 ^ j)) (2 ^ i) = HAVE_FLAG x (2 ^ i) := by
  rw [HAVE_FLAG_two_pow, HAVE_FLAG_two_pow]
  simp [SET_FLAG, Nat.testBit_two_pow_of_ne h]

theorem T_STOR_TYPEDEF_eq : T_STOR_TYPEDEF = 2 ^ 20 := by decide
theorem T_SPEC_USER_TYPE_eq : T_SPEC_USER_TYPE = 2 ^ 13 := by decide
theorem T_STOR_AUTO_eq : T_STOR_AUTO = 2 ^ 15 := by decide
theorem T_STOR_REG_eq : T_STOR_REG = 2 ^ 16 := by decide
theorem T_STOR_STATIC_eq : T_STOR_STATIC = 2 ^ 17 := by decide
theorem T_STOR_EXTERN_eq : T_STOR_EXTERN = 2 ^ 18 := by decide
theorem T_STOR_INLINE_eq : T_STOR_INLINE = 2 ^ 19 := by decide

theorem expanded_des_no_typedef (desT desD : Nat) :
    HAVE_FLAG (expanded_des desT desD) T_STOR_TYPEDEF = false := by
  unfold expanded_des
  rw [T_STOR_TYPEDEF_eq, T_STOR_AUTO_eq, T_STOR_REG_eq, T_STOR_STATIC_eq, T_STOR_EXTERN_eq,
    T_STOR_INLINE_eq]
  rw [HAVE_FLAG_SET_FLAG_and_ne _ _ _ _ (by decide), HAVE_FLAG_SET_FLAG_and_ne _ _ _ _ (by decide),
    HAVE_FLAG_SET_FLAG_and_ne _ _ _ _ (by decide), HAVE_FLAG_SET_FLAG_and_ne _ _ _ _ (by decide),
    HAVE_FLAG_SET_FLAG_and_ne _ _ _ _ (by decide), HAVE_FLAG_REMOVE_FLAG_self]

/-- C6, amended. For a declaration D that is no typedef and whose specifier
references a typedef T that is not itself a typedef reference, T's list being
`ID_T, t1..tm` and D's list `ID_D, d1..dn`, `factor_user_type` returns a
declaration whose specifier is a copy of T's specifier with the TYPEDEF bit
cleared and D's storage-class bits REG, EXTERN, INLINE, STATIC, AUTO added,
and whose list is `ID_D`, then D's own operators `d1..dn`, then the
operators `t1..tm` of the typedef. -/
theorem factor_user_type_appends_typedef_operators (D T : Decl) (symD symT : String)
    (quaD quaT : Nat) (ipD ipT : Bool) (ds ts : List DeclNode)
    (hdtD : D.dt = .DCL_DECLARATION ∨ D.dt = .DCL_TYPE_NAME)
    (hdtT : T.dt = .DCL_DECLARATION ∨ T.dt = .DCL_TYPE_NAME)
    (href : IS_USER_TYPE_REF (DECL_spec D) = true)
    (hut : TYPE_user_type (DECL_spec D) = some T)
    (hno : IS_TYPEDEF (DECL_spec D) = false)
    (hbase : IS_USER_TYPE_REF (DECL_spec T) = false)
    (hD : PURE_DECL D = .ID symD quaD ipD :: ds)
    (hT : PURE_DECL T = .ID symT quaT ipT :: ts) :
    ∃ r, factor_user_type D = some r ∧
      r.dt = .DCL_DECLARATION ∧
      PURE_DECL r = .ID symD quaD ipD :: (ds ++ ts) ∧
      DECL_spec r = (DECL_spec T).setDes
        (expanded_des (TYPE_des (DECL_spec T)) (TYPE_des (DECL_spec D))) ∧
      IS_TYPEDEF (DECL_spec r) = false := by
  obtain ⟨dtD, ⟨desD, utD, aD, eD⟩, ⟨ddtD, childD, bD, lD, iD⟩, pD, sD, fD, alD⟩ := D
  obtain ⟨dtT, ⟨desT, utT, aT, eT⟩, ⟨ddtT, childT, bT, lT, iT⟩, pT, sT, fT, alT⟩ := T
  simp only [Decl.dt, DECL_spec, IS_USER_TYPE_REF, TYPE_des, TYPE_user_type, IS_TYPEDEF,
    PURE_DECL, DECL_decl_list, DECL_child] at hdtD hdtT href hut hno hbase hD hT
  subst hut hD hT
  have hrec : factor_user_type_rec
      (.mk dtT (.mk desT utT aT eT) (.mk ddtT (.ID symT quaT ipT :: ts) bT lT iT) pT sT fT alT) =
      some (ts, .mk (REMOVE_FLAG desT T_STOR_TYPEDEF) utT aT eT) := by
    have h1 : ¬(dtT ≠ .DCL_DECLARATION ∧ dtT ≠ .DCL_TYPE_NAME) := by
      rcases hdtT with h | h <;> simp [h]
    cases utT <;>
      simp [factor_user_type_rec, h1, hbase, cp_spec, TypeSpec.setDes, DECL_child,
        insertbefore, cp_decl_begin_at_eq]
  have h2 : ¬(dtD ≠ .DCL_DECLARATION ∧ dtD ≠ .DCL_TYPE_NAME) := by
    rcases hdtD with h | h <;> simp [h]
  have hfac : factor_user_type
      (.mk dtD (.mk desD (some (.mk dtT (.mk desT utT aT eT)
        (.mk ddtT (.ID symT quaT ipT :: ts) bT lT iT) pT sT fT alT)) aD eD)
        (.mk ddtD (.ID symD quaD ipD :: ds) bD lD iD) pD sD fD alD) =
      some (new_declaration (.mk (expanded_des desT desD) utT aT eT)
        (.ID symD quaD ipD :: (ds ++ ts)) (decide (dtD = .DCL_DECLARATION) && iD)) := by
    simp only [factor_user_type, Decl.dt, h2, if_false, DECL_spec, IS_USER_TYPE_REF, TYPE_des,
      href, Bool.not_true, Bool.false_eq_true, TYPE_user_type, hrec, Option.bind, IS_TYPEDEF,
      hno, PURE_DECL, DECL_decl_list, DECL_child, DECL_dt, ne_eq, not_true_eq_false, false_and,
      insertbefore, insertbefore_one, cp_decl_begin_at_eq, TypeSpec.setDes, expanded_des,
      is_initialized, DECL_is_init]
  refine ⟨_, hfac, rfl, rfl, rfl, ?_⟩
  simpa [new_declaration, DECL_spec, IS_TYPEDEF, TYPE_des, TypeSpec.setDes] using
    expanded_des_no_typedef desT desD

/-- Witness of C6: `typedef int *INTP; INTP x;` is factored to the specifier
`int` and the list `ID(x) -> POINTER`. -/
theorem factor_user_type_appends_typedef_operators_witness :
    (∃ r, factor_user_type decl_INTP_x = some r ∧
      r.dt = .DCL_DECLARATION ∧
      PURE_DECL r = .ID "x" 0 false :: ([] ++ [.POINTER 0 false]) ∧
      DECL_spec r = (DECL_spec typedef_INTP).setDes
        (expanded_des (TYPE_des (DECL_spec typedef_INTP)) (TYPE_des (DECL_spec decl_INTP_x))) ∧
      IS_TYPEDEF (DECL_spec r) = false) ∧
    expanded_des (TYPE_des (DECL_spec typedef_INTP)) (TYPE_des (DECL_spec decl_INTP_x)) =
      T_SPEC_INT :=
  ⟨factor_user_type_appends_typedef_operators decl_INTP_x typedef_INTP "x" "INTP" 0 0 false false []
      [.POINTER 0 false] (Or.inl rfl) (Or.inl rfl) (by decide) rfl (by decide) (by decide) rfl rfl,
   by decide⟩

/-- Counterexample to C6 as stated: for `typedef int *INTP; INTP a[10];` the
factored list is `ID(a) -> ARRAY(10) -> POINTER` (an array of pointers): the
operator of the typedef comes after the operator of the declaration, not in
front of it. -/
theorem factor_user_type_typedef_operators_last :
    (factor_user_type decl_INTP_a10).map (fun r => (PURE_DECL r).map DECL_dt) =
      some [.DCL_ID, .DCL_ARRAY, .DCL_POINTER] ∧
    (factor_user_type decl_INTP_a10).map (fun r => (PURE_DECL r).map DECL_dt) ≠
      some [.DCL_ID, .DCL_POINTER, .DCL_ARRAY] := by
  constructor
  · rfl
  · decide

theorem expand_user_type_result : ∀ (ut r : Decl), expand_user_type ut = some r →
    is_user_type_ref r = false ∧ IS_TYPEDEF (DECL_spec r) = false
  | .mk dt (.mk des u a e) dl p s f al, r, h => by
    unfold expand_user_type at h
    simp only [] at h
    split at h
    · cases h
    · split at h
      · cases h
      · split at h
        · match u, h with
          | none, h => simp at h
          | some u', h =>
            simp only [Option.bind] at h
            match htmp : expand_user_type u', h with
            | none, h => simp [htmp] at h
            | some tmp, h =>
              have ih := expand_user_type_result u' tmp htmp
              simp only [htmp] at h
              obtain ⟨dt2, ⟨des2, u2, a2, e2⟩, ⟨ddt2, child2, b2, l2, i2⟩, p2, s2, f2, al2⟩ := tmp
              simp only [is_user_type_ref, IS_USER_TYPE_REF, DECL_spec, TYPE_des, IS_TYPEDEF] at ih
              have hA : HAVE_FLAG (REMOVE_FLAG des2 T_STOR_TYPEDEF) T_SPEC_USER_TYPE = false := by
                rw [T_STOR_TYPEDEF_eq, T_SPEC_USER_TYPE_eq,
                  HAVE_FLAG_REMOVE_FLAG_ne _ _ _ (by decide), ← T_SPEC_USER_TYPE_eq]
                exact ih.1
              have hB : HAVE_FLAG (REMOVE_FLAG des2 T_STOR_TYPEDEF) T_STOR_TYPEDEF = false := by
                rw [T_STOR_TYPEDEF_eq, HAVE_FLAG_REMOVE_FLAG_self]
              cases child2 with
              | nil => simp [PURE_DECL, DECL_decl_list, DECL_child] at h
              | cons c cs =>
                cases c <;>
                  simp only [PURE_DECL, DECL_decl_list, DECL_child, Option.some.injEq] at h <;>
                  subst h <;>
                  simp [is_user_type_ref, IS_USER_TYPE_REF, IS_TYPEDEF, DECL_spec, Decl.setSpec,
                    Decl.setPure, TypeSpec.setDes, TYPE_des, hA, hB]
        · rename_i hnr
          simp only [Option.some.injEq] at h
          subst h
          have hnr' : HAVE_FLAG des T_SPEC_USER_TYPE = false := by
            simpa [is_user_type_ref, IS_USER_TYPE_REF, DECL_spec, TYPE_des] using hnr
          have hA : HAVE_FLAG (REMOVE_FLAG des T_STOR_TYPEDEF) T_SPEC_USER_TYPE = false := by
            rw [T_STOR_TYPEDEF_eq, T_SPEC_USER_TYPE_eq,
              HAVE_FLAG_REMOVE_FLAG_ne _ _ _ (by decide), ← T_SPEC_USER_TYPE_eq]
            exact hnr'
          have hB : HAVE_FLAG (REMOVE_FLAG des T_STOR_TYPEDEF) T_STOR_TYPEDEF = false := by
            rw [T_STOR_TYPEDEF_eq, HAVE_FLAG_REMOVE_FLAG_self]
          simp [cp_decl_fully_eq, is_user_type_ref, IS_USER_TYPE_REF, IS_TYPEDEF, DECL_spec,
            Decl.setSpec, TypeSpec.setDes, TYPE_des, hA, hB]

/-- C7, amended. After `expand_user_type` has expanded a declaration, the
result is no user-type reference and has no TYPEDEF bit, so the expansion
step of the front end, which calls `expand_user_type` only when
`is_user_type_ref` holds, yields the already-expanded declaration itself
(same list, same specifier bits). -/
theorem expand_user_type_then_unchanged (ut r : Decl) (h : expand_user_type ut = some r) :
    is_user_type_ref r = false ∧ IS_TYPEDEF (DECL_spec r) = false ∧
    expand_if_user_type_ref r = some r := by
  have h1 := expand_user_type_result ut r h
  exact ⟨h1.1, h1.2, by simp [expand_if_user_type_ref, h1.1]⟩

/-- Witness of C7: `INTP x` with `typedef int *INTP` expands to `int` with the
list `ID(x) -> POINTER`, which the expansion step leaves unchanged. -/
theorem expand_user_type_then_unchanged_witness :
    expand_user_type decl_INTP_x = some decl_INTP_x_expanded ∧
    is_user_type_ref decl_INTP_x_expanded = false ∧
    IS_TYPEDEF (DECL_spec decl_INTP_x_expanded) = false ∧
    expand_if_user_type_ref decl_INTP_x_expanded = some decl_INTP_x_expanded :=
  ⟨rfl, expand_user_type_then_unchanged decl_INTP_x decl_INTP_x_expanded rfl⟩

/-- Counterexample to C7 as stated: `INTP x` expands to `int` with the list
`ID(x) -> POINTER`; `expand_user_type` applied to that declaration has no
result, because the declaration is neither a user-type reference nor a
typedef declaration and the first `ASSERT0` of `expand_user_type` fails. -/
theorem expand_user_type_twice_asserts :
    expand_user_type decl_INTP_x = some decl_INTP_x_expanded ∧
    (PURE_DECL decl_INTP_x_expanded).map DECL_dt = [.DCL_ID, .DCL_POINTER] ∧
    is_user_type_ref decl_INTP_x_expanded = false ∧
    is_user_type_decl decl_INTP_x_expanded = some false ∧
    expand_user_type decl_INTP_x_expanded = none :=
  ⟨rfl, rfl, by decide, by decide, rfl⟩

/-- C8 (code defect): an enumerator with the explicit constant expression 0
does not keep it.  `inferEnumValue` takes the value 0 for a missing one, so in
`enum E { A = 5, B = 0 };` the enumerator `B` gets 6, and after any first
enumerator with a non-zero value `v` an explicit 0 becomes `v + 1`.  The
example of the specification, `enum E { A, B=5, C };`, gives (0, 5, 6). -/
theorem inferEnumValue_renumbers_explicit_zero :
    enum_values literal_collab 4 (st_of toks_enum_A5_B0) =
        .ok [⟨"A", 5⟩, ⟨"B", 6⟩] (st_of [tk .T_RLPAREN]) ∧
      enumerator_list literal_collab 4 (st_of toks_enum_A5_B0) =
        .ok [⟨"A", 5⟩, ⟨"B", 0⟩] (st_of [tk .T_RLPAREN]) ∧
      enum_values literal_collab 4 (st_of toks_enum_A_B5_C) =
        .ok [⟨"A", 0⟩, ⟨"B", 5⟩, ⟨"C", 6⟩] (st_of [tk .T_RLPAREN]) ∧
      ∀ (a b : String) (v : Int), v ≠ 0 →
        inferEnumValue [⟨a, v⟩, ⟨b, 0⟩] = [⟨a, v⟩, ⟨b, toINT (v + 1)⟩] := by
  refine ⟨by rfl, by rfl, by rfl, ?_⟩
  intro a b v hv
  simp [inferEnumValue, inferEnumValue_loop, hv]

theorem idLast_nil : IdLast [] := by
  intro x hx; simp at hx

theorem idLast_singleton (x : DeclNode) : IdLast [x] := by
  intro y hy; simp at hy

theorem idLast_cons {x : DeclNode} {l : List DeclNode} (hx : DECL_dt x ≠ .DCL_ID)
    (hl : IdLast l) : IdLast (x :: l) := by
  cases l with
  | nil => exact idLast_singleton x
  | cons y ys =>
    intro z hz
    simp only [List.dropLast, List.mem_cons] at hz
    rcases hz with rfl | hz
    · exact hx
    · exact hl z hz

theorem idLast_of_all {l : List DeclNode} (h : ∀ x ∈ l, DECL_dt x ≠ .DCL_ID) : IdLast l :=
  fun x hx => h x (List.mem_of_mem_dropLast hx)

theorem idLast_append {p l : List DeclNode} (hp : ∀ x ∈ p, DECL_dt x ≠ .DCL_ID)
    (hl : IdLast l) : IdLast (p ++ l) := by
  induction p with
  | nil => simpa using hl
  | cons a p ih =>
    rw [List.cons_append]
    exact idLast_cons (hp a (List.mem_cons_self _ _))
      (ih (fun x hx => hp x (List.mem_cons_of_mem _ hx)))

theorem DECL_dt_set_is_paren (d : DeclNode) : DECL_dt (set_is_paren d) = DECL_dt d := by
  cases d <;> rfl

theorem idLast_set_is_paren {d : DeclNode} {l : List DeclNode} (h : IdLast (d :: l)) :
    IdLast (set_is_paren d :: l) := by
  cases l with
  | nil => exact idLast_singleton _
  | cons y ys =>
    intro z hz
    simp only [List.dropLast, List.mem_cons] at hz
    rcases hz with rfl | hz
    · rw [DECL_dt_set_is_paren]
      exact h d (by simp [List.dropLast])
    · exact h z (by simp only [List.dropLast, List.mem_cons]; exact Or.inr hz)

theorem idFirst_reverse_of_idLast {l : List DeclNode} (h : IdLast l) :
    IdFirst (reverse_list l) := by
  intro x hx
  unfold reverse_list at hx
  rw [List.tail_reverse] at hx
  exact h x (List.mem_reverse.mp hx)

theorem pointer_loop_kinds : ∀ (fuel new_qua : Nat) (ndcl : List DeclNode) (st : PState)
    (r : List DeclNode × Nat) (st' : PState),
    pointer_loop fuel new_qua ndcl st = .ok r st' →
    (∀ x ∈ ndcl, DECL_dt x = .DCL_POINTER) → ∀ x ∈ r.1, DECL_dt x = .DCL_POINTER := by
  intro fuel
  induction fuel with
  | zero => intro new_qua ndcl st r st' h; simp [pointer_loop] at h
  | succ n ih =>
    intro new_qua ndcl st r st' h hn
    simp only [pointer_loop] at h
    split at h
    · split at h
      · refine ih _ _ _ _ _ h ?_
        intro x hx
        simp only [add_next, List.mem_append, List.mem_singleton] at hx
        rcases hx with hx | rfl
        · exact hn x hx
        · rfl
      · refine ih _ _ _ _ _ h ?_
        intro x hx
        simp only [add_next, List.mem_append, List.mem_singleton] at hx
        rcases hx with hx | rfl
        · exact hn x hx
        · rfl
    · simp only [PRes.ok.injEq] at h
      obtain ⟨h1, _⟩ := h
      subst h1
      exact hn

theorem pointer_kinds (fuel qua : Nat) (st : PState) (r : List DeclNode × Nat) (st' : PState)
    (h : pointer fuel qua st = .ok r st') : ∀ x ∈ r.1, DECL_dt x ≠ .DCL_ID := by
  intro x hx
  have := pointer_loop_kinds fuel qua [] st r st' h (by intro y hy; simp at hy) x hx
  rw [this]; decide

theorem array_loop_idLast (E : Collab) : ∀ (fuel : Nat) (p : Bool) (dcl : List DeclNode)
    (st : PState) (r : List DeclNode) (st' : PState),
    array_loop E fuel p dcl st = .ok r st' → IdLast dcl → IdLast r := by
  intro fuel
  induction fuel with
  | zero => intro p dcl st r st' h; simp [array_loop] at h
  | succ n ih =>
    intro p dcl st r st' h hd
    simp only [array_loop] at h
    split at h
    · split at h
      · simp only [PRes.ok.injEq] at h
        obtain ⟨h1, _⟩ := h
        subst h1
        exact hd
      · refine ih _ _ _ _ _ h ?_
        exact idLast_cons (by simp [DECL_dt]) hd
    · simp only [PRes.ok.injEq] at h
      obtain ⟨h1, _⟩ := h
      subst h1
      exact hd

theorem engine_idLast (E : Collab) : ∀ fuel : Nat,
    (∀ qua st r st', declarator E fuel qua st = .ok r st' → IdLast r) ∧
    (∀ qua st r st', direct_declarator E fuel qua st = .ok r st' → IdLast r) ∧
    (∀ p dcl st r st', declarator_suffix E fuel p dcl st = .ok r st' →
      IdLast dcl → IdLast r) ∧
    (∀ qua st r st', abstract_declarator E fuel qua st = .ok r st' → IdLast r) ∧
    (∀ qua st r st', direct_abstract_declarator E fuel qua st = .ok r st' → IdLast r) := by
  intro fuel
  induction fuel with
  | zero =>
    refine ⟨?_, ?_, ?_, ?_, ?_⟩ <;> intros <;>
      simp_all [declarator, direct_declarator, declarator_suffix, abstract_declarator,
        direct_abstract_declarator]
  | succ n ih =>
    obtain ⟨ih1, ih2, ih3, ih4, ih5⟩ := ih
    refine ⟨?_, ?_, ?_, ?_, ?_⟩
    · intro qua st r st' h
      simp only [declarator] at h
      cases hp : pointer n qua st with
      | ok pq st1 =>
        rw [hp] at h
        simp only at h
        cases hd : direct_declarator E n pq.2 st1 with
        | ok dclr st2 =>
          rw [hd] at h
          simp only at h
          split at h
          · simp only [PRes.ok.injEq] at h
            rw [← h.1]; exact idLast_nil
          · simp only [PRes.ok.injEq] at h
            rw [← h.1]
            exact idLast_append (pointer_kinds _ _ _ _ _ hp) (ih2 _ _ _ _ hd)
        | crash => rw [hd] at h; simp at h
        | nofuel => rw [hd] at h; simp at h
      | crash => rw [hp] at h; simp at h
      | nofuel => rw [hp] at h; simp at h
    · intro qua st r st' h
      simp only [direct_declarator] at h
      split at h
      · cases hd : declarator E n qua (match_tok st .T_LPAREN).2 with
        | ok dcl st2 =>
          rw [hd] at h
          simp only at h
          split at h
          · simp only [PRes.ok.injEq] at h
            rw [← h.1]; exact ih1 _ _ _ _ hd
          · split at h
            · simp only [PRes.ok.injEq] at h
              rw [← h.1]; exact ih1 _ _ _ _ hd
            · exact ih3 _ _ _ _ _ h (ih1 _ _ _ _ hd)
        | crash => rw [hd] at h; simp at h
        | nofuel => rw [hd] at h; simp at h
      · exact ih3 _ _ _ _ _ h (idLast_singleton _)
      · simp only [PRes.ok.injEq] at h
        rw [← h.1]; exact idLast_nil
    · intro p dcl st r st' h hdcl
      simp only [declarator_suffix] at h
      split at h
      · exact array_loop_idLast E _ _ _ _ _ _ h hdcl
      · cases hd : parameter_type_list E n [] (match_tok st .T_LPAREN).2 with
        | ok ps st2 =>
          rw [hd] at h
          simp only at h
          have hf : IdLast (insertbefore_one dcl (.FUN (fun_para_list_of ps) p)) :=
            idLast_cons (by simp [DECL_dt]) hdcl
          split at h
          · simp only [PRes.ok.injEq] at h
            rw [← h.1]; exact hf
          · simp only [PRes.ok.injEq] at h
            rw [← h.1]; exact hf
        | crash => rw [hd] at h; simp at h
        | nofuel => rw [hd] at h; simp at h
      · simp only [PRes.ok.injEq] at h
        rw [← h.1]; exact hdcl
    · intro qua st r st' h
      simp only [abstract_declarator] at h
      cases hp : pointer n qua st with
      | ok pq st1 =>
        rw [hp] at h
        simp only at h
        cases hd : direct_abstract_declarator E n pq.2 st1 with
        | ok dclr st2 =>
          rw [hd] at h
          simp only at h
          split at h
          · simp only [PRes.ok.injEq] at h
            rw [← h.1]; exact idLast_of_all (pointer_kinds _ _ _ _ _ hp)
          · simp only [PRes.ok.injEq] at h
            rw [← h.1]
            exact idLast_append (pointer_kinds _ _ _ _ _ hp) (ih5 _ _ _ _ hd)
        | crash => rw [hd] at h; simp at h
        | nofuel => rw [hd] at h; simp at h
      | crash => rw [hp] at h; simp at h
      | nofuel => rw [hp] at h; simp at h
    · intro qua st r st' h
      simp only [direct_abstract_declarator] at h
      split at h
      · cases hd : abstract_declarator E n qua (match_tok st .T_LPAREN).2 with
        | ok dcl st2 =>
          rw [hd] at h
          simp only at h
          split at h
          · simp only [PRes.ok.injEq] at h
            rw [← h.1]; exact ih4 _ _ _ _ hd
          · cases dcl with
            | nil => simp at h
            | cons d rest =>
              simp only at h
              exact ih3 _ _ _ _ _ h (idLast_set_is_paren (ih4 _ _ _ _ hd))
        | crash => rw [hd] at h; simp at h
        | nofuel => rw [hd] at h; simp at h
      · exact ih3 _ _ _ _ _ h (idLast_singleton _)
      · exact ih3 _ _ _ _ _ h idLast_nil

theorem idFirst_iff_map (l : List DeclNode) :
    IdFirst l ↔ ∀ k ∈ (l.map DECL_dt).tail, k ≠ .DCL_ID := by
  unfold IdFirst
  cases l with
  | nil => simp
  | cons x t => simp [List.forall_mem_map]

theorem idFirst_of_map_eq {l l' : List DeclNode} (h : l'.map DECL_dt = l.map DECL_dt)
    (hl : IdFirst l) : IdFirst l' := by
  rw [idFirst_iff_map] at hl ⊢
  rw [h]; exact hl

theorem count_id_le_one_of_idFirst {l : List DeclNode} (h : IdFirst l) : count_id l ≤ 1 := by
  cases l with
  | nil => simp [count_id]
  | cons x t =>
    have ht : t.filter (fun x => DECL_dt x = .DCL_ID) = [] := by
      rw [List.filter_eq_nil_iff]
      intro a ha
      simpa using h a ha
    unfold count_id
    rw [List.filter_cons]
    split <;> simp [ht]

theorem compute_array_dim_loop_kinds (E : Collab) (a : Bool) : ∀ (l : List DeclNode)
    (dim : Nat) (st : PState) (status : STATUS),
    (compute_array_dim_loop E a l dim st status).1.map DECL_dt = l.map DECL_dt := by
  intro l
  induction l with
  | nil => intro dim st status; rfl
  | cons x xs ih =>
    intro dim st status
    cases x with
    | ARRAY t d p =>
      simp only [compute_array_dim_loop]
      split
      · cases t with
        | none =>
          simp only
          split <;> simp [ih, DECL_dt]
        | some e =>
          simp only
          cases hc : e.constVal with
          | none => simp [ih, DECL_dt]
          | some idx =>
            simp only
            split
            · simp [ih, DECL_dt]
            · split <;> simp [ih, DECL_dt]
      · simp [ih, DECL_dt]
    | ID _ _ _ => simp [compute_array_dim_loop, ih]
    | POINTER _ _ => simp [compute_array_dim_loop, ih]
    | FUN _ _ => simp [compute_array_dim_loop, ih]
    | VARIABLE => simp [compute_array_dim_loop, ih]

theorem g_real_token_setToks (st : PState) (l : List Lexeme) :
    g_real_token (st.setToks l) = first_tok l := by
  cases l <;> rfl

theorem setToks_setToks (st : PState) (a b : List Lexeme) :
    (st.setToks a).setToks b = st.setToks b := rfl

theorem match_tok_cons (st : PState) (l : Lexeme) (rest : List Lexeme) (t : TOKEN)
    (h : l.tok = t) : match_tok (st.setToks (l :: rest)) t = (.ST_SUCC, st.setToks rest) := by
  unfold match_tok
  rw [g_real_token_setToks]
  simp [first_tok, h, PState.setToks]

theorem first_tok_renderStars_append (stars : List (Option Qual)) (rest : List Lexeme) :
    first_tok (renderStars stars ++ rest) = .T_ASTERISK ∨
      first_tok (renderStars stars ++ rest) = first_tok rest := by
  cases stars with
  | nil => right; rfl
  | cons s t => left; cases s <;> rfl

theorem quan_spec_no_qualifier (q : Nat) (st : PState) (l : List Lexeme)
    (h1 : first_tok l ≠ .T_CONST) (h2 : first_tok l ≠ .T_VOLATILE)
    (h3 : first_tok l ≠ .T_RESTRICT) :
    quan_spec q (st.setToks l) = (q, st.setToks l) := by
  unfold quan_spec
  rw [g_real_token_setToks]
  split <;> simp_all

theorem quan_spec_qualifier (qu : Qual) (st : PState) (l : List Lexeme) :
    ∃ q, quan_spec 0 (st.setToks (tk qu.tok :: l)) = (q, st.setToks l) := by
  cases qu
  · refine ⟨SET_FLAG 0 T_QUA_CONST, ?_⟩
    have hm := match_tok_cons st (tk .T_CONST) l .T_CONST rfl
    simp only [quan_spec, g_real_token_setToks, first_tok, tk, Qual.tok] at hm ⊢
    rw [hm]
    rfl
  · refine ⟨SET_FLAG 0 T_QUA_VOLATILE, ?_⟩
    have hm := match_tok_cons st (tk .T_VOLATILE) l .T_VOLATILE rfl
    simp only [quan_spec, g_real_token_setToks, first_tok, tk, Qual.tok] at hm ⊢
    rw [hm]
    rfl
  · refine ⟨SET_FLAG 0 T_QUA_RESTRICT, ?_⟩
    have hm := match_tok_cons st (tk .T_RESTRICT) l .T_RESTRICT rfl
    simp only [quan_spec, g_real_token_setToks, first_tok, tk, Qual.tok] at hm ⊢
    rw [hm]

theorem pointer_loop_step (n new_qua : Nat) (ndcl : List DeclNode) (st : PState)
    (s : Option Qual) (l : List Lexeme)
    (hl : s = none → first_tok l ≠ .T_CONST ∧ first_tok l ≠ .T_VOLATILE ∧
      first_tok l ≠ .T_RESTRICT) :
    ∃ node q, DECL_dt node = .DCL_POINTER ∧
      pointer_loop (n + 1) new_qua ndcl (st.setToks (renderStar s ++ l)) =
        pointer_loop n q (ndcl ++ [node]) (st.setToks l) := by
  cases s with
  | none =>
    obtain ⟨h1, h2, h3⟩ := hl rfl
    have hm := match_tok_cons st (tk .T_ASTERISK) l .T_ASTERISK rfl
    have hq := quan_spec_no_qualifier 0 st l h1 h2 h3
    refine ⟨.POINTER new_qua false, 0, rfl, ?_⟩
    simp only [renderStar, List.singleton_append, pointer_loop, g_real_token_setToks,
      first_tok, tk, if_true] at hm ⊢
    rw [hm]
    simp only [hq]
    rfl
  | some qu =>
    obtain ⟨q, hq⟩ := quan_spec_qualifier qu st l
    have hm := match_tok_cons st (tk .T_ASTERISK) (tk qu.tok :: l) .T_ASTERISK rfl
    by_cases hr : IS_RESTRICT q = true
    · refine ⟨.POINTER (SET_FLAG new_qua T_QUA_RESTRICT) false,
        REMOVE_FLAG q T_QUA_RESTRICT, rfl, ?_⟩
      simp only [renderStar, List.cons_append, List.nil_append, pointer_loop,
        g_real_token_setToks, first_tok, tk, if_true] at hm hq ⊢
      rw [hm]
      simp only [hq, hr, if_true]
      rfl
    · refine ⟨.POINTER new_qua false, q, rfl, ?_⟩
      simp only [renderStar, List.cons_append, List.nil_append, pointer_loop,
        g_real_token_setToks, first_tok, tk, if_true] at hm hq ⊢
      rw [hm]
      simp only [hq, hr]
      rfl

theorem opOf_of_pointer {node : DeclNode} (h : DECL_dt node = .DCL_POINTER) :
    opOf node = .POINTER := by
  cases node <;> simp_all [DECL_dt, opOf]

theorem pointer_loop_render : ∀ (stars : List (Option Qual)) (n : Nat), stars.length < n →
    ∀ (new_qua : Nat) (ndcl : List DeclNode) (st : PState) (rest : List Lexeme),
    ends_pointer (first_tok rest) →
    ∃ nodes q, pointer_loop n new_qua ndcl (st.setToks (renderStars stars ++ rest)) =
        .ok (ndcl ++ nodes, q) (st.setToks rest) ∧
      nodes.map opOf = List.replicate stars.length Op.POINTER := by
  intro stars
  induction stars with
  | nil =>
    intro n hn new_qua ndcl st rest hr
    obtain ⟨h0, h1, h2, h3⟩ := hr
    obtain ⟨m, rfl⟩ : ∃ m, n = m + 1 := ⟨n - 1, by simp at hn; omega⟩
    refine ⟨[], new_qua, ?_, rfl⟩
    simp only [renderStars, List.nil_append, pointer_loop, g_real_token_setToks, h0,
      if_false, quan_spec_no_qualifier new_qua st rest h1 h2 h3, List.append_nil]
  | cons s t ih =>
    intro n hn new_qua ndcl st rest hr
    obtain ⟨m, rfl⟩ : ∃ m, n = m + 1 := ⟨n - 1, by simp at hn; omega⟩
    have hl : s = none → first_tok (renderStars t ++ rest) ≠ .T_CONST ∧
        first_tok (renderStars t ++ rest) ≠ .T_VOLATILE ∧
        first_tok (renderStars t ++ rest) ≠ .T_RESTRICT := by
      intro _
      obtain ⟨h0, h1, h2, h3⟩ := hr
      rcases first_tok_renderStars_append t rest with h | h <;> rw [h] <;> simp [h1, h2, h3]
    obtain ⟨node, q, hk, hstep⟩ :=
      pointer_loop_step m new_qua ndcl st s (renderStars t ++ rest) hl
    obtain ⟨nodes, q', hrun, hops⟩ :=
      ih m (by simp at hn; omega) q (ndcl ++ [node]) st rest hr
    refine ⟨node :: nodes, q', ?_, ?_⟩
    · simp only [renderStars, List.append_assoc]
      rw [hstep, hrun]
      simp
    · simp [hops, opOf_of_pointer hk, List.replicate_succ]

theorem array_loop_render (E : Collab) : ∀ (dims : List DimSyn) (n : Nat), dims.length < n →
    (∀ ds ∈ dims, ds.Accepted E) →
    ∀ (p : Bool) (dcl : List DeclNode) (st : PState) (rest : List Lexeme),
    first_tok rest ≠ .T_LSPAREN →
    ∃ nodes, array_loop E n p dcl (st.setToks (renderDims dims ++ rest)) =
        .ok (nodes ++ dcl) (st.setToks rest) ∧
      nodes.reverse.map opOf = dims.map (fun ds => Op.ARRAY ds.exp) := by
  intro dims
  induction dims with
  | nil =>
    intro n hn _ p dcl st rest hr
    obtain ⟨m, rfl⟩ : ∃ m, n = m + 1 := ⟨n - 1, by simp at hn; omega⟩
    refine ⟨[], ?_, rfl⟩
    simp only [renderDims, List.nil_append, array_loop, g_real_token_setToks, hr, if_false]
  | cons ds t ih =>
    intro n hn hacc p dcl st rest hr
    obtain ⟨m, rfl⟩ : ∃ m, n = m + 1 := ⟨n - 1, by simp at hn; omega⟩
    have hds : ds.Accepted E := hacc ds (List.mem_cons_self _ _)
    obtain ⟨nodes, hrun, hops⟩ := ih m (by simp at hn; omega)
      (fun x hx => hacc x (List.mem_cons_of_mem _ hx)) p
      (insertbefore_one dcl (.ARRAY ds.exp 0 p)) st rest hr
    refine ⟨nodes ++ [.ARRAY ds.exp 0 p], ?_, ?_⟩
    · have hm1 := match_tok_cons st (tk .T_LSPAREN)
        (ds.toks ++ tk .T_RSPAREN :: (renderDims t ++ rest)) .T_LSPAREN rfl
      have hc := hds st (renderDims t ++ rest)
      have hm2 := match_tok_cons st (tk .T_RSPAREN) (renderDims t ++ rest) .T_RSPAREN rfl
      simp only [renderDims, List.cons_append, List.append_assoc, array_loop,
        g_real_token_setToks, first_tok, tk, if_true] at hm1 hc hm2 ⊢
      rw [hm1]
      simp only [hc, hm2]
      simp only [ne_eq, not_true_eq_false, if_false]
      rw [hrun]
      simp [insertbefore_one]
    · simp [hops, opOf]

theorem declarator_suffix_plain (E : Collab) (m : Nat) (p : Bool) (dcl : List DeclNode)
    (st : PState) (rest : List Lexeme) (hr : ends_declarator (first_tok rest)) :
    declarator_suffix E (m + 1) p dcl (st.setToks rest) = .ok dcl (st.setToks rest) := by
  obtain ⟨h1, h2⟩ := hr
  simp only [declarator_suffix, g_real_token_setToks]

theorem declarator_suffix_render (E : Collab) (suf : SufSyn) (h : suf.Accepted E) :
    ∃ N, ∀ n, N ≤ n → ∀ (p : Bool) (dcl : List DeclNode) (st : PState) (rest : List Lexeme),
      ends_declarator (first_tok rest) →
      ∃ nodes, declarator_suffix E n p dcl (st.setToks (renderSuf suf ++ rest)) =
          .ok (nodes ++ dcl) (st.setToks rest) ∧
        nodes.reverse.map opOf = sufOps suf := by
  cases suf with
  | plain =>
    refine ⟨1, ?_⟩
    intro n hn p dcl st rest hr
    obtain ⟨m, rfl⟩ : ∃ m, n = m + 1 := ⟨n - 1, by omega⟩
    exact ⟨[], declarator_suffix_plain E m p dcl st rest hr, rfl⟩
  | arrays dims =>
    refine ⟨dims.length + 2, ?_⟩
    intro n hn p dcl st rest hr
    obtain ⟨m, rfl⟩ : ∃ m, n = m + 1 := ⟨n - 1, by omega⟩
    cases dims with
    | nil => exact ⟨[], declarator_suffix_plain E m p dcl st rest hr, rfl⟩
    | cons ds t =>
      obtain ⟨nodes, hrun, hops⟩ := array_loop_render E (ds :: t) m (by simp at hn ⊢; omega)
        h p dcl st rest hr.1
      refine ⟨nodes, ?_, hops⟩
      rw [← hrun]
      simp only [declarator_suffix, renderSuf, renderDims, List.cons_append,
        g_real_token_setToks, first_tok, tk]
  | func toks params =>
    obtain ⟨N0, hN0⟩ := h
    refine ⟨N0 + 1, ?_⟩
    intro n hn p dcl st rest hr
    obtain ⟨m, rfl⟩ : ∃ m, n = m + 1 := ⟨n - 1, by omega⟩
    refine ⟨[.FUN (fun_para_list_of params) p], ?_, rfl⟩
    have hm1 := match_tok_cons st (tk .T_LPAREN) (toks ++ tk .T_RPAREN :: rest) .T_LPAREN rfl
    have hp := hN0 m (by omega) st rest
    have hm2 := match_tok_cons st (tk .T_RPAREN) rest .T_RPAREN rfl
    simp only [declarator_suffix, renderSuf, List.cons_append, List.append_assoc,
      List.singleton_append, List.nil_append, g_real_token_setToks, first_tok, tk]
      at hm1 hp hm2 ⊢
    rw [hm1]
    simp only [hp, hm2]
    simp [insertbefore_one]

theorem applyOrder_ne_nil : ∀ d : DSyn, d.applyOrder ≠ []
  | .ident _ _ _ => by simp [DSyn.applyOrder]
  | .paren _ inner _ => by
    have := applyOrder_ne_nil inner
    simp [DSyn.applyOrder, this]

theorem direct_declarator_ident (E : Collab) (j q : Nat) (name : String) (st : PState)
    (l : List Lexeme) :
    direct_declarator E (j + 1) q (st.setToks (tk_id name :: l)) =
      declarator_suffix E j false [.ID name q false] (st.setToks l) := by
  have hm := match_tok_cons st (tk_id name) l .T_ID rfl
  simp only [direct_declarator, g_real_token_setToks, first_tok, tk_id] at hm ⊢
  rw [hm]
  rfl

theorem direct_declarator_paren (E : Collab) (j q : Nat) (st : PState) (l l' : List Lexeme)
    (chain : List DeclNode) (hne : chain ≠ [])
    (hd : declarator E j q (st.setToks l) = .ok chain (st.setToks (tk .T_RPAREN :: l'))) :
    direct_declarator E (j + 1) q (st.setToks (tk .T_LPAREN :: l)) =
      declarator_suffix E j true chain (st.setToks l') := by
  have hm := match_tok_cons st (tk .T_LPAREN) l .T_LPAREN rfl
  have hm2 := match_tok_cons st (tk .T_RPAREN) l' .T_RPAREN rfl
  have he : chain.isEmpty = false := by cases chain <;> simp_all
  simp only [direct_declarator, g_real_token_setToks, first_tok, tk] at hm hm2 hd ⊢
  rw [hm]
  simp only [hd, hm2, he]
  simp

theorem declarator_compose (E : Collab) (k qua q : Nat) (st st1 st2 : PState)
    (ptrs dclr : List DeclNode) (hp : pointer k qua st = .ok (ptrs, q) st1)
    (hd : direct_declarator E k q st1 = .ok dclr st2) (hne : dclr ≠ []) :
    declarator E (k + 1) qua st = .ok (ptrs ++ dclr) st2 := by
  have he : dclr.isEmpty = false := by cases dclr <;> simp_all
  simp only [declarator, hp, hd, he]
  simp [insertbefore]

/-- C1: for every declarator of the grammar (a run of `*`, each with at most
one qualifier, then an identifier or a parenthesised declarator, then a run
of `[ ... ]` or one `( ... )`) whose dimensions and parameters the
collaborators accept, `declarator` with a large enough iteration bound reads
exactly the tokens of the declarator, reports nothing, and returns a chain
whose reverse by `reverse_list` is the identifier followed by the operators
in the order they apply to the identifier, innermost first. -/
theorem declarator_chain_canonical_order (E : Collab) (d : DSyn) (h : d.Accepted E) :
    ∃ N, ∀ fuel, N ≤ fuel → ∀ (qua : Nat) (st : PState) (rest : List Lexeme),
      ends_declarator (first_tok rest) →
      ∃ chain, declarator E fuel qua (st.setToks (d.render ++ rest)) =
          .ok chain (st.setToks rest) ∧
        (reverse_list chain).map opOf = d.applyOrder := by
  induction d with
  | ident stars name suf =>
    obtain ⟨Ns, hs⟩ := declarator_suffix_render E suf h
    refine ⟨stars.length + Ns + 3, ?_⟩
    intro fuel hf qua st rest hr
    obtain ⟨j, rfl⟩ : ∃ j, fuel = j + 1 + 1 := ⟨fuel - 2, by omega⟩
    obtain ⟨nodes, q, hrun, hops⟩ := pointer_loop_render stars (j + 1) (by omega) qua [] st
      (tk_id name :: (renderSuf suf ++ rest)) (by simp [ends_pointer, first_tok, tk_id])
    obtain ⟨snodes, hsuf, hsops⟩ := hs j (by omega) false [.ID name q false] st rest hr
    have hshape : (DSyn.ident stars name suf).render ++ rest =
        renderStars stars ++ (tk_id name :: (renderSuf suf ++ rest)) := by
      simp [DSyn.render]
    have hd : direct_declarator E (j + 1) q (st.setToks (tk_id name :: (renderSuf suf ++ rest)))
        = .ok (snodes ++ [.ID name q false]) (st.setToks rest) := by
      rw [direct_declarator_ident, hsuf]
    refine ⟨nodes ++ (snodes ++ [.ID name q false]), ?_, ?_⟩
    · rw [hshape]
      exact declarator_compose E (j + 1) qua q _ _ _ _ _ (by simpa [pointer] using hrun) hd
        (by simp)
    · have hrev : List.map opOf nodes.reverse = List.replicate stars.length Op.POINTER := by
        rw [List.map_reverse, hops, List.reverse_replicate]
      simp [reverse_list, DSyn.applyOrder, opOf, hsops, hrev]
  | paren stars inner suf ih =>
    obtain ⟨hin, hsacc⟩ := h
    obtain ⟨Ni, hi⟩ := ih hin
    obtain ⟨Ns, hs⟩ := declarator_suffix_render E suf hsacc
    refine ⟨stars.length + Ni + Ns + 3, ?_⟩
    intro fuel hf qua st rest hr
    obtain ⟨j, rfl⟩ : ∃ j, fuel = j + 1 + 1 := ⟨fuel - 2, by omega⟩
    obtain ⟨nodes, q, hrun, hops⟩ := pointer_loop_render stars (j + 1) (by omega) qua [] st
      (tk .T_LPAREN :: (inner.render ++ (tk .T_RPAREN :: (renderSuf suf ++ rest))))
      (by simp [ends_pointer, first_tok, tk])
    obtain ⟨chain, hch, hcops⟩ := hi j (by omega) q st
      (tk .T_RPAREN :: (renderSuf suf ++ rest)) (by simp [ends_declarator, first_tok, tk])
    have hne : chain ≠ [] := by
      intro hc
      rw [hc] at hcops
      exact applyOrder_ne_nil inner hcops.symm
    obtain ⟨snodes, hsuf, hsops⟩ := hs j (by omega) true chain st rest hr
    have hshape : (DSyn.paren stars inner suf).render ++ rest =
        renderStars stars ++
          (tk .T_LPAREN :: (inner.render ++ (tk .T_RPAREN :: (renderSuf suf ++ rest)))) := by
      simp [DSyn.render]
    have hd : direct_declarator E (j + 1) q
        (st.setToks (tk .T_LPAREN :: (inner.render ++ (tk .T_RPAREN :: (renderSuf suf ++ rest)))))
        = .ok (snodes ++ chain) (st.setToks rest) := by
      rw [direct_declarator_paren E j q st _ _ chain hne hch, hsuf]
    refine ⟨nodes ++ (snodes ++ chain), ?_, ?_⟩
    · rw [hshape]
      exact declarator_compose E (j + 1) qua q _ _ _ _ _ (by simpa [pointer] using hrun) hd
        (by simp [hne])
    · have hrev : List.map opOf nodes.reverse = List.replicate stars.length Op.POINTER := by
        rw [List.map_reverse, hops, List.reverse_replicate]
      simp only [reverse_list] at hcops
      simp [reverse_list, DSyn.applyOrder, hsops, hrev, hcops]

theorem dim_lit_accepted (n : Int) : (dim_lit n).Accepted literal_collab :=
  fun _ _ => rfl

/-- Instance of C1 at `double (*arr[10][40])[20][30]`, whose order is
`ID(arr), ARRAY(10), ARRAY(40), POINTER, ARRAY(20), ARRAY(30)`, and the chains
that `init_declarator` stores for the four examples: `int *a`,
`int (*q)[30]`, `double (*arr[10][40])[20][30]` and `int *(*p)[30]`. -/
theorem declarator_chain_canonical_order_witness :
    dsyn_arr.Accepted literal_collab ∧
      dsyn_arr.applyOrder =
        [.ID "arr", .ARRAY (some ⟨some 10⟩), .ARRAY (some ⟨some 40⟩), .POINTER,
          .ARRAY (some ⟨some 20⟩), .ARRAY (some ⟨some 30⟩)] ∧
      (∃ N, ∀ fuel, N ≤ fuel → ∀ (qua : Nat) (st : PState) (rest : List Lexeme),
        ends_declarator (first_tok rest) →
        ∃ chain, declarator literal_collab fuel qua (st.setToks (dsyn_arr.render ++ rest)) =
            .ok chain (st.setToks rest) ∧
          (reverse_list chain).map opOf = dsyn_arr.applyOrder) ∧
      init_declarator literal_collab 12 0 (st_of (dsyn_a.render ++ [tk .T_SEMI])) =
        .ok (some (.mk .DCL_DECLARATOR [.ID "a" 0 false, .POINTER 0 false] false 0 false))
          (st_of [tk .T_SEMI]) ∧
      init_declarator literal_collab 12 0 (st_of (dsyn_q.render ++ [tk .T_SEMI])) =
        .ok (some (.mk .DCL_DECLARATOR
          [.ID "q" 0 false, .POINTER 0 false, array_lit 30 true] false 0 false))
          (st_of [tk .T_SEMI]) ∧
      init_declarator literal_collab 12 0 (st_of (dsyn_arr.render ++ [tk .T_SEMI])) =
        .ok (some (.mk .DCL_DECLARATOR
          [.ID "arr" 0 false, array_lit 10 false, array_lit 40 false, .POINTER 0 false,
            array_lit 20 true, array_lit 30 true] false 0 false))
          (st_of [tk .T_SEMI]) ∧
      init_declarator literal_collab 12 0 (st_of (dsyn_p.render ++ [tk .T_SEMI])) =
        .ok (some (.mk .DCL_DECLARATOR
          [.ID "p" 0 false, .POINTER 0 false, array_lit 30 true, .POINTER 0 false]
          false 0 false))
          (st_of [tk .T_SEMI]) :=
  have hacc : dsyn_arr.Accepted literal_collab :=
    ⟨fun ds hds => by
        simp only [List.mem_cons, List.mem_singleton, List.not_mem_nil, or_false] at hds
        rcases hds with rfl | rfl <;> exact dim_lit_accepted _,
      fun ds hds => by
        simp only [List.mem_cons, List.mem_singleton, List.not_mem_nil, or_false] at hds
        rcases hds with rfl | rfl <;> exact dim_lit_accepted _⟩
  ⟨hacc, rfl, declarator_chain_canonical_order literal_collab dsyn_arr hacc, rfl, rfl, rfl, rfl⟩

theorem match_tok_len_le (st : PState) (t : TOKEN) :
    (match_tok st t).2.toks.length ≤ st.toks.length := by
  unfold match_tok
  split <;> simp [PState.setToks]

theorem match_tok_len_lt (st : PState) (t : TOKEN) (h : g_real_token st = t)
    (ht : t ≠ .T_END) : (match_tok st t).2.toks.length + 1 ≤ st.toks.length := by
  unfold match_tok
  rw [if_pos h]
  cases hst : st.toks with
  | nil => simp [g_real_token, hst] at h; exact absurd h.symm ht
  | cons a l => simp [PState.setToks]

theorem quan_spec_len_le (q : Nat) (st : PState) :
    (quan_spec q st).2.toks.length ≤ st.toks.length := by
  unfold quan_spec
  split
  · split
    · exact match_tok_len_le st _
    · exact match_tok_len_le st _
  · split
    · exact match_tok_len_le st _
    · exact match_tok_len_le st _
  · exact match_tok_len_le st _
  · exact Nat.le_refl _

theorem pointer_loop_len_le : ∀ (fuel new_qua : Nat) (ndcl : List DeclNode) (st : PState)
    (r : List DeclNode × Nat) (st' : PState),
    pointer_loop fuel new_qua ndcl st = .ok r st' → st'.toks.length ≤ st.toks.length := by
  intro fuel
  induction fuel with
  | zero => intro new_qua ndcl st r st' h; simp [pointer_loop] at h
  | succ n ih =>
    intro new_qua ndcl st r st' h
    simp only [pointer_loop] at h
    have h1 := match_tok_len_le st .T_ASTERISK
    have h2 := quan_spec_len_le 0 (match_tok st .T_ASTERISK).2
    split at h
    · split at h
      · have := ih _ _ _ _ _ h; omega
      · have := ih _ _ _ _ _ h; omega
    · simp only [PRes.ok.injEq] at h
      rw [← h.2]
      exact quan_spec_len_le _ _

theorem pointer_loop_total : ∀ (fuel new_qua : Nat) (ndcl : List DeclNode) (st : PState),
    st.toks.length + 1 ≤ fuel → pointer_loop fuel new_qua ndcl st ≠ .nofuel := by
  intro fuel
  induction fuel with
  | zero => intro new_qua ndcl st h; omega
  | succ n ih =>
    intro new_qua ndcl st h
    simp only [pointer_loop]
    split
    · rename_i hstar
      have h1 := match_tok_len_lt st .T_ASTERISK hstar (by decide)
      have h2 := quan_spec_len_le 0 (match_tok st .T_ASTERISK).2
      split
      · exact ih _ _ _ (by omega)
      · exact ih _ _ _ (by omega)
    · simp

theorem array_loop_len_le (E : Collab) (hE : E.Reads) : ∀ (fuel : Nat) (p : Bool)
    (dcl : List DeclNode) (st : PState) (r : List DeclNode) (st' : PState),
    array_loop E fuel p dcl st = .ok r st' → st'.toks.length ≤ st.toks.length := by
  intro fuel
  induction fuel with
  | zero => intro p dcl st r st' h; simp [array_loop] at h
  | succ n ih =>
    intro p dcl st r st' h
    simp only [array_loop] at h
    have h1 := match_tok_len_le st .T_LSPAREN
    have h2 := hE.conditional_exp_le (match_tok st .T_LSPAREN).2
    have h3 := match_tok_len_le (E.conditional_exp (match_tok st .T_LSPAREN).2).2 .T_RSPAREN
    split at h
    · split at h
      · simp only [PRes.ok.injEq] at h
        rw [← h.2]
        simp only [err]
        omega
      · have := ih _ _ _ _ _ h; omega
    · simp only [PRes.ok.injEq] at h
      rw [← h.2]

theorem array_loop_total (E : Collab) (hE : E.Reads) : ∀ (fuel : Nat) (p : Bool)
    (dcl : List DeclNode) (st : PState),
    st.toks.length + 1 ≤ fuel → array_loop E fuel p dcl st ≠ .nofuel := by
  intro fuel
  induction fuel with
  | zero => intro p dcl st h; omega
  | succ n ih =>
    intro p dcl st h
    simp only [array_loop]
    split
    · rename_i hb
      have h1 := match_tok_len_lt st .T_LSPAREN hb (by decide)
      have h2 := hE.conditional_exp_le (match_tok st .T_LSPAREN).2
      have h3 := match_tok_len_le (E.conditional_exp (match_tok st .T_LSPAREN).2).2 .T_RSPAREN
      split
      · simp
      · exact ih _ _ _ (by omega)
    · simp

theorem compute_array_dim_loop_toks (E : Collab) (a : Bool) : ∀ (l : List DeclNode)
    (dim : Nat) (st : PState) (status : STATUS),
    (compute_array_dim_loop E a l dim st status).2.1.toks = st.toks := by
  intro l
  induction l with
  | nil => intro dim st status; rfl
  | cons x xs ih =>
    intro dim st status
    cases x with
    | ARRAY t d p =>
      simp only [compute_array_dim_loop]
      split
      · cases t with
        | none =>
          simp only
          split <;> simp [ih, err]
        | some e =>
          simp only
          cases hc : e.constVal with
          | none => simp [ih, err]
          | some idx =>
            simp only
            split
            · simp [ih, err]
            · split <;> simp [ih, err]
      · simp [ih]
    | ID _ _ _ => simp [compute_array_dim_loop, ih]
    | POINTER _ _ => simp [compute_array_dim_loop, ih]
    | FUN _ _ => simp [compute_array_dim_loop, ih]
    | VARIABLE => simp [compute_array_dim_loop, ih]

theorem err_toks (st : PState) (msg : String) : (err st msg).toks = st.toks := rfl

theorem pointer_len_le (fuel qua : Nat) (st : PState) (r : List DeclNode × Nat) (st' : PState)
    (h : pointer fuel qua st = .ok r st') : st'.toks.length ≤ st.toks.length :=
  pointer_loop_len_le fuel qua [] st r st' h

theorem compute_array_dim_toks (E : Collab) (l : List DeclNode) (a : Bool) (st : PState) :
    (compute_array_dim E l a st).2.1.toks = st.toks :=
  compute_array_dim_loop_toks E a l 0 st .ST_SUCC

theorem engine_len_le (E : Collab) (hE : E.Reads) : ∀ fuel : Nat,
    (∀ qua st r st', declarator E fuel qua st = .ok r st' →
      st'.toks.length ≤ st.toks.length) ∧
    (∀ qua st r st', direct_declarator E fuel qua st = .ok r st' →
      st'.toks.length ≤ st.toks.length) ∧
    (∀ p dcl st r st', declarator_suffix E fuel p dcl st = .ok r st' →
      st'.toks.length ≤ st.toks.length) ∧
    (∀ qua st r st', abstract_declarator E fuel qua st = .ok r st' →
      st'.toks.length ≤ st.toks.length) ∧
    (∀ qua st r st', direct_abstract_declarator E fuel qua st = .ok r st' →
      st'.toks.length ≤ st.toks.length) ∧
    (∀ st r st', parameter_declaration E fuel st = .ok r st' →
      st'.toks.length ≤ st.toks.length ∧
        (r.isSome = true → st'.toks.length + 1 ≤ st.toks.length)) ∧
    (∀ decl st r st', parameter_type_list E fuel decl st = .ok r st' →
      st'.toks.length ≤ st.toks.length) := by
  intro fuel
  induction fuel with
  | zero =>
    refine ⟨?_, ?_, ?_, ?_, ?_, ?_, ?_⟩ <;> intros <;>
      simp_all [declarator, direct_declarator, declarator_suffix, abstract_declarator,
        direct_abstract_declarator, parameter_declaration, parameter_type_list]
  | succ n ih =>
    obtain ⟨ih1, ih2, ih3, ih4, ih5, ih6, ih7⟩ := ih
    refine ⟨?_, ?_, ?_, ?_, ?_, ?_, ?_⟩
    · intro qua st r st' h
      simp only [declarator] at h
      cases hp : pointer n qua st with
      | ok pq st1 =>
        rw [hp] at h
        simp only at h
        cases hd : direct_declarator E n pq.2 st1 with
        | ok dclr st2 =>
          rw [hd] at h
          simp only at h
          have l1 := pointer_len_le _ _ _ _ _ hp
          have l2 := ih2 _ _ _ _ hd
          split at h <;>
            (simp only [PRes.ok.injEq] at h; rw [← h.2]; omega)
        | crash => rw [hd] at h; simp at h
        | nofuel => rw [hd] at h; simp at h
      | crash => rw [hp] at h; simp at h
      | nofuel => rw [hp] at h; simp at h
    · intro qua st r st' h
      simp only [direct_declarator] at h
      split at h
      · have l0 := match_tok_len_le st .T_LPAREN
        cases hd : declarator E n qua (match_tok st .T_LPAREN).2 with
        | ok dcl st2 =>
          rw [hd] at h
          simp only at h
          have l1 := ih1 _ _ _ _ hd
          have l2 := match_tok_len_le st2 .T_RPAREN
          split at h
          · simp only [PRes.ok.injEq] at h
            rw [← h.2, err_toks]; omega
          · split at h
            · simp only [PRes.ok.injEq] at h
              rw [← h.2, err_toks]; omega
            · have l3 := ih3 _ _ _ _ _ h; omega
        | crash => rw [hd] at h; simp at h
        | nofuel => rw [hd] at h; simp at h
      · have l0 := match_tok_len_le st .T_ID
        have l3 := ih3 _ _ _ _ _ h; omega
      · simp only [PRes.ok.injEq] at h
        rw [← h.2]
    · intro p dcl st r st' h
      simp only [declarator_suffix] at h
      split at h
      · exact array_loop_len_le E hE _ _ _ _ _ _ h
      · have l0 := match_tok_len_le st .T_LPAREN
        cases hd : parameter_type_list E n [] (match_tok st .T_LPAREN).2 with
        | ok ps st2 =>
          rw [hd] at h
          simp only at h
          have l1 := ih7 _ _ _ _ hd
          have l2 := match_tok_len_le st2 .T_RPAREN
          split at h
          · simp only [PRes.ok.injEq] at h
            rw [← h.2, err_toks]; omega
          · simp only [PRes.ok.injEq] at h
            rw [← h.2]; omega
        | crash => rw [hd] at h; simp at h
        | nofuel => rw [hd] at h; simp at h
      · simp only [PRes.ok.injEq] at h
        rw [← h.2]
    · intro qua st r st' h
      simp only [abstract_declarator] at h
      cases hp : pointer n qua st with
      | ok pq st1 =>
        rw [hp] at h
        simp only at h
        cases hd : direct_abstract_declarator E n pq.2 st1 with
        | ok dclr st2 =>
          rw [hd] at h
          simp only at h
          have l1 := pointer_len_le _ _ _ _ _ hp
          have l2 := ih5 _ _ _ _ hd
          split at h <;>
            (simp only [PRes.ok.injEq] at h; rw [← h.2]; omega)
        | crash => rw [hd] at h; simp at h
        | nofuel => rw [hd] at h; simp at h
      | crash => rw [hp] at h; simp at h
      | nofuel => rw [hp] at h; simp at h
    · intro qua st r st' h
      simp only [direct_abstract_declarator] at h
      split at h
      · have l0 := match_tok_len_le st .T_LPAREN
        cases hd : abstract_declarator E n qua (match_tok st .T_LPAREN).2 with
        | ok dcl st2 =>
          rw [hd] at h
          simp only at h
          have l1 := ih4 _ _ _ _ hd
          have l2 := match_tok_len_le st2 .T_RPAREN
          split at h
          · simp only [PRes.ok.injEq] at h
            rw [← h.2, err_toks]; omega
          · cases dcl with
            | nil => simp at h
            | cons d rest =>
              simp only at h
              have l3 := ih3 _ _ _ _ _ h; omega
        | crash => rw [hd] at h; simp at h
        | nofuel => rw [hd] at h; simp at h
      · have l0 := match_tok_len_le st .T_ID
        have l3 := ih3 _ _ _ _ _ h; omega
      · exact ih3 _ _ _ _ _ h
    · intro st r st' h
      simp only [parameter_declaration] at h
      have l0 := hE.declaration_spec_le st
      split at h
      · simp only [PRes.ok.injEq] at h
        rw [← h.1, ← h.2]
        exact ⟨l0, by simp⟩
      · rename_i ty hty
        have l1 := hE.declaration_spec_lt st ty hty
        cases hd : abstract_declarator E n (extract_qualifier (complement_qua ty) 0).2
            (E.declaration_spec st).2 with
        | ok chain st1 =>
          rw [hd] at h
          simp only at h
          have l2 := ih4 _ _ _ _ hd
          have l3 := compute_array_dim_toks E (reverse_list chain) false st1
          split at h
          · split at h
            · simp at h
            · simp only [PRes.ok.injEq] at h
              rw [← h.2, l3]
              exact ⟨by omega, fun _ => by omega⟩
          · simp only [PRes.ok.injEq] at h
            rw [← h.2, l3]
            exact ⟨by omega, fun _ => by omega⟩
        | crash => rw [hd] at h; simp at h
        | nofuel => rw [hd] at h; simp at h
    · intro decl st r st' h
      simp only [parameter_type_list] at h
      cases hd : parameter_declaration E n st with
      | ok t st1 =>
        rw [hd] at h
        have l1 := (ih6 _ _ _ hd).1
        cases t with
        | none =>
          simp only [PRes.ok.injEq] at h
          rw [← h.2]; exact l1
        | some t =>
          simp only at h
          have lc := match_tok_len_le st1 .T_COMMA
          have ld := match_tok_len_le st1 .T_DOTDOTDOT
          have ld2 := match_tok_len_le (match_tok st1 .T_COMMA).2 .T_DOTDOTDOT
          split at h
          · split at h
            · simp only [PRes.ok.injEq] at h
              rw [← h.2]; omega
            · have := ih7 _ _ _ _ h; omega
          · split at h
            · simp only [PRes.ok.injEq] at h
              rw [← h.2]; exact l1
            · split at h
              · simp only [PRes.ok.injEq] at h
                rw [← h.2]; omega
              · have := ih7 _ _ _ _ h; omega
      | crash => rw [hd] at h; simp at h
      | nofuel => rw [hd] at h; simp at h

theorem engine_total (E : Collab) (hE : E.Reads) : ∀ fuel : Nat,
    (∀ qua st, 6 * st.toks.length + 4 ≤ fuel → declarator E fuel qua st ≠ .nofuel) ∧
    (∀ qua st, 6 * st.toks.length + 3 ≤ fuel → direct_declarator E fuel qua st ≠ .nofuel) ∧
    (∀ p dcl st, 6 * st.toks.length + 2 ≤ fuel →
      declarator_suffix E fuel p dcl st ≠ .nofuel) ∧
    (∀ qua st, 6 * st.toks.length + 4 ≤ fuel →
      abstract_declarator E fuel qua st ≠ .nofuel) ∧
    (∀ qua st, 6 * st.toks.length + 3 ≤ fuel →
      direct_abstract_declarator E fuel qua st ≠ .nofuel) ∧
    (∀ st, 6 * st.toks.length + 1 ≤ fuel → parameter_declaration E fuel st ≠ .nofuel) ∧
    (∀ decl st, 6 * st.toks.length + 2 ≤ fuel →
      parameter_type_list E fuel decl st ≠ .nofuel) := by
  intro fuel
  induction fuel with
  | zero =>
    refine ⟨?_, ?_, ?_, ?_, ?_, ?_, ?_⟩ <;> intros <;> omega
  | succ n ih =>
    obtain ⟨ih1, ih2, ih3, ih4, ih5, ih6, ih7⟩ := ih
    obtain ⟨le1, -, -, le4, -, le6, le7⟩ := engine_len_le E hE n
    refine ⟨?_, ?_, ?_, ?_, ?_, ?_, ?_⟩
    · intro qua st hf
      simp only [declarator]
      cases hp : pointer n qua st with
      | ok pq st1 =>
        simp only
        have l1 := pointer_len_le _ _ _ _ _ hp
        cases hd : direct_declarator E n pq.2 st1 with
        | ok dclr st2 => simp only; split <;> simp
        | crash => simp
        | nofuel => exact absurd hd (ih2 _ _ (by omega))
      | crash => simp
      | nofuel => exact absurd hp (pointer_loop_total _ _ _ _ (by omega))
    · intro qua st hf
      simp only [direct_declarator]
      split
      · rename_i htok
        have l0 := match_tok_len_lt st .T_LPAREN htok (by decide)
        cases hd : declarator E n qua (match_tok st .T_LPAREN).2 with
        | ok dcl st2 =>
          simp only
          have l1 := le1 _ _ _ _ hd
          have l2 := match_tok_len_le st2 .T_RPAREN
          split
          · simp
          · split
            · simp
            · exact ih3 _ _ _ (by omega)
        | crash => simp
        | nofuel => exact absurd hd (ih1 _ _ (by omega))
      · have l0 := match_tok_len_le st .T_ID
        exact ih3 _ _ _ (by omega)
      · simp
    · intro p dcl st hf
      simp only [declarator_suffix]
      split
      · exact array_loop_total E hE _ _ _ _ (by omega)
      · rename_i htok
        have l0 := match_tok_len_lt st .T_LPAREN htok (by decide)
        cases hd : parameter_type_list E n [] (match_tok st .T_LPAREN).2 with
        | ok ps st2 => simp only; split <;> simp
        | crash => simp
        | nofuel => exact absurd hd (ih7 _ _ (by omega))
      · simp
    · intro qua st hf
      simp only [abstract_declarator]
      cases hp : pointer n qua st with
      | ok pq st1 =>
        simp only
        have l1 := pointer_len_le _ _ _ _ _ hp
        cases hd : direct_abstract_declarator E n pq.2 st1 with
        | ok dclr st2 => simp only; split <;> simp
        | crash => simp
        | nofuel => exact absurd hd (ih5 _ _ (by omega))
      | crash => simp
      | nofuel => exact absurd hp (pointer_loop_total _ _ _ _ (by omega))
    · intro qua st hf
      simp only [direct_abstract_declarator]
      split
      · rename_i htok
        have l0 := match_tok_len_lt st .T_LPAREN htok (by decide)
        cases hd : abstract_declarator E n qua (match_tok st .T_LPAREN).2 with
        | ok dcl st2 =>
          simp only
          have l1 := le4 _ _ _ _ hd
          have l2 := match_tok_len_le st2 .T_RPAREN
          split
          · simp
          · cases dcl with
            | nil => simp
            | cons d rest => exact ih3 _ _ _ (by omega)
        | crash => simp
        | nofuel => exact absurd hd (ih4 _ _ (by omega))
      · have l0 := match_tok_len_le st .T_ID
        exact ih3 _ _ _ (by omega)
      · exact ih3 _ _ _ (by omega)
    · intro st hf
      simp only [parameter_declaration]
      split
      · simp
      · rename_i ty hty
        have l1 := hE.declaration_spec_lt st ty hty
        cases hd : abstract_declarator E n (extract_qualifier (complement_qua ty) 0).2
            (E.declaration_spec st).2 with
        | ok chain st1 =>
          simp only
          split
          · split <;> simp
          · simp
        | crash => simp
        | nofuel => exact absurd hd (ih4 _ _ (by omega))
    · intro decl st hf
      simp only [parameter_type_list]
      cases hd : parameter_declaration E n st with
      | ok t st1 =>
        cases t with
        | none => simp
        | some t =>
          simp only
          have l1 := (le6 _ _ _ hd).2 rfl
          have lc := match_tok_len_le st1 .T_COMMA
          split
          · split
            · simp
            · exact ih7 _ _ (by omega)
          · split
            · simp
            · split
              · simp
              · exact ih7 _ _ (by omega)
      | crash => simp
      | nofuel => exact absurd hd (ih6 _ (by omega))

theorem literal_collab_reads : literal_collab.Reads where
  conditional_exp_le st := by
    simp only [literal_collab]
    split
    · rename_i h; simp [PState.setToks, h]
    · exact Nat.le_refl _
  declaration_spec_le st := by
    simp only [literal_collab]
    split
    · rename_i h; simp [PState.setToks, h]
    · rename_i h; simp [PState.setToks, h]
    · rename_i h; simp [PState.setToks, h]
    · exact Nat.le_refl _
  declaration_spec_lt st ty := by
    simp only [literal_collab]
    split
    · rename_i h; simp [PState.setToks, h]
    · rename_i h; simp [PState.setToks, h]
    · rename_i h; simp [PState.setToks, h]
    · simp

/-- C2: for every token sequence (every state of the parser, every
collaborator and every iteration bound), the chain that `declarator` or
`abstract_declarator` returns, once reversed by `reverse_list`, has no
`DCL_ID` node after its first node, hence at most one `DCL_ID` node; the same
holds for the chain that `init_declarator` stores after `compute_array_dim`.
With collaborators that only read tokens, the three functions do return
when the iteration bound is at least six times the number of tokens plus
four. -/
theorem declarator_chain_id_only_first (E : Collab) (fuel qua : Nat) (st : PState) :
    (∀ chain st', declarator E fuel qua st = .ok chain st' →
        IdFirst (reverse_list chain) ∧ count_id (reverse_list chain) ≤ 1) ∧
      (∀ chain st', abstract_declarator E fuel qua st = .ok chain st' →
        IdFirst (reverse_list chain) ∧ count_id (reverse_list chain) ≤ 1) ∧
      (∀ d st', init_declarator E fuel qua st = .ok (some d) st' →
        IdFirst (DECL_child d) ∧ count_id (DECL_child d) ≤ 1) ∧
      (E.Reads → 6 * st.toks.length + 4 ≤ fuel →
        declarator E fuel qua st ≠ .nofuel ∧ abstract_declarator E fuel qua st ≠ .nofuel ∧
          init_declarator E fuel qua st ≠ .nofuel) := by
  have key : ∀ l : List DeclNode, IdLast l →
      IdFirst (reverse_list l) ∧ count_id (reverse_list l) ≤ 1 := fun l hl =>
    ⟨idFirst_reverse_of_idLast hl, count_id_le_one_of_idFirst (idFirst_reverse_of_idLast hl)⟩
  refine ⟨?_, ?_, ?_, ?_⟩
  · intro chain st' h
    exact key _ ((engine_idLast E fuel).1 _ _ _ _ h)
  · intro chain st' h
    exact key _ ((engine_idLast E fuel).2.2.2.1 _ _ _ _ h)
  · intro d st' h
    unfold init_declarator at h
    cases hd : declarator E fuel qua st with
    | ok dclr st1 =>
      rw [hd] at h
      simp only at h
      have hk := (key _ ((engine_idLast E fuel).1 _ _ _ _ hd)).1
      have hc : IdFirst (compute_array_dim E (reverse_list dclr) true st1).1 :=
        idFirst_of_map_eq (compute_array_dim_loop_kinds E true _ _ _ _) hk
      split at h
      · simp at h
      · split at h
        · simp only [PRes.ok.injEq, Option.some.injEq] at h
          rw [← h.1]
          exact ⟨hc, count_id_le_one_of_idFirst hc⟩
        · simp only [PRes.ok.injEq, Option.some.injEq] at h
          rw [← h.1]
          exact ⟨hc, count_id_le_one_of_idFirst hc⟩
    | crash => rw [hd] at h; simp at h
    | nofuel => rw [hd] at h; simp at h
  · intro hE hf
    have hd := (engine_total E hE fuel).1 qua st hf
    refine ⟨hd, (engine_total E hE fuel).2.2.2.1 qua st hf, ?_⟩
    unfold init_declarator
    cases hdc : declarator E fuel qua st with
    | ok dclr st1 =>
      simp only
      split
      · simp
      · split <;> simp
    | crash => simp
    | nofuel => exact absurd hdc hd

/-- Instance of C2 at `int *(*p)[30]`: the chain of `*(*p)[30]` is
`POINTER, ARRAY, POINTER, ID` before `reverse_list`, and its reverse has one
`DCL_ID`, the first node; with the bound 52 for its eight tokens the
functions return. -/
theorem declarator_chain_id_only_first_witness :
    declarator literal_collab 10 0 (st_of toks_p) =
        .ok [.POINTER 0 false, .ARRAY (some ⟨some 30⟩) 0 true, .POINTER 0 false,
          .ID "p" 0 false] (st_of []) ∧
      (IdFirst (reverse_list [.POINTER 0 false, .ARRAY (some ⟨some 30⟩) 0 true,
          .POINTER 0 false, .ID "p" 0 false]) ∧
        count_id (reverse_list [.POINTER 0 false, .ARRAY (some ⟨some 30⟩) 0 true,
          .POINTER 0 false, .ID "p" 0 false]) ≤ 1) ∧
      (declarator literal_collab 52 0 (st_of toks_p) ≠ .nofuel ∧
        abstract_declarator literal_collab 52 0 (st_of toks_p) ≠ .nofuel ∧
        init_declarator literal_collab 52 0 (st_of toks_p) ≠ .nofuel) :=
  ⟨rfl, (declarator_chain_id_only_first literal_collab 10 0 (st_of toks_p)).1 _ _ rfl,
    (declarator_chain_id_only_first literal_collab 52 0 (st_of toks_p)).2.2.2
      literal_collab_reads (by decide)⟩

theorem round_up_eq (x a : Nat) (ha : 0 < a) :
    round_up x a = if x % a ≠ 0 then (x / a + 1) * a else x := by
  obtain ⟨q, r, rfl, hr⟩ : ∃ q r, x = a * q + r ∧ r < a :=
    ⟨x / a, x % a, (Nat.div_add_mod x a).symm, Nat.mod_lt x ha⟩
  have hmod : (a * q + r) % a = r := by
    rw [Nat.mul_add_mod]; exact Nat.mod_eq_of_lt hr
  have hdiv : (a * q + r) / a = q := by
    rw [Nat.mul_add_div ha, Nat.div_eq_of_lt hr, Nat.add_zero]
  unfold round_up
  rw [hmod, hdiv]
  by_cases h0 : r = 0
  · subst h0
    simp only [ne_eq, not_true_eq_false, if_false, Nat.add_zero]
    have h1 : a * q + a - 1 = a * q + (a - 1) := by omega
    rw [h1, Nat.mul_add_div ha, Nat.div_eq_of_lt (by omega), Nat.add_zero, Nat.mul_comm]
  · simp only [ne_eq, h0, not_false_eq_true, if_true]
    have h1 : a * q + r + a - 1 = a * q + (r + a - 1) := by omega
    have h2 : (r + a - 1) / a = 1 := by
      apply Nat.div_eq_of_lt_le <;> omega
    rw [h1, Nat.mul_add_div ha, h2]

theorem round_up_least (x a : Nat) (ha : 0 < a) :
    a ∣ round_up x a ∧ x ≤ round_up x a ∧ ∀ y, a ∣ y → x ≤ y → round_up x a ≤ y := by
  have hx := Nat.div_add_mod x a
  have hr := Nat.mod_lt x ha
  rw [round_up_eq x a ha]
  by_cases h0 : x % a = 0
  · simp only [h0, ne_eq, not_true_eq_false, if_false]
    exact ⟨Nat.dvd_of_mod_eq_zero h0, Nat.le_refl _, fun y _ hy => hy⟩
  · simp only [ne_eq, h0, not_false_eq_true, if_true]
    refine ⟨Nat.dvd_mul_left _ _, ?_, ?_⟩
    · rw [Nat.add_mul, Nat.one_mul, Nat.mul_comm]; omega
    · rintro y ⟨k, rfl⟩ hy
      rw [Nat.mul_comm a k]
      apply Nat.mul_le_mul_right
      by_contra hk
      have hk' : k ≤ x / a := by omega
      have := Nat.mul_le_mul_left a hk'
      omega

theorem pad_align_eq (x a : Nat) (ha : 0 < a) (h : round_up x a < 2 ^ 32) :
    pad_align x a = some (round_up x a) := by
  rw [round_up_eq x a ha] at h ⊢
  unfold pad_align
  rw [if_neg (by omega)]
  split
  · rename_i h0
    rw [if_pos h0] at h
    rw [toUINT_of_lt _ h]
  · rfl

theorem computeAggrAlignedSize_rounds_aux (aggr : Aggr) (total maxf : Nat) :
    (AGGR_pack_align aggr ≠ 0 → 0 < AGGR_align aggr →
        round_up total (AGGR_align aggr) < 2 ^ 32 →
        computeAggrAlignedSize aggr total maxf = some (round_up total (AGGR_align aggr))) ∧
      (AGGR_pack_align aggr = 0 → maxf ≤ AGGR_align aggr → 0 < maxf →
        round_up total maxf < 2 ^ 32 →
        computeAggrAlignedSize aggr total maxf = some (round_up total maxf)) ∧
      (AGGR_pack_align aggr = 0 → 0 < AGGR_align aggr → AGGR_align aggr < maxf →
        round_up maxf (AGGR_align aggr) < 2 ^ 32 →
        round_up total (round_up maxf (AGGR_align aggr)) < 2 ^ 32 →
        computeAggrAlignedSize aggr total maxf =
          some (round_up total (round_up maxf (AGGR_align aggr)))) := by
  refine ⟨?_, ?_, ?_⟩
  · intro hp ha h
    unfold computeAggrAlignedSize
    by_cases hlt : AGGR_align aggr < maxf
    · rw [if_pos hlt]
      have : ∃ v, pad_align maxf (AGGR_align aggr) = some v := by
        unfold pad_align
        rw [if_neg (by omega)]
        split <;> exact ⟨_, rfl⟩
      obtain ⟨v, hv⟩ := this
      rw [hv]
      simp only [Option.some_bind, ne_eq, hp, not_false_eq_true, if_true]
      exact pad_align_eq _ _ ha h
    · rw [if_neg hlt]
      simp only [Option.some_bind, ne_eq, hp, not_false_eq_true, if_true]
      exact pad_align_eq _ _ ha h
  · intro hp hle hm h
    unfold computeAggrAlignedSize
    rw [if_neg (by omega)]
    simp only [Option.some_bind, ne_eq, hp, not_true_eq_false, if_false]
    exact pad_align_eq _ _ hm h
  · intro hp ha hlt hm h
    unfold computeAggrAlignedSize
    rw [if_pos hlt, pad_align_eq _ _ ha hm]
    simp only [Option.some_bind, ne_eq, hp, not_true_eq_false, if_false]
    have hpos : 0 < round_up maxf (AGGR_align aggr) := by
      have := (round_up_least maxf (AGGR_align aggr) ha).2.1
      omega
    exact pad_align_eq _ _ hpos h

/-- C15, amended. With `pack_align` set and a declared `align > 0`,
`computeAggrAlignedSize` returns the total rounded up to the least multiple
of the declared `align` (not of `pack_align`).  With `pack_align` not set it
returns the total rounded up to the least multiple of `m`, where `m` is the
maximum field size when the declared `align` is at least that maximum, and
the maximum rounded up to a multiple of `align` when `align` is smaller.
Sizes are 32 bit values: the rounded values are taken below `2 ^ 32`. -/
theorem computeAggrAlignedSize_rounds (aggr : Aggr) (total maxf : Nat) :
    (AGGR_pack_align aggr ≠ 0 → 0 < AGGR_align aggr →
        round_up total (AGGR_align aggr) < 2 ^ 32 →
        computeAggrAlignedSize aggr total maxf = some (round_up total (AGGR_align aggr))) ∧
      (AGGR_pack_align aggr = 0 → maxf ≤ AGGR_align aggr → 0 < maxf →
        round_up total maxf < 2 ^ 32 →
        computeAggrAlignedSize aggr total maxf = some (round_up total maxf)) ∧
      (AGGR_pack_align aggr = 0 → 0 < AGGR_align aggr → AGGR_align aggr < maxf →
        round_up maxf (AGGR_align aggr) < 2 ^ 32 →
        round_up total (round_up maxf (AGGR_align aggr)) < 2 ^ 32 →
        computeAggrAlignedSize aggr total maxf =
          some (round_up total (round_up maxf (AGGR_align aggr)))) ∧
      (∀ x a, 0 < a →
        a ∣ round_up x a ∧ x ≤ round_up x a ∧ ∀ y, a ∣ y → x ≤ y → round_up x a ≤ y) :=
  ⟨(computeAggrAlignedSize_rounds_aux aggr total maxf).1,
    (computeAggrAlignedSize_rounds_aux aggr total maxf).2.1,
    (computeAggrAlignedSize_rounds_aux aggr total maxf).2.2, round_up_least⟩

/-- Instance of C15: with declared align 4 a total of 6 is rounded to 8 when
`pack_align` is 2, to 6 when it is not set and the largest field has size 2,
and to 8 when it is not set and the largest field has size 6. -/
theorem computeAggrAlignedSize_rounds_witness :
    computeAggrAlignedSize (aggr_aligns 4 2) 6 2 = some (round_up 6 4) ∧
      computeAggrAlignedSize (aggr_aligns 4 0) 6 2 = some (round_up 6 2) ∧
      computeAggrAlignedSize (aggr_aligns 4 0) 6 6 = some (round_up 6 (round_up 6 4)) :=
  ⟨(computeAggrAlignedSize_rounds (aggr_aligns 4 2) 6 2).1 (by decide) (by decide)
      (by decide),
    (computeAggrAlignedSize_rounds (aggr_aligns 4 0) 6 2).2.1 rfl (by decide) (by decide)
      (by decide),
    (computeAggrAlignedSize_rounds (aggr_aligns 4 0) 6 6).2.2.1 rfl (by decide) (by decide)
      (by decide) (by decide)⟩

/-- Counterexample to C15 as stated: with `pack_align` 2 and declared align 4
the total 6 becomes 8, which is not the least multiple of 2 above 6; without
`pack_align`, declared align 4 and largest field size 6, the total 6 becomes
8, while the least multiple of 6 above it is 6. -/
theorem computeAggrAlignedSize_pack_align_unused :
    AGGR_pack_align (aggr_aligns 4 2) = 2 ∧
      computeAggrAlignedSize (aggr_aligns 4 2) 6 2 = some 8 ∧
      round_up 6 2 = 6 ∧
      AGGR_pack_align (aggr_aligns 4 0) = 0 ∧
      computeAggrAlignedSize (aggr_aligns 4 0) 6 6 = some 8 ∧
      round_up 6 6 = 6 := by
  refine ⟨rfl, by decide, by decide, rfl, by decide, by decide⟩

theorem foldl_max_ge (l : List Nat) (a : Nat) : a ≤ l.foldl max a := by
  induction l generalizing a with
  | nil => exact Nat.le_refl _
  | cons x xs ih => exact Nat.le_trans (Nat.le_max_left a x) (ih (max a x))

theorem computeUnionTypeSize_loop_max (ptr : Nat) : ∀ (fields : List Decl) (sizes : List Nat)
    (size : Nat), fields.map (get_decl_size ptr) = sizes.map some →
    computeUnionTypeSize_loop ptr fields size = some (sizes.foldl max size) := by
  intro fields
  induction fields with
  | nil =>
    intro sizes size h
    cases sizes with
    | nil => simp [computeUnionTypeSize_loop]
    | cons _ _ => simp at h
  | cons f rest ih =>
    intro sizes size h
    cases sizes with
    | nil => simp at h
    | cons sz szs =>
      simp only [List.map_cons, List.cons.injEq] at h
      obtain ⟨h1, h2⟩ := h
      cases f with
      | mk dt spec dl p sf fno a =>
        have h1' : get_decl_size_with ptr (getSpecTypeSize ptr spec)
            (.mk dt spec dl p sf fno a) = some sz := h1
        simp only [computeUnionTypeSize_loop, h1', Option.some_bind, List.foldl_cons]
        exact ih szs _ h2

theorem round_up_self_of_le (x m : Nat) (hm : 0 < m) (hx : x ≤ m) (hx0 : 0 < x) :
    round_up x m = m := by
  rw [round_up_eq x m hm]
  by_cases h : x = m
  · subst h; simp
  · have hlt : x < m := by omega
    rw [Nat.mod_eq_of_lt hlt, Nat.div_eq_of_lt hlt]
    simp [Nat.ne_of_gt hx0]

/-- C14, amended. For a complete union with declared `align > 0` whose fields
have the sizes `sizes` by `get_decl_size`, with maximum `M > 0`,
`computeUnionTypeSize` returns `M` when `pack_align` is not set and `align`
is at least `M`, and otherwise `M` rounded up to the least multiple of
`align` (taken below `2 ^ 32`). -/
theorem computeUnionTypeSize_max_rounded (ptr : Nat) (s : Aggr) (sizes : List Nat)
    (hs : (AGGR_decl_list s).map (get_decl_size ptr) = sizes.map some)
    (ha : 0 < AGGR_align s) (hm : 0 < max_size sizes)
    (hfit : round_up (max_size sizes) (AGGR_align s) < 2 ^ 32) :
    computeUnionTypeSize ptr s =
      some (if AGGR_pack_align s = 0 ∧ max_size sizes ≤ AGGR_align s then max_size sizes
        else round_up (max_size sizes) (AGGR_align s)) := by
  cases s with
  | mk tag fields c al fal pal =>
    simp only [AGGR_decl_list, AGGR_align, AGGR_pack_align] at hs ha hfit ⊢
    have hloop := computeUnionTypeSize_loop_max ptr fields sizes 0 hs
    simp only [computeUnionTypeSize, hloop, Option.some_bind]
    change computeAggrAlignedSize (.mk tag fields c al fal pal) (max_size sizes)
      (max_size sizes) = _
    have hr := computeAggrAlignedSize_rounds_aux (.mk tag fields c al fal pal)
      (max_size sizes) (max_size sizes)
    simp only [AGGR_align, AGGR_pack_align] at hr
    have hle := (round_up_least (max_size sizes) al ha).2.1
    by_cases hp : pal = 0
    · by_cases hle2 : max_size sizes ≤ al
      · rw [if_pos ⟨hp, hle2⟩]
        have h1 : round_up (max_size sizes) (max_size sizes) = max_size sizes :=
          round_up_self_of_le _ _ hm (Nat.le_refl _) hm
        have := hr.2.1 hp hle2 hm (by rw [h1]; omega)
        rw [this, h1]
      · rw [if_neg (fun h => hle2 h.2)]
        have hpos : 0 < round_up (max_size sizes) al := by omega
        have h1 : round_up (max_size sizes) (round_up (max_size sizes) al) =
            round_up (max_size sizes) al := round_up_self_of_le _ _ hpos hle hm
        have := hr.2.2 hp ha (by omega) hfit (by rw [h1]; exact hfit)
        rw [this, h1]
    · rw [if_neg (fun h => hp h.1)]
      exact hr.1 hp ha hfit

/-- Instance of C14: `union U { char c[5]; int i; }` with declared align 4 has
fields of sizes 5 and 4 and the size 8. -/
theorem computeUnionTypeSize_max_rounded_witness :
    (AGGR_decl_list union_c5_i).map (get_decl_size 4) = [5, 4].map some ∧
      max_size [5, 4] = 5 ∧
      computeUnionTypeSize 4 union_c5_i = some 8 :=
  ⟨by decide, by decide,
    computeUnionTypeSize_max_rounded 4 union_c5_i [5, 4] (by decide) (by decide) (by decide)
      (by decide)⟩

/-- Counterexample to C14 as stated: `union V { char c[5]; }` with declared
align 4 has one field, of size 5, and `computeUnionTypeSize` returns 8. -/
theorem computeUnionTypeSize_exceeds_max :
    (AGGR_decl_list union_c5).map (get_decl_size 4) = [some 5] ∧
      computeUnionTypeSize 4 union_c5 = some 8 ∧
      getSpecTypeSize 4 (.mk T_SPEC_UNION none (some union_c5) none) = some 8 := by
  refine ⟨by decide, by decide, by decide⟩

theorem padded_sum_ge (sizes : List Nat) (hpos : ∀ x ∈ sizes, 0 < x) (ofst : Nat) :
    ofst ≤ padded_sum sizes ofst := by
  induction sizes generalizing ofst with
  | nil => exact Nat.le_refl _
  | cons s rest ih =>
    have h1 := (round_up_least ofst s (hpos s (List.mem_cons_self _ _))).2.1
    have h2 := ih (fun x hx => hpos x (List.mem_cons_of_mem _ hx)) (round_up ofst s + s)
    simp only [padded_sum]
    omega

theorem computeStructTypeSize_loop_scalars (ptr : Nat) (s : Aggr)
    (hfa : AGGR_field_align s = 0) : ∀ (fields : List Decl) (sizes : List Nat)
    (ofst mx : Nat), fields.map (get_decl_size ptr) = sizes.map some →
    (∀ f ∈ fields, is_bitfield f = false ∧ is_array f = false) →
    (∀ x ∈ sizes, 0 < x) → padded_sum sizes ofst < 2 ^ 32 →
    computeStructTypeSize_loop ptr s fields 0 ofst mx =
      some (padded_sum sizes ofst, sizes.foldl max mx) := by
  intro fields
  induction fields with
  | nil =>
    intro sizes ofst mx h _ _ _
    cases sizes with
    | nil => simp [computeStructTypeSize_loop, padded_sum]
    | cons _ _ => simp at h
  | cons f rest ih =>
    intro sizes ofst mx h hsc hpos hfit
    cases sizes with
    | nil => simp at h
    | cons sz szs =>
      simp only [List.map_cons, List.cons.injEq] at h
      obtain ⟨h1, h2⟩ := h
      obtain ⟨hb, harr⟩ := hsc f (List.mem_cons_self _ _)
      have hsz : 0 < sz := hpos sz (List.mem_cons_self _ _)
      have hpos' : ∀ x ∈ szs, 0 < x := fun x hx => hpos x (List.mem_cons_of_mem _ hx)
      simp only [padded_sum] at hfit
      have hmono := padded_sum_ge szs hpos' (round_up ofst sz + sz)
      have hpad : pad_align ofst sz = some (round_up ofst sz) :=
        pad_align_eq ofst sz hsz (by omega)
      cases f with
      | mk dt spec dl p sf fno a =>
        have h1' : get_decl_size_with ptr (getSpecTypeSize ptr spec)
            (.mk dt spec dl p sf fno a) = some sz := h1
        have hstep : compute_field_ofst ptr (getSpecTypeSize ptr spec) s ofst
            (.mk dt spec dl p sf fno a) = some (round_up ofst sz + sz, sz) := by
          unfold compute_field_ofst
          rw [if_neg (by simp [harr]), h1']
          simp only [Option.some_bind, compute_field_ofst_consider_pad, hfa, ne_eq,
            not_true_eq_false, if_false, hpad, Nat.lt_irrefl, Nat.mul_one]
          rw [toUINT_of_lt _ (by omega)]
        simp only [computeStructTypeSize_loop, hb, Bool.false_eq_true, if_false, hstep,
          Option.some_bind, padded_sum, List.foldl_cons]
        exact ih szs _ _ h2 (fun g hg => hsc g (List.mem_cons_of_mem _ hg)) hpos' hfit

theorem is_struct_complete_of_flag (des : Nat) (ut : Option Decl) (s : Aggr) (e : Option Enum)
    (hs : HAVE_FLAG des T_SPEC_STRUCT = true) (hu : HAVE_FLAG des T_SPEC_USER_TYPE = false)
    (hc : AGGR_is_complete s = true) :
    is_struct_complete (.mk des ut (some s) e) = some true := by
  have hp : get_pure_type_spec (.mk des ut (some s) e) = some (.mk des ut (some s) e) := by
    cases ut with
    | none => simp [get_pure_type_spec, hu]
    | some u => cases u; simp [get_pure_type_spec, hu]
  simp [is_struct_complete, hp, IS_STRUCT, TYPE_des, hs, TYPE_aggr_type, hc]

theorem getSpecTypeSize_struct_flags (ptr des : Nat) (ut : Option Decl) (s : Aggr)
    (e : Option Enum) (h1 : HAVE_FLAG des T_SPEC_LONGLONG = false)
    (h2 : HAVE_FLAG des T_SPEC_VOID = false) (h3 : HAVE_FLAG des T_SPEC_CHAR = false)
    (h4 : HAVE_FLAG des T_SPEC_BOOL = false) (h5 : HAVE_FLAG des T_SPEC_SHORT = false)
    (h6 : HAVE_FLAG des T_SPEC_INT = false) (h7 : HAVE_FLAG des T_SPEC_LONG = false)
    (h8 : HAVE_FLAG des T_SPEC_FLOAT = false) (h9 : HAVE_FLAG des T_SPEC_DOUBLE = false)
    (hs : HAVE_FLAG des T_SPEC_STRUCT = true) (hu : HAVE_FLAG des T_SPEC_USER_TYPE = false)
    (hc : AGGR_is_complete s = true) :
    getSpecTypeSize ptr (.mk des ut (some s) e) = computeStructTypeSize ptr s := by
  have hcomp := is_struct_complete_of_flag des ut s e hs hu hc
  simp only [getSpecTypeSize, h1, h2, h3, h4, h5, h6, h7, h8, h9, hs, hcomp,
    Bool.false_eq_true, if_false, if_true]

theorem getSpecTypeSize_struct (ptr : Nat) (s : Aggr) (hc : AGGR_is_complete s = true) :
    getSpecTypeSize ptr (.mk T_SPEC_STRUCT none (some s) none) = computeStructTypeSize ptr s :=
  getSpecTypeSize_struct_flags ptr T_SPEC_STRUCT none s none (by decide) (by decide)
    (by decide) (by decide) (by decide) (by decide) (by decide) (by decide) (by decide)
    (by decide) (by decide) hc

/-- C11. For a struct whose fields are neither bit fields nor arrays and have
the sizes `s1..sn` (`n >= 1`, each positive) by `get_decl_size`, with
`field_align = 0`, `pack_align = 0` and declared align at least the largest
size, `computeStructTypeSize` (and `getSpecTypeSize` of the struct specifier, when
the struct is complete) returns the manually computed padded sum: from
offset 0, each field rounds the offset up to a multiple of its size and
advances it by its size, and the final offset is rounded up to a multiple
of the largest size.  Sizes are 32 bit values: the result is taken below
`2 ^ 32`. -/
theorem computeStructTypeSize_padded_sum (ptr : Nat) (s : Aggr) (sizes : List Nat)
    (hs : (AGGR_decl_list s).map (get_decl_size ptr) = sizes.map some)
    (hsc : ∀ f ∈ AGGR_decl_list s, is_bitfield f = false ∧ is_array f = false)
    (hpos : ∀ x ∈ sizes, 0 < x) (hne : sizes ≠ [])
    (hfa : AGGR_field_align s = 0) (hpa : AGGR_pack_align s = 0)
    (hal : max_size sizes ≤ AGGR_align s)
    (hfit : manual_struct_size sizes < 2 ^ 32) :
    computeStructTypeSize ptr s = some (manual_struct_size sizes) ∧
      (AGGR_is_complete s = true →
        getSpecTypeSize ptr (.mk T_SPEC_STRUCT none (some s) none) =
          some (manual_struct_size sizes)) := by
  suffices h : computeStructTypeSize ptr s = some (manual_struct_size sizes) from
    ⟨h, fun hc => by rw [getSpecTypeSize_struct ptr s hc, h]⟩
  have hmax : 0 < max_size sizes := by
    cases sizes with
    | nil => exact absurd rfl hne
    | cons x xs =>
      have h1 := hpos x (List.mem_cons_self _ _)
      have h2 := foldl_max_ge xs (max 0 x)
      have h3 := Nat.le_max_right 0 x
      simp only [max_size, List.foldl_cons]
      omega
  have hle := (round_up_least (padded_sum sizes 0) (max_size sizes) hmax).2.1
  have hloop := computeStructTypeSize_loop_scalars ptr s hfa (AGGR_decl_list s) sizes 0 0
    hs hsc hpos (by unfold manual_struct_size at hfit; omega)
  cases s with
  | mk tag fields c al fal pal =>
    simp only [AGGR_decl_list] at hloop
    simp only [computeStructTypeSize, hloop, Option.some_bind]
    exact (computeAggrAlignedSize_rounds_aux (.mk tag fields c al fal pal)
      (padded_sum sizes 0) (max_size sizes)).2.1 hpa hal hmax hfit

/-- Instance of C11: `struct S { char a; int b; short c; }` with declared
align 4 has fields of sizes 1, 4, 2; the padded sum is 10 and the size 12. -/
theorem computeStructTypeSize_padded_sum_witness :
    (AGGR_decl_list struct_char_int_short).map (get_decl_size 4) = [1, 4, 2].map some ∧
      padded_sum [1, 4, 2] 0 = 10 ∧ manual_struct_size [1, 4, 2] = 12 ∧
      computeStructTypeSize 4 struct_char_int_short = some 12 ∧
      getSpecTypeSize 4 (.mk T_SPEC_STRUCT none (some struct_char_int_short) none) =
        some 12 :=
  have h := computeStructTypeSize_padded_sum 4 struct_char_int_short [1, 4, 2] (by decide)
    (by decide) (by decide) (by decide) rfl rfl (by decide) (by decide)
  ⟨by decide, by decide, by decide, h.1, h.2 rfl⟩

theorem computeScalarTypeBitSize_bounds (des W : Nat)
    (h : computeScalarTypeBitSize des = some W) : 0 < W ∧ W ≤ 64 := by
  unfold computeScalarTypeBitSize at h
  simp only [BYTE_PER_CHAR, BYTE_PER_SHORT, BYTE_PER_INT, BYTE_PER_LONG, BYTE_PER_LONGLONG,
    BYTE_PER_DOUBLE, BYTE_PER_FLOAT, BIT_PER_BYTE] at h
  split_ifs at h <;> simp only [Option.some.injEq] at h <;> subst h <;>
    exact ⟨by decide, by decide⟩

theorem greedy_units_ge (W : Nat) (ws : List Nat) (bits u : Nat) :
    u ≤ greedy_units W ws bits u := by
  induction ws generalizing bits u with
  | nil => exact Nat.le_refl _
  | cons w ws ih =>
    simp only [greedy_units]
    split
    · exact Nat.le_trans (Nat.le_succ u) (ih w (u + 1))
    · exact ih _ _

theorem computeBitFieldByteSize_loop_greedy (int_ty W : Nat) (hW : W ≤ 64) :
    ∀ (run : List Decl) (widths : List Nat) (rest : List Decl) (bits u : Nat),
    (∀ f ∈ run, DECL_is_bit_field (DECL_decl_list f) = true ∧
      TYPE_des (DECL_spec f) = int_ty) →
    run.map (fun f => DECL_bit_len (DECL_decl_list f)) = widths.map Int.ofNat →
    (∀ w ∈ widths, 0 < w ∧ w ≤ W) → ends_bit_run int_ty rest → bits ≤ W →
    greedy_units W widths bits u * W < 2 ^ 32 →
    computeBitFieldByteSize_loop int_ty W (run ++ rest) bits (u * W) =
      some (greedy_units W widths bits u * W, rest) := by
  intro run
  induction run with
  | nil =>
    intro widths rest bits u _ hw _ hend _ _
    cases widths with
    | cons _ _ => simp at hw
    | nil =>
      simp only [List.nil_append, greedy_units]
      cases rest with
      | nil => simp [computeBitFieldByteSize_loop]
      | cons g gs =>
        simp only [ends_bit_run] at hend
        rcases hend with hnb | ⟨hpos, hne⟩
        · simp [computeBitFieldByteSize_loop, hnb]
        · by_cases hb : DECL_is_bit_field (DECL_decl_list g) = true
          · simp [computeBitFieldByteSize_loop, hb, hpos, hne]
          · simp [computeBitFieldByteSize_loop, hb]
  | cons f fs ih =>
    intro widths rest bits u hrun hw hws hend hbits hfit
    cases widths with
    | nil => simp at hw
    | cons w ws =>
      simp only [List.map_cons, List.cons.injEq] at hw
      have hw1 : DECL_bit_len (DECL_decl_list f) = (w : Int) := hw.1
      have hw2 := hw.2
      obtain ⟨hbf, hty⟩ := hrun f (List.mem_cons_self _ _)
      obtain ⟨hwpos, hwle⟩ := hws w (List.mem_cons_self _ _)
      have hrun' : ∀ g ∈ fs, DECL_is_bit_field (DECL_decl_list g) = true ∧
          TYPE_des (DECL_spec g) = int_ty := fun g hg => hrun g (List.mem_cons_of_mem _ hg)
      have hws' : ∀ x ∈ ws, 0 < x ∧ x ≤ W := fun x hx => hws x (List.mem_cons_of_mem _ hx)
      have hlen : intToUINT (DECL_bit_len (DECL_decl_list f)) = w := by
        rw [hw1]
        have := intToUINT_of_pos (w : Int) (by omega) (by simp; omega)
        simpa using this
      have hposlen : ¬ DECL_bit_len (DECL_decl_list f) ≤ 0 := by rw [hw1]; omega
      have hsum : toUINT (bits + w) = bits + w := toUINT_of_lt _ (by omega)
      have hw0 : toUINT (0 + w) = w := by rw [Nat.zero_add]; exact toUINT_of_lt _ (by omega)
      simp only [greedy_units] at hfit ⊢
      simp only [List.cons_append, computeBitFieldByteSize_loop, hbf, Bool.not_true,
        Bool.false_eq_true, if_false, hposlen, hty, ne_eq, not_true_eq_false, hlen, hsum, hw0]
      by_cases hover : bits + w > W
      · simp only [hover, if_true] at hfit ⊢
        have hge := greedy_units_ge W ws w (u + 1)
        have hmul : (u + 1) * W ≤ greedy_units W ws w (u + 1) * W :=
          Nat.mul_le_mul_right W hge
        have htot : toUINT (u * W + W) = (u + 1) * W := by
          rw [Nat.add_mul, Nat.one_mul] at hmul ⊢
          exact toUINT_of_lt _ (by omega)
        rw [htot]
        exact ih ws rest w (u + 1) hrun' hw2 hws' hend hwle hfit
      · simp only [hover, if_false] at hfit ⊢
        exact ih ws rest (bits + w) u hrun' hw2 hws' hend (Nat.le_of_not_gt hover) hfit

/-- C12 (code defect for specifiers such as `short int`). For a run of
consecutive bit fields with the same integer specifier word `int_ty` and
widths `w1..wk` (each `0 < wi <= W`), followed by a field that ends the run,
`computeBitFieldByteSize` returns `U * W / 8`, where `U` is the number of
storage units of the greedy packing, and moves the cursor to the first field
after the run, provided `computeScalarTypeBitSize` knows the specifier word
(`W` is its result) and `U * W` is below `2 ^ 32`.  In
`struct S { int a:3; int b:5; int c; }` the group `a, b` takes 4 bytes and the
struct 8.  For the specifier `short int`, whose word has the bits SHORT and
INT, `computeScalarTypeBitSize` has no case, so `computeBitFieldByteSize` has
no result on `struct T { short int a:3; short int b:5; }`, although
`getSpecTypeSize` gives the same specifier the size 2. -/
theorem computeBitFieldByteSize_greedy_units :
    (∀ (run rest : List Decl) (widths : List Nat) (int_ty W : Nat),
        run ≠ [] → (∀ f ∈ run, is_integer f = true) →
        (∀ f ∈ run, DECL_is_bit_field (DECL_decl_list f) = true ∧
          TYPE_des (DECL_spec f) = int_ty) →
        run.map (fun f => DECL_bit_len (DECL_decl_list f)) = widths.map Int.ofNat →
        (∀ w ∈ widths, 0 < w ∧ w ≤ W) → ends_bit_run int_ty rest →
        computeScalarTypeBitSize int_ty = some W →
        greedy_units W widths 0 1 * W < 2 ^ 32 →
        computeBitFieldByteSize (run ++ rest) =
          some (greedy_units W widths 0 1 * W / 8, rest)) ∧
      computeBitFieldByteSize fields_a3_b5_c = some (4, [decl_int_field "c"]) ∧
      computeStructTypeSize 4 struct_a3_b5_c = some 8 ∧
      (∀ f ∈ fields_short_int_bits, is_integer f = true) ∧
      computeScalarTypeBitSize (T_SPEC_SHORT ||| T_SPEC_INT) = none ∧
      computeBitFieldByteSize fields_short_int_bits = none ∧
      getSpecTypeSize 4 (.mk (T_SPEC_SHORT ||| T_SPEC_INT) none none none) = some 2 := by
  refine ⟨?_, rfl, by decide, by decide, by decide, rfl, by decide⟩
  intro run rest widths int_ty W hne hint hrun hw hws hend hW hfit
  obtain ⟨hWpos, hW64⟩ := computeScalarTypeBitSize_bounds int_ty W hW
  cases run with
  | nil => exact absurd rfl hne
  | cons f fs =>
    have hloop := computeBitFieldByteSize_loop_greedy int_ty W hW64 (f :: fs) widths rest 0 1
      hrun hw hws hend (Nat.zero_le _) hfit
    rw [Nat.one_mul] at hloop
    have hty : TYPE_des (DECL_spec f) = int_ty := (hrun f (List.mem_cons_self _ _)).2
    have hge := greedy_units_ge W widths 0 1
    have hpos : greedy_units W widths 0 1 * W ≠ 0 :=
      Nat.ne_of_gt (Nat.mul_pos (by omega) hWpos)
    simp only [List.cons_append, computeBitFieldByteSize, hint f (List.mem_cons_self _ _),
      Bool.not_true, Bool.false_eq_true, if_false, hty, hW, Option.some_bind]
    simp only [List.cons_append] at hloop
    rw [hloop]
    simp only [Option.some_bind, hpos, if_false, BIT_PER_BYTE]

/-- C13 (code defect). In `struct S { int a:3; int b:5; int c; }`, whose size
by `computeStructTypeSize` is 8 (the group `a, b` in one `int`, then `c` at
offset 4), `get_aggr_field` returns the offset 8 for `c`: it advances by a
whole `int` for each bit field.  In `struct P { char a; int b; }`, of size 8
with `b` at offset 4, it returns the offset 1 for `b`: the running offset is
not padded to the alignment of the field that is found. -/
theorem get_aggr_field_misplaces_fields :
    computeStructTypeSize 4 struct_a3_b5_c = some 8 ∧
      computeBitFieldByteSize fields_a3_b5_c = some (4, [decl_int_field "c"]) ∧
      get_aggr_field 4 struct_a3_b5_c "c" = some (8, decl_int_field "c") ∧
      computeStructTypeSize 4 struct_char_int = some 8 ∧
      pad_align 1 4 = some 4 ∧
      get_aggr_field 4 struct_char_int "b" = some (1, decl_int_field "b") :=
  ⟨by decide, rfl, rfl, by decide, by decide, rfl⟩

theorem process_base_init_exp (f : Nat) (hf : 0 < f) (rest : List Tree) (errs : List String) :
    process_base_init f (.TR_EXP :: rest) errs = .ok .ST_SUCC () rest errs := by
  obtain ⟨g, rfl⟩ : ∃ g, f = g + 1 := ⟨f - 1, by omega⟩
  simp [process_base_init, is_initval_scope]

theorem process_array_init_elems_scalars (dcl : List DeclNode) (ty : TypeSpec)
    (errs : List String) (hs : is_struct_spec ty = some false)
    (hu : is_union_spec ty = some false) (hp : is_pointer_walk none dcl = false) :
    ∀ (k fuel count : Nat), k + 1 ≤ fuel →
      process_array_init_elems fuel 0 dcl ty (List.replicate k .TR_EXP) errs count =
        .ok .ST_SUCC (ty, count + k) [] errs := by
  intro k
  induction k with
  | zero =>
    intro fuel count hf
    obtain ⟨f, rfl⟩ : ∃ f, fuel = f + 1 := ⟨fuel - 1, by omega⟩
    simp [process_array_init_elems]
  | succ k ih =>
    intro fuel count hf
    obtain ⟨f, rfl⟩ : ∃ f, fuel = f + 1 := ⟨fuel - 1, by omega⟩
    have hrec := ih f (count + 1) (by omega)
    have hbase := process_base_init_exp f (by omega) (List.replicate k .TR_EXP) errs
    simp only [List.replicate_succ, process_array_init_elems, hs, hu, hp,
      Bool.false_eq_true, if_false, hbase, Nat.lt_irrefl, false_and, if_true, hrec]
    have : count + 1 + k = count + (k + 1) := by omega
    rw [this]

theorem get_pure_type_spec_of_not_ref (ty : TypeSpec) (h : IS_USER_TYPE_REF ty = false) :
    get_pure_type_spec ty = some ty := by
  cases ty with
  | mk des ut a e =>
    simp only [IS_USER_TYPE_REF, TYPE_des] at h
    cases ut with
    | none => simp [get_pure_type_spec, h]
    | some u => cases u; simp [get_pure_type_spec, h]

theorem set_pure_type_spec_of_not_ref (ty pty : TypeSpec) (h : IS_USER_TYPE_REF ty = false) :
    set_pure_type_spec ty pty = pty := by
  cases ty with
  | mk des ut a e =>
    simp only [IS_USER_TYPE_REF, TYPE_des] at h
    cases ut with
    | none => simp [set_pure_type_spec, h]
    | some u => cases u; simp [set_pure_type_spec, h]

theorem process_array_init_recur_open (ty : TypeSpec) (name : String) (qua : Nat)
    (ip ipa : Bool) (e : Option DimExp) (errs : List String) (n : Nat)
    (href : IS_USER_TYPE_REF ty = false) (hs : IS_STRUCT ty = false)
    (hu : IS_UNION ty = false) (fuel : Nat) (hf : n + 2 ≤ fuel) :
    process_array_init_recur fuel [.ID name qua ip, .ARRAY e 0 ipa] ty [braces n] errs =
      .ok .ST_SUCC ([.ID name qua ip, .ARRAY e (n : Int) ipa], ty) [] errs := by
  obtain ⟨f, rfl⟩ : ∃ f, fuel = f + 1 := ⟨fuel - 1, by omega⟩
  have hp := get_pure_type_spec_of_not_ref ty href
  have hss : is_struct_spec ty = some false := by simp [is_struct_spec, hp, hs]
  have hus : is_union_spec ty = some false := by simp [is_union_spec, hp, hu]
  have hel := process_array_init_elems_scalars [.ARRAY e 0 ipa] ty errs hss hus rfl n f 0
    (by omega)
  have h0 : toULONGLONG 0 = 0 := by decide
  simp only [process_array_init_recur, hp, braces, is_initval_scope, TREE_initval_scope,
    if_true, h0, hel, set_pure_type_spec_of_not_ref ty ty href]
  simp

theorem process_array_init_open (ty : TypeSpec) (name : String) (qua : Nat)
    (ip ipa : Bool) (e : Option DimExp) (errs : List String) (n : Nat)
    (href : IS_USER_TYPE_REF ty = false) (hs : IS_STRUCT ty = false)
    (hu : IS_UNION ty = false) (fuel : Nat) (hf : n + 3 ≤ fuel) :
    process_array_init fuel (array_decl_init ty name qua ip e ipa 0) [braces n] errs =
      .ok .ST_SUCC (array_decl_init ty name qua ip e ipa (n : Int)) [] errs := by
  obtain ⟨f, rfl⟩ : ∃ f, fuel = f + 1 := ⟨fuel - 1, by omega⟩
  have hrec := process_array_init_recur_open ty name qua ip ipa e errs n href hs hu f
    (by omega)
  have ha : is_array (array_decl_init ty name qua ip e ipa 0) = true := by
    simp [is_array, array_decl_init, PURE_DECL, DECL_decl_list, DECL_child, is_array_walk]
  have hpd : PURE_DECL (array_decl_init ty name qua ip e ipa 0) =
      [.ID name qua ip, .ARRAY e 0 ipa] := rfl
  have hsp : DECL_spec (array_decl_init ty name qua ip e ipa 0) = ty := rfl
  simp only [process_array_init, ha, hpd, hsp, hrec]
  rfl

/-- C16 (`process_init`, `process_array_init_recur`): for every array
declaration `ty name[]` of one dimension whose specifier `ty` is no typedef
reference, struct or union, with a brace initializer of `n >= 1` scalar
elements, `process_init` returns `ST_SUCC` without a diagnostic for every
iteration bound from `n + 3` on, nothing is left of the initializer, and the
dimension of the array is `n`; and when the element size `sz` is positive
and `n * sz` is below 2^32, `get_decl_size` of the declaration returned is
`n * sz`.  For `int a[] = {1,2,3,4};` the dimension is 4 and the size is
`4 * sizeof(int)`. -/
theorem process_init_backfills_dimension (ptr : Nat) (ty : TypeSpec) (name : String)
    (qua : Nat) (ip ipa : Bool) (e : Option DimExp) (errs : List String) (n sz fuel : Nat)
    (href : IS_USER_TYPE_REF ty = false) (hs : IS_STRUCT ty = false)
    (hu : IS_UNION ty = false) (hn : 1 ≤ n) (hsz : getSpecTypeSize ptr ty = some sz)
    (hpos : 0 < sz) (hb : n * sz < 2 ^ 32) (hf : n + 3 ≤ fuel) :
    process_init fuel (array_decl_init ty name qua ip e ipa 0) [braces n] errs =
        .ok .ST_SUCC (array_decl_init ty name qua ip e ipa (n : Int)) [] errs ∧
      (PURE_DECL (array_decl_init ty name qua ip e ipa (n : Int))).map DECL_array_dim =
        [0, (n : Int)] ∧
      get_decl_size ptr (array_decl_init ty name qua ip e ipa (n : Int)) = some (n * sz) := by
  have harr := process_array_init_open ty name qua ip ipa e errs n href hs hu fuel hf
  have ha : is_array (array_decl_init ty name qua ip e ipa 0) = true := by
    simp [is_array, array_decl_init, PURE_DECL, DECL_decl_list, DECL_child, is_array_walk]
  have hp : is_pointer (array_decl_init ty name qua ip e ipa 0) = false := by
    simp [is_pointer, array_decl_init, PURE_DECL, DECL_decl_list, DECL_child,
      is_pointer_walk, isIdOrVariable, DECL_dt]
  refine ⟨?_, rfl, ?_⟩
  · have h1 : (array_decl_init ty name qua ip e ipa 0).dt = .DCL_DECLARATION := rfl
    have h2 : is_initialized (array_decl_init ty name qua ip e ipa 0) = true := rfl
    have h3 : (DECL_decl_list (array_decl_init ty name qua ip e ipa 0)).dt =
        .DCL_DECLARATOR := rfl
    simp [process_init, hp, ha, harr, h1, h2, h3]
  · have hprod : (arrayDims [DeclNode.ARRAY e (n : Int) ipa]).prod = n := by
      show ((n : Int).toNat :: ([] : List Nat)).prod = n
      simp
    have hrun := get_decl_size_array_run ptr (array_decl_init ty name qua ip e ipa (n : Int))
      name qua ip [.ARRAY e (n : Int) ipa] [] rfl (by simp)
      (by
        intro x hx
        simp only [List.mem_singleton] at hx
        subst hx
        exact ⟨rfl, by simp only [DECL_array_dim]; omega⟩)
      (by
        have hle : n ≤ n * sz := Nat.le_mul_of_pos_right _ hpos
        rw [hprod]
        omega)
      (by intro x hx; simp at hx)
    have hsp : DECL_spec (array_decl_init ty name qua ip e ipa (n : Int)) = ty := rfl
    rw [hrun, hsp, hsz, hprod]
    simp only [Option.map_some']
    unfold toUINT UINT_RANGE
    rw [Nat.mod_eq_of_lt hb]

theorem process_init_backfills_dimension_witness :
    process_init 10 decl_a_open [braces 4] [] =
        .ok .ST_SUCC (decl_int_init [.ID "a" 0 false, .ARRAY none 4 false]) [] [] ∧
      (PURE_DECL (decl_int_init [.ID "a" 0 false, .ARRAY none 4 false])).map DECL_array_dim =
        [0, 4] ∧
      get_decl_size 4 (decl_int_init [.ID "a" 0 false, .ARRAY none 4 false]) = some (4 * 4) :=
  process_init_backfills_dimension 4 spec_int "a" 0 false false none [] 4 4 10
    (by decide) (by decide) (by decide) (by decide) (by decide) (by decide) (by decide)
    (by decide)

/-- C17 (`process_array_init_recur`): on `int a[][2] = {{1,2},{3,4}};`
`process_init` returns `ST_SUCC` without a diagnostic and back-fills the
outermost dimension with 1, not with the number 2 of rows: the loop for
several dimensions hands the whole brace scope to the call for the inner
dimension, which takes the two rows as its two elements and then moves the
cursor past the scope.  The same happens with three rows. -/
theorem process_init_outer_dimension_one :
    (process_init 10 decl_a_open_2 init_rows_2x2 []).status = some .ST_SUCC ∧
      (process_init 10 decl_a_open_2 init_rows_2x2 []).errors = some [] ∧
      (process_init 10 decl_a_open_2 init_rows_2x2 []).dims = some [0, 1, 2] ∧
      (process_init 10 decl_a_open_2
        [.TR_INITVAL_SCOPE [braces 2, braces 2, braces 2]] []).dims = some [0, 1, 2] := by
  refine ⟨?_, ?_, ?_, ?_⟩ <;> decide

/-- C18 (`process_init`, `process_array_init_recur`): on
`int a[2] = {1,2,3};` matching stops after two elements, but `process_init`
returns `ST_SUCC` and reports nothing: the third element is left in the
local cursor of `process_array_init_recur`, which then moves `*init` past
the brace scope, so `initval` is null when `process_init` tests it. -/
theorem process_init_accepts_excess_array_elements :
    (process_init 10 decl_a_2 [braces 3] []).status = some .ST_SUCC ∧
      (process_init 10 decl_a_2 [braces 3] []).errors = some [] ∧
      (process_init 10 decl_a_2 [braces 3] []).left = some 0 ∧
      (process_init 10 decl_a_2 [braces 3] []).dims = some [0, 2] := by
  refine ⟨?_, ?_, ?_, ?_⟩ <;> decide

/-- C19 (`process_init`, `process_struct_init`): on
`struct T { char a; int b; short c; } t = {1};`, with fewer elements than
fields, `process_init` returns `ST_SUCC` without a diagnostic; on
`struct S { int a; } s = {1, 2};`, with an element left after the only
field, it returns `ST_SUCC` without a diagnostic as well: the element left
in the local cursor `fldval` of `process_struct_init` is dropped. -/
theorem process_init_accepts_excess_struct_elements :
    (process_init 10 decl_struct_t [braces 1] []).status = some .ST_SUCC ∧
      (process_init 10 decl_struct_t [braces 1] []).errors = some [] ∧
      (process_init 10 decl_struct_s [braces 2] []).status = some .ST_SUCC ∧
      (process_init 10 decl_struct_s [braces 2] []).errors = some [] ∧
      (process_init 10 decl_struct_s [braces 2] []).left = some 0 := by
  refine ⟨?_, ?_, ?_, ?_, ?_⟩ <;> decide

theorem process_union_init_fields_eq_struct (fuel : Nat) :
    ∀ (flds : List Decl) (fldval : List Tree) (errs : List String),
      process_union_init_fields fuel flds fldval errs =
        process_struct_init_fields fuel flds fldval errs := by
  induction fuel with
  | zero =>
    intro flds fldval errs
    simp only [process_union_init_fields, process_struct_init_fields]
  | succ f ih =>
    intro flds fldval errs
    cases flds with
    | nil => simp only [process_union_init_fields, process_struct_init_fields]
    | cons d rest =>
      cases fldval with
      | nil => simp only [process_union_init_fields, process_struct_init_fields]
      | cons t ts =>
        simp only [process_union_init_fields, process_struct_init_fields, ih]

/-- C20 (`process_union_init`): for every complete union and every brace
scope, `process_union_init` matches the fields of the union in declaration
order against the elements of the scope with the loop of
`process_struct_init`: every field is matched, as long as elements are left,
against the elements that the fields before it have left; the fields
carry the result, and the cursor moves past the scope exactly when no field
failed. -/
theorem process_union_init_matches_like_struct (fuel : Nat) (ty : TypeSpec) (s : Aggr)
    (vals nsib : List Tree) (errs : List String) (hu : IS_UNION ty = true)
    (ha : TYPE_aggr_type ty = some s) (hc : AGGR_is_complete s = true) :
    process_union_init (fuel + 1) ty (.TR_INITVAL_SCOPE vals :: nsib) errs =
      match process_struct_init_fields fuel (AGGR_decl_list s) vals errs with
      | .ok st flds _ errs2 =>
        if st ≠ .ST_SUCC then
          .ok st (ty.setAggr (s.setDeclList flds)) (.TR_INITVAL_SCOPE vals :: nsib) errs2
        else .ok .ST_SUCC (ty.setAggr (s.setDeclList flds)) nsib errs2
      | .crash => .crash
      | .nofuel => .nofuel := by
  simp [process_union_init, hu, ha, hc, is_initval_scope, TREE_initval_scope,
    process_union_init_fields_eq_struct]

theorem process_union_init_matches_like_struct_witness :
    process_union_init (9 + 1) spec_union_u init_1_braces_3 [] =
      match process_struct_init_fields 9 (AGGR_decl_list union_a_b_open)
        [.TR_EXP, braces 3] [] with
      | .ok st flds _ errs2 =>
        if st ≠ .ST_SUCC then
          .ok st (spec_union_u.setAggr (union_a_b_open.setDeclList flds)) init_1_braces_3 errs2
        else .ok .ST_SUCC (spec_union_u.setAggr (union_a_b_open.setDeclList flds)) [] errs2
      | .crash => .crash
      | .nofuel => .nofuel :=
  process_union_init_matches_like_struct 9 spec_union_u union_a_b_open [.TR_EXP, braces 3] []
    [] (by decide) rfl (by decide)

/-- C20, counterexample: on `union U { int a; int b[]; } u = {1, {2,3,4}};`
the second element is matched against the second field `b`, whose dimension
is back-filled with 3. -/
theorem process_union_init_matches_second_field :
    (process_init 10 decl_union_u init_1_braces_3 []).status = some .ST_SUCC ∧
      (process_init 10 decl_union_u init_1_braces_3 []).errors = some [] ∧
      field_dims decl_union_u = some [[0], [0, 0]] ∧
      (match process_init 10 decl_union_u init_1_braces_3 [] with
        | .ok _ d _ _ => field_dims d
        | _ => none) = some [[0], [0, 3]] := by
  refine ⟨?_, ?_, ?_, ?_⟩ <;> decide

theorem ONLY_HAVE_FLAG_testBit (des w i : Nat) (h : ONLY_HAVE_FLAG des w = true)
    (hi : des.testBit i = true) : w.testBit i = true := by
  unfold ONLY_HAVE_FLAG at h
  have h1 : des &&& w = des := by simpa using h
  have h2 : (des &&& w).testBit i = des.testBit i := by rw [h1]
  rw [Nat.testBit_and, hi] at h2
  simpa using h2

theorem ck_type_spec_legally_words_no_class (des : Nat)
    (h : ck_type_spec_legally_words.any (fun w => ONLY_HAVE_FLAG des w) = true) :
    HAVE_FLAG des T_SPEC_STRUCT = false ∧ HAVE_FLAG des T_SPEC_UNION = false ∧
      HAVE_FLAG des T_SPEC_ENUM = false ∧ HAVE_FLAG des T_SPEC_USER_TYPE = false := by
  rw [List.any_eq_true] at h
  obtain ⟨w, hw, ho⟩ := h
  have key : ∀ i, (∀ v ∈ ck_type_spec_legally_words, v.testBit i = false) →
      HAVE_FLAG des (2 ^ i) = false := by
    intro i hv
    rw [HAVE_FLAG_two_pow]
    cases hb : des.testBit i
    · rfl
    · have := ONLY_HAVE_FLAG_testBit des w i ho hb
      rw [hv w hw] at this
      cases this
  exact ⟨key 10 (by decide), key 11 (by decide), key 12 (by decide), key 13 (by decide)⟩

/-- C30 (`ck_type_spec_legally`): the check returns `ST_ERR` exactly when the
specifier belongs to two of the four classes struct/union, enum, simple base
kind (void, char, short, int, long long, long, float, double, signed,
unsigned) and user type; it then reports one diagnostic, and otherwise it
returns `ST_SUCC` and reports nothing.  Two kinds of the same class are not
compared. -/
theorem ck_type_spec_legally_two_classes (ty : TypeSpec) (st : PState) :
    ((ck_type_spec_legally ty st).1 = .ST_ERR ↔ 2 ≤ spec_class_count ty) ∧
      ((ck_type_spec_legally ty st).1 = .ST_ERR →
        ∃ msg, (ck_type_spec_legally ty st).2 = err st msg) ∧
      ((ck_type_spec_legally ty st).1 = .ST_SUCC → (ck_type_spec_legally ty st).2 = st) := by
  simp only [ck_type_spec_legally, spec_class_count]
  cases hany : ck_type_spec_legally_words.any (fun w => ONLY_HAVE_FLAG (TYPE_des ty) w)
  · simp only [Bool.false_eq_true, if_false]
    cases HAVE_FLAG (TYPE_des ty) T_SPEC_STRUCT <;>
    cases HAVE_FLAG (TYPE_des ty) T_SPEC_UNION <;>
    cases HAVE_FLAG (TYPE_des ty) T_SPEC_ENUM <;>
    cases is_simple_base_type_spec ty <;>
    cases HAVE_FLAG (TYPE_des ty) T_SPEC_USER_TYPE <;>
    simp
  · obtain ⟨h1, h2, h3, h4⟩ := ck_type_spec_legally_words_no_class (TYPE_des ty) hany
    simp only [if_true, h1, h2, h3, h4]
    cases is_simple_base_type_spec ty <;> simp

/-- C30, counterexample: the flag words CHAR|DOUBLE, VOID|INT, FLOAT|DOUBLE
and STRUCT|UNION are accepted without a diagnostic, while STRUCT|INT and
ENUM|CHAR are rejected. -/
theorem ck_type_spec_legally_accepts_two_base_kinds :
    ck_type_spec_legally (spec_of (T_SPEC_CHAR ||| T_SPEC_DOUBLE)) (st_of []) =
        (.ST_SUCC, st_of []) ∧
      ck_type_spec_legally (spec_of (T_SPEC_VOID ||| T_SPEC_INT)) (st_of []) =
        (.ST_SUCC, st_of []) ∧
      ck_type_spec_legally (spec_of (T_SPEC_FLOAT ||| T_SPEC_DOUBLE)) (st_of []) =
        (.ST_SUCC, st_of []) ∧
      ck_type_spec_legally (spec_of (T_SPEC_STRUCT ||| T_SPEC_UNION)) (st_of []) =
        (.ST_SUCC, st_of []) ∧
      (ck_type_spec_legally (spec_of (T_SPEC_STRUCT ||| T_SPEC_INT)) (st_of [])).1 =
        .ST_ERR ∧
      (ck_type_spec_legally (spec_of (T_SPEC_ENUM ||| T_SPEC_CHAR)) (st_of [])).1 =
        .ST_ERR := by
  refine ⟨?_, ?_, ?_, ?_, ?_, ?_⟩ <;> decide

theorem declaration_spec_loop_stor (S : SpecCollab) (f : Nat) (ty : Option TypeSpec)
    (st : PState) (h : is_stor_token (g_real_token st) = true) :
    declaration_spec_loop S (f + 1) ty st =
      declaration_spec_loop S f (stor_spec ty st).1 (stor_spec ty st).2 := by
  rw [declaration_spec_loop]
  cases ht : g_real_token st <;> simp_all [is_stor_token]

theorem declaration_spec_loop_end (S : SpecCollab) (f : Nat) (ty : Option TypeSpec)
    (st : PState) (h : ends_declaration_spec (g_real_token st) = true) :
    declaration_spec_loop S (f + 1) ty st = .ok ty st := by
  rw [declaration_spec_loop]
  cases ht : g_real_token st <;> simp_all [ends_declaration_spec]

theorem stor_legal_iff (des : Nat) :
    stor_legal des ↔ (des.testBit 15 = true → des = 2 ^ 15) ∧
      ¬(des.testBit 17 = true ∧ des.testBit 18 = true) := by
  unfold stor_legal
  rw [T_STOR_AUTO_eq, T_STOR_STATIC_eq, T_STOR_EXTERN_eq, HAVE_FLAG_two_pow,
    HAVE_FLAG_two_pow, HAVE_FLAG_two_pow]

theorem testBit_SET_FLAG_ne (des i j : Nat) (h : j ≠ i) :
    (SET_FLAG des (2 ^ j)).testBit i = des.testBit i := by
  unfold SET_FLAG
  rw [Nat.testBit_or, Nat.testBit_two_pow_of_ne h, Bool.or_false]

theorem stor_legal_set_other (des i : Nat) (hi : i = 16 ∨ i = 19 ∨ i = 20)
    (hA : des.testBit 15 = false) (h : stor_legal des) : stor_legal (SET_FLAG des (2 ^ i)) := by
  rw [stor_legal_iff] at h ⊢
  have h15 : (SET_FLAG des (2 ^ i)).testBit 15 = false := by
    rcases hi with rfl | rfl | rfl <;> rw [testBit_SET_FLAG_ne _ _ _ (by decide), hA]
  have h17 : (SET_FLAG des (2 ^ i)).testBit 17 = des.testBit 17 := by
    rcases hi with rfl | rfl | rfl <;> rw [testBit_SET_FLAG_ne _ _ _ (by decide)]
  have h18 : (SET_FLAG des (2 ^ i)).testBit 18 = des.testBit 18 := by
    rcases hi with rfl | rfl | rfl <;> rw [testBit_SET_FLAG_ne _ _ _ (by decide)]
  rw [h15, h17, h18]
  exact ⟨fun hc => (by cases hc), h.2⟩

theorem stor_legal_set_static (des : Nat) (hA : des.testBit 15 = false)
    (hE : des.testBit 18 = false) : stor_legal (SET_FLAG des (2 ^ 17)) := by
  rw [stor_legal_iff]
  have h15 : (SET_FLAG des (2 ^ 17)).testBit 15 = false := by
    rw [testBit_SET_FLAG_ne _ _ _ (by decide), hA]
  have h18 : (SET_FLAG des (2 ^ 17)).testBit 18 = false := by
    rw [testBit_SET_FLAG_ne _ _ _ (by decide), hE]
  rw [h15, h18]
  exact ⟨fun hc => (by cases hc), fun hc => (by cases hc.2)⟩

theorem stor_legal_set_extern (des : Nat) (hA : des.testBit 15 = false)
    (hS : des.testBit 17 = false) : stor_legal (SET_FLAG des (2 ^ 18)) := by
  rw [stor_legal_iff]
  have h15 : (SET_FLAG des (2 ^ 18)).testBit 15 = false := by
    rw [testBit_SET_FLAG_ne _ _ _ (by decide), hA]
  have h17 : (SET_FLAG des (2 ^ 18)).testBit 17 = false := by
    rw [testBit_SET_FLAG_ne _ _ _ (by decide), hS]
  rw [h15, h17]
  exact ⟨fun hc => (by cases hc), fun hc => (by cases hc.1)⟩

theorem stor_legal_set_auto (des : Nat) (h : ONLY_HAVE_FLAG des (2 ^ 15) = true) :
    stor_legal (SET_FLAG des (2 ^ 15)) := by
  have heq : SET_FLAG des (2 ^ 15) = 2 ^ 15 := by
    apply Nat.eq_of_testBit_eq
    intro i
    unfold SET_FLAG
    rw [Nat.testBit_or]
    cases hb : des.testBit i
    · simp
    · rw [ONLY_HAVE_FLAG_testBit des (2 ^ 15) i h hb]
      rfl
  rw [heq, stor_legal_iff]
  exact ⟨fun _ => rfl, by decide⟩

theorem TYPE_des_setDes_eq (t : TypeSpec) (d : Nat) : TYPE_des (t.setDes d) = d := by
  cases t; rfl

theorem match_tok_toks (st : PState) (tok : TOKEN) (h : g_real_token st = tok) :
    (match_tok st tok).2.toks = st.toks.tail := by
  simp [match_tok, h, PState.setToks]

theorem stor_spec_step (ty : Option TypeSpec) (st : PState)
    (hok : ∀ t, ty = some t → stor_legal (TYPE_des t))
    (htok : is_stor_token (g_real_token st) = true) :
    ((stor_spec ty st).1 = none ∧ (stor_spec ty st).2.toks = st.toks ∧ ty ≠ none) ∨
      (∃ t, (stor_spec ty st).1 = some t ∧ (stor_spec ty st).2.toks = st.toks.tail ∧
        stor_legal (TYPE_des t)) := by
  have hl : stor_legal (TYPE_des (ty.getD new_type)) := by
    cases ty with
    | none => exact (stor_legal_iff 0).2 ⟨by decide, by decide⟩
    | some t => exact hok t rfl
  have hnone : ty = none → TYPE_des (ty.getD new_type) = 0 := by
    intro h
    subst h
    rfl
  simp only [stor_spec]
  generalize TYPE_des (ty.getD new_type) = des at hl hnone ⊢
  have hA : HAVE_FLAG des T_STOR_AUTO = des.testBit 15 := by
    rw [T_STOR_AUTO_eq, HAVE_FLAG_two_pow]
  have hS : HAVE_FLAG des T_STOR_STATIC = des.testBit 17 := by
    rw [T_STOR_STATIC_eq, HAVE_FLAG_two_pow]
  have hE : HAVE_FLAG des T_STOR_EXTERN = des.testBit 18 := by
    rw [T_STOR_EXTERN_eq, HAVE_FLAG_two_pow]
  by_cases c1 : (HAVE_FLAG des T_STOR_AUTO = true ∧ g_real_token st ≠ .T_AUTO) ∨
      (ONLY_HAVE_FLAG des T_STOR_AUTO = false ∧ g_real_token st = .T_AUTO)
  · left
    rw [if_pos c1]
    refine ⟨rfl, rfl, ?_⟩
    intro h
    rw [hnone h] at c1
    revert c1
    simp [HAVE_FLAG, ONLY_HAVE_FLAG, T_STOR_AUTO]
  · rw [if_neg c1]
    by_cases c2 : (HAVE_FLAG des T_STOR_STATIC = true ∧ g_real_token st = .T_EXTERN) ∨
        (HAVE_FLAG des T_STOR_EXTERN = true ∧ g_real_token st = .T_STATIC)
    · left
      rw [if_pos c2]
      refine ⟨rfl, rfl, ?_⟩
      intro h
      rw [hnone h] at c2
      revert c2
      simp [HAVE_FLAG, T_STOR_STATIC, T_STOR_EXTERN]
    · rw [if_neg c2]
      right
      rw [hA] at c1
      rw [hS, hE] at c2
      cases ht : g_real_token st <;> simp [is_stor_token, ht] at htok
      · -- auto
        rw [ht] at c1
        have hon : ONLY_HAVE_FLAG des (2 ^ 15) = true := by
          rw [← T_STOR_AUTO_eq]
          cases ho : ONLY_HAVE_FLAG des T_STOR_AUTO
          · exact absurd (Or.inr ⟨ho, rfl⟩) c1
          · rfl
        refine ⟨_, rfl, match_tok_toks st _ ht, ?_⟩
        rw [TYPE_des_setDes_eq, T_STOR_AUTO_eq]
        exact stor_legal_set_auto des hon
      all_goals
        rw [ht] at c1 c2
        have h15 : des.testBit 15 = false := by
          cases hb : des.testBit 15
          · rfl
          · exact absurd (Or.inl ⟨hb, by decide⟩) c1
        refine ⟨_, rfl, match_tok_toks st _ ht, ?_⟩
        rw [TYPE_des_setDes_eq]
      · rw [T_STOR_REG_eq]
        exact stor_legal_set_other des 16 (Or.inl rfl) h15 hl
      · rw [T_STOR_STATIC_eq]
        refine stor_legal_set_static des h15 ?_
        cases hb : des.testBit 18
        · rfl
        · exact absurd (Or.inr ⟨hb, rfl⟩) c2
      · rw [T_STOR_EXTERN_eq]
        refine stor_legal_set_extern des h15 ?_
        cases hb : des.testBit 17
        · rfl
        · exact absurd (Or.inl ⟨hb, rfl⟩) c2
      · rw [T_STOR_INLINE_eq]
        exact stor_legal_set_other des 19 (Or.inr (Or.inl rfl)) h15 hl
      · rw [T_STOR_TYPEDEF_eq]
        exact stor_legal_set_other des 20 (Or.inr (Or.inr rfl)) h15 hl

theorem g_real_token_eq_first_tok (st : PState) : g_real_token st = first_tok st.toks := by
  cases h : st.toks <;> simp [g_real_token, first_tok, h]

theorem declaration_spec_loop_storage (S : SpecCollab) (rest : List Lexeme)
    (hend : ends_declaration_spec (first_tok rest) = true) :
    ∀ (toks : List Lexeme) (ty : Option TypeSpec) (st : PState) (fuel : Nat),
      st.toks = toks ++ rest → (∀ t ∈ toks, is_stor_token t.tok = true) →
      (∀ t, ty = some t → stor_legal (TYPE_des t)) → 2 * toks.length + 1 ≤ fuel →
      ∃ ty1 st1, declaration_spec_loop S fuel ty st = .ok ty1 st1 ∧ st1.toks = rest ∧
        ∀ t, ty1 = some t → stor_legal (TYPE_des t) := by
  intro toks
  induction toks with
  | nil =>
    intro ty st fuel hst _ hok hf
    obtain ⟨f, rfl⟩ : ∃ f, fuel = f + 1 := ⟨fuel - 1, by omega⟩
    rw [List.nil_append] at hst
    have hg : ends_declaration_spec (g_real_token st) = true := by
      rw [g_real_token_eq_first_tok, hst]
      exact hend
    rw [declaration_spec_loop_end S f ty st hg]
    exact ⟨ty, st, rfl, hst, hok⟩
  | cons x xs ih =>
    intro ty st fuel hst hstor hok hf
    obtain ⟨f, rfl⟩ : ∃ f, fuel = f + 1 := ⟨fuel - 1, by omega⟩
    have hlen : (x :: xs).length = xs.length + 1 := rfl
    have hxs : ∀ t ∈ xs, is_stor_token t.tok = true :=
      fun t ht => hstor t (List.mem_cons_of_mem _ ht)
    have hg : is_stor_token (g_real_token st) = true := by
      rw [g_real_token_eq_first_tok, hst]
      exact hstor x (List.mem_cons_self _ _)
    rw [declaration_spec_loop_stor S f ty st hg]
    rcases stor_spec_step ty st hok hg with ⟨h1, h2, _⟩ | ⟨t1, h1, h2, h3⟩
    · -- a diagnostic: the specifier is dropped and the token is read again
      obtain ⟨g, rfl⟩ : ∃ g, f = g + 1 := ⟨f - 1, by omega⟩
      have hg2 : is_stor_token (g_real_token (stor_spec ty st).2) = true := by
        rw [g_real_token_eq_first_tok, h2, hst]
        exact hstor x (List.mem_cons_self _ _)
      rw [h1, declaration_spec_loop_stor S g none _ hg2]
      rcases stor_spec_step none (stor_spec ty st).2 (fun t ht => by cases ht) hg2 with
        ⟨_, _, h6⟩ | ⟨t2, h4, h5, h6⟩
      · exact absurd rfl h6
      · rw [h4]
        refine ih (some t2) _ g ?_ hxs ?_ (by omega)
        · rw [h5, h2, hst]
          rfl
        · intro t ht
          cases ht
          exact h6
    · rw [h1]
      refine ih (some t1) _ f ?_ hxs ?_ (by omega)
      · rw [h2, hst]
        rfl
      · intro t ht
        cases ht
        exact h3

/-- C29 (`stor_spec`, `declaration_spec`): for every sequence of
storage-class tokens (auto, register, static, extern, inline, typedef)
followed by a token that is none of a specifier, `declaration_spec` returns
for every iteration bound from twice the number of tokens plus one on, has
read exactly the storage-class tokens, and the specifier it returns, if any,
never has AUTO together with another flag and never has both STATIC and
EXTERN. -/
theorem declaration_spec_storage_classes (S : SpecCollab) (toks rest : List Lexeme)
    (st : PState) (fuel : Nat) (hstor : ∀ t ∈ toks, is_stor_token t.tok = true)
    (hend : ends_declaration_spec (first_tok rest) = true)
    (hf : 2 * toks.length + 1 ≤ fuel) :
    ∃ ty st1, declaration_spec S fuel (st.setToks (toks ++ rest)) = .ok ty st1 ∧
      st1.toks = rest ∧ ∀ t, ty = some t → stor_legal (TYPE_des t) :=
  declaration_spec_loop_storage S rest hend toks none (st.setToks (toks ++ rest)) fuel rfl
    hstor (fun t ht => by cases ht) hf

theorem declaration_spec_storage_classes_witness :
    ∃ ty st1, declaration_spec sample_spec_collab 7
        ((st_of []).setToks ([tk .T_STATIC, tk .T_INLINE, tk .T_EXTERN] ++ [tk .T_SEMI])) =
          .ok ty st1 ∧
      st1.toks = [tk .T_SEMI] ∧ ∀ t, ty = some t → stor_legal (TYPE_des t) :=
  declaration_spec_storage_classes sample_spec_collab
    [tk .T_STATIC, tk .T_INLINE, tk .T_EXTERN] [tk .T_SEMI] (st_of []) 7 (by decide)
    (by decide) (by decide)

/-- C29, counterexample: `register static int x;` is read without a
diagnostic and gives a specifier with both REGISTER and STATIC, and
`register extern` gives one with both REGISTER and EXTERN. -/
theorem declaration_spec_accepts_register_static :
    declaration_spec sample_spec_collab 10 (st_of toks_register_static) =
        .ok (some (spec_of (T_STOR_REG ||| T_STOR_STATIC ||| T_SPEC_INT)))
          (st_of [tk_id "x", tk .T_SEMI]) ∧
      stor_class_count (T_STOR_REG ||| T_STOR_STATIC ||| T_SPEC_INT) = 2 ∧
      declaration_spec sample_spec_collab 10
          (st_of [tk .T_REGISTER, tk .T_EXTERN, tk .T_INT, tk_id "x", tk .T_SEMI]) =
        .ok (some (spec_of (T_STOR_REG ||| T_STOR_EXTERN ||| T_SPEC_INT)))
          (st_of [tk_id "x", tk .T_SEMI]) ∧
      stor_class_count (T_STOR_REG ||| T_STOR_EXTERN ||| T_SPEC_INT) = 2 := by
  refine ⟨rfl, by decide, rfl, by decide⟩

theorem getCvtRank_of_has_rank (des : Nat) (h : has_rank des = true) :
    ∃ k, getCvtRank des = some k := by
  unfold has_rank at h
  unfold getCvtRank
  split_ifs <;> simp_all

/-- The rule of `buildBinaryOpType` on the flag words that `getCvtRank` knows:
for every pair of operand types `l` and `r` whose flag words have a
conversion rank, `buildBinaryOpType` returns an operand: `l` for a shift;
`l` when its rank is strictly higher; `r` when the rank of `r` is strictly
higher and the operator is no shift; and with equal ranks, for an operator
that is no shift, an operand that is unsigned whenever one of the two is. -/
theorem buildBinaryOpType_rank_rule (tok : TREE_TYPE) (l r : Decl)
    (hl : has_rank (TYPE_des (DECL_spec l)) = true)
    (hr : has_rank (TYPE_des (DECL_spec r)) = true) :
    ∃ rl rr, getCvtRank (TYPE_des (DECL_spec l)) = some rl ∧
      getCvtRank (TYPE_des (DECL_spec r)) = some rr ∧
      (tok = .TR_SHIFT → buildBinaryOpType tok l r = some l) ∧
      (rl > rr → buildBinaryOpType tok l r = some l) ∧
      (tok ≠ .TR_SHIFT → rl < rr → buildBinaryOpType tok l r = some r) ∧
      (tok ≠ .TR_SHIFT → rl = rr →
        (IS_TYPE (DECL_spec l) T_SPEC_UNSIGNED = true ∨
          IS_TYPE (DECL_spec r) T_SPEC_UNSIGNED = true) →
        ∃ d, buildBinaryOpType tok l r = some d ∧ (d = l ∨ d = r) ∧
          IS_TYPE (DECL_spec d) T_SPEC_UNSIGNED = true) := by
  obtain ⟨rl, hrl⟩ := getCvtRank_of_has_rank _ hl
  obtain ⟨rr, hrr⟩ := getCvtRank_of_has_rank _ hr
  refine ⟨rl, rr, hrl, hrr, ?_, ?_, ?_, ?_⟩
  · intro ht
    simp [buildBinaryOpType, hrl, hrr, ht]
  · intro hgt
    simp [buildBinaryOpType, hrl, hrr, hgt]
  · intro ht hlt
    have h1 : ¬ rl > rr := by omega
    have h2 : ¬ rl = rr := by omega
    simp [buildBinaryOpType, hrl, hrr, ht, h1, h2]
  · intro ht heq hu
    have h1 : ¬ rl > rr := by omega
    cases hlu : IS_TYPE (DECL_spec l) T_SPEC_UNSIGNED
    · rw [hlu] at hu
      have hru : IS_TYPE (DECL_spec r) T_SPEC_UNSIGNED = true := by
        rcases hu with h | h
        · cases h
        · exact h
      exact ⟨r, by simp [buildBinaryOpType, hrl, hrr, ht, h1, hlu], Or.inr rfl, hru⟩
    · exact ⟨l, by simp [buildBinaryOpType, hrl, hrr, ht, h1, heq, hlu], Or.inl rfl, hlu⟩

theorem buildBinaryOpType_rank_rule_witness :
    ∃ rl rr, getCvtRank (TYPE_des (DECL_spec (type_of_des T_SPEC_INT))) = some rl ∧
      getCvtRank (TYPE_des (DECL_spec (type_of_des (T_SPEC_UNSIGNED ||| T_SPEC_INT)))) =
        some rr ∧
      (TREE_TYPE.TR_MULTI = .TR_SHIFT →
        buildBinaryOpType .TR_MULTI (type_of_des T_SPEC_INT)
          (type_of_des (T_SPEC_UNSIGNED ||| T_SPEC_INT)) = some (type_of_des T_SPEC_INT)) ∧
      (rl > rr →
        buildBinaryOpType .TR_MULTI (type_of_des T_SPEC_INT)
          (type_of_des (T_SPEC_UNSIGNED ||| T_SPEC_INT)) = some (type_of_des T_SPEC_INT)) ∧
      (TREE_TYPE.TR_MULTI ≠ .TR_SHIFT → rl < rr →
        buildBinaryOpType .TR_MULTI (type_of_des T_SPEC_INT)
          (type_of_des (T_SPEC_UNSIGNED ||| T_SPEC_INT)) =
            some (type_of_des (T_SPEC_UNSIGNED ||| T_SPEC_INT))) ∧
      (TREE_TYPE.TR_MULTI ≠ .TR_SHIFT → rl = rr →
        (IS_TYPE (DECL_spec (type_of_des T_SPEC_INT)) T_SPEC_UNSIGNED = true ∨
          IS_TYPE (DECL_spec (type_of_des (T_SPEC_UNSIGNED ||| T_SPEC_INT))) T_SPEC_UNSIGNED =
            true) →
        ∃ d, buildBinaryOpType .TR_MULTI (type_of_des T_SPEC_INT)
            (type_of_des (T_SPEC_UNSIGNED ||| T_SPEC_INT)) = some d ∧
          (d = type_of_des T_SPEC_INT ∨ d = type_of_des (T_SPEC_UNSIGNED ||| T_SPEC_INT)) ∧
          IS_TYPE (DECL_spec d) T_SPEC_UNSIGNED = true) :=
  buildBinaryOpType_rank_rule .TR_MULTI (type_of_des T_SPEC_INT)
    (type_of_des (T_SPEC_UNSIGNED ||| T_SPEC_INT)) (by decide) (by decide)

/-- C21 (`buildBinaryOpType`, `getCvtRank`, `complement_qua`): the declaration
that `declaration` builds for `static unsigned x;` keeps the flag word
STATIC|UNSIGNED, because `complement_qua` adds INT only to the word that is
exactly UNSIGNED (`unsigned x;` becomes UNSIGNED|INT).  The identifier `x`
gets this word as its result type, the type is arithmetic, but the word has
no conversion rank: `getCvtRank` tests the bare `unsigned` with
`ONLY_HAVE_FLAG` and reaches `UNREACHABLE()`, `buildBinaryOpType` returns no
operand, and the type pass fails its assertion on `x * 1` and on `x + 1`.
With `unsigned x;` the same expression gets the type `unsigned int`, the
words of `int` and `unsigned int` have rank 85, and `int * unsigned int` is
`unsigned int`. -/
theorem buildBinaryOpType_static_unsigned :
    declaration_head sample_spec_collab literal_collab 10 (st_of toks_static_unsigned_x) =
        .ok (some (decl_var (T_STOR_STATIC ||| T_SPEC_UNSIGNED) "x" 0 []))
          (st_of [tk .T_SEMI]) ∧
      declaration_head sample_spec_collab literal_collab 10 (st_of toks_unsigned_x) =
        .ok (some (decl_var (T_SPEC_UNSIGNED ||| T_SPEC_INT) "x" 0 [])) (st_of [tk .T_SEMI]) ∧
      type_view
          (TypeTran 4 5 none
            [tree_id (decl_var (T_STOR_STATIC ||| T_SPEC_UNSIGNED) "x" 0 [])] []).result =
        some (.DCL_TYPE_NAME, T_STOR_STATIC ||| T_SPEC_UNSIGNED, []) ∧
      is_arith (type_of_des (T_STOR_STATIC ||| T_SPEC_UNSIGNED)) = true ∧
      getCvtRank (T_STOR_STATIC ||| T_SPEC_UNSIGNED) = none ∧
      buildBinaryOpType .TR_MULTI (type_of_des (T_STOR_STATIC ||| T_SPEC_UNSIGNED))
        (type_of_des T_SPEC_INT) = none ∧
      TypeTran 4 5 none
        [tree_bin .TR_MULTI .T_ASTERISK
          (tree_id (decl_var (T_STOR_STATIC ||| T_SPEC_UNSIGNED) "x" 0 [])) tree_1] [] =
        .crash ∧
      TypeTran 4 5 none
        [tree_add (tree_id (decl_var (T_STOR_STATIC ||| T_SPEC_UNSIGNED) "x" 0 [])) tree_1] [] =
        .crash ∧
      type_view
          (TypeTran 4 5 none
            [tree_bin .TR_MULTI .T_ASTERISK
              (tree_id (decl_var (T_SPEC_UNSIGNED ||| T_SPEC_INT) "x" 0 [])) tree_1] []).result =
        some (.DCL_TYPE_NAME, T_SPEC_UNSIGNED ||| T_SPEC_INT, []) ∧
      getCvtRank T_SPEC_INT = some 85 ∧
      getCvtRank (T_SPEC_UNSIGNED ||| T_SPEC_INT) = some 85 ∧
      buildBinaryOpType .TR_MULTI (type_of_des T_SPEC_INT)
        (type_of_des (T_SPEC_UNSIGNED ||| T_SPEC_INT)) =
          some (type_of_des (T_SPEC_UNSIGNED ||| T_SPEC_INT)) := by
  refine ⟨rfl, rfl, rfl, by decide, by decide, rfl, rfl, rfl, rfl, by decide, by decide, rfl⟩

theorem TypeTran_single (ptr fuel : Nat) (parent : Option ExpTree) (t t1 : ExpTree)
    (errs errs1 : List String) (hf : 0 < fuel) (hk : TREE_type t ≠ .TR_SIZEOF)
    (h : TypeTran_node ptr (TypeTran ptr fuel) parent t errs = .ok .ST_SUCC t1 errs1) :
    TypeTran ptr (fuel + 1) parent [t] errs = .ok .ST_SUCC [t1] errs1 := by
  obtain ⟨g, rfl⟩ : ∃ g, fuel = g + 1 := ⟨fuel - 1, by omega⟩
  rw [TypeTran, h]
  simp [TypeTran, hk]

/-- C22 (`TypeTran`, `buildBaseTypeSpec`): for every immediate node and every
value, `TypeTran` returns `ST_SUCC` and attaches the type name of the shared
specifier of the base kind (`int` for `TR_IMM`, `long long` when the upper
32 bits of the value are not zero, the unsigned ones for `TR_IMMU`,
`long long` for `TR_IMML` and `TR_IMMUL`, `double` for `TR_FP` and `TR_FPLD`,
`float` for `TR_FPF`); this specifier never has the CONST flag, although
the flag word handed to `BUILD_TYNAME` has it. -/
theorem TypeTran_immediate_drops_const (ptr fuel : Nat) (parent : Option ExpTree) (v : Int)
    (errs : List String) :
    (∀ type ∈ imm_kinds,
      TypeTran ptr (fuel + 2) parent [tree_imm type v] errs =
          .ok .ST_SUCC [(tree_imm type v).setResult (some (buildTypeName (imm_spec type v)))]
            errs ∧
        IS_CONST (TYPE_des (imm_spec type v)) = false) ∧
      HAVE_FLAG (T_SPEC_INT ||| T_QUA_CONST) T_QUA_CONST = true ∧
      (buildBaseTypeSpec (T_SPEC_INT ||| T_QUA_CONST)).map (fun ty => IS_CONST (TYPE_des ty)) =
        some false := by
  refine ⟨?_, by decide, by decide⟩
  intro type ht
  simp only [imm_kinds, List.mem_cons, List.mem_singleton, List.not_mem_nil, or_false] at ht
  by_cases hh : GET_HIGH_32BIT v ≠ 0
  · rcases ht with rfl | rfl | rfl | rfl | rfl | rfl | rfl <;>
    exact ⟨TypeTran_single ptr (fuel + 1) parent _ _ errs errs (by omega)
      (by simp [tree_imm, ExpTree.node, TREE_type])
      (by simp [TypeTran_node, tree_imm, ExpTree.node, TREE_type, TREE_imm_val, imm_spec, hh, BUILD_TYNAME]
          rfl),
      by simp only [imm_spec]; first | decide | (rw [if_pos hh]; decide)⟩
  · rcases ht with rfl | rfl | rfl | rfl | rfl | rfl | rfl <;>
    exact ⟨TypeTran_single ptr (fuel + 1) parent _ _ errs errs (by omega)
      (by simp [tree_imm, ExpTree.node, TREE_type])
      (by simp [TypeTran_node, tree_imm, ExpTree.node, TREE_type, TREE_imm_val, imm_spec, hh, BUILD_TYNAME]
          rfl),
      by simp only [imm_spec]; first | decide | (rw [if_neg hh]; decide)⟩

/-- C23 (`TypeTranAdditive`): on `u + 1` with a union `u` the rule for `+`
reports nothing and reaches its final `ASSERTN(0)`: the test before the
rules is `is_struct(ld) || is_union(rd)`, so a union on the left and a
struct on the right pass it.  `1 + u` and `s + 1` are rejected with a
diagnostic and `ST_ERR`, and the rule for `-` rejects an aggregate on either
side. -/
theorem TypeTranAdditive_add_misses_aggregates :
    TypeTran 4 5 none [tree_add (tree_id decl_u) tree_1] [] = .crash ∧
      TypeTran 4 5 none [tree_add tree_1 (tree_id decl_s)] [] = .crash ∧
      (TypeTran 4 5 none [tree_add tree_1 (tree_id decl_u)] []).status = some .ST_ERR ∧
      (TypeTran 4 5 none [tree_add (tree_id decl_s) tree_1] []).status = some .ST_ERR ∧
      (TypeTran 4 5 none [tree_sub (tree_id decl_u) tree_1] []).status = some .ST_ERR ∧
      (TypeTran 4 5 none [tree_sub tree_1 (tree_id decl_u)] []).status = some .ST_ERR ∧
      (TypeTran 4 5 none [tree_sub tree_1 (tree_id decl_s)] []).errors =
        some ["illegal '-' for struct/union"] := by
  refine ⟨rfl, rfl, ?_, ?_, ?_, ?_, ?_⟩ <;> decide

/-- C24 (`TypeTranMulti`): `p % 2` with `int *p` and `a % 2` with `int a[10]`
are accepted, `ST_SUCC` without a diagnostic and with result type `int`: the
rule for `%` tests `is_integer`, which reads the specifier only.  The rule
for `*` of the same function rejects `p * 2`, and the rule for `~` reports
`~p`. -/
theorem TypeTranMulti_accepts_pointer_modulo :
    (TypeTran 4 5 none [tree_bin .TR_MULTI .T_MOD (tree_id decl_intp) tree_2] []).status =
        some .ST_SUCC ∧
      (TypeTran 4 5 none [tree_bin .TR_MULTI .T_MOD (tree_id decl_intp) tree_2] []).errors =
        some [] ∧
      type_view
          (TypeTran 4 5 none [tree_bin .TR_MULTI .T_MOD (tree_id decl_intp) tree_2] []).result =
        some (.DCL_TYPE_NAME, T_SPEC_SIGNED ||| T_SPEC_INT, []) ∧
      (TypeTran 4 5 none
        [tree_bin .TR_MULTI .T_MOD (tree_id (decl_var T_SPEC_INT "a" 0 [.ARRAY none 10 false]))
          tree_2] []).status = some .ST_SUCC ∧
      (TypeTran 4 5 none [tree_bin .TR_MULTI .T_ASTERISK (tree_id decl_intp) tree_2] []).status =
        some .ST_ERR ∧
      (TypeTran 4 5 none [tree_un .TR_REV (tree_id decl_intp)] []).errors =
        some ["illegal bit reverse operation"] ∧
      (TypeTran 4 5 none [tree_bin .TR_MULTI .T_MOD (tree_fp) tree_2] []).status =
        some .ST_ERR := by
  refine ⟨?_, ?_, ?_, ?_, ?_, ?_, ?_⟩ <;> first | decide | rfl

/-- C25 (`TypeTranAssign`, `checkAssign`, `extract_qualifier`): the
declaration that `declaration` builds for `const int x;` has the specifier
`int` without the CONST flag, because `extract_qualifier` moves the flag to
the qualifier of the identifier node; `checkAssign` tests the flag of the
specifier, so `x = 1` is accepted, `ST_SUCC` without a diagnostic and with
result type `int`.  An array on the left is rejected, and a specifier that
still has the flag is rejected. -/
theorem TypeTranAssign_accepts_const_variable :
    declaration_head sample_spec_collab literal_collab 10 (st_of toks_const_int_x) =
        .ok (some (decl_var T_SPEC_INT "x" T_QUA_CONST [])) (st_of [tk .T_SEMI]) ∧
      IS_CONST (TYPE_des (DECL_spec (decl_var T_SPEC_INT "x" T_QUA_CONST []))) = false ∧
      (TypeTran 4 5 none
        [tree_assign (tree_id (decl_var T_SPEC_INT "x" T_QUA_CONST [])) tree_1] []).status =
          some .ST_SUCC ∧
      (TypeTran 4 5 none
        [tree_assign (tree_id (decl_var T_SPEC_INT "x" T_QUA_CONST [])) tree_1] []).errors =
          some [] ∧
      type_view (TypeTran 4 5 none
        [tree_assign (tree_id (decl_var T_SPEC_INT "x" T_QUA_CONST [])) tree_1] []).result =
          some (.DCL_TYPE_NAME, T_SPEC_INT, []) ∧
      (TypeTran 4 5 none
        [tree_assign (tree_id (decl_var T_SPEC_INT "a" 0 [.ARRAY none 10 false])) tree_1]
          []).errors = some ["illegal, left operand must be l-value"] ∧
      (TypeTran 4 5 none
        [tree_assign (tree_id (decl_var (T_SPEC_INT ||| T_QUA_CONST) "y" 0 [])) tree_1]
          []).errors = some ["illegal, l-value specifies const object"] := by
  refine ⟨rfl, ?_, ?_, ?_, ?_, ?_, ?_⟩ <;> first | decide | rfl

/-- C27 (`insertCvtForParams`): for `int f(float)` the call `f(d, 2)` with a
`double` argument `d` keeps one argument, the conversion of `d`, and drops
the second; for `int g()` the call `g(1, 2)` keeps none; the loop ends when
the formal parameters are exhausted, after `removehead` has taken the next
argument, and the new list replaces the old one.  With a variadic marker,
`int h(float, ...)`, the three arguments of `h(d, d, 2)` are kept in order
and only the first is converted. -/
theorem insertCvtForParams_drops_arguments :
    (TypeTran 4 6 none [tree_call (tree_id (decl_fun "f" [param_float])) [tree_fp, tree_2]]
        []).status = some .ST_SUCC ∧
      (TypeTran 4 6 none [tree_call (tree_id (decl_fun "f" [param_float])) [tree_fp, tree_2]]
        []).arg_kinds = [.TR_CVT] ∧
      (TypeTran 4 6 none [tree_call (tree_id (decl_fun "g" [])) [tree_1, tree_2]]
        []).status = some .ST_SUCC ∧
      (TypeTran 4 6 none [tree_call (tree_id (decl_fun "g" [])) [tree_1, tree_2]]
        []).arg_kinds = [] ∧
      (TypeTran 4 6 none
        [tree_call (tree_id (decl_fun "h" [param_float, .variadic])) [tree_fp, tree_fp, tree_2]]
        []).arg_kinds = [.TR_CVT, .TR_FP, .TR_IMM] := by
  refine ⟨?_, ?_, ?_, ?_, ?_⟩ <;> decide

theorem foldl_cp_decl_node (l acc : List DeclNode) :
    l.foldl (fun l p => add_next l [cp_decl_node p]) acc = acc ++ l := by
  induction l generalizing acc with
  | nil => simp
  | cons x xs ih =>
    rw [List.foldl_cons, ih, add_next, cp_decl_node_eq, List.append_assoc]
    rfl

theorem cp_type_name_of_type_name (ld : Decl) (h : ld.dt = .DCL_TYPE_NAME) :
    ∃ td, cp_type_name ld = some td ∧ td.dt = .DCL_TYPE_NAME ∧ DECL_spec td = DECL_spec ld ∧
      PURE_DECL td = PURE_DECL ld := by
  obtain ⟨dt, spec, ⟨ddt, child, b, bl, i⟩, p, s, f, a⟩ := ld
  simp only [Decl.dt] at h
  subst h
  refine ⟨.mk .DCL_TYPE_NAME spec (.mk ddt child b bl i) false false 0 0, ?_, rfl, rfl, rfl⟩
  simp [cp_type_name, Decl.dt, DECL_spec, PURE_DECL, DECL_decl_list, DECL_child,
    cp_decl_declarator, Declarator.setChild, foldl_cp_decl_node]

/-- C26 (`TypeTran`, rule of `TR_LDA`): for every node `&e` whose operand the
pass types with `ST_SUCC`, the result type of the operand being a type name
with the chain `c1..cn`, `TypeTran` returns `ST_SUCC` without a new
diagnostic, and the result type of `&e` is a type name with the specifier of
the operand's type and the chain `POINTER, c1..cn`. -/
theorem TypeTran_address_of (ptr fuel : Nat) (parent : Option ExpTree) (t : ExpTree)
    (errs errs1 : List String) (l : List ExpTree) (ld : Decl)
    (ht : TREE_type t = .TR_LDA)
    (hl : TypeTran ptr fuel (some t) (TREE_lchild t) errs = .ok .ST_SUCC l errs1)
    (hld : result_of l = some ld) (hdt : ld.dt = .DCL_TYPE_NAME) :
    ∃ td, TypeTran ptr (fuel + 1) parent [t] errs =
        .ok .ST_SUCC [(t.setLchild l).setResult (some td)] errs1 ∧
      td.dt = .DCL_TYPE_NAME ∧ DECL_spec td = DECL_spec ld ∧
      PURE_DECL td = .POINTER 0 false :: PURE_DECL ld := by
  have hf : 0 < fuel := by
    cases fuel with
    | zero => simp [TypeTran] at hl
    | succ n => omega
  obtain ⟨td, h1, h2, h3, h4⟩ := cp_type_name_of_type_name ld hdt
  refine ⟨td.setPure (insertafter (PURE_DECL td) (.POINTER 0 false)), ?_, ?_, ?_, ?_⟩
  · apply TypeTran_single ptr fuel parent _ _ errs errs1 hf (by rw [ht]; decide)
    simp [TypeTran_node, ht, hl, hld, h1]
  · obtain ⟨dt, spec, ⟨ddt, child, b, bl, i⟩, p, s, f, a⟩ := td
    exact h2
  · obtain ⟨dt, spec, ⟨ddt, child, b, bl, i⟩, p, s, f, a⟩ := td
    exact h3
  · obtain ⟨dt, spec, ⟨ddt, child, b, bl, i⟩, p, s, f, a⟩ := td
    simp only [PURE_DECL, DECL_decl_list, DECL_child] at h4
    simp [PURE_DECL, DECL_decl_list, DECL_child, Decl.setPure, Declarator.setChild,
      insertafter, h4]

theorem TypeTran_address_of_witness :
    ∃ td, TypeTran 4 (4 + 1) none [tree_addr_a] [] =
        .ok .ST_SUCC
          [(tree_addr_a.setLchild [(tree_id decl_a10).setResult (some type_int_10)]).setResult
            (some td)] [] ∧
      td.dt = .DCL_TYPE_NAME ∧ DECL_spec td = DECL_spec type_int_10 ∧
      PURE_DECL td = .POINTER 0 false :: PURE_DECL type_int_10 :=
  TypeTran_address_of 4 4 none tree_addr_a [] []
    [(tree_id decl_a10).setResult (some type_int_10)] type_int_10 rfl rfl rfl rfl

theorem TREE_result_type_setField (t : ExpTree) (f : Option ExpTree) :
    TREE_result_type (t.setField f) = TREE_result_type t := by cases t; rfl

theorem TREE_result_type_setIdDecl (t : ExpTree) (d : Option Decl) :
    TREE_result_type (t.setIdDecl d) = TREE_result_type t := by cases t; rfl

theorem TREE_result_type_setTypeName (t : ExpTree) (tn : Option Decl) :
    TREE_result_type (t.setTypeName tn) = TREE_result_type t := by cases t; rfl

theorem TREE_result_type_setImm (t : ExpTree) (ty : TREE_TYPE) (v : Int) :
    TREE_result_type (t.setImm ty v) = TREE_result_type t := by cases t; rfl

theorem TREE_lchild_setIdDecl (t : ExpTree) (d : Option Decl) :
    TREE_lchild (t.setIdDecl d) = TREE_lchild t := by cases t; rfl

theorem TREE_lchild_setTypeName (t : ExpTree) (tn : Option Decl) :
    TREE_lchild (t.setTypeName tn) = TREE_lchild t := by cases t; rfl

theorem TREE_rchild_setField (t : ExpTree) (f : Option ExpTree) :
    TREE_rchild (t.setField f) = TREE_rchild t := by cases t; rfl

theorem TREE_rchild_setIdDecl (t : ExpTree) (d : Option Decl) :
    TREE_rchild (t.setIdDecl d) = TREE_rchild t := by cases t; rfl

theorem TREE_rchild_setTypeName (t : ExpTree) (tn : Option Decl) :
    TREE_rchild (t.setTypeName tn) = TREE_rchild t := by cases t; rfl

theorem TREE_rchild_setImm (t : ExpTree) (ty : TREE_TYPE) (v : Int) :
    TREE_rchild (t.setImm ty v) = TREE_rchild t := by cases t; rfl

theorem TREE_if_false_stmt_setField (t : ExpTree) (f : Option ExpTree) :
    TREE_if_false_stmt (t.setField f) = TREE_if_false_stmt t := by cases t; rfl

theorem TREE_if_false_stmt_setIdDecl (t : ExpTree) (d : Option Decl) :
    TREE_if_false_stmt (t.setIdDecl d) = TREE_if_false_stmt t := by cases t; rfl

theorem TREE_if_false_stmt_setTypeName (t : ExpTree) (tn : Option Decl) :
    TREE_if_false_stmt (t.setTypeName tn) = TREE_if_false_stmt t := by cases t; rfl

theorem TREE_if_false_stmt_setImm (t : ExpTree) (ty : TREE_TYPE) (v : Int) :
    TREE_if_false_stmt (t.setImm ty v) = TREE_if_false_stmt t := by cases t; rfl

theorem TREE_for_body_setResult (t : ExpTree) (r : Option Decl) :
    TREE_for_body (t.setResult r) = TREE_for_body t := by cases t; rfl

theorem TREE_for_body_setField (t : ExpTree) (f : Option ExpTree) :
    TREE_for_body (t.setField f) = TREE_for_body t := by cases t; rfl

theorem TREE_for_body_setIdDecl (t : ExpTree) (d : Option Decl) :
    TREE_for_body (t.setIdDecl d) = TREE_for_body t := by cases t; rfl

theorem TREE_for_body_setTypeName (t : ExpTree) (tn : Option Decl) :
    TREE_for_body (t.setTypeName tn) = TREE_for_body t := by cases t; rfl

theorem TREE_for_body_setImm (t : ExpTree) (ty : TREE_TYPE) (v : Int) :
    TREE_for_body (t.setImm ty v) = TREE_for_body t := by cases t; rfl

theorem TREE_field_setRchild (t : ExpTree) (k : List ExpTree) :
    TREE_field (t.setRchild k) = TREE_field t := by cases t; rfl

theorem TREE_field_setIfFalseStmt (t : ExpTree) (k : List ExpTree) :
    TREE_field (t.setIfFalseStmt k) = TREE_field t := by cases t; rfl

theorem TREE_field_setForBody (t : ExpTree) (k : List ExpTree) :
    TREE_field (t.setForBody k) = TREE_field t := by cases t; rfl

theorem TREE_field_setScopeInits (t : ExpTree) (sc : List (List ExpTree)) :
    TREE_field (t.setScopeInits sc) = TREE_field t := by cases t; rfl

theorem TREE_field_setIdDecl (t : ExpTree) (d : Option Decl) :
    TREE_field (t.setIdDecl d) = TREE_field t := by cases t; rfl

theorem TREE_field_setTypeName (t : ExpTree) (tn : Option Decl) :
    TREE_field (t.setTypeName tn) = TREE_field t := by cases t; rfl

theorem TREE_field_setImm (t : ExpTree) (ty : TREE_TYPE) (v : Int) :
    TREE_field (t.setImm ty v) = TREE_field t := by cases t; rfl

theorem TREE_scope_inits_setResult (t : ExpTree) (r : Option Decl) :
    TREE_scope_inits (t.setResult r) = TREE_scope_inits t := by cases t; rfl

theorem TREE_scope_inits_setField (t : ExpTree) (f : Option ExpTree) :
    TREE_scope_inits (t.setField f) = TREE_scope_inits t := by cases t; rfl

theorem TREE_scope_inits_setIdDecl (t : ExpTree) (d : Option Decl) :
    TREE_scope_inits (t.setIdDecl d) = TREE_scope_inits t := by cases t; rfl

theorem TREE_scope_inits_setTypeName (t : ExpTree) (tn : Option Decl) :
    TREE_scope_inits (t.setTypeName tn) = TREE_scope_inits t := by cases t; rfl

theorem TREE_scope_inits_setImm (t : ExpTree) (ty : TREE_TYPE) (v : Int) :
    TREE_scope_inits (t.setImm ty v) = TREE_scope_inits t := by cases t; rfl

theorem TREE_id_decl_setIfFalseStmt (t : ExpTree) (k : List ExpTree) :
    TREE_id_decl (t.setIfFalseStmt k) = TREE_id_decl t := by cases t; rfl

theorem TREE_id_decl_setForBody (t : ExpTree) (k : List ExpTree) :
    TREE_id_decl (t.setForBody k) = TREE_id_decl t := by cases t; rfl

theorem TREE_id_decl_setScopeInits (t : ExpTree) (sc : List (List ExpTree)) :
    TREE_id_decl (t.setScopeInits sc) = TREE_id_decl t := by cases t; rfl

theorem TREE_id_decl_setTypeName (t : ExpTree) (tn : Option Decl) :
    TREE_id_decl (t.setTypeName tn) = TREE_id_decl t := by cases t; rfl

theorem TREE_id_decl_setImm (t : ExpTree) (ty : TREE_TYPE) (v : Int) :
    TREE_id_decl (t.setImm ty v) = TREE_id_decl t := by cases t; rfl

theorem TREE_type_name_setResult (t : ExpTree) (r : Option Decl) :
    TREE_type_name (t.setResult r) = TREE_type_name t := by cases t; rfl

theorem TREE_type_name_setLchild (t : ExpTree) (k : List ExpTree) :
    TREE_type_name (t.setLchild k) = TREE_type_name t := by cases t; rfl

theorem TREE_type_name_setRchild (t : ExpTree) (k : List ExpTree) :
    TREE_type_name (t.setRchild k) = TREE_type_name t := by cases t; rfl

theorem TREE_type_name_setIfFalseStmt (t : ExpTree) (k : List ExpTree) :
    TREE_type_name (t.setIfFalseStmt k) = TREE_type_name t := by cases t; rfl

theorem TREE_type_name_setForBody (t : ExpTree) (k : List ExpTree) :
    TREE_type_name (t.setForBody k) = TREE_type_name t := by cases t; rfl

theorem TREE_type_name_setField (t : ExpTree) (f : Option ExpTree) :
    TREE_type_name (t.setField f) = TREE_type_name t := by cases t; rfl

theorem TREE_type_name_setScopeInits (t : ExpTree) (sc : List (List ExpTree)) :
    TREE_type_name (t.setScopeInits sc) = TREE_type_name t := by cases t; rfl

theorem TREE_type_name_setIdDecl (t : ExpTree) (d : Option Decl) :
    TREE_type_name (t.setIdDecl d) = TREE_type_name t := by cases t; rfl

theorem TREE_type_name_setTypeName (t : ExpTree) (tn : Option Decl) :
    TREE_type_name (t.setTypeName tn) = tn := by cases t; rfl

theorem TREE_type_name_setImm (t : ExpTree) (ty : TREE_TYPE) (v : Int) :
    TREE_type_name (t.setImm ty v) = TREE_type_name t := by cases t; rfl

theorem TREE_outer_base_setIfFalseStmt (t : ExpTree) (k : List ExpTree) :
    TREE_outer_base (t.setIfFalseStmt k) = TREE_outer_base t := by cases t; rfl

theorem TREE_outer_base_setForBody (t : ExpTree) (k : List ExpTree) :
    TREE_outer_base (t.setForBody k) = TREE_outer_base t := by cases t; rfl

theorem TREE_outer_base_setScopeInits (t : ExpTree) (sc : List (List ExpTree)) :
    TREE_outer_base (t.setScopeInits sc) = TREE_outer_base t := by cases t; rfl

theorem TREE_outer_base_setIdDecl (t : ExpTree) (d : Option Decl) :
    TREE_outer_base (t.setIdDecl d) = TREE_outer_base t := by cases t; rfl

theorem TREE_outer_base_setTypeName (t : ExpTree) (tn : Option Decl) :
    TREE_outer_base (t.setTypeName tn) = TREE_outer_base t := by cases t; rfl

theorem TREE_outer_base_setImm (t : ExpTree) (ty : TREE_TYPE) (v : Int) :
    TREE_outer_base (t.setImm ty v) = TREE_outer_base t := by cases t; rfl

theorem TREE_outer_field_setIfFalseStmt (t : ExpTree) (k : List ExpTree) :
    TREE_outer_field (t.setIfFalseStmt k) = TREE_outer_field t := by cases t; rfl

theorem TREE_outer_field_setForBody (t : ExpTree) (k : List ExpTree) :
    TREE_outer_field (t.setForBody k) = TREE_outer_field t := by cases t; rfl

theorem TREE_outer_field_setScopeInits (t : ExpTree) (sc : List (List ExpTree)) :
    TREE_outer_field (t.setScopeInits sc) = TREE_outer_field t := by cases t; rfl

theorem TREE_outer_field_setIdDecl (t : ExpTree) (d : Option Decl) :
    TREE_outer_field (t.setIdDecl d) = TREE_outer_field t := by cases t; rfl

theorem TREE_outer_field_setTypeName (t : ExpTree) (tn : Option Decl) :
    TREE_outer_field (t.setTypeName tn) = TREE_outer_field t := by cases t; rfl

theorem TREE_outer_field_setImm (t : ExpTree) (ty : TREE_TYPE) (v : Int) :
    TREE_outer_field (t.setImm ty v) = TREE_outer_field t := by cases t; rfl

theorem TREE_imm_val_setResult (t : ExpTree) (r : Option Decl) :
    TREE_imm_val (t.setResult r) = TREE_imm_val t := by cases t; rfl

theorem TREE_imm_val_setLchild (t : ExpTree) (k : List ExpTree) :
    TREE_imm_val (t.setLchild k) = TREE_imm_val t := by cases t; rfl

theorem TREE_imm_val_setRchild (t : ExpTree) (k : List ExpTree) :
    TREE_imm_val (t.setRchild k) = TREE_imm_val t := by cases t; rfl

theorem TREE_imm_val_setIfFalseStmt (t : ExpTree) (k : List ExpTree) :
    TREE_imm_val (t.setIfFalseStmt k) = TREE_imm_val t := by cases t; rfl

theorem TREE_imm_val_setForBody (t : ExpTree) (k : List ExpTree) :
    TREE_imm_val (t.setForBody k) = TREE_imm_val t := by cases t; rfl

theorem TREE_imm_val_setField (t : ExpTree) (f : Option ExpTree) :
    TREE_imm_val (t.setField f) = TREE_imm_val t := by cases t; rfl

theorem TREE_imm_val_setScopeInits (t : ExpTree) (sc : List (List ExpTree)) :
    TREE_imm_val (t.setScopeInits sc) = TREE_imm_val t := by cases t; rfl

theorem TREE_imm_val_setIdDecl (t : ExpTree) (d : Option Decl) :
    TREE_imm_val (t.setIdDecl d) = TREE_imm_val t := by cases t; rfl

theorem TREE_imm_val_setTypeName (t : ExpTree) (tn : Option Decl) :
    TREE_imm_val (t.setTypeName tn) = TREE_imm_val t := by cases t; rfl

theorem TREE_imm_val_setImm (t : ExpTree) (ty : TREE_TYPE) (v : Int) :
    TREE_imm_val (t.setImm ty v) = v := by cases t; rfl

theorem TREE_id_setResult (t : ExpTree) (r : Option Decl) :
    TREE_id (t.setResult r) = TREE_id t := by cases t; rfl

theorem TREE_id_setLchild (t : ExpTree) (k : List ExpTree) :
    TREE_id (t.setLchild k) = TREE_id t := by cases t; rfl

theorem TREE_id_setRchild (t : ExpTree) (k : List ExpTree) :
    TREE_id (t.setRchild k) = TREE_id t := by cases t; rfl

theorem TREE_id_setIfFalseStmt (t : ExpTree) (k : List ExpTree) :
    TREE_id (t.setIfFalseStmt k) = TREE_id t := by cases t; rfl

theorem TREE_id_setForBody (t : ExpTree) (k : List ExpTree) :
    TREE_id (t.setForBody k) = TREE_id t := by cases t; rfl

theorem TREE_id_setField (t : ExpTree) (f : Option ExpTree) :
    TREE_id (t.setField f) = TREE_id t := by cases t; rfl

theorem TREE_id_setScopeInits (t : ExpTree) (sc : List (List ExpTree)) :
    TREE_id (t.setScopeInits sc) = TREE_id t := by cases t; rfl

theorem TREE_id_setIdDecl (t : ExpTree) (d : Option Decl) :
    TREE_id (t.setIdDecl d) = TREE_id t := by cases t; rfl

theorem TREE_id_setTypeName (t : ExpTree) (tn : Option Decl) :
    TREE_id (t.setTypeName tn) = TREE_id t := by cases t; rfl

theorem TREE_id_setImm (t : ExpTree) (ty : TREE_TYPE) (v : Int) :
    TREE_id (t.setImm ty v) = TREE_id t := by cases t; rfl

theorem Wf_static (t : ExpTree) (h : Wf t) : Static t := by
  cases h with
  | mk _ h1 _ _ _ _ => exact h1

theorem Wf_id (t : ExpTree) (h : Wf t) : IdGood t := (Wf_static t h).1

theorem Wf_cvt (t : ExpTree) (h : Wf t) : CvtGood t := (Wf_static t h).2.1

theorem Decl_dt_setPure (d : Decl) (l : List DeclNode) : (d.setPure l).dt = d.dt := by
  cases d; rfl

theorem TTGood_head (TT : TypeTranFn) (hTT : TTGood TT) (p : ExpTree)
    (cs l : List ExpTree) (errs errs1 : List String) (ld : Decl)
    (hwf : ∀ c ∈ cs, Wf c) (h : TT (some p) cs errs = .ok .ST_SUCC l errs1)
    (hr : result_of l = some ld) : ∀ c ∈ set_head_result l (some ld), Typed c := by
  obtain ⟨h1, _, h3⟩ := hTT false (some p) cs errs l errs1 hwf h
  cases l with
  | nil => simp [result_of] at hr
  | cons c rest =>
    intro x hx
    simp only [set_head_result, List.mem_cons] at hx
    rcases hx with rfl | hx
    · cases c with
      | mk ty tok v s d tn r k0 k1 k2 i k3 f sc ob oe =>
        simp only [result_of, List.head?_cons, Option.bind, TREE_result_type] at hr
        subst hr
        exact h1 _ (List.mem_cons_self _ _)
    · exact h1 x (List.mem_cons_of_mem _ hx)

theorem Decl_dt_setDeclList (d : Decl) (l : Declarator) : (d.setDeclList l).dt = d.dt := by
  cases d; rfl

/-- The rules of `sizeof` and of the member access on examples: for
`int x;` and `struct S { int a; } s;` the pass returns `ST_SUCC` on the list
`sizeof x`, `s.a`; the `sizeof` has become the unsigned constant 4 and `s.a`
has the type `int` of the field; on `s.b` the pass returns `ST_ERR` with the
diagnostic of the missing member. -/
theorem TypeTran_sizeof_and_member_access :
    (TypeTran 4 6 none [tree_sizeof (tree_id decl_x), tree_dmem (tree_id decl_s) "a"] []).summary =
        some (.ST_SUCC,
          [(.TR_IMMU, some (.DCL_TYPE_NAME, T_SPEC_UNSIGNED ||| T_SPEC_INT, [])),
            (.TR_DMEM, some (.DCL_TYPE_NAME, T_SPEC_INT, []))]) ∧
      (TypeTran 4 6 none [tree_sizeof (tree_id decl_x)] []).nodes.map TREE_imm_val = [4] ∧
      (TypeTran 4 6 none [tree_dmem (tree_id decl_s) "b"] []).status = some .ST_ERR ∧
      (TypeTran 4 6 none [tree_dmem (tree_id decl_s) "b"] []).errors =
        some ["is not a member of type"] := by
  refine ⟨?_, ?_, ?_, ?_⟩ <;> first | decide | rfl

/-- The status of the call on the elements of a brace scope is dropped: for
`struct S { int a; } s;` the pass returns `ST_SUCC` on `s = {*1}`, with the
diagnostic of the element, and the element `*1` has no result type. -/
theorem TypeTranInitValScope_ignores_status :
    (TypeTran 4 5 none [tree_assign (tree_id decl_s)
        (tree_scope [tree_un .TR_DEREF tree_1])] []).status = some .ST_SUCC ∧
      (TypeTran 4 5 none [tree_assign (tree_id decl_s)
        (tree_scope [tree_un .TR_DEREF tree_1])] []).errors =
          some ["Illegal dereferencing operation"] ∧
      type_view (((TypeTran 4 5 none [tree_assign (tree_id decl_s)
        (tree_scope [tree_un .TR_DEREF tree_1])] []).right_operand.bind
          fun x => (TREE_lchild x).head?).bind TREE_result_type) = none := by
  refine ⟨?_, ?_, ?_⟩ <;> first | decide | rfl

/-- C33 (`check_struct_union_complete`): for every named declaration whose
specifier is a union, complete or not, pointer or not,
`check_struct_union_complete` returns true and reports nothing: the branch
for an incomplete union sets `e = false`. -/
theorem check_struct_union_complete_skips_unions (fuel des : Nat) (a : Option Aggr)
    (en : Option Enum) (decl : Decl) (name : String) (st : PState)
    (hs : DECL_spec decl = .mk des none a en)
    (hu : HAVE_FLAG des T_SPEC_UNION = true) (hn : HAVE_FLAG des T_SPEC_STRUCT = false)
    (ht : HAVE_FLAG des T_SPEC_USER_TYPE = false)
    (hname : get_decl_sym decl = some name) :
    check_struct_union_complete fuel decl st = .ok true st := by
  have hp : get_pure_type_spec (.mk des none a en) = some (.mk des none a en) := by
    simp [get_pure_type_spec, ht]
  have h1 : is_struct_spec (.mk des none a en) = some false := by
    simp [is_struct_spec, hp, IS_STRUCT, TYPE_des, hn]
  have h2 : is_union_spec (.mk des none a en) = some true := by
    simp [is_union_spec, hp, IS_UNION, TYPE_des, hu]
  have h3 : ∃ b, is_union_complete (.mk des none a en) = some b := by
    cases a with
    | none => exact ⟨false, by simp [is_union_complete, hp, IS_UNION, TYPE_des, hu, TYPE_aggr_type]⟩
    | some s =>
      exact ⟨AGGR_is_complete s,
        by simp [is_union_complete, hp, IS_UNION, TYPE_des, hu, TYPE_aggr_type]⟩
  obtain ⟨b, h3⟩ := h3
  unfold check_struct_union_complete
  simp only [hs, h1, h2, h3, hname]
  cases b <;> cases is_pointer decl <;> rfl

theorem check_struct_union_complete_skips_unions_witness :
    check_struct_union_complete 5 decl_u_incomplete (st_of []) = .ok true (st_of []) :=
  check_struct_union_complete_skips_unions 5 T_SPEC_UNION (some (aggr_incomplete "U")) none
    decl_u_incomplete "u" (st_of []) rfl (by decide) (by decide) (by decide) rfl

/-- The sibling paths of `check_struct_union_complete`: for `struct S s;`
with an incomplete `S` it returns false with the error, for the pointer
`struct S *p;` and for the complete `struct S { int a; } s;` it returns true
without an error. -/
theorem check_struct_union_complete_struct_paths :
    (check_struct_union_complete 5 decl_s_incomplete (st_of [])).value = some false ∧
      (check_struct_union_complete 5 decl_s_incomplete (st_of [])).errors =
        some ["'s' uses incomplete defined struct : struct S {}"] ∧
      (check_struct_union_complete 5 decl_sp_incomplete (st_of [])).value = some true ∧
      (check_struct_union_complete 5 decl_sp_incomplete (st_of [])).errors = some [] ∧
      (check_struct_union_complete 5 decl_s (st_of [])).value = some true ∧
      (check_struct_union_complete 5 decl_s (st_of [])).errors = some [] := by
  refine ⟨?_, ?_, ?_, ?_, ?_, ?_⟩ <;> decide

theorem PURE_DECL_setPure (d : Decl) (l : List DeclNode) : PURE_DECL (d.setPure l) = l := by
  obtain ⟨dt, spec, ⟨ddt, child, b, bl, i⟩, p, s, f, a⟩ := d
  rfl

/-- C36 (`get_array_base_decl`): for every declaration whose chain is the
identifier, an array and any further nodes, `get_array_base_decl` returns the
copy without this first array only: the cursor moves to `DECL_prev`, the
identifier, and the loop ends, so the further arrays of the run stay.  For
`int a[10][20]` the result is `int a[20]` of size 80, and
`get_array_elemnum` times this size is 16000, not the size 800 of the
array. -/
theorem get_array_base_decl_removes_first_array (decl : Decl) (sym : String) (q : Nat)
    (ip : Bool) (e1 : Option DimExp) (d1 : Int) (p1 : Bool) (rest : List DeclNode)
    (h : PURE_DECL decl = .ID sym q ip :: .ARRAY e1 d1 p1 :: rest) :
    (get_array_base_decl decl).map PURE_DECL = some (.ID sym q ip :: rest) ∧
      (get_array_base_decl decl_int_10_20).map PURE_DECL =
        some [.ID "a" 0 false, .ARRAY none 20 false] ∧
      (get_array_base_decl decl_int_10_20).bind (get_decl_size 4) = some 80 ∧
      get_array_elemnum decl_int_10_20 = some 200 ∧
      get_decl_size 4 decl_int_10_20 = some 800 := by
  refine ⟨?_, rfl, by decide, by decide, by decide⟩
  have ha : is_array decl = true := by simp [is_array, h, is_array_walk]
  have hw : get_first_array_decl_walk [] (.ID sym q ip :: .ARRAY e1 d1 p1 :: rest) =
      some ([.ID sym q ip], .ARRAY e1 d1 p1 :: rest) := by
    simp [get_first_array_decl_walk]
  have hl : get_array_base_decl_loop (rest.length + 1 + 1) [.ID sym q ip]
      (.ARRAY e1 d1 p1 :: rest) = .ID sym q ip :: rest := by
    simp [get_array_base_decl_loop]
  simp only [get_array_base_decl, ha, cp_decl_fully_eq, h, hw, Bool.not_true,
    Bool.false_eq_true, if_false, List.length_cons, hl, Option.map_some', PURE_DECL_setPure]

theorem get_array_base_decl_removes_first_array_witness :
    (get_array_base_decl decl_int_10_20).map PURE_DECL =
        some [.ID "a" 0 false, .ARRAY none 20 false] ∧
      (get_array_base_decl decl_int_10_20).map PURE_DECL =
        some [.ID "a" 0 false, .ARRAY none 20 false] ∧
      (get_array_base_decl decl_int_10_20).bind (get_decl_size 4) = some 80 ∧
      get_array_elemnum decl_int_10_20 = some 200 ∧
      get_decl_size 4 decl_int_10_20 = some 800 :=
  get_array_base_decl_removes_first_array decl_int_10_20 "a" 0 false none 10 false
    [.ARRAY none 20 false] rfl

theorem getCvtRank_double (des k : Nat) (h : getCvtRank des = some k) :
    k ≤ 90 ∧ (k = 90 ↔ HAVE_FLAG des T_SPEC_DOUBLE = true) := by
  unfold getCvtRank at h
  split_ifs at h <;> simp_all <;> omega

theorem buildBinaryOpType_double_row (tok : TREE_TYPE) (l r d : Decl)
    (h : buildBinaryOpType tok l r = some d) (ht : tok ≠ .TR_SHIFT)
    (hd : IS_TYPE (DECL_spec l) T_SPEC_DOUBLE = true ∨
      IS_TYPE (DECL_spec r) T_SPEC_DOUBLE = true) :
    IS_TYPE (DECL_spec d) T_SPEC_DOUBLE = true := by
  unfold buildBinaryOpType at h
  cases h1 : getCvtRank (TYPE_des (DECL_spec l)) with
  | none => simp [h1] at h
  | some a =>
    cases h2 : getCvtRank (TYPE_des (DECL_spec r)) with
    | none => simp [h1, h2] at h
    | some b =>
      obtain ⟨la, ea⟩ := getCvtRank_double _ _ h1
      obtain ⟨lb, eb⟩ := getCvtRank_double _ _ h2
      simp only [h1, h2, Option.bind, ht, or_false] at h
      simp only [IS_TYPE] at hd ⊢
      split_ifs at h with c1 c2
      · cases h
        rcases hd with hd | hd
        · exact hd
        · have := eb.2 hd
          omega
      · cases h
        rcases hd with hd | hd
        · exact hd
        · have := eb.2 hd
          exact ea.1 (by omega)
      · cases h
        rcases hd with hd | hd
        · have := ea.2 hd
          exact eb.1 (by omega)
        · exact hd

/-- C37 (`buildBinaryOpType`): the row `float, any -> float` of the table in
the comment above the function does not hold: `float` has the rank 88 and
`long long` the rank 89, so `float` with `long long` gives `long long`, in
either order of the operands.  The rows for `double` and for unsigned types
hold: for every pair of operands with a rank one of which is `double`, and
every operator but the shift, the result is `double`; `unsigned int` with
`short` gives `unsigned int`, and with `long long` gives `long long`. -/
theorem buildBinaryOpType_float_row_fails :
    getCvtRank T_SPEC_FLOAT = some 88 ∧ getCvtRank T_SPEC_LONGLONG = some 89 ∧
      buildBinaryOpType .TR_MULTI (type_of_des T_SPEC_FLOAT) (type_of_des T_SPEC_LONGLONG) =
        some (type_of_des T_SPEC_LONGLONG) ∧
      buildBinaryOpType .TR_MULTI (type_of_des T_SPEC_LONGLONG) (type_of_des T_SPEC_FLOAT) =
        some (type_of_des T_SPEC_LONGLONG) ∧
      (∀ tok l r d, buildBinaryOpType tok l r = some d → tok ≠ .TR_SHIFT →
        IS_TYPE (DECL_spec l) T_SPEC_DOUBLE = true ∨
          IS_TYPE (DECL_spec r) T_SPEC_DOUBLE = true →
        IS_TYPE (DECL_spec d) T_SPEC_DOUBLE = true) ∧
      buildBinaryOpType .TR_MULTI (type_of_des (T_SPEC_UNSIGNED ||| T_SPEC_INT))
        (type_of_des T_SPEC_SHORT) = some (type_of_des (T_SPEC_UNSIGNED ||| T_SPEC_INT)) ∧
      buildBinaryOpType .TR_MULTI (type_of_des T_SPEC_SHORT)
        (type_of_des (T_SPEC_UNSIGNED ||| T_SPEC_INT)) =
          some (type_of_des (T_SPEC_UNSIGNED ||| T_SPEC_INT)) ∧
      buildBinaryOpType .TR_MULTI (type_of_des (T_SPEC_UNSIGNED ||| T_SPEC_INT))
        (type_of_des T_SPEC_LONGLONG) = some (type_of_des T_SPEC_LONGLONG) :=
  ⟨by decide, by decide, rfl, rfl, buildBinaryOpType_double_row, rfl, rfl, rfl⟩

theorem computeScalarTypeBitSize_table (des b : Nat)
    (h : computeScalarTypeBitSize des = some b) : (des, b) ∈ scalar_bit_sizes := by
  unfold computeScalarTypeBitSize at h
  split_ifs at h with c1 c2 c3 c4 c5 c6 c7 <;> cases h
  · rcases c1 with rfl | rfl | rfl <;> decide
  · rcases c2 with rfl | rfl | rfl <;> decide
  · rcases c3 with rfl | rfl | rfl | rfl | rfl | rfl <;> decide
  · rcases c4 with rfl | rfl | rfl <;> decide
  · rcases c5 with rfl | rfl | rfl <;> decide
  · rcases c6 with rfl | rfl | rfl <;> decide
  · rcases c7 with rfl | rfl | rfl <;> decide

theorem getSpecTypeSize_no_aggr (ptr des : Nat) (ut : Option Decl) (a : Option Aggr)
    (e : Option Enum) (hs : HAVE_FLAG des T_SPEC_STRUCT = false)
    (hu : HAVE_FLAG des T_SPEC_UNION = false) :
    getSpecTypeSize ptr (.mk des ut a e) = getSpecTypeSize 0 (spec_of des) := by
  cases a <;> simp [getSpecTypeSize, spec_of, hs, hu]

theorem scalar_bit_sizes_agree :
    ∀ p ∈ scalar_bit_sizes, p.1 ≠ T_SPEC_DOUBLE ||| T_SPEC_LONG →
      p.1 ≠ T_SPEC_FLOAT ||| T_SPEC_LONGLONG →
      HAVE_FLAG p.1 T_SPEC_STRUCT = false ∧ HAVE_FLAG p.1 T_SPEC_UNION = false ∧
        spec_bit_size 0 (spec_of p.1) = some p.2 := by
  decide

/-- C38 (`computeScalarTypeBitSize`, `getSpecTypeSize`): for every flag word
of the table of `computeScalarTypeBitSize` but `long double` (DOUBLE|LONG) and
FLOAT|LONGLONG, the bit size of the table is `getSpecTypeSize` of a
specifier with this word times `BIT_PER_BYTE`.  For `long double` the table
gives 64 bits and `getSpecTypeSize`, which tests LONG before DOUBLE, 4
bytes; for FLOAT|LONGLONG the table gives 32 bits and `getSpecTypeSize`,
which tests LONGLONG first, 8 bytes. -/
theorem computeScalarTypeBitSize_getSpecTypeSize (ptr des b : Nat) (ut : Option Decl)
    (a : Option Aggr) (e : Option Enum) (h : computeScalarTypeBitSize des = some b) :
    (des ≠ T_SPEC_DOUBLE ||| T_SPEC_LONG → des ≠ T_SPEC_FLOAT ||| T_SPEC_LONGLONG →
      spec_bit_size ptr (.mk des ut a e) = some b) ∧
    computeScalarTypeBitSize (T_SPEC_DOUBLE ||| T_SPEC_LONG) = some 64 ∧
    spec_bit_size ptr (.mk (T_SPEC_DOUBLE ||| T_SPEC_LONG) ut a e) = some 32 ∧
    computeScalarTypeBitSize (T_SPEC_FLOAT ||| T_SPEC_LONGLONG) = some 32 ∧
    spec_bit_size ptr (.mk (T_SPEC_FLOAT ||| T_SPEC_LONGLONG) ut a e) = some 64 := by
  refine ⟨?_, by decide, ?_, by decide, ?_⟩
  · intro h1 h2
    obtain ⟨hs, hu, hb⟩ := scalar_bit_sizes_agree _ (computeScalarTypeBitSize_table des b h)
      h1 h2
    rw [spec_bit_size, getSpecTypeSize_no_aggr ptr des ut a e hs hu]
    exact hb
  · rw [spec_bit_size, getSpecTypeSize_no_aggr ptr _ ut a e (by decide) (by decide)]
    decide
  · rw [spec_bit_size, getSpecTypeSize_no_aggr ptr _ ut a e (by decide) (by decide)]
    decide

theorem computeScalarTypeBitSize_getSpecTypeSize_witness :
    (T_SPEC_INT ||| T_SPEC_UNSIGNED ≠ T_SPEC_DOUBLE ||| T_SPEC_LONG →
      T_SPEC_INT ||| T_SPEC_UNSIGNED ≠ T_SPEC_FLOAT ||| T_SPEC_LONGLONG →
      spec_bit_size 4 (.mk (T_SPEC_INT ||| T_SPEC_UNSIGNED) none none none) = some 32) ∧
    computeScalarTypeBitSize (T_SPEC_DOUBLE ||| T_SPEC_LONG) = some 64 ∧
    spec_bit_size 4 (.mk (T_SPEC_DOUBLE ||| T_SPEC_LONG) none none none) = some 32 ∧
    computeScalarTypeBitSize (T_SPEC_FLOAT ||| T_SPEC_LONGLONG) = some 32 ∧
    spec_bit_size 4 (.mk (T_SPEC_FLOAT ||| T_SPEC_LONGLONG) none none none) = some 64 :=
  computeScalarTypeBitSize_getSpecTypeSize 4 (T_SPEC_INT ||| T_SPEC_UNSIGNED) 32 none none none
    (by decide)

theorem is_enum_id_exist_unnamed_head (e : Enum) (rest : List Enum) (name : String)
    (he : e.name = none) : ∀ fuel, is_enum_id_exist fuel (e :: rest) name = .nofuel := by
  intro fuel
  induction fuel with
  | zero => rfl
  | succ n ih => simp only [is_enum_id_exist, he, ih]

/-- C39 (`is_enum_id_exist`): when the list has an enum without a name and no
enum in front of it has the name looked for, the loop never ends: the
iteration for the unnamed enum ends with `continue` before the cursor is
advanced, so for every iteration bound the bound is used up.  On a list
whose enums all have a name the loop ends after at most one iteration per
element and returns the first enum with the name. -/
theorem is_enum_id_exist_never_returns (pre : List Enum) (e : Enum) (rest : List Enum)
    (name : String) (hpre : ∀ x ∈ pre, ∃ n, x.name = some n ∧ n ≠ name)
    (he : e.name = none) :
    (∀ fuel, is_enum_id_exist fuel (pre ++ e :: rest) name = .nofuel) ∧
    (∀ l : List Enum, (∀ x ∈ l, x.name ≠ none) → ∀ fuel, l.length < fuel →
      is_enum_id_exist fuel l name = .done (l.find? fun x => x.name = some name)) := by
  constructor
  · induction pre with
    | nil => exact is_enum_id_exist_unnamed_head e rest name he
    | cons x xs ih =>
      intro fuel
      obtain ⟨n, h1, h2⟩ := hpre x (List.mem_cons_self _ _)
      cases fuel with
      | zero => rfl
      | succ k =>
        simp only [List.cons_append, is_enum_id_exist, h1, h2, if_false]
        exact ih (fun y hy => hpre y (List.mem_cons_of_mem _ hy)) k
  · intro l
    induction l with
    | nil =>
      intro _ fuel hf
      obtain ⟨k, rfl⟩ : ∃ k, fuel = k + 1 := ⟨fuel - 1, by simp at hf; omega⟩
      rfl
    | cons x xs ih =>
      intro hall fuel hf
      obtain ⟨k, rfl⟩ : ∃ k, fuel = k + 1 := ⟨fuel - 1, by omega⟩
      cases hx : x.name with
      | none => exact absurd hx (hall x (List.mem_cons_self _ _))
      | some n =>
        by_cases hn : n = name
        · simp [is_enum_id_exist, hx, hn, List.find?]
        · have hne : ¬ (some n = some name) := fun h => hn (Option.some.inj h)
          simp only [is_enum_id_exist, hx, hn, if_false, List.find?, hne, decide_False]
          exact ih (fun y hy => hall y (List.mem_cons_of_mem _ hy)) k
            (by simp at hf; omega)

theorem is_enum_id_exist_never_returns_witness :
    (∀ fuel, is_enum_id_exist fuel ([] ++ enum_unnamed :: [enum_E]) "E" = .nofuel) ∧
    (∀ l : List Enum, (∀ x ∈ l, x.name ≠ none) → ∀ fuel, l.length < fuel →
      is_enum_id_exist fuel l "E" = .done (l.find? fun x => x.name = some "E")) :=
  is_enum_id_exist_never_returns [] enum_unnamed [enum_E] "E"
    (fun x hx => by cases hx) rfl

/-- The caller `is_enum_id_exist_in_outer_scope` does not return either
when the enum list of the current scope starts with the unnamed enum of
`enum { X };`. -/
theorem is_enum_id_exist_in_outer_scope_never_returns (rest : List Enum)
    (parents : List (List Enum)) (name : String) :
    ∀ fuel, is_enum_id_exist_in_outer_scope fuel ((enum_unnamed :: rest) :: parents) name =
      .nofuel := by
  intro fuel
  simp only [is_enum_id_exist_in_outer_scope,
    is_enum_id_exist_unnamed_head enum_unnamed rest name rfl fuel]

theorem trans_to_pointer_loop_keep (arrs : List DeclNode)
    (h : ∀ n ∈ arrs, DECL_dt n = .DCL_ARRAY) :
    ∀ (count : Nat) (new_pure : List DeclNode),
      trans_to_pointer_loop arrs false false count new_pure =
        new_pure ++ arrs.map set_is_paren := by
  induction arrs with
  | nil => intro _ _; simp [trans_to_pointer_loop]
  | cons n rest ih =>
    intro count new_pure
    have hn := h n (List.mem_cons_self _ _)
    cases n with
    | ARRAY e d p =>
      simp only [trans_to_pointer_loop, Bool.false_eq_true, if_false, Bool.not_false, if_true,
        add_next, cp_decl_node, List.map_cons]
      rw [ih (fun x hx => h x (List.mem_cons_of_mem _ hx))]
      simp
    | ID _ _ _ => simp [DECL_dt] at hn
    | POINTER _ _ => simp [DECL_dt] at hn
    | FUN _ _ => simp [DECL_dt] at hn
    | VARIABLE => simp [DECL_dt] at hn

theorem trans_to_pointer_loop_all (arrs : List DeclNode)
    (h : ∀ n ∈ arrs, DECL_dt n = .DCL_ARRAY) :
    ∀ (count : Nat) (new_pure : List DeclNode),
      trans_to_pointer_loop arrs false true count new_pure =
        new_pure ++ List.replicate arrs.length (.POINTER 0 false) := by
  induction arrs with
  | nil => intro _ _; simp [trans_to_pointer_loop]
  | cons n rest ih =>
    intro count new_pure
    have hn := h n (List.mem_cons_self _ _)
    cases n with
    | ARRAY e d p =>
      simp only [trans_to_pointer_loop, Bool.false_eq_true, if_false, Bool.not_true, add_next,
        List.length_cons, List.replicate_succ]
      rw [ih (fun x hx => h x (List.mem_cons_of_mem _ hx))]
      simp
    | ID _ _ _ => simp [DECL_dt] at hn
    | POINTER _ _ => simp [DECL_dt] at hn
    | FUN _ _ => simp [DECL_dt] at hn
    | VARIABLE => simp [DECL_dt] at hn

theorem is_pointer_setPure (d : Decl) (l : List DeclNode) :
    is_pointer (d.setPure l) = is_pointer_walk none l := by
  rw [is_pointer, PURE_DECL_setPure]

theorem Decl_setPure_decl_list_dt (d : Decl) (l : List DeclNode) :
    (DECL_decl_list (d.setPure l)).dt = (DECL_decl_list d).dt := by
  obtain ⟨dt, spec, ⟨ddt, child, b, bl, i⟩, p, s, f, a⟩ := d
  rfl

/-- C34 (amended; `trans_to_pointer`): for every declaration whose chain is
the identifier followed by a non-empty run of arrays `d1 .. dn`, the rewrite
with `is_append` puts a POINTER in front of the run and keeps every
dimension, marked as parenthesised: ID, POINTER, `d1 .. dn`; the rewrite
without `is_append` replaces every array of the run by a POINTER: ID and `n`
POINTER nodes.  Both results satisfy `is_pointer`. -/
theorem trans_to_pointer_array_run (decl : Decl) (sym : String) (q : Nat) (ip : Bool)
    (a : DeclNode) (arrs : List DeclNode)
    (hdt : decl.dt = .DCL_DECLARATION) (hdd : (DECL_decl_list decl).dt = .DCL_DECLARATOR)
    (hp : PURE_DECL decl = .ID sym q ip :: a :: arrs)
    (ha : ∀ n ∈ a :: arrs, DECL_dt n = .DCL_ARRAY) :
    trans_to_pointer decl true =
        some (decl.setPure
          (.ID sym q ip :: .POINTER 0 false :: (a :: arrs).map set_is_paren)) ∧
      trans_to_pointer decl false =
        some (decl.setPure
          (.ID sym q ip :: List.replicate (a :: arrs).length (.POINTER 0 false))) ∧
      is_pointer (decl.setPure
        (.ID sym q ip :: .POINTER 0 false :: (a :: arrs).map set_is_paren)) = true ∧
      is_pointer (decl.setPure
        (.ID sym q ip :: List.replicate (a :: arrs).length (.POINTER 0 false))) = true := by
  have hnp : is_pointer decl = false := by
    have h1 := ha a (List.mem_cons_self _ _)
    cases a with
    | ARRAY e d p => simp [is_pointer, hp, is_pointer_walk]
    | ID _ _ _ => simp [DECL_dt] at h1
    | POINTER _ _ => simp [DECL_dt] at h1
    | FUN _ _ => simp [DECL_dt] at h1
    | VARIABLE => simp [DECL_dt] at h1
  have hp1 : is_pointer (decl.setPure
      (.ID sym q ip :: .POINTER 0 false :: (a :: arrs).map set_is_paren)) = true := by
    rw [is_pointer_setPure]
    simp [is_pointer_walk]
  have hp2 : is_pointer (decl.setPure
      (.ID sym q ip :: List.replicate (a :: arrs).length (.POINTER 0 false))) = true := by
    rw [is_pointer_setPure]
    simp [is_pointer_walk, List.replicate_succ]
  have hl1 : trans_to_pointer_loop (.ID sym q ip :: a :: arrs) true true 0 [] =
      .ID sym q ip :: .POINTER 0 false :: (a :: arrs).map set_is_paren := by
    have h1 := ha a (List.mem_cons_self _ _)
    cases a with
    | ARRAY e d p =>
      simp only [trans_to_pointer_loop, add_next, cp_decl_node, if_true, Bool.not_false,
        lt_self_iff_false, if_false, List.nil_append, List.map_cons]
      rw [trans_to_pointer_loop_keep arrs (fun x hx => ha x (List.mem_cons_of_mem _ hx))]
      simp
    | ID _ _ _ => simp [DECL_dt] at h1
    | POINTER _ _ => simp [DECL_dt] at h1
    | FUN _ _ => simp [DECL_dt] at h1
    | VARIABLE => simp [DECL_dt] at h1
  have hl2 : trans_to_pointer_loop (.ID sym q ip :: a :: arrs) false true 0 [] =
      .ID sym q ip :: List.replicate (a :: arrs).length (.POINTER 0 false) := by
    simp only [trans_to_pointer_loop, add_next, cp_decl_node, lt_self_iff_false, if_false,
      List.nil_append]
    rw [trans_to_pointer_loop_all (a :: arrs) ha]
    simp
  refine ⟨?_, ?_, hp1, hp2⟩
  · simp only [trans_to_pointer, hdt, hnp, hdd, hp, hl1, hp1]
    simp
  · simp only [trans_to_pointer, hdt, hnp, hdd, hp, hl2, hp2]
    simp

theorem trans_to_pointer_array_run_witness :
    trans_to_pointer decl_char_p_20 true =
        some (decl_char_p_20.setPure
          (.ID "p" 0 false :: .POINTER 0 false ::
            ([.ARRAY none 1 false, .ARRAY (some ⟨some 20⟩) 20 false] : List DeclNode).map
              set_is_paren)) ∧
      trans_to_pointer decl_char_p_20 false =
        some (decl_char_p_20.setPure
          (.ID "p" 0 false :: List.replicate
            ([.ARRAY none 1 false, .ARRAY (some ⟨some 20⟩) 20 false] : List DeclNode).length
            (.POINTER 0 false))) ∧
      is_pointer (decl_char_p_20.setPure
        (.ID "p" 0 false :: .POINTER 0 false ::
          ([.ARRAY none 1 false, .ARRAY (some ⟨some 20⟩) 20 false] : List DeclNode).map
            set_is_paren)) = true ∧
      is_pointer (decl_char_p_20.setPure
        (.ID "p" 0 false :: List.replicate
          ([.ARRAY none 1 false, .ARRAY (some ⟨some 20⟩) 20 false] : List DeclNode).length
          (.POINTER 0 false))) = true :=
  trans_to_pointer_array_run decl_char_p_20 "p" 0 false (.ARRAY none 1 false)
    [.ARRAY (some ⟨some 20⟩) 20 false] rfl rfl rfl
    (fun n hn => by
      simp only [List.mem_cons, List.mem_singleton, List.not_mem_nil, or_false] at hn
      rcases hn with rfl | rfl <;> rfl)

/-- C34 (`trans_to_pointer`, `parameter_declaration`): for the parameter
`char p[][20]` the parser returns the chain ID(p), ARRAY, ARRAY(20) with the
missing dimension set to 1.  The rewrite with `is_append` gives ID(p),
POINTER, ARRAY(1), ARRAY(20), the rewrite without it gives ID(p), POINTER,
POINTER; neither is ID(p), POINTER, ARRAY(20).  Both have the size of a
pointer, and `fix_para_array_index` sets a dimension 0 behind the POINTER
to 1. -/
theorem trans_to_pointer_char_p_20 :
    (parameter_declaration spec_collab 10 (st_of toks_char_p_20)).value.map
        (Option.map fun d => (PURE_DECL d).map fun n => (DECL_dt n, DECL_array_dim n)) =
      some (some [(.DCL_ID, 0), (.DCL_ARRAY, 1), (.DCL_ARRAY, 20)]) ∧
    (trans_to_pointer decl_char_p_20 true).map
        (fun d => (PURE_DECL d).map fun n => (DECL_dt n, DECL_array_dim n)) =
      some [(.DCL_ID, 0), (.DCL_POINTER, 0), (.DCL_ARRAY, 1), (.DCL_ARRAY, 20)] ∧
    (trans_to_pointer decl_char_p_20 false).map
        (fun d => (PURE_DECL d).map fun n => (DECL_dt n, DECL_array_dim n)) =
      some [(.DCL_ID, 0), (.DCL_POINTER, 0), (.DCL_POINTER, 0)] ∧
    (trans_to_pointer decl_char_p_20 true).bind (get_decl_size 4) = some 4 ∧
    (trans_to_pointer decl_char_p_20 false).bind (get_decl_size 4) = some 4 ∧
    ((trans_to_pointer (decl_char_p_20.setPure [.ID "p" 0 false, .ARRAY none 0 false,
        .ARRAY (some ⟨some 20⟩) 20 false]) true).bind
      fun d => fix_para_array_index 4 d []).map
        (fun r => ((PURE_DECL r.1).map fun n => (DECL_dt n, DECL_array_dim n), r.2)) =
      some ([(.DCL_ID, 0), (.DCL_POINTER, 0), (.DCL_ARRAY, 1), (.DCL_ARRAY, 20)], []) := by
  refine ⟨?_, ?_, ?_, ?_, ?_, ?_⟩ <;> decide

/-! ### The memory pool -/

theorem pool_view_set_handler_grow_size (l : List SMEM_POOL) (g : Nat) :
    pool_view (set_handler_grow_size l g) = pool_view l := by
  cases l <;> rfl

theorem PoolOk_iff_view (cfg : PoolCfg) (chain : List SMEM_POOL) :
    PoolOk cfg chain ↔
      ∀ v ∈ pool_view chain, v.2.2 ≤ v.2.1 ∧ 0 < v.2.1 ∧ v.2.1 < 2 ^ cfg.ULONG_BITS := by
  unfold PoolOk pool_view
  constructor
  · intro h v hv
    obtain ⟨b, hb, rfl⟩ := List.mem_map.1 hv
    exact h b hb
  · intro h b hb
    exact h _ (List.mem_map_of_mem _ hb)

theorem toULONG_of_lt (cfg : PoolCfg) (x : Nat) (h : x < 2 ^ cfg.ULONG_BITS) :
    toULONG cfg x = x := Nat.mod_eq_of_lt h

theorem toULONG_lt (cfg : PoolCfg) (x : Nat) : toULONG cfg x < 2 ^ cfg.ULONG_BITS :=
  Nat.mod_lt _ (Nat.pos_pow_of_pos _ (by decide))

theorem smpool_walk_some (cfg : PoolCfg) (M size : Nat) : ∀ (todo : List SMEM_POOL) (ih : Bool)
    (kept full : List SMEM_POOL), PoolOk cfg todo →
    ∃ r, smpool_walk M size ih todo kept full = some r
  | [], ih, kept, full, _ => ⟨_, by unfold smpool_walk; rfl⟩
  | cur :: rest, ih, kept, full, h => by
    have hc := h cur (List.mem_cons_self _ _)
    have hr : PoolOk cfg rest := fun b hb => h b (List.mem_cons_of_mem _ hb)
    unfold smpool_walk
    rw [if_neg (by omega), if_neg (by omega)]
    simp only
    split_ifs
    · exact ⟨_, rfl⟩
    · exact smpool_walk_some cfg M size rest false _ _ hr
    · exact smpool_walk_some cfg M size rest false _ _ hr

theorem smpool_walk_found (M size : Nat) : ∀ (todo : List SMEM_POOL) (ih : Bool)
    (kept full k : List SMEM_POOL) (c : SMEM_POOL) (f r : List SMEM_POOL),
    smpool_walk M size ih todo kept full = some (.found k c f r) →
    List.Perm (todo ++ (kept ++ full)) (c :: (k ++ (f ++ r))) ∧
      c.start_pos + size ≤ c.mem_pool_size ∧ ∃ k1, k = kept ++ k1
  | [], ih, kept, full, k, c, f, r, h => by simp [smpool_walk] at h
  | cur :: rest, ih, kept, full, k, c, f, r, h => by
    unfold smpool_walk at h
    simp only at h
    split_ifs at h with h1 h2 h3 h4
    · simp only [Option.some.injEq, WalkRes.found.injEq] at h
      obtain ⟨rfl, rfl, rfl, rfl⟩ := h
      refine ⟨?_, by omega, [], by simp⟩
      rw [List.perm_iff_count]; intro a
      simp only [List.count_append, List.count_cons, List.cons_append]
      omega
    · obtain ⟨hp, hsz, k1, hk⟩ :=
        smpool_walk_found M size rest false kept (cur :: full) k c f r h
      refine ⟨List.Perm.trans ?_ hp, hsz, k1, hk⟩
      rw [List.perm_iff_count]; intro a
      simp only [List.count_append, List.count_cons, List.cons_append]
      omega
    · obtain ⟨hp, hsz, k1, hk⟩ :=
        smpool_walk_found M size rest false (kept ++ [cur]) full k c f r h
      refine ⟨List.Perm.trans ?_ hp, hsz, cur :: k1, by rw [hk]; simp⟩
      rw [List.perm_iff_count]; intro a
      simp only [List.count_append, List.count_cons, List.cons_append, List.count_nil]
      omega

theorem smpool_walk_not_found (M size : Nat) : ∀ (todo : List SMEM_POOL) (ih : Bool)
    (kept full k f : List SMEM_POOL),
    smpool_walk M size ih todo kept full = some (.not_found k f) →
    List.Perm (todo ++ (kept ++ full)) (k ++ f) ∧ (∃ k1, k = kept ++ k1) ∧ NoRoom size todo
  | [], ih, kept, full, k, f, h => by
    unfold smpool_walk at h
    simp only [Option.some.injEq, WalkRes.not_found.injEq] at h
    obtain ⟨rfl, rfl⟩ := h
    exact ⟨by simp, ⟨[], by simp⟩, fun b hb => by cases hb⟩
  | cur :: rest, ih, kept, full, k, f, h => by
    unfold smpool_walk at h
    simp only at h
    split_ifs at h with h1 h2 h3 h4
    · simp at h
    · obtain ⟨hp, ⟨k1, hk⟩, hno⟩ :=
        smpool_walk_not_found M size rest false kept (cur :: full) k f h
      refine ⟨List.Perm.trans ?_ hp, ⟨k1, hk⟩, ?_⟩
      · rw [List.perm_iff_count]; intro a
        simp only [List.count_append, List.count_cons, List.cons_append]
        omega
      · intro b hb
        rcases List.mem_cons.1 hb with rfl | hb
        · omega
        · exact hno b hb
    · obtain ⟨hp, ⟨k1, hk⟩, hno⟩ :=
        smpool_walk_not_found M size rest false (kept ++ [cur]) full k f h
      refine ⟨List.Perm.trans ?_ hp, ⟨cur :: k1, by rw [hk]; simp⟩, ?_⟩
      · rw [List.perm_iff_count]; intro a
        simp only [List.count_append, List.count_cons, List.cons_append, List.count_nil]
        omega
      · intro b hb
        rcases List.mem_cons.1 hb with rfl | hb
        · omega
        · exact hno b hb

/-- The search from `handler` on: `handler` is the block found or stays the
first block of the chain. -/
theorem smpool_walk_handler_found (M size : Nat) (h : SMEM_POOL)
    (rest k : List SMEM_POOL) (c : SMEM_POOL) (f r : List SMEM_POOL)
    (hw : smpool_walk M size true (h :: rest) [] [] = some (.found k c f r)) :
    (k = [] ∧ c = h) ∨ ∃ k1, k = h :: k1 := by
  unfold smpool_walk at hw
  simp only at hw
  split_ifs at hw with h1 h2 h3 h4
  · simp only [Option.some.injEq, WalkRes.found.injEq] at hw
    exact Or.inl ⟨hw.1.symm, hw.2.1.symm⟩
  · simp at h4
  · obtain ⟨_, _, k1, hk⟩ := smpool_walk_found M size rest false _ _ k c f r hw
    exact Or.inr ⟨k1, by rw [hk]; rfl⟩

theorem smpool_walk_handler_not_found (M size : Nat) (h : SMEM_POOL)
    (rest k f : List SMEM_POOL)
    (hw : smpool_walk M size true (h :: rest) [] [] = some (.not_found k f)) :
    ∃ k1, k = h :: k1 := by
  unfold smpool_walk at hw
  simp only at hw
  split_ifs at hw with h1 h2 h3 h4
  · simp at hw
  · simp at h4
  · obtain ⟨_, ⟨k1, hk⟩, _⟩ := smpool_walk_not_found M size rest false _ _ k f hw
    exact ⟨k1, by rw [hk]; rfl⟩

theorem pool_view_perm_middle (k : List SMEM_POOL) (c : SMEM_POOL) (t : List SMEM_POOL) :
    List.Perm (pool_view (k ++ c :: t))
      ((c.ppool, c.mem_pool_size, c.start_pos) :: pool_view (k ++ t)) :=
  (List.perm_middle.map _)

theorem pool_new_size_bounds (size1 g : Nat) (hg : 0 < g) :
    size1 ≤ pool_new_size size1 g ∧ pool_new_size size1 g ≤ size1 + g ∧
      0 < pool_new_size size1 g := by
  unfold pool_new_size
  split_ifs with h
  · have := Nat.div_add_mod size1 g
    have := Nat.mod_lt size1 hg
    rw [Nat.add_mul, Nat.one_mul, Nat.mul_comm]
    refine ⟨by omega, by omega, by omega⟩
  · omega

/-- What a block that `new_mem_pool` returns is: its size is the one asked
for, nothing of it is in use, and its memory lies within the bytes that
`malloc` has returned. -/
theorem new_mem_pool_some (cfg : PoolCfg) (malloc : Nat → Option Nat) (n : Nat)
    (blk : SMEM_POOL) (hn : n < 2 ^ cfg.ULONG_BITS)
    (h : new_mem_pool cfg malloc n = some blk) :
    blk.mem_pool_size = n ∧ blk.start_pos = 0 ∧ blk.grow_size = n ∧
      ∃ a bytes, malloc bytes = some a ∧ a ≤ blk.ppool ∧ blk.ppool + n ≤ a + bytes := by
  unfold new_mem_pool at h
  rw [toULONG_of_lt cfg n hn] at h
  simp only at h
  by_cases hW : cfg.WORD_ALIGN = 0
  · simp [hW] at h
  rw [if_neg hW] at h
  generalize toSIZE_T cfg _ = bytes at h
  cases hm : malloc bytes with
  | none => simp [hm] at h
  | some mp =>
    simp only [hm] at h
    by_cases hb : new_mem_pool_size_mp cfg < 0 ∨
        bytes < (new_mem_pool_size_mp cfg).toNat + n + END_BOUND_BYTE
    · simp [hb] at h
    rw [if_neg hb] at h
    simp only [Option.some.injEq] at h
    subst h
    refine ⟨rfl, rfl, rfl, mp, bytes, hm, ?_, ?_⟩
    · show mp ≤ mp + _
      omega
    · show mp + _ + n ≤ mp + bytes
      unfold END_BOUND_BYTE at hb
      omega

theorem int_two_pow (k : Nat) : ((2 : Int) ^ k) = ((2 ^ k : Nat) : Int) := by
  push_cast
  rfl

theorem emod_two_pow_of_lt (x k : Nat) (h : x < 2 ^ k) : ((x : Int) % 2 ^ k) = (x : Int) := by
  rw [int_two_pow]
  exact_mod_cast Nat.mod_eq_of_lt h

theorem toINT_of_lt (x : Nat) (h : x < 2 ^ 31) : toINT (x : Int) = (x : Int) := by
  unfold toINT
  have h1 : (x : Int) < 2147483648 := by exact_mod_cast h
  have h2 : (0 : Int) ≤ x := Int.ofNat_nonneg x
  norm_num
  omega

theorem toSIZE_T_of_lt (cfg : PoolCfg) (x : Nat) (h : x < 2 ^ cfg.SIZE_T_BITS) :
    toSIZE_T cfg (x : Int) = x := by
  unfold toSIZE_T
  rw [emod_two_pow_of_lt x _ h]
  rfl

/-- When the total size of the block fits `INT`, `new_mem_pool` returns the
block as soon as `malloc` returns memory. -/
theorem new_mem_pool_fits (cfg : PoolCfg) (malloc : Nat → Option Nat) (n m a : Nat)
    (hW : 0 < cfg.WORD_ALIGN) (hU : 31 ≤ cfg.ULONG_BITS) (hS : 31 ≤ cfg.SIZE_T_BITS)
    (hm : new_mem_pool_size_mp cfg = (m : Int)) (hfit : m + n + END_BOUND_BYTE < 2 ^ 31)
    (ha : malloc (m + n + END_BOUND_BYTE) = some a) :
    new_mem_pool cfg malloc n =
      some ⟨a + m, n, 0, n, ((m + n + END_BOUND_BYTE : Nat) : Int)⟩ := by
  have h31U : 2 ^ 31 ≤ 2 ^ cfg.ULONG_BITS := Nat.pow_le_pow_right (by decide) hU
  have h31S : 2 ^ 31 ≤ 2 ^ cfg.SIZE_T_BITS := Nat.pow_le_pow_right (by decide) hS
  have hn : n < 2 ^ cfg.ULONG_BITS := lt_of_lt_of_le (lt_of_le_of_lt (by omega) hfit) h31U
  have hU1 : m + n + END_BOUND_BYTE < 2 ^ cfg.ULONG_BITS := lt_of_lt_of_le hfit h31U
  have hS1 : m + n + END_BOUND_BYTE < 2 ^ cfg.SIZE_T_BITS := lt_of_lt_of_le hfit h31S
  unfold new_mem_pool
  rw [toULONG_of_lt cfg n hn]
  simp only [if_neg hW.ne', hm]
  have e0 : (m : Int) + (n : Int) + (END_BOUND_BYTE : Int) =
      ((m + n + END_BOUND_BYTE : Nat) : Int) := by push_cast; rfl
  rw [e0, emod_two_pow_of_lt _ _ hU1, toINT_of_lt _ hfit, toSIZE_T_of_lt cfg _ hS1, ha]
  simp only [Int.toNat_ofNat]
  rw [if_neg]
  · push_neg
    exact ⟨Int.ofNat_nonneg m, Nat.le_refl _⟩

theorem smpool_size1_eq (cfg : PoolCfg) (size : Nat) (hW : 0 < cfg.WORD_ALIGN)
    (hr : round_up size cfg.WORD_ALIGN < 2 ^ cfg.ULONG_BITS) :
    (if size % cfg.WORD_ALIGN ≠ 0 then
        toULONG cfg ((size / cfg.WORD_ALIGN + 1) * cfg.WORD_ALIGN)
      else size) = round_up size cfg.WORD_ALIGN := by
  rw [round_up_eq size _ hW] at hr ⊢
  split_ifs with h
  · rw [if_pos h] at hr
    exact toULONG_of_lt cfg _ hr
  · rfl

theorem pool_growth_le (cfg : PoolCfg) (h : SMEM_POOL) (grow : Nat) (h0 : toUINT grow = 0) :
    pool_growth cfg h grow ≤ 2 * h.grow_size := by
  unfold pool_growth
  rw [if_pos h0]
  unfold toUINT toULONG
  calc h.grow_size * 2 % 2 ^ cfg.ULONG_BITS % UINT_RANGE
      ≤ h.grow_size * 2 % 2 ^ cfg.ULONG_BITS := Nat.mod_le _ _
    _ ≤ h.grow_size * 2 := Nat.mod_le _ _
    _ = 2 * h.grow_size := Nat.mul_comm _ _

/-- One call of `smpool_malloc_h` with `size > 0` whose rounding does not
wrap around, on a chain whose blocks obey the assertions; when no block has
room, the growth is not zero, the size of the new block does not wrap around
and `new_mem_pool` returns a block: the region returned and the chain
afterwards. -/
theorem smpool_malloc_h_step (cfg : PoolCfg) (malloc : Nat → Option Nat) (size grow : Nat)
    (h : SMEM_POOL) (rest : List SMEM_POOL) (hW : 0 < cfg.WORD_ALIGN) (hs : 0 < size)
    (hr : round_up size cfg.WORD_ALIGN < 2 ^ cfg.ULONG_BITS)
    (hok : PoolOk cfg (h :: rest))
    (hg : NoRoom (round_up size cfg.WORD_ALIGN) (h :: rest) →
      pool_growth cfg h grow ≠ 0 ∧
      pool_new_size (round_up size cfg.WORD_ALIGN) (pool_growth cfg h grow) <
        2 ^ cfg.ULONG_BITS ∧
      ∃ blk, new_mem_pool cfg malloc
        (pool_new_size (round_up size cfg.WORD_ALIGN) (pool_growth cfg h grow)) = some blk) :
    ∃ p P s chain1,
      smpool_malloc_h cfg malloc size (h :: rest) grow = some (some (p + s), chain1) ∧
      s + round_up size cfg.WORD_ALIGN ≤ P ∧ 0 < P ∧ P < 2 ^ cfg.ULONG_BITS ∧
      ((∃ others, List.Perm (pool_view (h :: rest)) ((p, P, s) :: others) ∧
          List.Perm (pool_view chain1) ((p, P, s + round_up size cfg.WORD_ALIGN) :: others)) ∨
        (NoRoom (round_up size cfg.WORD_ALIGN) (h :: rest) ∧ s = 0 ∧
          (∃ a bytes, malloc bytes = some a ∧ a ≤ p ∧ p + P ≤ a + bytes) ∧
          List.Perm (pool_view chain1)
            ((p, P, round_up size cfg.WORD_ALIGN) :: pool_view (h :: rest)))) ∧
      ∃ h1 rest1, chain1 = h1 :: rest1 ∧ h1.grow_size ≤ 2 * h.grow_size ∧
        (h.grow_size ≠ 0 → h1.grow_size ≠ 0) := by
  have hsz0 : size < 2 ^ cfg.ULONG_BITS :=
    lt_of_le_of_lt (round_up_least size _ hW).2.1 hr
  unfold smpool_malloc_h
  rw [toULONG_of_lt cfg size hsz0]
  simp only [if_neg hs.ne', if_neg hW.ne']
  rw [smpool_size1_eq cfg size hW hr]
  have hsz : 0 < round_up size cfg.WORD_ALIGN :=
    lt_of_lt_of_le hs (round_up_least size _ hW).2.1
  generalize round_up size cfg.WORD_ALIGN = sz at hsz hr hg ⊢
  obtain ⟨res, hres⟩ := smpool_walk_some cfg cfg.MIN_MARGIN sz (h :: rest) true [] [] hok
  rw [hres]
  cases res with
  | found k c f r =>
    obtain ⟨hp, hfit, _⟩ := smpool_walk_found cfg.MIN_MARGIN sz _ _ _ _ k c f r hres
    have hcm : c ∈ h :: rest := by
      have : c ∈ (h :: rest) ++ ([] ++ []) := hp.mem_iff.2 (List.mem_cons_self _ _)
      simpa using this
    have hc := hok c hcm
    have hst : (c.advance cfg sz).start_pos = c.start_pos + sz :=
      toULONG_of_lt cfg _ (lt_of_le_of_lt hfit hc.2.2)
    have hadv : ¬ (c.advance cfg sz).mem_pool_size < (c.advance cfg sz).start_pos := by
      rw [hst]
      show ¬ c.mem_pool_size < c.start_pos + sz
      omega
    simp only [if_neg hadv]
    refine ⟨c.ppool, c.mem_pool_size, c.start_pos, _, rfl, hfit, hc.2.1, hc.2.2,
      Or.inl ⟨pool_view (k ++ (f ++ r)), ?_, ?_⟩, ?_⟩
    · have := hp.map fun b => (b.ppool, b.mem_pool_size, b.start_pos)
      simpa [pool_view] using this
    · have := pool_view_perm_middle k (c.advance cfg sz) (f ++ r)
      rw [hst] at this
      exact this
    · rcases smpool_walk_handler_found cfg.MIN_MARGIN sz h rest k c f r hres with
        ⟨rfl, rfl⟩ | ⟨k1, rfl⟩
      · exact ⟨_, _, rfl, by show c.grow_size ≤ 2 * c.grow_size; omega, fun hgr => hgr⟩
      · exact ⟨_, _, rfl, by omega, fun hgr => hgr⟩
  | not_found k f =>
    obtain ⟨hp, _, hno⟩ := smpool_walk_not_found cfg.MIN_MARGIN sz _ _ _ _ k f hres
    obtain ⟨k1, rfl⟩ := smpool_walk_handler_not_found cfg.MIN_MARGIN sz h rest k f hres
    obtain ⟨hg0, hnw, blk, hblk⟩ := hg hno
    have hgn : ¬ (toUINT grow = 0 ∧ h.grow_size = 0) := by
      rintro ⟨h1, h2⟩
      apply hg0
      unfold pool_growth
      rw [if_pos h1, h2]
      rfl
    simp only [List.isEmpty_cons, Bool.false_eq_true, if_false, if_neg hgn]
    have hkept : pool_view (if toUINT grow = 0 then
        set_handler_grow_size (h :: k1) (pool_growth cfg h grow) else h :: k1) =
          pool_view (h :: k1) := by
      split_ifs
      · exact pool_view_set_handler_grow_size _ _
      · rfl
    have hhead : ∃ h1 rest1, (if toUINT grow = 0 then
        set_handler_grow_size (h :: k1) (pool_growth cfg h grow) else h :: k1) = h1 :: rest1 ∧
        h1.grow_size ≤ 2 * h.grow_size ∧ (h.grow_size ≠ 0 → h1.grow_size ≠ 0) := by
      split_ifs with h0
      · exact ⟨_, _, rfl, pool_growth_le cfg h grow h0, fun _ => hg0⟩
      · exact ⟨_, _, rfl, by omega, fun hgr => hgr⟩
    have hgdef : (if toUINT grow = 0 then toUINT (toULONG cfg (h.grow_size * 2))
        else toUINT grow) = pool_growth cfg h grow := rfl
    rw [hgdef]
    generalize pool_growth cfg h grow = g1 at hg0 hnw hblk hkept hhead ⊢
    have hb := pool_new_size_bounds sz g1 (Nat.pos_of_ne_zero hg0)
    have hn : (if sz > g1 then toULONG cfg ((sz / g1 + 1) * g1) else g1) =
        pool_new_size sz g1 := by
      unfold pool_new_size at hnw ⊢
      split_ifs with h1
      · rw [if_pos h1] at hnw
        exact toULONG_of_lt cfg _ hnw
      · rfl
    rw [hn, if_neg (fun hc => hg0 hc.2)]
    generalize pool_new_size sz g1 = n at hb hnw hblk ⊢
    generalize (if toUINT grow = 0 then set_handler_grow_size (h :: k1) g1 else h :: k1) = kept1
      at hkept hhead ⊢
    obtain ⟨hbs, hb0, _, a, bytes, hma, hlo, hhi⟩ := new_mem_pool_some cfg malloc n blk hnw hblk
    simp only [hblk]
    have hst : (blk.advance cfg sz).start_pos = sz := by
      show toULONG cfg (blk.start_pos + sz) = sz
      rw [hb0, Nat.zero_add]
      exact toULONG_of_lt cfg _ hr
    have hadv : ¬ (blk.advance cfg sz).mem_pool_size < (blk.advance cfg sz).start_pos := by
      rw [hst]
      show ¬ blk.mem_pool_size < sz
      omega
    simp only [if_neg hadv]
    refine ⟨blk.ppool, n, 0, _, by rw [hb0], by omega, by omega, hnw,
      Or.inr ⟨hno, rfl, ⟨a, bytes, hma, hlo, hhi⟩, ?_⟩, ?_⟩
    · refine (pool_view_perm_middle kept1 _ f).trans ?_
      rw [hst]
      have e1 : (blk.advance cfg sz).ppool = blk.ppool := rfl
      have e2 : (blk.advance cfg sz).mem_pool_size = n := hbs
      rw [e1, e2]
      refine List.Perm.cons _ ?_
      have h2 : pool_view (kept1 ++ f) = pool_view ((h :: k1) ++ f) := by
        unfold pool_view at hkept ⊢
        rw [List.map_append, List.map_append, hkept]
      rw [h2]
      have := hp.symm.map fun b => (b.ppool, b.mem_pool_size, b.start_pos)
      simpa [pool_view] using this
    · obtain ⟨h1, rest1, rfl, hle, hne⟩ := hhead
      exact ⟨_, _, rfl, hle, hne⟩

theorem BlocksDisjoint_perm (v w : List (Nat × Nat × Nat)) (hp : List.Perm v w)
    (h : v.Pairwise fun a b => regions_disjoint (a.1, a.2.1) (b.1, b.2.1)) :
    w.Pairwise fun a b => regions_disjoint (a.1, a.2.1) (b.1, b.2.1) :=
  hp.pairwise h (fun {_ _} hab => Or.symm hab)

theorem toUINT_le (x : Nat) : toUINT x ≤ x := Nat.mod_le _ _

/-- The growth of a request stays below a bound of the argument and of twice
the `grow_size` of the handler, and is not zero when the latter is not. -/
theorem pool_growth_bound (cfg : PoolCfg) (h : SMEM_POOL) (grow B : Nat)
    (hU : 31 ≤ cfg.ULONG_BITS) (hB : B < 2 ^ 31) (hgrow : grow ≤ B)
    (hh : h.grow_size * 2 ≤ B) (hne : h.grow_size ≠ 0) :
    pool_growth cfg h grow ≠ 0 ∧ pool_growth cfg h grow ≤ B := by
  have h31U : 2 ^ 31 ≤ 2 ^ cfg.ULONG_BITS := Nat.pow_le_pow_right (by decide) hU
  unfold pool_growth
  split_ifs with h0
  · have e1 : toULONG cfg (h.grow_size * 2) = h.grow_size * 2 :=
      toULONG_of_lt cfg _ (lt_of_lt_of_le (lt_of_le_of_lt hh hB) h31U)
    have e2 : toUINT (h.grow_size * 2) = h.grow_size * 2 :=
      Nat.mod_eq_of_lt (lt_of_lt_of_le (lt_of_le_of_lt hh hB) (by decide))
    rw [e1, e2]
    exact ⟨by omega, hh⟩
  · exact ⟨h0, le_trans (toUINT_le grow) hgrow⟩

/-- Successive calls with `size > 0` on a chain whose blocks obey the
assertions and have disjoint memory, when the sizes rounded up, the values
of `grow_size` and the `grow_size` of the handler, doubled once for every
call, stay below a bound `B` for which a block of `2 * B` bytes fits `INT`,
and `malloc` returns fresh memory for a size that fits `INT`: every call
returns a region, the regions are pairwise disjoint and avoid the part of
every block that was in use before. -/
theorem smpool_run_disjoint (cfg : PoolCfg) (malloc : List SMEM_POOL → Nat → Option Nat)
    (m B : Nat) (hW : 0 < cfg.WORD_ALIGN) (hU : 31 ≤ cfg.ULONG_BITS)
    (hS : 31 ≤ cfg.SIZE_T_BITS) (hm : new_mem_pool_size_mp cfg = (m : Int))
    (hB : m + 2 * B + END_BOUND_BYTE < 2 ^ 31) (hfresh : MallocFresh malloc)
    (hmem : ∀ chain n, n < 2 ^ 31 → ∃ a, malloc chain n = some a) :
    ∀ (reqs : List (Nat × Nat)) (chain : List SMEM_POOL),
      (∀ q ∈ reqs, 0 < q.1 ∧ round_up q.1 cfg.WORD_ALIGN ≤ B ∧ q.2 ≤ B) →
      PoolOk cfg chain → BlocksDisjoint chain →
      (∃ h rest, chain = h :: rest ∧ h.grow_size ≠ 0 ∧ h.grow_size * 2 ^ reqs.length ≤ B) →
      ∃ regions chain1, smpool_run cfg malloc reqs chain = some (regions, chain1) ∧
        regions.Pairwise regions_disjoint ∧
        (∀ r ∈ regions, ∀ v ∈ pool_view chain, regions_disjoint r (v.1, v.2.2)) ∧
        PoolOk cfg chain1 ∧ regions.length = reqs.length
  | [], chain, _, hok, _, _ =>
    ⟨[], chain, rfl, List.Pairwise.nil, fun r hr => (by cases hr), hok, rfl⟩
  | (size, grow) :: reqs, chain, hpos, hok, hdis, hhd => by
    obtain ⟨h, rest, rfl, hgr, hgb⟩ := hhd
    have h31U : 2 ^ 31 ≤ 2 ^ cfg.ULONG_BITS := Nat.pow_le_pow_right (by decide) hU
    obtain ⟨hs, hsB, hgB⟩ := hpos (size, grow) (List.mem_cons_self _ _)
    simp only at hs hsB hgB
    have hpos1 : ∀ q ∈ reqs, 0 < q.1 ∧ round_up q.1 cfg.WORD_ALIGN ≤ B ∧ q.2 ≤ B :=
      fun q hq => hpos q (List.mem_cons_of_mem _ hq)
    have hB31 : B < 2 ^ 31 := by omega
    have hpow : h.grow_size * 2 * 2 ^ reqs.length ≤ B := by
      rw [List.length_cons, Nat.pow_succ] at hgb
      calc h.grow_size * 2 * 2 ^ reqs.length = h.grow_size * (2 ^ reqs.length * 2) := by ring
        _ ≤ B := hgb
    have hh2 : h.grow_size * 2 ≤ B :=
      le_trans (Nat.le_mul_of_pos_right _ (Nat.pos_pow_of_pos _ (by decide))) hpow
    obtain ⟨hg0, hgle⟩ := pool_growth_bound cfg h grow B hU hB31 hgB hh2 hgr
    have hnb := pool_new_size_bounds (round_up size cfg.WORD_ALIGN) _ (Nat.pos_of_ne_zero hg0)
    have hn31 : m + pool_new_size (round_up size cfg.WORD_ALIGN) (pool_growth cfg h grow) +
        END_BOUND_BYTE < 2 ^ 31 := by omega
    obtain ⟨a0, ha0⟩ := hmem (h :: rest) _ hn31
    have hr : round_up size cfg.WORD_ALIGN < 2 ^ cfg.ULONG_BITS :=
      lt_of_lt_of_le (lt_of_le_of_lt hsB hB31) h31U
    obtain ⟨p, P, s, chain1, heq, hfit, hP0, hPU, hcase, hhead⟩ :=
      smpool_malloc_h_step cfg (malloc (h :: rest)) size grow h rest hW hs hr hok
        (fun _ => ⟨hg0, lt_of_lt_of_le (by omega) h31U, _,
          new_mem_pool_fits cfg _ _ m a0 hW hU hS hm hn31 ha0⟩)
    have hokv := (PoolOk_iff_view cfg _).1 hok
    -- the invariants of the chain afterwards, and where the region lies
    have key : PoolOk cfg chain1 ∧ BlocksDisjoint chain1 ∧
        (∀ v ∈ pool_view (h :: rest),
          regions_disjoint (p + s, round_up size cfg.WORD_ALIGN) (v.1, v.2.2)) ∧
        (∀ r : Nat × Nat, (∀ v ∈ pool_view chain1, regions_disjoint r (v.1, v.2.2)) →
          regions_disjoint (p + s, round_up size cfg.WORD_ALIGN) r ∧
          ∀ v ∈ pool_view (h :: rest), regions_disjoint r (v.1, v.2.2)) := by
      rcases hcase with ⟨others, hp0, hp1⟩ | ⟨_, rfl, ⟨a, bytes, hma, hlo, hhi⟩, hp1⟩
      · have hd0 := BlocksDisjoint_perm _ _ hp0 hdis
        rw [List.pairwise_cons] at hd0
        have hmem0 : ∀ v, v ∈ pool_view (h :: rest) ↔ v ∈ (p, P, s) :: others :=
          fun v => hp0.mem_iff
        have hmem1 : ∀ v, v ∈ pool_view chain1 ↔
            v ∈ (p, P, s + round_up size cfg.WORD_ALIGN) :: others :=
          fun v => hp1.mem_iff
        refine ⟨?_, ?_, ?_, ?_⟩
        · rw [PoolOk_iff_view]
          intro v hv
          rcases List.mem_cons.1 ((hmem1 v).1 hv) with rfl | hv
          · exact ⟨hfit, hP0, hPU⟩
          · exact hokv v ((hmem0 v).2 (List.mem_cons_of_mem _ hv))
        · refine BlocksDisjoint_perm _ _ hp1.symm ?_
          rw [List.pairwise_cons]
          exact ⟨hd0.1, hd0.2⟩
        · intro v hv
          rcases List.mem_cons.1 ((hmem0 v).1 hv) with rfl | hv1
          · unfold regions_disjoint; simp only; omega
          · have h1 := hd0.1 v hv1
            have h2 := (hokv v hv).1
            unfold regions_disjoint at h1 ⊢
            simp only at h1 h2 ⊢
            omega
        · intro r hr
          have h0 := hr (p, P, s + round_up size cfg.WORD_ALIGN)
            ((hmem1 _).2 (List.mem_cons_self _ _))
          refine ⟨?_, ?_⟩
          · unfold regions_disjoint at h0 ⊢
            simp only at h0 ⊢
            omega
          · intro v hv
            rcases List.mem_cons.1 ((hmem0 v).1 hv) with rfl | hv1
            · unfold regions_disjoint at h0 ⊢
              simp only at h0 ⊢
              omega
            · exact hr v ((hmem1 v).2 (List.mem_cons_of_mem _ hv1))
      · have hfr : ∀ v ∈ pool_view (h :: rest), regions_disjoint (p, P) (v.1, v.2.1) := by
          intro v hv
          obtain ⟨b, hb, rfl⟩ := List.mem_map.1 hv
          have h1 := hfresh (h :: rest) bytes a hma b hb
          unfold regions_disjoint at h1 ⊢
          simp only at h1 ⊢
          omega
        have hmem1 : ∀ v, v ∈ pool_view chain1 ↔
            v ∈ (p, P, round_up size cfg.WORD_ALIGN) :: pool_view (h :: rest) :=
          fun v => hp1.mem_iff
        refine ⟨?_, ?_, ?_, ?_⟩
        · rw [PoolOk_iff_view]
          intro v hv
          rcases List.mem_cons.1 ((hmem1 v).1 hv) with rfl | hv
          · exact ⟨by simpa using hfit, hP0, hPU⟩
          · exact hokv v hv
        · refine BlocksDisjoint_perm _ _ hp1.symm ?_
          rw [List.pairwise_cons]
          exact ⟨fun v hv => hfr v hv, hdis⟩
        · intro v hv
          have h1 := hfr v hv
          have h2 := (hokv v hv).1
          unfold regions_disjoint at h1 ⊢
          simp only at h1 h2 ⊢
          omega
        · intro r hr
          have h0 := hr (p, P, round_up size cfg.WORD_ALIGN)
            ((hmem1 _).2 (List.mem_cons_self _ _))
          refine ⟨?_, ?_⟩
          · unfold regions_disjoint at h0 ⊢
            simp only at h0 ⊢
            omega
          · intro v hv
            exact hr v ((hmem1 v).2 (List.mem_cons_of_mem _ hv))
    obtain ⟨hok1, hdis1, hreg, hlater⟩ := key
    obtain ⟨h1, rest1, rfl, hle1, hne1⟩ := hhead
    have hgb1 : h1.grow_size * 2 ^ reqs.length ≤ B :=
      le_trans (Nat.mul_le_mul_right _ hle1) (by rw [Nat.mul_comm 2]; exact hpow)
    obtain ⟨regions, chain2, hrun, hpair, havoid, hok2, hlen⟩ :=
      smpool_run_disjoint cfg malloc m B hW hU hS hm hB hfresh hmem reqs (h1 :: rest1) hpos1
        hok1 hdis1 ⟨h1, rest1, rfl, hne1 hgr, hgb1⟩
    refine ⟨(p + s, round_up size cfg.WORD_ALIGN) :: regions, chain2, ?_, ?_, ?_, hok2,
      by simp [hlen]⟩
    · unfold smpool_run
      rw [heq]
      simp only [hrun, Option.map_some']
    · rw [List.pairwise_cons]
      exact ⟨fun r hr => (hlater r (havoid r hr)).1, hpair⟩
    · intro r hr
      rcases List.mem_cons.1 hr with rfl | hr
      · exact hreg
      · exact (hlater r (havoid r hr)).2

theorem round_up_lt_add (x a : Nat) (ha : 0 < a) : round_up x a < x + a := by
  rw [round_up_eq x a ha]
  have h1 := Nat.div_add_mod x a
  have h2 := Nat.mod_lt x ha
  split_ifs with h
  · rw [Nat.add_mul, Nat.one_mul, Nat.mul_comm]
    omega
  · omega

theorem malloc_behind_foldl (chain : List SMEM_POOL) : ∀ acc : Nat,
    acc ≤ chain.foldl (fun a b => max a (b.ppool + b.mem_pool_size + END_BOUND_BYTE)) acc ∧
      ∀ b ∈ chain, b.ppool + b.mem_pool_size + END_BOUND_BYTE ≤
        chain.foldl (fun a b => max a (b.ppool + b.mem_pool_size + END_BOUND_BYTE)) acc := by
  induction chain with
  | nil => intro acc; exact ⟨Nat.le_refl _, fun b hb => by cases hb⟩
  | cons c rest ih =>
    intro acc
    obtain ⟨h1, h2⟩ := ih (max acc (c.ppool + c.mem_pool_size + END_BOUND_BYTE))
    simp only [List.foldl_cons]
    refine ⟨le_trans (le_max_left _ _) h1, ?_⟩
    intro b hb
    rcases List.mem_cons.1 hb with rfl | hb
    · exact le_trans (le_max_right _ _) h1
    · exact h2 b hb

theorem malloc_behind_fresh : MallocFresh malloc_behind := by
  intro chain n a ha b hb
  unfold malloc_behind at ha
  simp only [Option.some.injEq] at ha
  subst ha
  have := (malloc_behind_foldl chain 1000).2 b hb
  exact Or.inr (by show b.ppool + b.mem_pool_size ≤ _; omega)

/-- A pool that `smpool_create_handle` returns for a size that fits `INT`
with the header and the boundary bytes. -/
theorem smpool_create_handle_fits (cfg : PoolCfg) (malloc : Nat → Option Nat) (size m a : Nat)
    (hW : 0 < cfg.WORD_ALIGN) (hU : 31 ≤ cfg.ULONG_BITS) (hS : 31 ≤ cfg.SIZE_T_BITS)
    (hm : new_mem_pool_size_mp cfg = (m : Int)) (hs : 0 < size)
    (hfit : m + size + END_BOUND_BYTE < 2 ^ 31)
    (ha : malloc (m + size + END_BOUND_BYTE) = some a) :
    smpool_create_handle cfg malloc size .MEM_COMM =
        some [⟨a + m, size, 0, size, ((m + size + END_BOUND_BYTE : Nat) : Int)⟩] := by
  have h31U : 2 ^ 31 ≤ 2 ^ cfg.ULONG_BITS := Nat.pow_le_pow_right (by decide) hU
  have hn : size < 2 ^ cfg.ULONG_BITS := lt_of_lt_of_le (lt_of_le_of_lt (by omega) hfit) h31U
  unfold smpool_create_handle
  rw [toULONG_of_lt cfg size hn, new_mem_pool_fits cfg malloc size m a hW hU hS hm hfit ha]
  simp [hs.ne']

/-- C40 (amended; `smpool_create_handle`, `smpool_malloc_h`, `new_mem_pool`):
a pool of `size > 0` bytes that `smpool_create_handle` creates, when `size`
with the header and the boundary bytes fits `INT` and `malloc` returns
memory, is one block with `start_pos == 0`, `pool_size == size > 0` and
`grow_size == size`.  On a chain whose blocks all have `start_pos <=
pool_size` and `0 < pool_size`, a request with `size > 0` whose rounding up
to `WORD_ALIGN` does not wrap around `ULONG` returns the address `p + s` of
a region of `size` rounded up, provided that, when no block has that much
room, the growth (`grow_size`, or twice the handler's `grow_size` as a
`UINT` when it is zero) is not zero, the size of the new block does not wrap
around and `new_mem_pool` gets its memory: either `s` is the previous
`start_pos` of a block at `p` with capacity `P` of the chain, the region
ends inside that capacity, and the chain afterwards has the same blocks
except that this one has `start_pos` moved behind the region; or the block
is a new one with `s = 0` and the old blocks are all unchanged.  The blocks
afterwards obey the assertions again and the handler keeps a non-zero
`grow_size`.  When the sizes rounded up, the values of `grow_size` and the
handler's `grow_size` doubled once per call stay below a bound `B` such that
a block of `2 * B` bytes fits `INT`, the memory of the blocks is pairwise
disjoint and `malloc` returns fresh memory, any sequence of requests with
`size > 0` returns as many regions, pairwise disjoint. -/
theorem smpool_malloc_h_invariants (cfg : PoolCfg)
    (malloc : List SMEM_POOL → Nat → Option Nat) (hW : 0 < cfg.WORD_ALIGN) :
    (∀ m size a : Nat, 31 ≤ cfg.ULONG_BITS → 31 ≤ cfg.SIZE_T_BITS →
      new_mem_pool_size_mp cfg = (m : Int) → 0 < size →
      m + size + END_BOUND_BYTE < 2 ^ 31 →
      malloc [] (m + size + END_BOUND_BYTE) = some a →
      ∃ b, smpool_create_handle cfg (malloc []) size .MEM_COMM = some [b] ∧
        b.ppool = a + m ∧ b.mem_pool_size = size ∧ b.start_pos = 0 ∧ b.grow_size = size ∧
        PoolOk cfg [b] ∧ BlocksDisjoint [b]) ∧
    (∀ h rest, PoolOk cfg (h :: rest) → ∀ size grow, 0 < size →
      round_up size cfg.WORD_ALIGN < 2 ^ cfg.ULONG_BITS →
      (NoRoom (round_up size cfg.WORD_ALIGN) (h :: rest) →
        pool_growth cfg h grow ≠ 0 ∧
        pool_new_size (round_up size cfg.WORD_ALIGN) (pool_growth cfg h grow) <
          2 ^ cfg.ULONG_BITS ∧
        ∃ blk, new_mem_pool cfg (malloc (h :: rest))
          (pool_new_size (round_up size cfg.WORD_ALIGN) (pool_growth cfg h grow)) =
            some blk) →
      ∃ p P s chain1,
        smpool_malloc_h cfg (malloc (h :: rest)) size (h :: rest) grow =
          some (some (p + s), chain1) ∧
        cfg.WORD_ALIGN ∣ round_up size cfg.WORD_ALIGN ∧
        size ≤ round_up size cfg.WORD_ALIGN ∧
        round_up size cfg.WORD_ALIGN < size + cfg.WORD_ALIGN ∧
        s + round_up size cfg.WORD_ALIGN ≤ P ∧ PoolOk cfg chain1 ∧
        ((∃ others, List.Perm (pool_view (h :: rest)) ((p, P, s) :: others) ∧
            List.Perm (pool_view chain1)
              ((p, P, s + round_up size cfg.WORD_ALIGN) :: others)) ∨
          (s = 0 ∧ List.Perm (pool_view chain1)
              ((p, P, round_up size cfg.WORD_ALIGN) :: pool_view (h :: rest)))) ∧
        ∃ h1 rest1, chain1 = h1 :: rest1 ∧ (h.grow_size ≠ 0 → h1.grow_size ≠ 0)) ∧
    (∀ (m : Nat) h rest B, 31 ≤ cfg.ULONG_BITS → 31 ≤ cfg.SIZE_T_BITS →
      new_mem_pool_size_mp cfg = (m : Int) → PoolOk cfg (h :: rest) →
      BlocksDisjoint (h :: rest) → h.grow_size ≠ 0 →
      m + 2 * B + END_BOUND_BYTE < 2 ^ 31 → MallocFresh malloc →
      (∀ chain n, n < 2 ^ 31 → ∃ a, malloc chain n = some a) →
      ∀ reqs : List (Nat × Nat),
        (∀ q ∈ reqs, 0 < q.1 ∧ round_up q.1 cfg.WORD_ALIGN ≤ B ∧ q.2 ≤ B) →
        h.grow_size * 2 ^ reqs.length ≤ B →
        ∃ regions chain1,
          smpool_run cfg malloc reqs (h :: rest) = some (regions, chain1) ∧
          regions.length = reqs.length ∧ regions.Pairwise regions_disjoint ∧
          PoolOk cfg chain1) := by
  refine ⟨?_, ?_, ?_⟩
  · intro m size a hU hS hm hs hfit ha
    have h31U : 2 ^ 31 ≤ 2 ^ cfg.ULONG_BITS := Nat.pow_le_pow_right (by decide) hU
    refine ⟨_, smpool_create_handle_fits cfg (malloc []) size m a hW hU hS hm hs hfit ha,
      rfl, rfl, rfl, rfl, ?_, ?_⟩
    · intro b hb
      rw [List.mem_singleton] at hb
      subst hb
      have hle : size ≤ m + size + END_BOUND_BYTE := by omega
      exact ⟨Nat.zero_le _, hs, lt_of_lt_of_le (lt_of_le_of_lt hle hfit) h31U⟩
    · unfold BlocksDisjoint pool_view
      simp
  · intro h rest hok size grow hs hr hg
    obtain ⟨p, P, s, chain1, heq, hfit, hP0, hPU, hcase, h1, rest1, hc1, _, hne⟩ :=
      smpool_malloc_h_step cfg (malloc (h :: rest)) size grow h rest hW hs hr hok hg
    have hokv := (PoolOk_iff_view cfg _).1 hok
    refine ⟨p, P, s, chain1, heq, (round_up_least size _ hW).1, (round_up_least size _ hW).2.1,
      round_up_lt_add size _ hW, hfit, ?_, ?_, h1, rest1, hc1, hne⟩
    · rw [PoolOk_iff_view]
      intro v hv
      rcases hcase with ⟨others, hp0, hp1⟩ | ⟨_, rfl, _, hp1⟩
      · rcases List.mem_cons.1 (hp1.mem_iff.1 hv) with rfl | hv1
        · exact ⟨hfit, hP0, hPU⟩
        · exact hokv v (hp0.mem_iff.2 (List.mem_cons_of_mem _ hv1))
      · rcases List.mem_cons.1 (hp1.mem_iff.1 hv) with rfl | hv1
        · exact ⟨by simpa using hfit, hP0, hPU⟩
        · exact hokv v hv1
    · rcases hcase with hc | ⟨_, hs0, _, hp1⟩
      · exact Or.inl hc
      · exact Or.inr ⟨hs0, hp1⟩
  · intro m h rest B hU hS hm hok hdis hg hB hfresh hmem reqs hpos hgb
    obtain ⟨regions, chain1, hrun, hpair, _, hok1, hlen⟩ :=
      smpool_run_disjoint cfg malloc m B hW hU hS hm hB hfresh hmem reqs (h :: rest) hpos hok
        hdis ⟨h, rest, rfl, hg, hgb⟩
    exact ⟨regions, chain1, hrun, hlen, hpair, hok1⟩

theorem smpool_malloc_h_invariants_witness :
    smpool_create_handle pool_cfg32 (malloc_behind []) 16 .MEM_COMM =
        some [⟨1032, 16, 0, 16, 52⟩] ∧
      smpool_malloc_h pool_cfg32 (malloc_behind [⟨1032, 16, 0, 16, 52⟩]) 6
          [⟨1032, 16, 0, 16, 52⟩] 0 =
        some (some 1032, [⟨1032, 16, 8, 16, 52⟩]) ∧
      smpool_run pool_cfg32 malloc_behind [(6, 0), (1, 0), (40, 0)] [⟨1032, 16, 0, 16, 52⟩] =
        some ([(1032, 8), (1040, 4), (1084, 40)],
          [⟨1032, 16, 12, 32, 52⟩, ⟨1084, 64, 40, 64, 100⟩]) ∧
      ∃ regions chain1,
        smpool_run pool_cfg32 malloc_behind [(6, 0), (1, 0), (40, 0)]
            [⟨1032, 16, 0, 16, 52⟩] = some (regions, chain1) ∧
        regions.length = 3 ∧ regions.Pairwise regions_disjoint ∧ PoolOk pool_cfg32 chain1 :=
  ⟨by decide, by decide, by decide,
    (smpool_malloc_h_invariants pool_cfg32 malloc_behind (by decide)).2.2 32
      ⟨1032, 16, 0, 16, 52⟩ [] 128 (by decide) (by decide) (by decide)
      (by unfold PoolOk; decide)
      (by unfold BlocksDisjoint pool_view regions_disjoint; decide) (by decide) (by decide)
      malloc_behind_fresh (fun _ _ _ => ⟨_, rfl⟩)
      [(6, 0), (1, 0), (40, 0)] (by decide) (by decide)⟩

/-- C40, as stated, fails on the pool of 16 bytes that `smpool_create_handle`
creates, all of whose blocks have `start_pos <= pool_size`.  A request of
`2^32 - 1` bytes with `ULONG` of 32 bits rounds up to `2^32`, which wraps
around to zero: the call returns the address of the block and reserves
nothing, so the next request gets the same address.  A request that needs a
new block when `malloc` returns null stops at `IS_TRUE(mp)`.  On a pool of
`2^31` bytes that is full, a request with `grow_size == 0` doubles the
handler's `grow_size` into a `UINT`, which wraps around to zero, and divides
by it. -/
theorem smpool_malloc_h_wraps :
    smpool_create_handle pool_cfg32 (malloc_behind []) 16 .MEM_COMM =
        some [⟨1032, 16, 0, 16, 52⟩] ∧
      (∀ b ∈ ([⟨1032, 16, 0, 16, 52⟩] : List SMEM_POOL), b.start_pos ≤ b.mem_pool_size) ∧
      round_up 4294967295 4 = 4294967296 ∧
      smpool_malloc_h pool_cfg32 (malloc_behind [⟨1032, 16, 0, 16, 52⟩]) 4294967295
          [⟨1032, 16, 0, 16, 52⟩] 0 =
        some (some 1032, [⟨1032, 16, 0, 16, 52⟩]) ∧
      smpool_malloc_h pool_cfg32 (malloc_behind [⟨1032, 16, 0, 16, 52⟩]) 4
          [⟨1032, 16, 0, 16, 52⟩] 0 =
        some (some 1032, [⟨1032, 16, 4, 16, 52⟩]) ∧
      ¬ regions_disjoint (1032, round_up 4294967295 4) (1032, round_up 4 4) ∧
      smpool_malloc_h pool_cfg32 (malloc_once [⟨1032, 16, 0, 16, 52⟩]) 20
          [⟨1032, 16, 0, 16, 52⟩] 0 = none ∧
      smpool_create_handle pool_cfg32 (malloc_behind []) 2147483648 .MEM_COMM =
        some [⟨1032, 2147483648, 0, 2147483648, -2147483612⟩] ∧
      smpool_malloc_h pool_cfg32 (malloc_behind []) 2147483648
          [⟨1032, 2147483648, 0, 2147483648, -2147483612⟩] 0 =
        some (some 1032, [⟨1032, 2147483648, 2147483648, 2147483648, -2147483612⟩]) ∧
      smpool_malloc_h pool_cfg32 (malloc_behind []) 4
          [⟨1032, 2147483648, 2147483648, 2147483648, -2147483612⟩] 0 = none := by
  refine ⟨by decide, by decide, by decide, by decide, by decide,
    by unfold regions_disjoint; decide, by decide, by decide, by decide, by decide⟩


/-! ### The tag registry -/

theorem is_struct_type_exist_found (heap : List Aggr) (tag : String) (s : Nat) :
    ∀ l : List Nat, is_struct_type_exist heap l (some tag) = some (some s) →
      s ∈ l ∧ ∃ a, heap[s]? = some a ∧ AGGR_tag a = some tag
  | [], h => by simp [is_struct_type_exist] at h
  | p :: rest, h => by
    unfold is_struct_type_exist at h
    cases hp : heap[p]? with
    | none => simp [hp] at h
    | some st =>
      simp only [hp] at h
      cases ht : AGGR_tag st with
      | none =>
        simp only [ht] at h
        obtain ⟨h1, h2⟩ := is_struct_type_exist_found heap tag s rest h
        exact ⟨List.mem_cons_of_mem _ h1, h2⟩
      | some sym =>
        simp only [ht] at h
        split_ifs at h with heq
        · simp only [Option.some.injEq] at h
          subst h
          exact ⟨List.mem_cons_self _ _, st, hp, by rw [ht, heq]⟩
        · obtain ⟨h1, h2⟩ := is_struct_type_exist_found heap tag s rest h
          exact ⟨List.mem_cons_of_mem _ h1, h2⟩

theorem is_struct_exist_in_outer_scope_loop_found (heap : List Aggr) (tag : String) (s : Nat) :
    ∀ scopes : List Scope,
      is_struct_exist_in_outer_scope_loop heap scopes (some tag) = some (some s) →
      ∃ a, heap[s]? = some a ∧ AGGR_tag a = some tag
  | [], h => by simp [is_struct_exist_in_outer_scope_loop] at h
  | sc :: parents, h => by
    unfold is_struct_exist_in_outer_scope_loop at h
    cases hl : is_struct_type_exist heap sc.struct_list (some tag) with
    | none => simp [hl] at h
    | some r =>
      cases r with
      | none =>
        simp only [hl] at h
        exact is_struct_exist_in_outer_scope_loop_found heap tag s parents h
      | some s1 =>
        simp only [hl, Option.some.injEq] at h
        subst h
        exact (is_struct_type_exist_found heap tag s1 _ hl).2

theorem is_struct_exist_in_outer_scope_found (heap : List Aggr) (tag : String) (s : Nat)
    (scopes : List Scope)
    (h : is_struct_exist_in_outer_scope heap scopes (some tag) = some (some s)) :
    ∃ a, heap[s]? = some a ∧ AGGR_tag a = some tag := by
  cases scopes with
  | nil => simp [is_struct_exist_in_outer_scope] at h
  | cons sc parents =>
    exact is_struct_exist_in_outer_scope_loop_found heap tag s _ h

/-- A body for a struct that a lookup from the current scope finds complete:
the diagnostic of a redefinition, and nothing else changes. -/
theorem type_spec_struct_redefined (SDL : FieldParser) (ga des : Nat) (sty : Option Nat)
    (R : TagReg) (st : PState) (tag : String) (rest : List Lexeme) (s : Nat) (a : Aggr)
    (htoks : st.toks = tk .T_STRUCT :: tk_id tag :: tk .T_LLPAREN :: rest)
    (hlegal : struct_spec_legal des)
    (hfind : is_struct_exist_in_outer_scope R.heap R.scopes (some tag) = some (some s))
    (ha : R.heap[s]? = some a) (hc : AGGR_is_complete a = true) :
    type_spec_struct SDL ga des sty R st =
      .ok (des ||| T_SPEC_STRUCT) sty R
        (err (st.setToks (tk .T_LLPAREN :: rest)) ("struct '" ++ tag ++ "' redefined")) := by
  obtain ⟨a1, ha1, htag⟩ := is_struct_exist_in_outer_scope_found _ _ _ _ hfind
  rw [ha] at ha1
  obtain rfl : a = a1 := by simpa using ha1
  have h1 : (match_tok st .T_STRUCT).2 = st.setToks (tk_id tag :: tk .T_LLPAREN :: rest) := by
    simp [match_tok, g_real_token, htoks, tk, PState.setToks]
  have h2 : type_spec_struct_tag R (st.setToks (tk_id tag :: tk .T_LLPAREN :: rest)) =
      some (some s, R, st.setToks (tk .T_LLPAREN :: rest)) := by
    simp [type_spec_struct_tag, g_real_token, g_real_token_string, PState.setToks, tk_id,
      match_tok, hfind]
  unfold type_spec_struct
  simp only [h1, hlegal _, ne_eq, not_true_eq_false, if_false, h2]
  have h3 : g_real_token (st.setToks (tk .T_LLPAREN :: rest)) = .T_LLPAREN := rfl
  simp [h3, ha, hc, htag]


/-- C31 (amended; `type_spec_struct`, `is_struct_exist_in_outer_scope`): when
a scope that encloses the current one holds a complete `struct T` and the
current scope holds no `T`, the definition `struct T {` in the current scope
is answered by the diagnostic `struct 'T' redefined`; the specifier gets the
flag `T_SPEC_STRUCT` and keeps its struct pointer, no aggregate is allocated
or registered, and the lookup from the current scope and the lookup from the
enclosing scope both return the aggregate of the enclosing scope. -/
theorem type_spec_struct_inner_redefined (SDL : FieldParser) (ga des : Nat)
    (sty : Option Nat) (heap : List Aggr) (inner : Scope) (outer : List Scope)
    (st : PState) (tag : String) (rest : List Lexeme) (s : Nat) (a : Aggr)
    (htoks : st.toks = tk .T_STRUCT :: tk_id tag :: tk .T_LLPAREN :: rest)
    (hlegal : struct_spec_legal des)
    (hinner : is_struct_type_exist heap inner.struct_list (some tag) = some none)
    (houter : is_struct_exist_in_outer_scope heap outer (some tag) = some (some s))
    (ha : heap[s]? = some a) (hc : AGGR_is_complete a = true) :
    ∃ R1 st1,
      type_spec_struct SDL ga des sty ⟨inner :: outer, heap⟩ st =
        .ok (des ||| T_SPEC_STRUCT) sty R1 st1 ∧
      st1.errs = st.errs ++ ["struct '" ++ tag ++ "' redefined"] ∧
      R1.heap = heap ∧ R1.scopes = inner :: outer ∧
      is_struct_exist_in_outer_scope R1.heap R1.scopes (some tag) = some (some s) ∧
      is_struct_exist_in_outer_scope R1.heap R1.scopes.tail (some tag) = some (some s) := by
  have hfind : is_struct_exist_in_outer_scope heap (inner :: outer) (some tag) =
      some (some s) := by
    cases outer with
    | nil => simp [is_struct_exist_in_outer_scope] at houter
    | cons sc parents =>
      simp only [is_struct_exist_in_outer_scope] at houter ⊢
      rw [is_struct_exist_in_outer_scope_loop, hinner]
      exact houter
  refine ⟨_, _, type_spec_struct_redefined SDL ga des sty ⟨inner :: outer, heap⟩ st tag rest
    s a htoks hlegal hfind ha hc, rfl, rfl, rfl, hfind, houter⟩

theorem type_spec_struct_inner_redefined_witness :
    ∃ R1 st1,
      type_spec_struct sample_field_reader 4 0 none reg_T_outer (st_of toks_struct_T_body) =
        .ok (0 ||| T_SPEC_STRUCT) none R1 st1 ∧
      st1.errs = (st_of toks_struct_T_body).errs ++ ["struct '" ++ "T" ++ "' redefined"] ∧
      R1.heap = [struct_T_complete] ∧ R1.scopes = [⟨[]⟩, ⟨[0]⟩] ∧
      is_struct_exist_in_outer_scope R1.heap R1.scopes (some "T") = some (some 0) ∧
      is_struct_exist_in_outer_scope R1.heap R1.scopes.tail (some "T") = some (some 0) :=
  type_spec_struct_inner_redefined sample_field_reader 4 0 none [struct_T_complete] ⟨[]⟩
    [⟨[0]⟩] (st_of toks_struct_T_body) "T" _ 0 struct_T_complete rfl (fun _ => rfl) rfl rfl
    rfl rfl

/-- C31, as stated, fails: with a complete `struct T` in the enclosing scope,
`struct T { int b; } x;` in the inner scope gets the diagnostic
`struct 'T' redefined`, the inner scope registers nothing and no aggregate is
allocated, and the lookup from the inner scope returns the aggregate of the
enclosing scope. -/
theorem type_spec_struct_does_not_shadow :
    type_spec_struct sample_field_reader 4 0 none reg_T_outer (st_of toks_struct_T_body) =
        .ok T_SPEC_STRUCT none reg_T_outer
          ⟨[tk .T_LLPAREN, tk .T_INT, tk_id "b", tk .T_SEMI, tk .T_RLPAREN, tk_id "x",
            tk .T_SEMI], ["struct 'T' redefined"], []⟩ ∧
      reg_T_outer.scopes = [⟨[]⟩, ⟨[0]⟩] ∧ reg_T_outer.heap.length = 1 ∧
      is_struct_exist_in_outer_scope reg_T_outer.heap reg_T_outer.scopes (some "T") =
        some (some 0) ∧
      is_struct_exist_in_outer_scope reg_T_outer.heap reg_T_outer.scopes.tail (some "T") =
        some (some 0) :=
  ⟨rfl, rfl, rfl, rfl, rfl⟩


theorem getElem?_lt_of_some {α : Type} (l : List α) (p : Nat) (a : α) (h : l[p]? = some a) :
    p < l.length := by
  by_contra hn
  rw [List.getElem?_eq_none (by omega)] at h
  cases h

theorem getElem?_append_of_some {α : Type} (l m : List α) (p : Nat) (a : α)
    (h : l[p]? = some a) : (l ++ m)[p]? = some a := by
  rw [List.getElem?_append_left (getElem?_lt_of_some l p a h)]
  exact h

theorem set_length_append {α : Type} (x y : α) : ∀ l : List α,
    (l ++ [x]).set l.length y = l ++ [y]
  | [] => rfl
  | a :: l => by
    simp only [List.cons_append, List.length_cons, List.set_cons_succ, set_length_append x y l]

theorem AGGR_is_complete_setDeclList (a : Aggr) (l : List Decl) :
    AGGR_is_complete (a.setDeclList l) = AGGR_is_complete a := by
  cases a; rfl

theorem AGGR_is_complete_setAlign (a : Aggr) (n : Nat) :
    AGGR_is_complete (a.setAlign n) = AGGR_is_complete a := by
  cases a; rfl

theorem AGGR_is_complete_setComplete (a : Aggr) (c : Bool) :
    AGGR_is_complete (a.setComplete c) = c := by
  cases a; rfl

theorem HeapMono_refl (h : List Aggr) : HeapMono h h := fun _ a ha hc => ⟨a, ha, hc⟩

theorem HeapMono_trans (h1 h2 h3 : List Aggr) (h12 : HeapMono h1 h2) (h23 : HeapMono h2 h3) :
    HeapMono h1 h3 := by
  intro p a ha hc
  obtain ⟨a2, ha2, hc2⟩ := h12 p a ha hc
  exact h23 p a2 ha2 hc2

theorem HeapMono_append (h m : List Aggr) : HeapMono h (h ++ m) :=
  fun p a ha hc => ⟨a, getElem?_append_of_some h m p a ha, hc⟩

theorem HeapMono_set (h : List Aggr) (s : Nat) (a a1 : Aggr) (hs : h[s]? = some a)
    (hk : AGGR_is_complete a = true → AGGR_is_complete a1 = true) :
    HeapMono h (h.set s a1) := by
  intro p b hb hc
  have hlt := getElem?_lt_of_some h s a hs
  by_cases hp : s = p
  · subst hp
    rw [hs] at hb
    obtain rfl : a = b := by simpa using hb
    exact ⟨a1, by rw [List.getElem?_set]; simp [hlt], hk hc⟩
  · exact ⟨b, by rw [List.getElem?_set]; simp [hp, hb], hc⟩

theorem type_spec_struct_tag_mono (R : TagReg) (st : PState) (s : Option Nat) (R1 : TagReg)
    (st1 : PState) (h : type_spec_struct_tag R st = some (s, R1, st1)) :
    HeapMono R.heap R1.heap := by
  unfold type_spec_struct_tag at h
  split_ifs at h with h1
  · cases hl : is_struct_exist_in_outer_scope R.heap R.scopes (some (g_real_token_string st)) with
    | none => simp [hl] at h
    | some r =>
      cases r with
      | some s1 =>
        simp only [hl, Option.some.injEq, Prod.mk.injEq] at h
        obtain ⟨_, rfl, _⟩ := h
        exact HeapMono_refl _
      | none =>
        simp only [hl] at h
        cases hsc : R.scopes with
        | nil => simp [hsc] at h
        | cons cur parents =>
          simp only [hsc, Option.some.injEq, Prod.mk.injEq] at h
          obtain ⟨_, rfl, _⟩ := h
          exact HeapMono_append _ _
  · simp only [Option.some.injEq, Prod.mk.injEq] at h
    obtain ⟨_, rfl, _⟩ := h
    exact HeapMono_refl _

theorem type_spec_struct_field_mono (SDL : FieldParser)
    (hSDL : ∀ R0 st0, HeapMono R0.heap (SDL R0 st0).2.1.heap) (s : Nat) (R : TagReg)
    (st : PState) (R1 : TagReg) (st1 : PState)
    (h : type_spec_struct_field SDL s R st = some (R1, st1)) : HeapMono R.heap R1.heap := by
  unfold type_spec_struct_field at h
  simp only at h
  have h0 := hSDL (push_scope R) (match_tok st .T_LLPAREN).2
  generalize SDL (push_scope R) (match_tok st .T_LLPAREN).2 = r at h h0
  have h00 : HeapMono R.heap (pop_scope r.2.1).heap := h0
  generalize (if r.1.isEmpty = true then [new_var_decl "#placeholder"] else r.1) = dl at h
  cases ha : (pop_scope r.2.1).heap[s]? with
  | none => simp [ha] at h
  | some a =>
    simp only [ha] at h
    by_cases hm : (match_tok r.2.2 .T_RLPAREN).1 = .ST_SUCC
    · simp only [hm, ne_eq, not_true_eq_false, if_false, Option.some.injEq,
        Prod.mk.injEq] at h
      obtain ⟨rfl, _⟩ := h
      exact HeapMono_trans _ _ _ h00
        (HeapMono_set _ s a _ ha (fun _ => AGGR_is_complete_setComplete _ _))
    · simp only [hm, ne_eq, not_false_eq_true, if_true, Option.some.injEq,
        Prod.mk.injEq] at h
      obtain ⟨rfl, _⟩ := h
      exact HeapMono_trans _ _ _ h00
        (HeapMono_set _ s a _ ha (by rw [AGGR_is_complete_setDeclList]; exact id))

theorem type_spec_struct_fin_mono (ga des s : Nat) (R : TagReg) (st : PState) (des1 : Nat)
    (sty1 : Option Nat) (R1 : TagReg) (st1 : PState)
    (h : type_spec_struct_fin ga des s R st = .ok des1 sty1 R1 st1) :
    HeapMono R.heap R1.heap := by
  unfold type_spec_struct_fin at h
  cases ha : R.heap[s]? with
  | none => simp [ha] at h
  | some a =>
    simp only [ha, SRes.ok.injEq] at h
    obtain ⟨_, _, rfl, _⟩ := h
    exact HeapMono_set _ s a _ ha (by rw [AGGR_is_complete_setAlign]; exact id)

/-- A struct that is complete stays complete through `type_spec_struct`, when
it does through the parser of the fields. -/
theorem type_spec_struct_mono (SDL : FieldParser)
    (hSDL : ∀ R0 st0, HeapMono R0.heap (SDL R0 st0).2.1.heap) (ga des : Nat)
    (sty : Option Nat) (R : TagReg) (st : PState) (des1 : Nat) (sty1 : Option Nat)
    (R1 : TagReg) (st1 : PState)
    (h : type_spec_struct SDL ga des sty R st = .ok des1 sty1 R1 st1) :
    HeapMono R.heap R1.heap := by
  unfold type_spec_struct at h
  simp only at h
  generalize ck_type_spec_legally (.mk (des ||| T_SPEC_STRUCT) none none none)
    (match_tok st .T_STRUCT).2 = ck at h
  by_cases hck : ck.1 = .ST_SUCC
  · simp only [hck, ne_eq, not_true_eq_false, if_false] at h
    cases ht : type_spec_struct_tag R ck.2 with
    | none => simp [ht] at h
    | some r =>
      obtain ⟨s, R2, st3⟩ := r
      have hm1 := type_spec_struct_tag_mono R ck.2 s R2 st3 ht
      simp only [ht] at h
      by_cases hb : g_real_token st3 = .T_LLPAREN
      · rw [if_pos hb] at h
        have hm2 : HeapMono R2.heap
            (if s.isSome then R2 else
              { R2 with heap := R2.heap ++ [.mk none [] false 0 0 0] } : TagReg).heap := by
          cases s with
          | none => exact HeapMono_append _ _
          | some s0 => exact HeapMono_refl _
        generalize (if s.isSome then R2 else
          { R2 with heap := R2.heap ++ [.mk none [] false 0 0 0] } : TagReg) = R3 at h hm2
        generalize s.getD R2.heap.length = s1 at h
        cases ha : R3.heap[s1]? with
        | none => simp [ha] at h
        | some a =>
          simp only [ha] at h
          by_cases hc : AGGR_is_complete a = true
          · rw [if_pos hc] at h
            cases htag : AGGR_tag a with
            | none => simp [htag] at h
            | some tag =>
              simp only [htag, SRes.ok.injEq] at h
              obtain ⟨_, _, rfl, _⟩ := h
              exact HeapMono_trans _ _ _ hm1 hm2
          · rw [if_neg hc] at h
            cases hf : type_spec_struct_field SDL s1 R3 st3 with
            | none => simp [hf] at h
            | some r2 =>
              obtain ⟨R4, st4⟩ := r2
              simp only [hf] at h
              exact HeapMono_trans _ _ _ hm1 (HeapMono_trans _ _ _ hm2
                (HeapMono_trans _ _ _ (type_spec_struct_field_mono SDL hSDL s1 R3 st3 R4 st4 hf)
                  (type_spec_struct_fin_mono _ _ _ _ _ _ _ _ _ h)))
      · rw [if_neg hb] at h
        cases s with
        | none =>
          simp only [SRes.ok.injEq] at h
          obtain ⟨_, _, rfl, _⟩ := h
          exact hm1
        | some s1 =>
          simp only at h
          exact HeapMono_trans _ _ _ hm1 (type_spec_struct_fin_mono _ _ _ _ _ _ _ _ _ h)
  · simp only [hck, ne_eq, not_false_eq_true, if_true, SRes.ok.injEq] at h
    obtain ⟨_, _, rfl, _⟩ := h
    exact HeapMono_refl _


theorem is_struct_type_exist_append (heap ext : List Aggr) (tag : Option String) :
    ∀ (l : List Nat) (r : Option Nat), is_struct_type_exist heap l tag = some r →
      is_struct_type_exist (heap ++ ext) l tag = some r
  | l, r, h => by
    cases tag with
    | none =>
      cases l <;> simpa [is_struct_type_exist] using h
    | some t =>
      cases l with
      | nil => simpa [is_struct_type_exist] using h
      | cons p rest =>
        unfold is_struct_type_exist at h ⊢
        cases hp : heap[p]? with
        | none => simp [hp] at h
        | some st =>
          rw [getElem?_append_of_some heap ext p st hp]
          simp only [hp] at h
          simp only
          cases ht : AGGR_tag st with
          | none =>
            simp only [ht] at h ⊢
            exact is_struct_type_exist_append heap ext (some t) rest r h
          | some sym =>
            simp only [ht] at h ⊢
            split_ifs at h ⊢ with heq
            · exact h
            · exact is_struct_type_exist_append heap ext (some t) rest r h
termination_by l => l.length

theorem is_struct_type_exist_list_append (heap : List Aggr) (tag : String) (l2 : List Nat) :
    ∀ l1 : List Nat, is_struct_type_exist heap l1 (some tag) = some none →
      is_struct_type_exist heap (l1 ++ l2) (some tag) =
        is_struct_type_exist heap l2 (some tag)
  | [], _ => rfl
  | p :: rest, h => by
    rw [List.cons_append]
    generalize hr : is_struct_type_exist heap l2 (some tag) = rhs
    unfold is_struct_type_exist at h ⊢
    cases hp : heap[p]? with
    | none => simp [hp] at h
    | some st =>
      simp only [hp] at h ⊢
      cases ht : AGGR_tag st with
      | none =>
        simp only [ht] at h ⊢
        rw [← hr]
        exact is_struct_type_exist_list_append heap tag l2 rest h
      | some sym =>
        simp only [ht] at h ⊢
        split_ifs at h ⊢ with heq
        · simp at h
        · rw [← hr]
          exact is_struct_type_exist_list_append heap tag l2 rest h

theorem is_struct_exist_in_outer_scope_none_cur (heap : List Aggr) (cur : Scope)
    (parents : List Scope) (tag : String)
    (h : is_struct_exist_in_outer_scope heap (cur :: parents) (some tag) = some none) :
    is_struct_type_exist heap cur.struct_list (some tag) = some none := by
  simp only [is_struct_exist_in_outer_scope] at h
  unfold is_struct_exist_in_outer_scope_loop at h
  cases hl : is_struct_type_exist heap cur.struct_list (some tag) with
  | none => simp [hl] at h
  | some r =>
    cases r with
    | none => rfl
    | some s => simp [hl] at h

/-- The first reference `struct T` without a body, when no scope from the
current one outwards holds `T`: an incomplete struct is allocated and
registered in the current scope. -/
theorem type_spec_struct_first_reference (SDL : FieldParser) (ga des : Nat)
    (sty : Option Nat) (R : TagReg) (st : PState) (tag : String) (next : Lexeme)
    (rest : List Lexeme) (cur : Scope) (parents : List Scope)
    (htoks : st.toks = tk .T_STRUCT :: tk_id tag :: next :: rest)
    (hnext : next.tok ≠ .T_LLPAREN) (hlegal : struct_spec_legal des)
    (hsc : R.scopes = cur :: parents)
    (hfind : is_struct_exist_in_outer_scope R.heap R.scopes (some tag) = some none) :
    ∃ R1,
      type_spec_struct SDL ga des sty R st =
        .ok (des ||| T_SPEC_STRUCT) (some R.heap.length) R1 (st.setToks (next :: rest)) ∧
      R1.heap = R.heap ++ [.mk (some tag) [] false ga 0 0] ∧
      R1.scopes = { cur with struct_list := cur.struct_list ++ [R.heap.length] } :: parents ∧
      is_struct_exist_in_outer_scope R1.heap R1.scopes (some tag) =
        some (some R.heap.length) := by
  have h1 : (match_tok st .T_STRUCT).2 = st.setToks (tk_id tag :: next :: rest) := by
    simp [match_tok, g_real_token, htoks, tk, PState.setToks]
  have h2 : type_spec_struct_tag R (st.setToks (tk_id tag :: next :: rest)) =
      some (some R.heap.length,
        ⟨{ cur with struct_list := cur.struct_list ++ [R.heap.length] } :: parents,
          R.heap ++ [.mk (some tag) [] false 0 0 0]⟩,
        st.setToks (next :: rest)) := by
    have hfind1 := hfind
    rw [hsc] at hfind1
    simp [type_spec_struct_tag, g_real_token, g_real_token_string, PState.setToks, tk_id,
      match_tok, hfind1, hsc]
  have h3 : g_real_token (st.setToks (next :: rest)) ≠ .T_LLPAREN := hnext
  have h4 : (R.heap ++ [Aggr.mk (some tag) [] false 0 0 0])[R.heap.length]? =
      some (.mk (some tag) [] false 0 0 0) := by
    simp
  refine ⟨⟨{ cur with struct_list := cur.struct_list ++ [R.heap.length] } :: parents,
    R.heap ++ [.mk (some tag) [] false ga 0 0]⟩, ?_, rfl, rfl, ?_⟩
  · unfold type_spec_struct
    simp only [h1, hlegal _, ne_eq, not_true_eq_false, if_false, h2, if_neg h3,
      type_spec_struct_fin, h4, set_length_append]
    rfl
  · rw [hsc] at hfind
    have h5 := is_struct_exist_in_outer_scope_none_cur _ _ _ _ hfind
    have h6 := is_struct_type_exist_append R.heap [.mk (some tag) [] false ga 0 0] (some tag)
      _ _ h5
    simp only [is_struct_exist_in_outer_scope]
    unfold is_struct_exist_in_outer_scope_loop
    simp only
    rw [is_struct_type_exist_list_append _ _ _ _ h6]
    simp [is_struct_type_exist, AGGR_tag]

/-- A body `struct T { ... }` for a struct that the lookup from the current
scope finds incomplete: the list of the fields, numbered, is written into
that struct and the struct becomes complete. -/
theorem type_spec_struct_completes (SDL : FieldParser) (ga des : Nat) (sty : Option Nat)
    (R : TagReg) (st : PState) (tag : String) (rest : List Lexeme) (s : Nat) (a a2 : Aggr)
    (l : List Decl) (R2 : TagReg) (st2 : PState)
    (htoks : st.toks = tk .T_STRUCT :: tk_id tag :: tk .T_LLPAREN :: rest)
    (hlegal : struct_spec_legal des)
    (hfind : is_struct_exist_in_outer_scope R.heap R.scopes (some tag) = some (some s))
    (ha : R.heap[s]? = some a) (hc : AGGR_is_complete a = false)
    (hsdl : SDL (push_scope R) (st.setToks rest) = (l, R2, st2))
    (ha2 : R2.heap[s]? = some a2) (hclose : g_real_token st2 = .T_RLPAREN) :
    ∃ R1 a1,
      type_spec_struct SDL ga des sty R st =
        .ok (des ||| T_SPEC_STRUCT) (some s) R1 (st2.setToks st2.toks.tail) ∧
      R1.heap[s]? = some a1 ∧ AGGR_is_complete a1 = true ∧
      AGGR_decl_list a1 =
        number_fields 0 (if l.isEmpty then [new_var_decl "#placeholder"] else l) ∧
      AGGR_tag a1 = AGGR_tag a2 ∧ AGGR_align a1 = ga ∧
      R1.scopes = R2.scopes.tail ∧ R1.heap.length = R2.heap.length ∧
      ∀ p, p ≠ s → R1.heap[p]? = R2.heap[p]? := by
  have h1 : (match_tok st .T_STRUCT).2 = st.setToks (tk_id tag :: tk .T_LLPAREN :: rest) := by
    simp [match_tok, g_real_token, htoks, tk, PState.setToks]
  have h2 : type_spec_struct_tag R (st.setToks (tk_id tag :: tk .T_LLPAREN :: rest)) =
      some (some s, R, st.setToks (tk .T_LLPAREN :: rest)) := by
    simp [type_spec_struct_tag, g_real_token, g_real_token_string, PState.setToks, tk_id,
      match_tok, hfind]
  have h3 : g_real_token (st.setToks (tk .T_LLPAREN :: rest)) = .T_LLPAREN := rfl
  have h4 : (match_tok (st.setToks (tk .T_LLPAREN :: rest)) .T_LLPAREN).2 =
      st.setToks rest := by
    simp [match_tok, g_real_token, tk, PState.setToks]
  have h5 : match_tok st2 .T_RLPAREN = (.ST_SUCC, st2.setToks st2.toks.tail) := by
    simp [match_tok, hclose]
  have hlt := getElem?_lt_of_some _ _ _ ha2
  have hf : type_spec_struct_field SDL s R (st.setToks (tk .T_LLPAREN :: rest)) =
      some (⟨R2.scopes.tail, R2.heap.set s
        ((a2.setDeclList (number_fields 0
          (if l.isEmpty then [new_var_decl "#placeholder"] else l))).setComplete true)⟩,
        st2.setToks st2.toks.tail) := by
    unfold type_spec_struct_field
    simp only [h4, hsdl, pop_scope, ha2, h5, ne_eq, not_true_eq_false, if_false]
  refine ⟨⟨R2.scopes.tail, (R2.heap.set s
      ((a2.setDeclList (number_fields 0
        (if l.isEmpty then [new_var_decl "#placeholder"] else l))).setComplete true)).set s
      (((a2.setDeclList (number_fields 0
        (if l.isEmpty then [new_var_decl "#placeholder"] else l))).setComplete true).setAlign
        ga)⟩, ((a2.setDeclList (number_fields 0
        (if l.isEmpty then [new_var_decl "#placeholder"] else l))).setComplete true).setAlign
        ga, ?_, ?_, ?_, ?_, ?_, ?_, rfl, ?_, ?_⟩
  · unfold type_spec_struct
    simp only [h1, hlegal _, ne_eq, not_true_eq_false, if_false, h2, h3, if_true,
      Option.getD_some, Option.isSome_some, ha, hc, Bool.false_eq_true, hf,
      type_spec_struct_fin]
    rw [List.getElem?_set]
    simp [hlt]
  · rw [List.getElem?_set]
    simp [hlt]
  · cases a2; rfl
  · cases a2; rfl
  · cases a2; rfl
  · cases a2; rfl
  · simp
  · intro p hp
    rw [List.getElem?_set, List.getElem?_set]
    simp [Ne.symm hp]


/-- C32 (`type_spec_struct`, `type_spec_struct_field`): for a specifier that
stays legal with `T_SPEC_STRUCT`, (1) the first reference `struct T` without
a body, when the lookup from the current scope finds no `T`, allocates an
incomplete struct, registers it in the current scope, and the lookup then
finds it; (2) a later `struct T {`, when the lookup finds that struct still
incomplete, the parser of the fields leaves it allocated and stops at `}`,
writes the numbered fields into the same struct and makes it complete, so
the pointer that an earlier declaration holds reads the fields; (3) a body
for a struct that is complete gets the diagnostic `struct 'T' redefined` and
the registry stays as it is; (4) when the parser of the fields keeps
complete structs complete, so does `type_spec_struct`. -/
theorem type_spec_struct_forward_declaration (SDL : FieldParser) (ga des : Nat)
    (sty : Option Nat) (R : TagReg) (st : PState) (tag : String) (rest : List Lexeme)
    (hlegal : struct_spec_legal des) :
    (∀ (next : Lexeme) (cur : Scope) (parents : List Scope),
      st.toks = tk .T_STRUCT :: tk_id tag :: next :: rest → next.tok ≠ .T_LLPAREN →
      R.scopes = cur :: parents →
      is_struct_exist_in_outer_scope R.heap R.scopes (some tag) = some none →
      ∃ R1,
        type_spec_struct SDL ga des sty R st =
          .ok (des ||| T_SPEC_STRUCT) (some R.heap.length) R1 (st.setToks (next :: rest)) ∧
        R1.heap = R.heap ++ [.mk (some tag) [] false ga 0 0] ∧
        R1.scopes =
          { cur with struct_list := cur.struct_list ++ [R.heap.length] } :: parents ∧
        is_struct_exist_in_outer_scope R1.heap R1.scopes (some tag) =
          some (some R.heap.length)) ∧
    (∀ (s : Nat) (a a2 : Aggr) (l : List Decl) (R2 : TagReg) (st2 : PState),
      st.toks = tk .T_STRUCT :: tk_id tag :: tk .T_LLPAREN :: rest →
      is_struct_exist_in_outer_scope R.heap R.scopes (some tag) = some (some s) →
      R.heap[s]? = some a → AGGR_is_complete a = false →
      SDL (push_scope R) (st.setToks rest) = (l, R2, st2) →
      R2.heap[s]? = some a2 → g_real_token st2 = .T_RLPAREN →
      ∃ R1 a1,
        type_spec_struct SDL ga des sty R st =
          .ok (des ||| T_SPEC_STRUCT) (some s) R1 (st2.setToks st2.toks.tail) ∧
        R1.heap[s]? = some a1 ∧ AGGR_is_complete a1 = true ∧
        AGGR_decl_list a1 =
          number_fields 0 (if l.isEmpty then [new_var_decl "#placeholder"] else l) ∧
        AGGR_tag a1 = AGGR_tag a2 ∧ AGGR_align a1 = ga ∧
        R1.scopes = R2.scopes.tail ∧ R1.heap.length = R2.heap.length ∧
        ∀ p, p ≠ s → R1.heap[p]? = R2.heap[p]?) ∧
    (∀ (s : Nat) (a : Aggr),
      st.toks = tk .T_STRUCT :: tk_id tag :: tk .T_LLPAREN :: rest →
      is_struct_exist_in_outer_scope R.heap R.scopes (some tag) = some (some s) →
      R.heap[s]? = some a → AGGR_is_complete a = true →
      type_spec_struct SDL ga des sty R st =
        .ok (des ||| T_SPEC_STRUCT) sty R
          (err (st.setToks (tk .T_LLPAREN :: rest)) ("struct '" ++ tag ++ "' redefined"))) ∧
    ((∀ R0 st0, HeapMono R0.heap (SDL R0 st0).2.1.heap) →
      ∀ (des1 : Nat) (sty1 : Option Nat) (R1 : TagReg) (st1 : PState),
        type_spec_struct SDL ga des sty R st = .ok des1 sty1 R1 st1 →
        HeapMono R.heap R1.heap) :=
  ⟨fun next cur parents htoks hnext hsc hfind =>
      type_spec_struct_first_reference SDL ga des sty R st tag next rest cur parents htoks
        hnext hlegal hsc hfind,
    fun s a a2 l R2 st2 htoks hfind ha hc hsdl ha2 hclose =>
      type_spec_struct_completes SDL ga des sty R st tag rest s a a2 l R2 st2 htoks hlegal
        hfind ha hc hsdl ha2 hclose,
    fun s a htoks hfind ha hc =>
      type_spec_struct_redefined SDL ga des sty R st tag rest s a htoks hlegal hfind ha hc,
    fun hSDL des1 sty1 R1 st1 h =>
      type_spec_struct_mono SDL hSDL ga des sty R st des1 sty1 R1 st1 h⟩

theorem type_spec_struct_forward_declaration_witness :
    (∃ R1,
      type_spec_struct sample_field_reader 4 0 none reg_empty (st_of toks_L_ref) =
        .ok (0 ||| T_SPEC_STRUCT) (some reg_empty.heap.length) R1
          ((st_of toks_L_ref).setToks [tk .T_ASTERISK, tk_id "p", tk .T_SEMI]) ∧
      R1.heap = reg_empty.heap ++ [.mk (some "L") [] false 4 0 0] ∧
      R1.scopes = [⟨[] ++ [reg_empty.heap.length]⟩] ∧
      is_struct_exist_in_outer_scope R1.heap R1.scopes (some "L") =
        some (some reg_empty.heap.length)) ∧
    (∃ R1 a1,
      type_spec_struct sample_field_reader 4 0 none reg_L (st_of toks_L_body) =
        .ok (0 ||| T_SPEC_STRUCT) (some 0) R1 (st_of [tk .T_SEMI]) ∧
      R1.heap[0]? = some a1 ∧ AGGR_is_complete a1 = true ∧
      AGGR_decl_list a1 = [(decl_int_field "v").setFieldno 0]) ∧
    type_spec_struct sample_field_reader 4 0 none reg_L (st_of toks_L_body) =
      .ok T_SPEC_STRUCT (some 0)
        ⟨[⟨[0]⟩], [.mk (some "L") [(decl_int_field "v").setFieldno 0] true 4 0 0]⟩
        (st_of [tk .T_SEMI]) :=
  ⟨(type_spec_struct_forward_declaration sample_field_reader 4 0 none reg_empty
      (st_of toks_L_ref) "L" [tk_id "p", tk .T_SEMI] (fun _ => rfl)).1 (tk .T_ASTERISK) ⟨[]⟩
      [] rfl (by decide) rfl rfl,
    (by
      obtain ⟨R1, a1, h1, h2, h3, h4, _⟩ :=
        (type_spec_struct_forward_declaration sample_field_reader 4 0 none reg_L
          (st_of toks_L_body) "L"
          [tk .T_INT, tk_id "v", tk .T_SEMI, tk .T_RLPAREN, tk .T_SEMI] (fun _ => rfl)).2.1 0
          (.mk (some "L") [] false 4 0 0) (.mk (some "L") [] false 4 0 0)
          [decl_int_field "v"] ⟨[⟨[]⟩, ⟨[0]⟩], [.mk (some "L") [] false 4 0 0]⟩
          (st_of [tk .T_RLPAREN, tk .T_SEMI]) rfl rfl rfl rfl rfl rfl rfl
      exact ⟨R1, a1, h1, h2, h3, h4⟩),
    rfl⟩


/-! ### Printing what was parsed -/

/-- C35, as stated, fails for three of its five witnesses: `const int x;` is
printed with the qualifier behind `int`, `long long x;` with the one word
`longlong`, and `auto int x;` without `auto`.  The other two, `int *a[10];`
and `int (*q)[30];`, are printed with the tokens of the text, without the
`;`. -/
theorem format_declaration_const_int :
    printed_text 20 toks_const_int_x = some "int const x " ∧
      c_tokens "int const x " = ["int", "const", "x"] ∧
      toks_const_int_x.dropLast.map spell = ["const", "int", "x"] ∧
      printed_text 20 toks_long_long_x = some "longlong  x " ∧
      c_tokens "longlong  x " = ["longlong", "x"] ∧
      toks_long_long_x.dropLast.map spell = ["long", "long", "x"] ∧
      printed_text 20 toks_auto_int_x = some "int  x " ∧
      c_tokens "int  x " = ["int", "x"] ∧
      toks_auto_int_x.dropLast.map spell = ["auto", "int", "x"] ∧
      printed_text 20 toks_int_pa_10 = some "int  *  a [10]" ∧
      c_tokens "int  *  a [10]" = toks_int_pa_10.dropLast.map spell ∧
      printed_text 20 toks_int_q_30 = some "int ( *  q )[30]" ∧
      c_tokens "int ( *  q )[30]" = toks_int_q_30.dropLast.map spell := by
  refine ⟨rfl, by decide, by decide, rfl, by decide, by decide, rfl, by decide, by decide,
    rfl, by decide, rfl, by decide⟩


theorem tok_run_append (s : List String × List Char) (a b : String) :
    tok_run s (a ++ b) = tok_run (tok_run s a) b := by
  unfold tok_run
  rw [String.data_append, List.foldl_append]

theorem tok_step_word (s : List String × List Char) (c : Char) (h : is_word_char c = true) :
    tok_step s c = (s.1, s.2 ++ [c]) := by
  unfold is_word_char at h
  simp only [Bool.and_eq_true, Bool.not_eq_true', beq_eq_false_iff_ne, ne_eq] at h
  unfold tok_step
  rw [if_neg h.1, h.2]
  simp

theorem tok_foldl_word (acc : List String) : ∀ (w cur : List Char),
    (∀ c ∈ w, is_word_char c = true) → w.foldl tok_step (acc, cur) = (acc, cur ++ w)
  | [], cur, _ => by simp
  | c :: w, cur, h => by
    rw [List.foldl_cons, tok_step_word _ c (h c (List.mem_cons_self _ _)),
      tok_foldl_word acc w _ (fun x hx => h x (List.mem_cons_of_mem _ hx))]
    simp

/-- A word that is followed by a blank is one token. -/
theorem tok_run_word_blank (acc : List String) (w : String) (hw : w ≠ "")
    (h : ∀ c ∈ w.data, is_word_char c = true) :
    tok_run (acc, []) (w ++ " ") = (acc ++ [w], []) := by
  rw [tok_run_append]
  have h1 : tok_run (acc, []) w = (acc, w.data) := by
    unfold tok_run
    rw [tok_foldl_word acc w.data [] h]
    simp
  rw [h1]
  have h2 : w.data ≠ [] := by
    intro h0
    apply hw
    cases w
    simp_all
  simp [tok_run, tok_step, tok_flush, h2]

theorem tok_run_blank (acc : List String) : tok_run (acc, []) " " = (acc, []) := rfl

theorem tok_run_empty (s : List String × List Char) : tok_run s "" = s := rfl

theorem tok_run_star (acc : List String) : tok_run (acc, []) "* " = (acc ++ ["*"], []) := rfl

theorem digitChar_word : ∀ d, d < 10 → is_word_char (Nat.digitChar d) = true := by
  decide

theorem toDigitsCore_word : ∀ (fuel n : Nat) (ds : List Char),
    (∀ c ∈ ds, is_word_char c = true) →
    ∀ c ∈ Nat.toDigitsCore 10 fuel n ds, is_word_char c = true
  | 0, _, ds, h => by simpa [Nat.toDigitsCore] using h
  | fuel + 1, n, ds, h => by
    have hd : ∀ c ∈ Nat.digitChar (n % 10) :: ds, is_word_char c = true := by
      intro c hc
      rcases List.mem_cons.1 hc with rfl | hc
      · exact digitChar_word _ (Nat.mod_lt _ (by decide))
      · exact h c hc
    unfold Nat.toDigitsCore
    simp only
    split_ifs
    · exact hd
    · exact toDigitsCore_word fuel (n / 10) _ hd

theorem toString_nat_word (n : Nat) :
    ∀ c ∈ (toString ((n : Nat) : Int)).data, is_word_char c = true := by
  have h : (toString ((n : Nat) : Int)).data = Nat.toDigitsCore 10 (n + 1) n [] := rfl
  rw [h]
  exact toDigitsCore_word _ _ _ (fun c hc => by cases hc)

theorem toDigitsCore_ne_nil : ∀ (fuel n : Nat) (ds : List Char), ds ≠ [] →
    Nat.toDigitsCore 10 fuel n ds ≠ []
  | 0, _, ds, h => by simpa [Nat.toDigitsCore] using h
  | fuel + 1, n, ds, _ => by
    unfold Nat.toDigitsCore
    simp only
    split_ifs
    · simp
    · exact toDigitsCore_ne_nil fuel (n / 10) _ (by simp)

theorem toString_nat_ne_empty (n : Nat) : toString ((n : Nat) : Int) ≠ "" := by
  intro h
  have h1 : (toString ((n : Nat) : Int)).data = Nat.toDigitsCore 10 (n + 1) n [] := rfl
  rw [h] at h1
  have h2 : Nat.toDigitsCore 10 (n + 1) n [] ≠ [] := by
    unfold Nat.toDigitsCore
    simp only
    split_ifs
    · simp
    · exact toDigitsCore_ne_nil n (n / 10) _ (by simp)
  exact h2 h1.symm

/-- The text `[n]` of a dimension is three tokens. -/
theorem tok_run_dim (acc : List String) (n : Nat) :
    tok_run (acc, []) (format_array_dim (n : Int)) =
      (acc ++ ["[", toString ((n : Nat) : Int), "]"], []) := by
  unfold format_array_dim
  rw [tok_run_append, tok_run_append]
  have h0 : tok_run (acc, []) "[" = (acc ++ ["["], []) := rfl
  rw [h0]
  have h1 : tok_run (acc ++ ["["], []) (toString ((n : Nat) : Int)) =
      (acc ++ ["["], (toString ((n : Nat) : Int)).data) := by
    unfold tok_run
    rw [tok_foldl_word _ _ [] (toString_nat_word n)]
    simp
  rw [h1]
  have h2 : (toString ((n : Nat) : Int)).data ≠ [] := by
    intro h
    apply toString_nat_ne_empty n
    cases hs : toString ((n : Nat) : Int)
    rw [hs] at h
    simp_all
  simp [tok_run, tok_step, tok_flush, h2, is_punct]


theorem kw_flag_two_pow (k : TOKEN) (hk : k ∈ base_keywords) :
    ∃ i, kw_flag k = 2 ^ i ∧ i ≤ 9 ∧ i ≠ 4 ∧ (i = 5 ↔ k = .T_LONG) := by
  simp only [base_keywords, List.mem_cons, List.mem_singleton, List.not_mem_nil,
    or_false] at hk
  rcases hk with rfl | rfl | rfl | rfl | rfl | rfl | rfl | rfl | rfl
  · exact ⟨8, by decide, by decide, by decide, by decide⟩
  · exact ⟨9, by decide, by decide, by decide, by decide⟩
  · exact ⟨1, by decide, by decide, by decide, by decide⟩
  · exact ⟨2, by decide, by decide, by decide, by decide⟩
  · exact ⟨5, by decide, by decide, by decide, by decide⟩
  · exact ⟨3, by decide, by decide, by decide, by decide⟩
  · exact ⟨6, by decide, by decide, by decide, by decide⟩
  · exact ⟨7, by decide, by decide, by decide, by decide⟩
  · exact ⟨0, by decide, by decide, by decide, by decide⟩

/-- One keyword of a base kind in `declaration_spec`: its flag is added. -/
theorem declaration_spec_loop_keyword (S : SpecCollab) (f des : Nat) (ty : Option TypeSpec)
    (st : PState) (k : TOKEN) (l : List Lexeme) (hk : k ∈ base_keywords)
    (hty : ty.getD new_type = .mk des none none none)
    (hlong : k = .T_LONG → des.testBit 5 = false ∧ des.testBit 4 = false) :
    declaration_spec_loop S (f + 1) ty (st.setToks (tk k :: l)) =
      declaration_spec_loop S f (some (.mk (des ||| kw_flag k) none none none))
        (st.setToks l) := by
  have hm := match_tok_cons st (tk k) l k rfl
  simp only [base_keywords, List.mem_cons, List.mem_singleton, List.not_mem_nil,
    or_false] at hk
  rcases hk with rfl | rfl | rfl | rfl | rfl | rfl | rfl | rfl | rfl
  case inr.inr.inr.inr.inl =>
    obtain ⟨h5, h4⟩ := hlong rfl
    have e5 : IS_TYPE (.mk des none none none) T_SPEC_LONG = false := by
      unfold IS_TYPE TYPE_des
      rw [show T_SPEC_LONG = 2 ^ 5 by decide, HAVE_FLAG_two_pow]
      exact h5
    have e4 : IS_TYPE (.mk des none none none) T_SPEC_LONGLONG = false := by
      unfold IS_TYPE TYPE_des
      rw [show T_SPEC_LONGLONG = 2 ^ 4 by decide, HAVE_FLAG_two_pow]
      exact h4
    rw [declaration_spec_loop]
    simp only [g_real_token_setToks, first_tok, tk, type_spec, hty, e5, e4] at hm ⊢
    simp [hm, kw_flag, TypeSpec.setDes, TYPE_des]
  all_goals
    rw [declaration_spec_loop]
    simp only [g_real_token_setToks, first_tok, tk, type_spec, hty] at hm ⊢
    simp [hm, kw_flag, TypeSpec.setDes, TYPE_des]


theorem kws_des_testBit (i : Nat) : ∀ (kws : List TOKEN) (des : Nat),
    (kws_des des kws).testBit i =
      (des.testBit i || kws.any fun k => (kw_flag k).testBit i)
  | [], des => by simp [kws_des]
  | k :: t, des => by
    have h := kws_des_testBit i t (des ||| kw_flag k)
    unfold kws_des at h ⊢
    rw [List.foldl_cons, h, Nat.testBit_or, List.any_cons, Bool.or_assoc]

theorem kws_des_testBit_high (kws : List TOKEN) (hk : ∀ k ∈ kws, k ∈ base_keywords) (i : Nat)
    (hi : 9 < i ∨ i = 4) : (kws_des 0 kws).testBit i = false := by
  rw [kws_des_testBit]
  simp only [Nat.zero_testBit, Bool.false_or]
  rw [List.any_eq_false]
  intro k hkk
  obtain ⟨j, hj, hj9, hj4, _⟩ := kw_flag_two_pow k (hk k hkk)
  rw [hj, Nat.testBit_two_pow_of_ne (by omega)]
  simp

/-- A run of keywords of base kinds in `declaration_spec`, each once: the
flags are added. -/
theorem declaration_spec_loop_keywords (S : SpecCollab) (rest : List Lexeme) :
    ∀ (kws : List TOKEN) (des fuel : Nat) (st : PState),
      (∀ k ∈ kws, k ∈ base_keywords) → kws.Nodup →
      (.T_LONG ∈ kws → des.testBit 5 = false) → des.testBit 4 = false →
      declaration_spec_loop S (fuel + kws.length) (some (.mk des none none none))
          (st.setToks (kws.map tk ++ rest)) =
        declaration_spec_loop S fuel (some (.mk (kws_des des kws) none none none))
          (st.setToks rest)
  | [], des, fuel, st, _, _, _, _ => rfl
  | k :: t, des, fuel, st, hk, hnd, hlong, h4 => by
    obtain ⟨i, hi, _, hi4, hi5⟩ := kw_flag_two_pow k (hk k (List.mem_cons_self _ _))
    have hstep := declaration_spec_loop_keyword S (fuel + t.length) des
      (some (.mk des none none none)) st k (t.map tk ++ rest) (hk k (List.mem_cons_self _ _))
      rfl (fun hkl => ⟨hlong (by rw [hkl]; exact List.mem_cons_self _ _), h4⟩)
    have hnd1 := List.nodup_cons.1 hnd
    have hih := declaration_spec_loop_keywords S rest t (des ||| kw_flag k) fuel st
      (fun x hx => hk x (List.mem_cons_of_mem _ hx)) hnd1.2
      (fun hl => by
        have hne : k ≠ .T_LONG := fun h => hnd1.1 (h ▸ hl)
        have hi5n : i ≠ 5 := fun h => hne (hi5.1 h)
        rw [hi, Nat.testBit_or, hlong (List.mem_cons_of_mem _ hl),
          Nat.testBit_two_pow_of_ne hi5n]
        rfl)
      (by rw [hi, Nat.testBit_or, h4, Nat.testBit_two_pow_of_ne hi4]; rfl)
    simp only [List.length_cons, List.map_cons, List.cons_append]
    rw [show fuel + (t.length + 1) = fuel + t.length + 1 by omega, hstep, hih]
    rfl

/-- The specifier of `T ...` for a selection `T` of the keywords of the base
kinds, each once, that a `*` or an identifier follows. -/
theorem declaration_spec_keywords (kws : List TOKEN) (rest : List Lexeme) (st : PState)
    (fuel : Nat) (hk : ∀ k ∈ kws, k ∈ base_keywords) (hnd : kws.Nodup) (hne : kws ≠ [])
    (hrest : first_tok rest = .T_ASTERISK ∨ first_tok rest = .T_ID)
    (hf : kws.length < fuel) :
    declaration_spec sample_spec_collab fuel (st.setToks (kws.map tk ++ rest)) =
      .ok (some (.mk (kws_des 0 kws) none none none)) (st.setToks rest) := by
  obtain ⟨f, rfl⟩ : ∃ f, fuel = f + 1 + kws.length := ⟨fuel - 1 - kws.length, by omega⟩
  cases kws with
  | nil => exact absurd rfl hne
  | cons k t =>
    have hnd1 := List.nodup_cons.1 hnd
    obtain ⟨i, hi, _, hi4, hi5⟩ := kw_flag_two_pow k (hk k (List.mem_cons_self _ _))
    have hstep := declaration_spec_loop_keyword sample_spec_collab (f + 1 + t.length) 0 none st
      k (t.map tk ++ rest) (hk k (List.mem_cons_self _ _)) rfl (fun _ => ⟨rfl, rfl⟩)
    have hrun := declaration_spec_loop_keywords sample_spec_collab rest t (0 ||| kw_flag k)
      (f + 1) st (fun x hx => hk x (List.mem_cons_of_mem _ hx)) hnd1.2
      (fun hl => by
        have hne : k ≠ .T_LONG := fun h => hnd1.1 (h ▸ hl)
        have hi5n : i ≠ 5 := fun h => hne (hi5.1 h)
        rw [hi, Nat.testBit_or, Nat.zero_testBit, Nat.testBit_two_pow_of_ne hi5n]
        rfl)
      (by rw [hi, Nat.testBit_or, Nat.zero_testBit, Nat.testBit_two_pow_of_ne hi4]; rfl)
    have hend : declaration_spec_loop sample_spec_collab (f + 1)
        (some (.mk (kws_des (0 ||| kw_flag k) t) none none none)) (st.setToks rest) =
        .ok (some (.mk (kws_des (0 ||| kw_flag k) t) none none none)) (st.setToks rest) := by
      rw [declaration_spec_loop]
      rcases hrest with h | h <;>
        simp [g_real_token_setToks, h, sample_spec_collab]
    unfold declaration_spec
    simp only [List.length_cons, List.map_cons, List.cons_append]
    rw [show f + 1 + (t.length + 1) = f + 1 + t.length + 1 by omega, hstep, hrun, hend]
    rfl


theorem first_tok_stars (k : Nat) (rest : List Lexeme) :
    first_tok (List.replicate k (tk .T_ASTERISK) ++ rest) = .T_ASTERISK ∨
      first_tok (List.replicate k (tk .T_ASTERISK) ++ rest) = first_tok rest := by
  cases k with
  | zero => right; rfl
  | succ k => left; rfl

/-- A run of `*` without qualifiers in `pointer`. -/
theorem pointer_loop_stars : ∀ (k n : Nat), k < n →
    ∀ (ndcl : List DeclNode) (st : PState) (rest : List Lexeme),
    ends_pointer (first_tok rest) →
    pointer_loop n 0 ndcl (st.setToks (List.replicate k (tk .T_ASTERISK) ++ rest)) =
      .ok (ndcl ++ List.replicate k (.POINTER 0 false), 0) (st.setToks rest)
  | 0, n, hn, ndcl, st, rest, hr => by
    obtain ⟨m, rfl⟩ : ∃ m, n = m + 1 := ⟨n - 1, by omega⟩
    obtain ⟨h0, h1, h2, h3⟩ := hr
    simp only [List.replicate_zero, List.nil_append, pointer_loop, g_real_token_setToks, h0,
      if_false, quan_spec_no_qualifier 0 st rest h1 h2 h3, List.append_nil]
  | k + 1, n, hn, ndcl, st, rest, hr => by
    obtain ⟨m, rfl⟩ : ∃ m, n = m + 1 := ⟨n - 1, by omega⟩
    have hm := match_tok_cons st (tk .T_ASTERISK)
      (List.replicate k (tk .T_ASTERISK) ++ rest) .T_ASTERISK rfl
    have hq : quan_spec 0 (st.setToks (List.replicate k (tk .T_ASTERISK) ++ rest)) =
        (0, st.setToks (List.replicate k (tk .T_ASTERISK) ++ rest)) := by
      obtain ⟨h0, h1, h2, h3⟩ := hr
      apply quan_spec_no_qualifier
      all_goals
        rcases first_tok_stars k rest with h | h <;> rw [h] <;> simp [h1, h2, h3]
    have ih := pointer_loop_stars k m (by omega) (ndcl ++ [.POINTER 0 false]) st rest hr
    rw [List.replicate_succ, List.cons_append, pointer_loop]
    simp only [g_real_token_setToks, first_tok, tk, if_true] at hm ⊢
    rw [hm]
    simp only [tk] at hq ih
    simp only [hq, add_next]
    rw [show IS_RESTRICT 0 = false by decide]
    simp only [Bool.false_eq_true, if_false]
    rw [ih]
    simp [List.replicate_succ]

/-- A run of dimensions `[n]` in `direct_declarator`. -/
theorem array_loop_dims : ∀ (dims : List Nat) (n : Nat), dims.length < n →
    ∀ (dcl : List DeclNode) (st : PState) (rest : List Lexeme),
    first_tok rest ≠ .T_LSPAREN →
    array_loop spec_collab n false dcl (st.setToks (dims_toks dims ++ rest)) =
      .ok ((dims.map (array_node 0)).reverse ++ dcl) (st.setToks rest)
  | [], n, hn, dcl, st, rest, hr => by
    obtain ⟨m, rfl⟩ : ∃ m, n = m + 1 := ⟨n - 1, by simp at hn; omega⟩
    simp only [dims_toks, List.nil_append, array_loop, g_real_token_setToks, hr, if_false,
      List.map_nil, List.reverse_nil]
  | d :: t, n, hn, dcl, st, rest, hr => by
    obtain ⟨m, rfl⟩ : ∃ m, n = m + 1 := ⟨n - 1, by simp at hn; omega⟩
    have ih := array_loop_dims t m (by simp at hn; omega)
      (insertbefore_one dcl (array_node 0 d)) st rest hr
    have hm1 := match_tok_cons st (tk .T_LSPAREN)
      (tk_imm d :: tk .T_RSPAREN :: (dims_toks t ++ rest)) .T_LSPAREN rfl
    have hc : spec_collab.conditional_exp
        (st.setToks (tk_imm d :: tk .T_RSPAREN :: (dims_toks t ++ rest))) =
        (some ⟨some (d : Int)⟩, st.setToks (tk .T_RSPAREN :: (dims_toks t ++ rest))) := rfl
    have hm2 := match_tok_cons st (tk .T_RSPAREN) (dims_toks t ++ rest) .T_RSPAREN rfl
    simp only [dims_toks, List.cons_append, array_loop, g_real_token_setToks, first_tok, tk,
      if_true] at hm1 hc hm2 ⊢
    rw [hm1]
    simp only [hc, hm2]
    simp only [ne_eq, not_true_eq_false, if_false]
    simp only [array_node] at ih
    rw [ih]
    simp [insertbefore_one, array_node]


theorem compute_array_dim_loop_pointers (E : Collab) (a : Bool) : ∀ (k d : Nat) (st : PState)
    (status : STATUS),
    compute_array_dim_loop E a (List.replicate k (.POINTER 0 false)) d st status =
      (List.replicate k (.POINTER 0 false), st, status)
  | 0, _, _, _ => rfl
  | k + 1, d, st, status => by
    rw [List.replicate_succ]
    unfold compute_array_dim_loop
    simp only [compute_array_dim_loop_pointers E a k 0 st status]

theorem compute_array_dim_loop_dims (a : Bool) (tail : List DeclNode) : ∀ (dims : List Nat)
    (d : Nat), d + dims.length ≤ 255 → (∀ n ∈ dims, 0 < n ∧ n ≤ 2147483647) →
    ∀ (st : PState) (status : STATUS),
    compute_array_dim_loop spec_collab a (dims.map (array_node 0) ++ tail) d st status =
      (dims.map (fun (n : Nat) => array_node (n : Int) n) ++
          (compute_array_dim_loop spec_collab a tail (d + dims.length) st status).1,
        (compute_array_dim_loop spec_collab a tail (d + dims.length) st status).2)
  | [], d, _, _, st, status => by simp
  | n :: t, d, hd, hn, st, status => by
    have hn0 := hn n (List.mem_cons_self _ _)
    have ih := compute_array_dim_loop_dims a tail t (d + 1)
      (by simp at hd; omega) (fun x hx => hn x (List.mem_cons_of_mem _ hx)) st status
    have hmod : (d + 1) % 256 = d + 1 := Nat.mod_eq_of_lt (by simp at hd; omega)
    have h1 : ¬ (((n : Nat) : Int) < 0 ∨ ((n : Nat) : Int) > spec_collab.MAX_ARRAY_INDX) := by
      have : spec_collab.MAX_ARRAY_INDX = 2147483647 := rfl
      rw [this]
      omega
    have h2 : ¬ (((n : Nat) : Int) = 0) := by omega
    have e : d + 1 + t.length = d + (n :: t).length := by simp; omega
    rw [List.map_cons, List.cons_append,
      show array_node 0 n = DeclNode.ARRAY (some ⟨some (n : Int)⟩) 0 false from rfl,
      compute_array_dim_loop]
    simp only [hmod, ge_iff_le, Nat.le_add_left, if_true, if_neg h1, if_neg h2]
    rw [ih, e]
    rfl

/-- The declarator `*...* name[n1]...[nk]` in `init_declarator`. -/
theorem init_declarator_simple (k : Nat) (name : String) (dims : List Nat) (st : PState)
    (fuel : Nat) (hf : k + dims.length + 4 ≤ fuel) (hlen : dims.length ≤ 255)
    (hdims : ∀ n ∈ dims, 0 < n ∧ n ≤ 2147483647) :
    init_declarator spec_collab fuel 0
        (st.setToks (List.replicate k (tk .T_ASTERISK) ++
          (tk_id name :: (dims_toks dims ++ [tk .T_SEMI])))) =
      .ok (some (.mk .DCL_DECLARATOR (simple_chain k name dims) false 0 false))
        (st.setToks [tk .T_SEMI]) := by
  obtain ⟨j, rfl⟩ : ∃ j, fuel = j + 1 + 1 + 1 := ⟨fuel - 3, by omega⟩
  have hp : pointer (j + 1 + 1) 0
      (st.setToks (List.replicate k (tk .T_ASTERISK) ++
        (tk_id name :: (dims_toks dims ++ [tk .T_SEMI])))) =
      .ok (List.replicate k (.POINTER 0 false), 0)
        (st.setToks (tk_id name :: (dims_toks dims ++ [tk .T_SEMI]))) := by
    have := pointer_loop_stars k (j + 1 + 1) (by omega) [] st
      (tk_id name :: (dims_toks dims ++ [tk .T_SEMI]))
      (by simp [ends_pointer, first_tok, tk_id])
    simpa [pointer] using this
  have hs : declarator_suffix spec_collab (j + 1) false [.ID name 0 false]
      (st.setToks (dims_toks dims ++ [tk .T_SEMI])) =
      .ok ((dims.map (array_node 0)).reverse ++ [.ID name 0 false])
        (st.setToks [tk .T_SEMI]) := by
    cases dims with
    | nil =>
      exact declarator_suffix_plain spec_collab j false _ st [tk .T_SEMI]
        (by simp [ends_declarator, first_tok, tk])
    | cons d t =>
      have := array_loop_dims (d :: t) j (by simp at hf ⊢; omega) [.ID name 0 false] st
        [tk .T_SEMI] (by simp [first_tok, tk])
      rw [← this]
      simp only [declarator_suffix, dims_toks, List.cons_append, g_real_token_setToks,
        first_tok, tk]
  have hd : direct_declarator spec_collab (j + 1 + 1) 0
      (st.setToks (tk_id name :: (dims_toks dims ++ [tk .T_SEMI]))) =
      .ok ((dims.map (array_node 0)).reverse ++ [.ID name 0 false])
        (st.setToks [tk .T_SEMI]) := by
    rw [direct_declarator_ident, hs]
  have hdecl := declarator_compose spec_collab (j + 1 + 1) 0 0 _ _ _ _ _ hp hd (by simp)
  have hcad : compute_array_dim spec_collab
      (reverse_list (List.replicate k (.POINTER 0 false) ++
        ((dims.map (array_node 0)).reverse ++ [.ID name 0 false]))) true
      (st.setToks [tk .T_SEMI]) =
      (simple_chain k name dims, st.setToks [tk .T_SEMI], .ST_SUCC) := by
    have hrev : reverse_list (List.replicate k (DeclNode.POINTER 0 false) ++
        ((dims.map (array_node 0)).reverse ++ [.ID name 0 false])) =
        .ID name 0 false :: (dims.map (array_node 0) ++
          List.replicate k (.POINTER 0 false)) := by
      simp [reverse_list]
    rw [hrev]
    unfold compute_array_dim
    unfold compute_array_dim_loop
    simp only [compute_array_dim_loop_dims true _ dims 0 (by omega) hdims,
      compute_array_dim_loop_pointers]
    rfl
  unfold init_declarator
  rw [hdecl]
  simp only [List.isEmpty_eq_true, List.append_eq_nil, List.replicate_eq_nil_iff, List.cons_ne_self,
    and_false, if_false, hcad]
  simp [g_real_token_setToks, first_tok, tk]


theorem and_two_pow_ne_zero (x i : Nat) : (x &&& 2 ^ i != 0) = x.testBit i := by
  rw [Nat.and_two_pow]
  cases h : x.testBit i <;> simp

theorem ite_append_opt (buf s : String) (b : Bool) :
    (if b = true then buf ++ s else buf) = buf ++ (if b then s else "") := by
  cases b <;> simp

theorem map_filter_cons_opt {α β : Type} (f : α → β) (p : α → Bool) (a : α) (l : List α) :
    ((a :: l).filter p).map f = (if p a then [f a] else []) ++ (l.filter p).map f := by
  cases h : p a <;> simp [List.filter_cons, h]

/-- The bits of the flag word of a selection of the base keywords. -/
theorem kws_des_filter_bits (p : TOKEN → Bool) :
    KwBits p (kws_des 0 (base_keywords.filter p)) := by
  unfold KwBits
  refine ⟨?_, ?_, ?_, ?_, ?_, ?_, ?_, ?_, ?_, ?_⟩
  case refine_10 =>
    intro i hi
    exact kws_des_testBit_high _ (fun k hk => (List.mem_filter.1 hk).1) i hi
  all_goals
    rw [kws_des_testBit, List.any_filter]
    simp [base_keywords, kw_flag, T_SPEC_SIGNED, T_SPEC_UNSIGNED, T_SPEC_CHAR, T_SPEC_SHORT,
      T_SPEC_LONG, T_SPEC_INT, T_SPEC_FLOAT, T_SPEC_DOUBLE, T_SPEC_VOID, Nat.testBit]

theorem filter_base_keywords_ne_nil (p : TOKEN → Bool) (hne : base_keywords.filter p ≠ []) :
    (p .T_SIGNED || p .T_UNSIGNED || p .T_CHAR || p .T_SHORT || p .T_LONG || p .T_INT ||
      p .T_FLOAT || p .T_DOUBLE || p .T_VOID) = true := by
  by_contra h
  apply hne
  simp only [Bool.or_eq_true, not_or, Bool.not_eq_true] at h
  obtain ⟨⟨⟨⟨⟨⟨⟨⟨h1, h2⟩, h3⟩, h4⟩, h5⟩, h6⟩, h7⟩, h8⟩, h9⟩ := h
  simp [base_keywords, List.filter, h1, h2, h3, h4, h5, h6, h7, h8, h9]

theorem is_simple_base_type_spec_keywords (p : TOKEN → Bool) (des : Nat) (hb : KwBits p des)
    (hne : base_keywords.filter p ≠ []) :
    is_simple_base_type_spec (.mk des none none none) = true := by
  obtain ⟨b8, b9, b1, b2, b5, b3, b6, b7, b0, bhi⟩ := hb
  have hsome := filter_base_keywords_ne_nil p hne
  unfold is_simple_base_type_spec TYPE_des
  rw [show T_SPEC_VOID = 2 ^ 0 by decide, show T_SPEC_CHAR = 2 ^ 1 by decide,
    show T_SPEC_SHORT = 2 ^ 2 by decide, show T_SPEC_INT = 2 ^ 3 by decide,
    show T_SPEC_LONGLONG = 2 ^ 4 by decide, show T_SPEC_LONG = 2 ^ 5 by decide,
    show T_SPEC_FLOAT = 2 ^ 6 by decide, show T_SPEC_DOUBLE = 2 ^ 7 by decide,
    show T_SPEC_SIGNED = 2 ^ 8 by decide, show T_SPEC_UNSIGNED = 2 ^ 9 by decide]
  simp only [and_two_pow_ne_zero, b8, b9, b1, b2, b5, b3, b6, b7, b0, bhi 4 (Or.inr rfl)]
  simp only [Bool.or_eq_true] at hsome ⊢
  tauto

theorem format_stor_quan_spec_keywords (p : TOKEN → Bool) (des : Nat) (hb : KwBits p des)
    (buf : String) :
    format_quan_spec (format_stor_spec buf (.mk des none none none))
      (.mk des none none none) = buf := by
  obtain ⟨_, _, _, _, _, _, _, _, _, bhi⟩ := hb
  unfold format_quan_spec format_stor_spec IS_EXTERN IS_TYPEDEF IS_CONST IS_VOLATILE TYPE_des
  rw [show T_STOR_REG = 2 ^ 16 by decide, show T_STOR_STATIC = 2 ^ 17 by decide,
    show T_STOR_EXTERN = 2 ^ 18 by decide, show T_STOR_TYPEDEF = 2 ^ 20 by decide,
    show T_QUA_CONST = 2 ^ 21 by decide, show T_QUA_VOLATILE = 2 ^ 22 by decide]
  simp only [HAVE_FLAG_two_pow, bhi 16 (Or.inl (by decide)), bhi 17 (Or.inl (by decide)),
    bhi 18 (Or.inl (by decide)), bhi 20 (Or.inl (by decide)), bhi 21 (Or.inl (by decide)),
    bhi 22 (Or.inl (by decide)), Bool.false_eq_true, if_false]

theorem opt_append_eq (b : Bool) (s x : String) :
    opt_append b s x = x ++ (if b then s else "") := by
  cases b <;> simp [opt_append]

theorem format_base_type_spec_keywords (p : TOKEN → Bool) (des : Nat) (hb : KwBits p des)
    (hne : base_keywords.filter p ≠ []) (buf : String) :
    format_base_type_spec buf (.mk des none none none) = buf ++ keywords_text p := by
  have hsimple := is_simple_base_type_spec_keywords p des hb hne
  obtain ⟨b8, b9, b1, b2, b5, b3, b6, b7, b0, bhi⟩ := hb
  have h0 : format_base_type_spec buf (.mk des none none none) =
      if !is_simple_base_type_spec (.mk des none none none) then buf
      else
        opt_append (HAVE_FLAG des (2 ^ 0)) "void " (opt_append (HAVE_FLAG des (2 ^ 7)) "double "
        (opt_append (HAVE_FLAG des (2 ^ 6)) "float " (opt_append (HAVE_FLAG des (2 ^ 4)) "longlong "
        (opt_append (HAVE_FLAG des (2 ^ 3)) "int " (opt_append (HAVE_FLAG des (2 ^ 5)) "long "
        (opt_append (HAVE_FLAG des (2 ^ 2)) "short " (opt_append (HAVE_FLAG des (2 ^ 1)) "char "
        (opt_append (HAVE_FLAG des (2 ^ 9)) "unsigned "
        (opt_append (HAVE_FLAG des (2 ^ 8)) "signed " buf))))))))) := rfl
  rw [h0, hsimple]
  simp only [HAVE_FLAG_two_pow, b8, b9, b1, b2, b5, b3, b6, b7, b0, bhi 4 (Or.inr rfl),
    Bool.not_true, Bool.false_eq_true, if_false, opt_append_eq, String.append_assoc,
    String.empty_append]
  rfl

/-- The text of `format_decl_spec` for a selection of the base keywords. -/
theorem format_decl_spec_keywords (p : TOKEN → Bool) (des : Nat) (hb : KwBits p des)
    (hne : base_keywords.filter p ≠ []) (fuel : Nat) (buf : String) (errs : List String)
    (is_ptr : Bool) :
    format_decl_spec (fuel + 1) buf errs (.mk des none none none) is_ptr =
      .ok (buf ++ keywords_text p) errs := by
  have hsimple := is_simple_base_type_spec_keywords p des hb hne
  have hsq := format_stor_quan_spec_keywords p des hb buf
  have hbase := format_base_type_spec_keywords p des hb hne buf
  obtain ⟨_, _, _, _, _, _, _, _, _, bhi⟩ := hb
  have h10 : IS_STRUCT (.mk des none none none) = false := by
    unfold IS_STRUCT TYPE_des
    rw [show T_SPEC_STRUCT = 2 ^ 10 by decide, HAVE_FLAG_two_pow]
    exact bhi 10 (Or.inl (by decide))
  have h11 : IS_UNION (.mk des none none none) = false := by
    unfold IS_UNION TYPE_des
    rw [show T_SPEC_UNION = 2 ^ 11 by decide, HAVE_FLAG_two_pow]
    exact bhi 11 (Or.inl (by decide))
  have h12 : HAVE_FLAG (TYPE_des (.mk des none none none)) T_SPEC_ENUM = false := by
    unfold TYPE_des
    rw [show T_SPEC_ENUM = 2 ^ 12 by decide, HAVE_FLAG_two_pow]
    exact bhi 12 (Or.inl (by decide))
  unfold format_decl_spec
  simp only [hsq, h10, h11, h12, hsimple, hbase, Bool.or_self, Bool.false_eq_true, if_false,
    if_true]

/-- The tokens of the text of the base keywords that `p` selects. -/
theorem tok_run_keywords_text (p : TOKEN → Bool) (acc : List String) :
    tok_run (acc, []) (keywords_text p) =
      (acc ++ (base_keywords.filter p).map (fun k => spell (tk k)), []) := by
  have hmap : (base_keywords.filter p).map (fun k => spell (tk k)) =
      (if p .T_SIGNED then ["signed"] else []) ++ ((if p .T_UNSIGNED then ["unsigned"] else []) ++
      ((if p .T_CHAR then ["char"] else []) ++ ((if p .T_SHORT then ["short"] else []) ++
      ((if p .T_LONG then ["long"] else []) ++ ((if p .T_INT then ["int"] else []) ++
      ((if p .T_FLOAT then ["float"] else []) ++ ((if p .T_DOUBLE then ["double"] else []) ++
      (if p .T_VOID then ["void"] else [])))))))) := by
    simp only [base_keywords, map_filter_cons_opt, List.filter_nil, List.map_nil,
      List.append_nil]
    rfl
  have hopt : ∀ (b : Bool) (t w : String) (acc : List String),
      tok_run (acc, []) t = (acc ++ [w], []) →
      tok_run (acc, []) (if b then t else "") =
        (acc ++ (if b then [w] else []), []) := by
    intro b t w acc h
    cases b
    · simp [tok_run_empty]
    · simpa using h
  rw [hmap]
  unfold keywords_text
  simp only [tok_run_append]
  rw [hopt _ "signed " "signed" _ rfl, hopt _ "unsigned " "unsigned" _ rfl,
    hopt _ "char " "char" _ rfl, hopt _ "short " "short" _ rfl, hopt _ "long " "long" _ rfl,
    hopt _ "int " "int" _ rfl, hopt _ "float " "float" _ rfl,
    hopt _ "double " "double" _ rfl, hopt _ "void " "void" _ rfl]
  simp only [List.append_assoc]


theorem dims_spelled_append (a b : List Nat) :
    dims_spelled (a ++ b) = dims_spelled a ++ dims_spelled b := by
  induction a with
  | nil => rfl
  | cons n t ih => simp [dims_spelled, ih]

theorem format_pointer_qua_zero (buf : String) : format_pointer_qua buf 0 = buf ++ " " := rfl

theorem format_id_qua_zero (buf : String) : format_id_qua buf 0 = buf ++ " " := rfl

/-- The text of `format_dcrl_reverse` for a run of pointers without
qualifiers: a `*` for each. -/
theorem format_dcrl_reverse_pointers (errs : List String) (ty : TypeSpec) :
    ∀ k : Nat, ∃ s : String,
      (∀ (fuel : Nat) (buf : String) (l : List DeclNode),
        format_dcrl_reverse (fuel + k) buf errs ty
            (List.replicate k (.POINTER 0 false) ++ l) =
          format_dcrl_reverse fuel (buf ++ s) errs ty l) ∧
      ∀ acc : List String, tok_run (acc, []) s = (acc ++ List.replicate k "*", [])
  | 0 => ⟨"", fun fuel buf l => by simp, fun acc => by simp [tok_run_empty]⟩
  | k + 1 => by
    obtain ⟨s, hs, ht⟩ := format_dcrl_reverse_pointers errs ty k
    refine ⟨" " ++ ("* " ++ s), ?_, ?_⟩
    · intro fuel buf l
      rw [List.replicate_succ, List.cons_append,
        show fuel + (k + 1) = fuel + k + 1 by omega, format_dcrl_reverse]
      simp only [format_pointer_qua_zero, Bool.false_eq_true, if_false]
      rw [hs, String.append_assoc, String.append_assoc]
    · intro acc
      rw [tok_run_append, tok_run_blank, tok_run_append, tok_run_star, ht]
      simp [List.replicate_succ]

/-- The text of `format_dcrl_reverse` for the arrays of a declarator, last
dimension first, and the identifier: the name and the dimensions in the
order of the text. -/
theorem format_dcrl_reverse_arrays (errs : List String) (ty : TypeSpec) (name : String)
    (hext : IS_EXTERN ty = false) (hname : is_identifier name) :
    ∀ rl : List Nat, (∀ n ∈ rl, 0 < n) → ∃ s : String,
      (∀ (fuel : Nat) (buf : String), rl.length + 2 ≤ fuel →
        format_dcrl_reverse fuel buf errs ty
            (rl.map (fun (n : Nat) => array_node (n : Int) n) ++ [.ID name 0 false]) =
          .ok (buf ++ s) errs) ∧
      ∀ acc : List String,
        tok_run (acc, []) s = (acc ++ name :: dims_spelled rl.reverse, [])
  | [], _ => by
    refine ⟨" " ++ (name ++ " "), ?_, ?_⟩
    · intro fuel buf hf
      obtain ⟨f, rfl⟩ : ∃ f, fuel = f + 1 + 1 := ⟨fuel - 2, by simp at hf; omega⟩
      simp only [List.map_nil, List.nil_append]
      rw [format_dcrl_reverse]
      simp only [show IS_RESTRICT 0 = false by decide, Bool.false_eq_true, if_false,
        format_id_qua_zero]
      rw [format_dcrl_reverse]
      simp only [String.append_assoc]
    · intro acc
      rw [tok_run_append, tok_run_blank, tok_run_word_blank acc name hname.1 hname.2]
      rfl
  | n :: rl, hpos => by
    obtain ⟨s, hs, ht⟩ := format_dcrl_reverse_arrays errs ty name hext hname rl
      (fun x hx => hpos x (List.mem_cons_of_mem _ hx))
    have hn := hpos n (List.mem_cons_self _ _)
    refine ⟨s ++ format_array_dim (n : Int), ?_, ?_⟩
    · intro fuel buf hf
      obtain ⟨f, rfl⟩ : ∃ f, fuel = f + 1 := ⟨fuel - 1, by simp at hf; omega⟩
      have hprev := hs f buf (by simp at hf ⊢; omega)
      have hv : (((n : Nat) : Int) == 0) = false := by
        simp only [beq_eq_false_iff_ne, ne_eq]
        omega
      rw [List.map_cons, List.cons_append,
        show array_node (n : Int) n = DeclNode.ARRAY (some ⟨some (n : Int)⟩) (n : Int) false
          from rfl, format_dcrl_reverse]
      simp only [Bool.false_eq_true, if_false, hprev, hext, hv, Bool.and_false,
        String.append_assoc]
    · intro acc
      rw [tok_run_append, ht, tok_run_dim]
      simp [dims_spelled_append, dims_spelled]


theorem dims_toks_spell (dims : List Nat) : (dims_toks dims).map spell = dims_spelled dims := by
  induction dims with
  | nil => rfl
  | cons n t ih =>
    simp only [dims_toks, List.map_cons, ih, dims_spelled]
    rfl

theorem extract_qualifier_keywords (p : TOKEN → Bool) (des : Nat) (hb : KwBits p des) :
    extract_qualifier (.mk des none none none) 0 = (.mk des none none none, 0) := by
  obtain ⟨_, _, _, _, _, _, _, _, _, bhi⟩ := hb
  have h21 : HAVE_FLAG des T_QUA_CONST = false := by
    rw [show T_QUA_CONST = 2 ^ 21 by decide, HAVE_FLAG_two_pow]
    exact bhi 21 (Or.inl (by decide))
  have h22 : HAVE_FLAG des T_QUA_VOLATILE = false := by
    rw [show T_QUA_VOLATILE = 2 ^ 22 by decide, HAVE_FLAG_two_pow]
    exact bhi 22 (Or.inl (by decide))
  have h23 : HAVE_FLAG des T_QUA_RESTRICT = false := by
    rw [show T_QUA_RESTRICT = 2 ^ 23 by decide, HAVE_FLAG_two_pow]
    exact bhi 23 (Or.inl (by decide))
  simp [extract_qualifier, extract_qualifier_bit, TYPE_des, h21, h22, h23, TypeSpec.setDes]

theorem complement_qua_keywords (p : TOKEN → Bool) (des : Nat) (hb : KwBits p des)
    (hs : base_keywords.filter p ≠ [.T_SIGNED]) (hu : base_keywords.filter p ≠ [.T_UNSIGNED]) :
    complement_qua (.mk des none none none) = .mk des none none none := by
  obtain ⟨b8, b9, b1, b2, b5, b3, b6, b7, b0, bhi⟩ := hb
  unfold complement_qua
  simp only [TYPE_des]
  rw [if_neg]
  rintro (h | h | h | h | h | h)
  · subst h
    apply hu
    simp [base_keywords, List.filter, ← b8, ← b9, ← b1, ← b2, ← b5, ← b3, ← b6, ← b7, ← b0,
      T_SPEC_UNSIGNED, Nat.testBit]
  · subst h
    apply hs
    simp [base_keywords, List.filter, ← b8, ← b9, ← b1, ← b2, ← b5, ← b3, ← b6, ← b7, ← b0,
      T_SPEC_SIGNED, Nat.testBit]
  · have := bhi 17 (Or.inl (by decide))
    rw [h] at this
    revert this
    decide
  · have := bhi 18 (Or.inl (by decide))
    rw [h] at this
    revert this
    decide
  · have := bhi 16 (Or.inl (by decide))
    rw [h] at this
    revert this
    decide
  · have := bhi 15 (Or.inl (by decide))
    rw [h] at this
    revert this
    decide

/-- The declaration that `declaration_head` returns for
`T *...* name[n1]...[nk];` with a selection `T` of the base keywords. -/
theorem declaration_head_simple (p : TOKEN → Bool) (k : Nat) (name : String)
    (dims : List Nat) (hne : base_keywords.filter p ≠ [])
    (hs : base_keywords.filter p ≠ [.T_SIGNED]) (hu : base_keywords.filter p ≠ [.T_UNSIGNED])
    (hlen : dims.length ≤ 255) (hdims : ∀ n ∈ dims, 0 < n ∧ n ≤ 2147483647) (fuel : Nat)
    (hf : (base_keywords.filter p).length + k + dims.length + 5 ≤ fuel) :
    declaration_head sample_spec_collab spec_collab fuel
        (st_of (simple_decl_toks (base_keywords.filter p) k name dims ++ [tk .T_SEMI])) =
      .ok (some (.mk .DCL_DECLARATION
          (.mk (kws_des 0 (base_keywords.filter p)) none none none)
          (.mk .DCL_DECLARATOR (simple_chain k name dims) false 0 false) false false 0 4))
        (st_of [tk .T_SEMI]) := by
  have hb := kws_des_filter_bits p
  have hshape : st_of (simple_decl_toks (base_keywords.filter p) k name dims ++ [tk .T_SEMI]) =
      (st_of []).setToks ((base_keywords.filter p).map tk ++
        (List.replicate k (tk .T_ASTERISK) ++
          (tk_id name :: (dims_toks dims ++ [tk .T_SEMI])))) := by
    simp [simple_decl_toks, st_of, PState.setToks]
  have hspec := declaration_spec_keywords (base_keywords.filter p)
    (List.replicate k (tk .T_ASTERISK) ++ (tk_id name :: (dims_toks dims ++ [tk .T_SEMI])))
    (st_of []) fuel (fun x hx => (List.mem_filter.1 hx).1)
    (List.Nodup.filter _ (by decide)) hne
    (by
      rcases first_tok_stars k (tk_id name :: (dims_toks dims ++ [tk .T_SEMI])) with h | h
      · exact Or.inl h
      · exact Or.inr (by rw [h]; rfl))
    (by omega)
  have hinit := init_declarator_simple k name dims (st_of []) fuel (by omega) hlen hdims
  unfold declaration_head
  rw [hshape, hspec]
  simp only [show TYPE_des new_type = 0 from rfl, extract_qualifier_keywords p _ hb, hinit,
    complement_qua_keywords p _ hb hs hu]
  rfl


/-- The text that `format_declaration` prints for the declaration of
`T *...* name[n1]...[nk]`, and its tokens. -/
theorem format_declaration_simple (p : TOKEN → Bool) (k : Nat) (name : String)
    (dims : List Nat) (hne : base_keywords.filter p ≠ []) (hname : is_identifier name)
    (hdims : ∀ n ∈ dims, 0 < n ∧ n ≤ 2147483647) (fuel : Nat)
    (hf : k + dims.length + 5 ≤ fuel) :
    ∃ text,
      format_declaration fuel "" []
          (.mk .DCL_DECLARATION (.mk (kws_des 0 (base_keywords.filter p)) none none none)
            (.mk .DCL_DECLARATOR (simple_chain k name dims) false 0 false) false false 0 4) =
        .ok text [] ∧
      c_tokens text = (simple_decl_toks (base_keywords.filter p) k name dims).map spell := by
  have hb := kws_des_filter_bits p
  have hext : IS_EXTERN (.mk (kws_des 0 (base_keywords.filter p)) none none none) = false := by
    unfold IS_EXTERN TYPE_des
    rw [show T_STOR_EXTERN = 2 ^ 18 by decide, HAVE_FLAG_two_pow]
    exact hb.2.2.2.2.2.2.2.2.2 18 (Or.inl (by decide))
  obtain ⟨g, rfl⟩ : ∃ g, fuel = g + k + 1 + 1 + 1 := ⟨fuel - k - 3, by omega⟩
  obtain ⟨s1, hs1, ht1⟩ := format_dcrl_reverse_pointers []
    (.mk (kws_des 0 (base_keywords.filter p)) none none none) k
  obtain ⟨s2, hs2, ht2⟩ := format_dcrl_reverse_arrays []
    (.mk (kws_des 0 (base_keywords.filter p)) none none none) name hext hname dims.reverse
    (fun n hn => (hdims n (List.mem_reverse.1 hn)).1)
  have hrev : (simple_chain k name dims).reverse =
      List.replicate k (.POINTER 0 false) ++
        (dims.reverse.map (fun (n : Nat) => array_node (n : Int) n) ++
          [.ID name 0 false]) := by
    simp [simple_chain, List.map_reverse]
  have hspec := format_decl_spec_keywords p _ hb hne (g + k + 1) ""
    ([] : List String) (is_pointer (.mk .DCL_DECLARATION
      (.mk (kws_des 0 (base_keywords.filter p)) none none none)
      (.mk .DCL_DECLARATOR (simple_chain k name dims) false 0 false) false false 0 4))
  have hdcl : format_dcrl_reverse (g + k + 1) ("" ++ keywords_text p) []
      (.mk (kws_des 0 (base_keywords.filter p)) none none none)
      (simple_chain k name dims).reverse =
      .ok ((("" ++ keywords_text p) ++ s1) ++ s2) [] := by
    rw [hrev, show g + k + 1 = (g + 1) + k by omega, hs1, hs2 _ _ (by simp; omega)]
  refine ⟨((("" ++ keywords_text p) ++ s1) ++ s2) ++ "", ?_, ?_⟩
  · rw [format_declaration]
    simp only [Decl.dt, true_or, if_true, DECL_spec, DECL_decl_list, hspec]
    rw [format_declarator]
    simp only [DECL_bit_len, ne_eq, not_true_eq_false, if_false, DECL_child]
    have hchain : simple_chain k name dims =
        .ID name 0 false :: (dims.map (fun (n : Nat) => array_node (n : Int) n) ++
          List.replicate k (.POINTER 0 false)) := rfl
    rw [hchain] at hdcl ⊢
    simp only [hdcl]
  · unfold c_tokens
    rw [tok_run_append, tok_run_append, tok_run_append, tok_run_append, tok_run_empty,
      tok_run_empty, tok_run_keywords_text, ht1, ht2]
    simp [tok_flush, simple_decl_toks, dims_toks_spell, List.map_replicate, spell, tk, tk_id,
      Function.comp_def]

/-- C35 (amended; `declaration`, `format_declaration`): for a declaration
`T *...* name[n1]...[nk];` whose specifier `T` is a selection of the keywords
`signed unsigned char short long int float double void`, each at most once
and in this order, other than `signed` alone and `unsigned` alone, whose name
is a word, and whose dimensions, fewer than 256, are literals from 1 to
2147483647, the parser returns a declaration with enough iteration bound,
`format_declaration` prints a text for it, and the tokens of the text are the
tokens of the declaration without the `;`. -/
theorem format_declaration_round_trip (p : TOKEN → Bool) (k : Nat) (name : String)
    (dims : List Nat) (hne : base_keywords.filter p ≠ [])
    (hs : base_keywords.filter p ≠ [.T_SIGNED]) (hu : base_keywords.filter p ≠ [.T_UNSIGNED])
    (hname : is_identifier name) (hlen : dims.length ≤ 255)
    (hdims : ∀ n ∈ dims, 0 < n ∧ n ≤ 2147483647) :
    ∃ N, ∀ fuel, N ≤ fuel → ∃ decl text,
      declaration_head sample_spec_collab spec_collab fuel
          (st_of (simple_decl_toks (base_keywords.filter p) k name dims ++ [tk .T_SEMI])) =
        .ok (some decl) (st_of [tk .T_SEMI]) ∧
      format_declaration fuel "" [] decl = .ok text [] ∧
      c_tokens text = (simple_decl_toks (base_keywords.filter p) k name dims).map spell := by
  refine ⟨(base_keywords.filter p).length + k + dims.length + 5, ?_⟩
  intro fuel hf
  obtain ⟨text, h1, h2⟩ := format_declaration_simple p k name dims hne hname hdims fuel
    (by omega)
  exact ⟨_, text, declaration_head_simple p k name dims hne hs hu hlen hdims fuel hf, h1, h2⟩

theorem format_declaration_round_trip_witness :
    (∃ N, ∀ fuel, N ≤ fuel → ∃ decl text,
      declaration_head sample_spec_collab spec_collab fuel
          (st_of (simple_decl_toks
            (base_keywords.filter fun t => t = .T_UNSIGNED ∨ t = .T_LONG ∨ t = .T_INT) 2 "a"
            [10, 20] ++ [tk .T_SEMI])) =
        .ok (some decl) (st_of [tk .T_SEMI]) ∧
      format_declaration fuel "" [] decl = .ok text [] ∧
      c_tokens text = (simple_decl_toks
        (base_keywords.filter fun t => t = .T_UNSIGNED ∨ t = .T_LONG ∨ t = .T_INT) 2 "a"
        [10, 20]).map spell) ∧
    (simple_decl_toks
        (base_keywords.filter fun t => t = .T_UNSIGNED ∨ t = .T_LONG ∨ t = .T_INT) 2 "a"
        [10, 20]).map spell =
      ["unsigned", "long", "int", "*", "*", "a", "[", "10", "]", "[", "20", "]"] ∧
    printed_text 20 (simple_decl_toks
        (base_keywords.filter fun t => t = .T_UNSIGNED ∨ t = .T_LONG ∨ t = .T_INT) 2 "a"
        [10, 20] ++ [tk .T_SEMI]) = some "unsigned long int  *  *  a [10][20]" :=
  ⟨format_declaration_round_trip (fun t => t = .T_UNSIGNED ∨ t = .T_LONG ∨ t = .T_INT) 2 "a"
    [10, 20] (by decide) (by decide) (by decide) ⟨by decide, by decide⟩ (by decide)
    (by decide), by decide, rfl⟩

end Xocfe

